import Mathlib

/-!
# Cooperative FSM framework: button debouncer, buzzer melody player, USART transceiver, LED

Shallow embedding of `fsm_button.c`, `fsm_buzzer.c`, `fsm_usart.c`, `fsm_led.c` and of the
STM32F4 port functions they call (`port_button.c`, `port_buzzer.c`, `port_usart.c`,
`port_led.c`, `interr.c`).

Conventions of the embedding:
* a machine together with the hardware unit it drives forms a *world*; guards and actions are
  functions over the world, the interrupt handlers are separate functions over the world;
* C unsigned integers are `Nat` with an explicit `% 2 ^ w` where the C code can wrap;
* a null dereference or an access outside an array is an undefined C behaviour and is modelled by
  the result `none`;
* the hardware tables `buttons_arr`, `buzzers_arr`, `usart_arr` have exactly one entry in the
  sources (index 0); the world stores that entry and every other index is out of the table.
-/

namespace Sivalse

/-! ## Dispatch engine -/

/-- Modelled from the spec: the transition rule `(source_state, guard, destination_state, action)`
of the dispatch engine, declared in `fsm.h`, which is not among the sources. A guard or action that
is `none` stands for a `NULL` function pointer; the inner `Option` of a guard or action result is
the undefined-behaviour channel of the embedding. -/
structure fsm_trans_t (σ : Type) where
  source_state : Int
  guard : Option (σ → Option Bool)
  destination_state : Int
  action : Option (σ → Option σ)

/-- Modelled from the spec: the table scan of the engine step (§4.1), `fsm.c` is not among the
sources. The table is scanned in declaration order up to the sentinel rule (negative source state)
for the first rule whose source state is the current state and whose guard holds; guards of later
rules are not evaluated. The result is the index of the rule and the rule. -/
def fsm_scan {σ : Type} (cur : Int) (s : σ) :
    List (fsm_trans_t σ) → Nat → Option (Option (Nat × fsm_trans_t σ))
  | [], _ => some none
  | t :: rest, i =>
    if t.source_state < 0 then some none
    else if cur = t.source_state then
      match t.guard with
      | none => none
      | some g =>
        match g s with
        | none => none
        | some true => some (some (i, t))
        | some false => fsm_scan cur s rest (i + 1)
    else fsm_scan cur s rest (i + 1)

/-- Modelled from the spec: the engine step `fsm_fire` (§4.1), `fsm.c` is not among the sources.
If the scan finds a rule, its action (if any) is run and `current_state` is set to the rule's
destination; the result also tells which rule fired (its index in the table) or `none` for an
idle tick. -/
def fsm_fire {σ : Type} (cur : σ → Int) (setCur : Int → σ → σ) (tt : List (fsm_trans_t σ))
    (s : σ) : Option (σ × Option Nat) :=
  match fsm_scan (cur s) s tt 0 with
  | none => none
  | some none => some (s, none)
  | some (some (i, t)) =>
    match t.action with
    | none => some (setCur t.destination_state s, some i)
    | some a =>
      match a s with
      | none => none
      | some s1 => some (setCur t.destination_state s1, some i)

/-- Modelled from the spec: `fsm_init` (§4.1) sets `current_state` to the source state of the
first rule of the table. -/
def fsm_init {σ : Type} (setCur : Int → σ → σ) (tt : List (fsm_trans_t σ)) (s : σ) : σ :=
  match tt with
  | [] => s
  | t :: _ => setCur t.source_state s

/-- Modelled from the spec: the engine part `fsm_t` of a machine; the table is bound by the
machine's own step function. -/
structure fsm_t where
  current_state : Int
deriving DecidableEq, Repr

/-- Two to the 32: the modulus of `uint32_t`. -/
def U32 : Nat := 4294967296

/-! ## Button machine (`fsm_button.h`, `fsm_button.c`, `port_button.c`) -/

def BUTTON_RELEASED : Int := 0
def BUTTON_RELEASED_WAIT : Int := 1
def BUTTON_PRESSED : Int := 2
def BUTTON_PRESSED_WAIT : Int := 3

def BUTTON_0_ID : Nat := 0

/-- The struct `fsm_button_t`. -/
structure fsm_button_t where
  f : fsm_t
  debounce_time : Nat
  next_timeout : Nat
  tick_pressed : Nat
  duration : Nat
  button_id : Nat
deriving DecidableEq, Repr

/-- The struct `port_button_hw_t`; the GPIO port and pin are not modelled. -/
structure port_button_hw_t where
  flag_pressed : Bool
deriving DecidableEq, Repr

/-- A button machine with its hardware: the entry `buttons_arr[BUTTON_0_ID]` and the millisecond
counter returned by `port_system_get_millis` (`port_system.c` is not among the sources). -/
structure button_world where
  fsm : fsm_button_t
  button0 : port_button_hw_t
  millis : Nat
deriving DecidableEq, Repr

/-- Access `buttons_arr[button_id]`: the table has the single entry `BUTTON_0_ID`. -/
def buttons_arr (w : button_world) (button_id : Nat) : Option port_button_hw_t :=
  if button_id = BUTTON_0_ID then some w.button0 else none

def port_button_is_pressed (w : button_world) (button_id : Nat) : Option Bool :=
  (buttons_arr w button_id).map (fun hw => hw.flag_pressed)

/-- The tick is a `uint32_t`. -/
def port_button_get_tick (w : button_world) : Nat :=
  w.millis % U32

def check_button_pressed (w : button_world) : Option Bool :=
  port_button_is_pressed w w.fsm.button_id

def check_button_released (w : button_world) : Option Bool :=
  (port_button_is_pressed w w.fsm.button_id).map (fun check_pressed => !check_pressed)

def check_timeout (w : button_world) : Option Bool :=
  let now := port_button_get_tick w
  some (decide (now > w.fsm.next_timeout))

def do_store_tick_pressed (w : button_world) : Option button_world :=
  let now := port_button_get_tick w
  some { w with fsm := { w.fsm with
    tick_pressed := now
    next_timeout := (now + w.fsm.debounce_time) % U32 } }

/-- The subtraction `now - tick_pressed` is a `uint32_t` subtraction. -/
def do_set_duration (w : button_world) : Option button_world :=
  let now := port_button_get_tick w
  some { w with fsm := { w.fsm with
    duration := (now + (U32 - w.fsm.tick_pressed % U32)) % U32
    next_timeout := (now + w.fsm.debounce_time) % U32 } }

def fsm_trans_button : List (fsm_trans_t button_world) :=
  [ ⟨BUTTON_RELEASED, some check_button_pressed, BUTTON_PRESSED_WAIT, some do_store_tick_pressed⟩,
    ⟨BUTTON_PRESSED_WAIT, some check_timeout, BUTTON_PRESSED, none⟩,
    ⟨BUTTON_PRESSED, some check_button_released, BUTTON_RELEASED_WAIT, some do_set_duration⟩,
    ⟨BUTTON_RELEASED_WAIT, some check_timeout, BUTTON_RELEASED, none⟩,
    ⟨-1, none, -1, none⟩ ]

def button_set_state (st : Int) (w : button_world) : button_world :=
  { w with fsm := { w.fsm with f := { current_state := st } } }

/-- One engine step of a button machine (`fsm_fire` on a machine bound to `fsm_trans_button`). -/
def fsm_button_fire (w : button_world) : Option (button_world × Option Nat) :=
  fsm_fire (fun w => w.fsm.f.current_state) button_set_state fsm_trans_button w

def fsm_button_get_duration (m : fsm_button_t) : Nat :=
  m.duration

def fsm_button_reset_duration (m : fsm_button_t) : fsm_button_t :=
  { m with duration := 0 }

def fsm_button_check_activity (m : fsm_button_t) : Bool :=
  !(m.f.current_state == BUTTON_RELEASED)

/-- The function `fsm_button_init`; `next_timeout` is not written. `port_button_init` configures
the GPIO and the EXTI line through `port_system` functions and touches no modelled state, but it
reads `buttons_arr[button_id]`. -/
def fsm_button_init (w : button_world) (debounce_time button_id : Nat) : Option button_world :=
  let w1 := fsm_init button_set_state fsm_trans_button w
  let w2 := { w1 with fsm := { w1.fsm with
    debounce_time := debounce_time % U32
    tick_pressed := 0
    duration := 0
    button_id := button_id % U32 } }
  (buttons_arr w2 (button_id % U32)).map (fun _ => w2)

/-- The function `fsm_button_new`: the freshly allocated struct `m` has arbitrary contents. -/
def fsm_button_new (m : fsm_button_t) (button0 : port_button_hw_t) (millis : Nat)
    (debounce_time button_id : Nat) : Option button_world :=
  fsm_button_init ⟨fsm_button_reset_duration m, button0, millis⟩ debounce_time button_id

/-- Hardware activity between two polls of the machine: the edge interrupt
`EXTI15_10_IRQHandler` has left `flag_pressed = pressed` and `SysTick_Handler` has brought the
millisecond counter to `tick`. -/
def button_set_inputs (pressed : Bool) (tick : Nat) (w : button_world) : button_world :=
  { w with button0 := { flag_pressed := pressed }, millis := tick }

/-- A poll: the hardware inputs are sampled by one engine step. -/
def button_poll (inp : Bool × Nat) (w : button_world) : Option (button_world × Option Nat) :=
  fsm_button_fire (button_set_inputs inp.1 inp.2 w)

/-- A run of polls, one per input; the result lists which rule fired at each poll. -/
def button_run : List (Bool × Nat) → button_world → Option (button_world × List (Option Nat))
  | [], w => some (w, [])
  | inp :: rest, w =>
    match button_poll inp w with
    | none => none
    | some (w1, r) =>
      match button_run rest w1 with
      | none => none
      | some (w2, rs) => some (w2, r :: rs)

/-! ## Buzzer machine (`fsm_buzzer.h`, `fsm_buzzer.c`, `port_buzzer.c`, `interr.c`) -/

def WAIT_START : Int := 0
def PLAY_NOTE : Int := 1
def PAUSE_NOTE : Int := 2
def WAIT_NOTE : Int := 3
def WAIT_MELODY : Int := 4

def STOP : Nat := 0
def PLAY : Nat := 1
def PAUSE : Nat := 2

def BUZZER_0_ID : Nat := 0

/-- The arithmetic of the C type `double` used by the buzzer, taken as a parameter: the constant
`1.0`, the conversion `(double) n` of an unsigned integer, the division, the composite
`(uint32_t) round(x)` of `math.h`, and the test `x == 0.0`. -/
structure double_ops (F : Type) where
  one : F
  of_uint : Nat → F
  div : F → F → F
  round_to_uint32 : F → Nat
  is_zero : F → Bool

/-- Modelled from the spec: the type `melody_t` of `melodies.h`, which is not among the sources:
an ordered sequence of (frequency, duration) notes, read by the code through the arrays `p_notes`
and `p_durations` and the field `melody_length`. -/
structure melody_t (F : Type) where
  p_notes : List F
  p_durations : List Nat
  melody_length : Nat
deriving DecidableEq, Repr

/-- The struct `fsm_buzzer_t`; the melody pointer is `none` for `NULL`. -/
structure fsm_buzzer_t (F : Type) where
  f : fsm_t
  p_melody : Option (melody_t F)
  note_index : Nat
  buzzer_id : Nat
  user_action : Nat
  player_speed : F
deriving DecidableEq, Repr

/-- The struct `port_buzzer_hw_t`; the GPIO port, pin and alternate function are not modelled. -/
structure port_buzzer_hw_t where
  note_end : Bool
deriving DecidableEq, Repr

/-- A call of the buzzer port, with its arguments. -/
inductive buzzer_call (F : Type) where
  | init (buzzer_id : Nat)
  | set_note_duration (buzzer_id duration_ms : Nat)
  | set_note_frequency (buzzer_id : Nat) (frequency_hz : F)
  | stop (buzzer_id : Nat)
deriving DecidableEq, Repr

/-- A buzzer machine with its hardware: the entry `buzzers_arr[BUZZER_0_ID]`, the counter-enable
bits of the duration timer TIM2 and of the PWM timer TIM3, and the history of the port calls (the
reload and prescaler values that the port computes in floating point from `SystemCoreClock` are
represented by the arguments of the recorded calls). -/
structure buzzer_world (F : Type) where
  fsm : fsm_buzzer_t F
  buzzer0 : port_buzzer_hw_t
  tim2_cen : Bool
  tim3_cen : Bool
  calls : List (buzzer_call F)
deriving DecidableEq, Repr

/-- The function `port_buzzer_set_note_duration`: it writes `buzzers_arr[buzzer_id].note_end`
without testing the identifier. -/
def port_buzzer_set_note_duration {F : Type} (w : buzzer_world F) (buzzer_id duration_ms : Nat) :
    Option (buzzer_world F) :=
  if buzzer_id = BUZZER_0_ID then
    some { w with
      buzzer0 := { note_end := false }
      tim2_cen := true
      calls := w.calls ++ [buzzer_call.set_note_duration buzzer_id duration_ms] }
  else none

def port_buzzer_set_note_frequency {F : Type} (fp : double_ops F) (w : buzzer_world F)
    (buzzer_id : Nat) (frequency_hz : F) : buzzer_world F :=
  { w with
    tim3_cen := !(fp.is_zero frequency_hz)
    calls := w.calls ++ [buzzer_call.set_note_frequency buzzer_id frequency_hz] }

def port_buzzer_get_note_timeout {F : Type} (w : buzzer_world F) (buzzer_id : Nat) : Bool :=
  if buzzer_id = BUZZER_0_ID then w.buzzer0.note_end else false

def port_buzzer_stop {F : Type} (w : buzzer_world F) (buzzer_id : Nat) : buzzer_world F :=
  if buzzer_id = BUZZER_0_ID then
    { w with tim2_cen := false, tim3_cen := false,
             calls := w.calls ++ [buzzer_call.stop buzzer_id] }
  else { w with calls := w.calls ++ [buzzer_call.stop buzzer_id] }

/-- The function `port_buzzer_init`: it reads `buzzers_arr[buzzer_id]`, configures the GPIO
(not modelled) and sets up both timers with their counters disabled; the duration timer is only
set up for `BUZZER_0_ID`. -/
def port_buzzer_init {F : Type} (w : buzzer_world F) (buzzer_id : Nat) :
    Option (buzzer_world F) :=
  if buzzer_id = BUZZER_0_ID then
    some { w with tim2_cen := false, tim3_cen := false,
                  calls := w.calls ++ [buzzer_call.init buzzer_id] }
  else none

/-- The handler `TIM2_IRQHandler`: the duration timer has expired. -/
def TIM2_IRQHandler {F : Type} (w : buzzer_world F) : buzzer_world F :=
  { w with buzzer0 := { note_end := true } }

/-- The duration handed to the port by `_start_note`:
`(uint32_t) round(((double) duration) / player_speed)`. -/
def note_duration {F : Type} (fp : double_ops F) (duration : Nat) (player_speed : F) : Nat :=
  fp.round_to_uint32 (fp.div (fp.of_uint duration) player_speed)

def _start_note {F : Type} (fp : double_ops F) (w : buzzer_world F) (freq : F) (duration : Nat) :
    Option (buzzer_world F) :=
  match port_buzzer_set_note_duration w w.fsm.buzzer_id
      (note_duration fp duration w.fsm.player_speed) with
  | none => none
  | some w1 => some (port_buzzer_set_note_frequency fp w1 w.fsm.buzzer_id freq)

def check_melody_start {F : Type} (w : buzzer_world F) : Option Bool :=
  some (w.fsm.p_melody.isSome && decide (w.fsm.user_action = PLAY))

def check_player_start {F : Type} (w : buzzer_world F) : Option Bool :=
  check_melody_start w

def check_end_melody {F : Type} (w : buzzer_world F) : Option Bool :=
  match w.fsm.p_melody with
  | none => none
  | some m => some (decide (w.fsm.note_index ≥ m.melody_length))

def check_pause {F : Type} (w : buzzer_world F) : Option Bool :=
  some (decide (w.fsm.user_action = PAUSE))

def check_resume {F : Type} (w : buzzer_world F) : Option Bool :=
  some (decide (w.fsm.user_action = PLAY))

def check_player_stop {F : Type} (w : buzzer_world F) : Option Bool :=
  some (decide (w.fsm.user_action = STOP))

def check_play_note {F : Type} (w : buzzer_world F) : Option Bool :=
  match w.fsm.p_melody with
  | none => none
  | some m => some (decide (w.fsm.note_index ≤ m.melody_length) && decide (w.fsm.user_action = PLAY))

def check_note_end {F : Type} (w : buzzer_world F) : Option Bool :=
  some (port_buzzer_get_note_timeout w w.fsm.buzzer_id)

/-- Read note `i` of a melody, as `do_melody_start` and `do_play_note` do: the frequency
`p_notes[i]` and the duration `p_durations[i]` stored in a `uint16_t`. -/
def read_note {F : Type} (m : melody_t F) (i : Nat) : Option (F × Nat) :=
  match m.p_notes[i]?, m.p_durations[i]? with
  | some freq, some duration => some (freq, duration % 65536)
  | _, _ => none

def do_melody_start {F : Type} (fp : double_ops F) (w : buzzer_world F) :
    Option (buzzer_world F) :=
  match w.fsm.p_melody with
  | none => none
  | some m =>
    match read_note m 0 with
    | none => none
    | some (freq, duration) =>
      match _start_note fp w freq duration with
      | none => none
      | some w1 => some { w1 with fsm := { w1.fsm with note_index := (w1.fsm.note_index + 1) % U32 } }

def do_player_start {F : Type} (fp : double_ops F) (w : buzzer_world F) :
    Option (buzzer_world F) :=
  do_melody_start fp w

def do_end_melody {F : Type} (w : buzzer_world F) : Option (buzzer_world F) :=
  let w1 := port_buzzer_stop w w.fsm.buzzer_id
  some { w1 with fsm := { w1.fsm with note_index := 0, user_action := STOP } }

def do_pause {F : Type} (w : buzzer_world F) : Option (buzzer_world F) :=
  some (port_buzzer_stop w w.fsm.buzzer_id)

def do_player_stop {F : Type} (w : buzzer_world F) : Option (buzzer_world F) :=
  let w1 := port_buzzer_stop w w.fsm.buzzer_id
  some { w1 with fsm := { w1.fsm with note_index := 0 } }

def do_play_note {F : Type} (fp : double_ops F) (w : buzzer_world F) :
    Option (buzzer_world F) :=
  match w.fsm.p_melody with
  | none => none
  | some m =>
    match read_note m w.fsm.note_index with
    | none => none
    | some (freq, duration) =>
      match _start_note fp w freq duration with
      | none => none
      | some w1 => some { w1 with fsm := { w1.fsm with note_index := (w1.fsm.note_index + 1) % U32 } }

def do_note_end {F : Type} (w : buzzer_world F) : Option (buzzer_world F) :=
  some (port_buzzer_stop w w.fsm.buzzer_id)

def fsm_trans_buzzer {F : Type} (fp : double_ops F) : List (fsm_trans_t (buzzer_world F)) :=
  [ ⟨WAIT_START, some check_player_start, WAIT_NOTE, some (do_player_start fp)⟩,
    ⟨WAIT_NOTE, some check_note_end, PLAY_NOTE, some do_note_end⟩,
    ⟨PLAY_NOTE, some check_pause, PAUSE_NOTE, some do_pause⟩,
    ⟨PLAY_NOTE, some check_player_stop, WAIT_START, some do_player_stop⟩,
    ⟨PLAY_NOTE, some check_end_melody, WAIT_MELODY, some do_end_melody⟩,
    ⟨PLAY_NOTE, some check_play_note, WAIT_NOTE, some (do_play_note fp)⟩,
    ⟨WAIT_MELODY, some check_melody_start, WAIT_NOTE, some (do_melody_start fp)⟩,
    ⟨PAUSE_NOTE, some check_resume, PLAY_NOTE, none⟩,
    ⟨-1, none, -1, none⟩ ]

def buzzer_set_state {F : Type} (st : Int) (w : buzzer_world F) : buzzer_world F :=
  { w with fsm := { w.fsm with f := { current_state := st } } }

/-- One engine step of a buzzer machine (`fsm_fire` on a machine bound to `fsm_trans_buzzer`). -/
def fsm_buzzer_fire {F : Type} (fp : double_ops F) (w : buzzer_world F) :
    Option (buzzer_world F × Option Nat) :=
  fsm_fire (fun w => w.fsm.f.current_state) buzzer_set_state (fsm_trans_buzzer fp) w

def fsm_buzzer_check_activity {F : Type} (w : buzzer_world F) : Bool :=
  decide (w.fsm.user_action = PLAY)

def fsm_buzzer_set_melody {F : Type} (w : buzzer_world F) (p_melody : Option (melody_t F)) :
    buzzer_world F :=
  { w with fsm := { w.fsm with p_melody := p_melody } }

def fsm_buzzer_set_speed {F : Type} (w : buzzer_world F) (speed : F) : buzzer_world F :=
  { w with fsm := { w.fsm with player_speed := speed } }

/-- The function `fsm_buzzer_set_action`; the parameter is a `uint8_t`. -/
def fsm_buzzer_set_action {F : Type} (w : buzzer_world F) (action : Nat) : buzzer_world F :=
  let w1 := { w with fsm := { w.fsm with user_action := action % 256 } }
  if action % 256 = STOP then { w1 with fsm := { w1.fsm with note_index := 0 } } else w1

def fsm_buzzer_get_action {F : Type} (w : buzzer_world F) : Nat :=
  w.fsm.user_action

/-- The function `fsm_buzzer_init`: every field of the struct is written (the field `buzzer_id`
is a `uint8_t`), then the port is initialised with the full identifier. -/
def fsm_buzzer_init {F : Type} (fp : double_ops F) (w : buzzer_world F) (buzzer_id : Nat) :
    Option (buzzer_world F) :=
  let w1 := fsm_init buzzer_set_state (fsm_trans_buzzer fp) w
  let w2 := { w1 with fsm := { w1.fsm with
    buzzer_id := buzzer_id % 256
    p_melody := none
    note_index := 0
    user_action := STOP
    player_speed := fp.one } }
  port_buzzer_init w2 (buzzer_id % U32)

/-! ## USART machine (`fsm_usart.h`, `fsm_usart.c`, `port_usart.h`, `port_usart.c`) -/

def WAIT_DATA : Int := 0
def SEND_DATA : Int := 1

def USART_0_ID : Nat := 0
def USART_INPUT_BUFFER_LENGTH : Nat := 10
def USART_OUTPUT_BUFFER_LENGTH : Nat := 100
def EMPTY_BUFFER_CONSTANT : Nat := 0
def END_CHAR_CONSTANT : Nat := 10

/-- The library function `memset` on a byte array: the first `n` bytes become `c`. -/
def memset (dst : List Nat) (c n : Nat) : List Nat :=
  List.replicate n c ++ dst.drop n

/-- The library function `memcpy` between byte arrays: the first `n` bytes of `dst` become the
first `n` bytes of `src`. -/
def memcpy (dst src : List Nat) (n : Nat) : List Nat :=
  src.take n ++ dst.drop n

/-- The struct `fsm_usart_t`: `in_data` is a `char[10]`, `out_data` a `char[100]`; bytes are
natural numbers below 256. -/
structure fsm_usart_t where
  f : fsm_t
  data_received : Bool
  in_data : List Nat
  out_data : List Nat
  usart_id : Nat
deriving DecidableEq, Repr

/-- The struct `port_usart_hw_t` without the peripheral, port and pin fields: `input_buffer` is
a `char[10]`, `output_buffer` a `char[100]`, the two indices are `uint8_t`. -/
structure port_usart_hw_t where
  input_buffer : List Nat
  i_idx : Nat
  read_complete : Bool
  output_buffer : List Nat
  o_idx : Nat
  write_complete : Bool
deriving DecidableEq, Repr

/-- A USART machine with its hardware: the entry `usart_arr[USART_0_ID]` and the registers of
the peripheral USART3: `dr_rx` is the received byte read from `DR`, `tx_line` lists the bytes
written to `DR`, `txe_wait` is the number of reads of `SR` that still find the transmit register
busy (TXE clear), and the two interrupt-enable bits of `CR1`. -/
structure usart_world where
  fsm : fsm_usart_t
  usart0 : port_usart_hw_t
  dr_rx : Nat
  tx_line : List Nat
  txe_wait : Nat
  cr1_txeie : Bool
  cr1_rxneie : Bool
deriving DecidableEq, Repr

/-- Access `usart_arr[usart_id]`: the table has the single entry `USART_0_ID`. -/
def usart_arr (w : usart_world) (usart_id : Nat) : Option port_usart_hw_t :=
  if usart_id = USART_0_ID then some w.usart0 else none

def _reset_buffer (buffer : List Nat) (length : Nat) : List Nat :=
  memset buffer EMPTY_BUFFER_CONSTANT length

def port_usart_tx_done (w : usart_world) (usart_id : Nat) : Option Bool :=
  (usart_arr w usart_id).map (fun u => u.write_complete)

def port_usart_rx_done (w : usart_world) (usart_id : Nat) : Option Bool :=
  (usart_arr w usart_id).map (fun u => u.read_complete)

/-- The function `port_usart_get_from_input_buffer`: the new contents of the caller's buffer. -/
def port_usart_get_from_input_buffer (w : usart_world) (usart_id : Nat) (p_buffer : List Nat) :
    Option (List Nat) :=
  (usart_arr w usart_id).map (fun u => memcpy p_buffer u.input_buffer USART_INPUT_BUFFER_LENGTH)

/-- The function `port_usart_get_txr_status`: one read of the status register; the hardware
gets one read closer to an empty transmit register. -/
def port_usart_get_txr_status (w : usart_world) (usart_id : Nat) : Option (Bool × usart_world) :=
  (usart_arr w usart_id).map (fun _ => (decide (w.txe_wait = 0), { w with txe_wait := w.txe_wait - 1 }))

def port_usart_copy_to_output_buffer (w : usart_world) (usart_id : Nat) (p_data : List Nat)
    (length : Nat) : Option usart_world :=
  (usart_arr w usart_id).map (fun u =>
    { w with usart0 := { u with
        output_buffer := memcpy (_reset_buffer u.output_buffer length) p_data length } })

def port_usart_reset_input_buffer (w : usart_world) (usart_id : Nat) : Option usart_world :=
  (usart_arr w usart_id).map (fun u =>
    { w with usart0 := { u with
        input_buffer := _reset_buffer u.input_buffer USART_INPUT_BUFFER_LENGTH
        read_complete := false } })

def port_usart_reset_output_buffer (w : usart_world) (usart_id : Nat) : Option usart_world :=
  (usart_arr w usart_id).map (fun u =>
    { w with usart0 := { u with
        output_buffer := _reset_buffer u.output_buffer USART_OUTPUT_BUFFER_LENGTH
        write_complete := false } })

/-- Write one byte of an array; an index outside the array is an undefined behaviour. -/
def array_write (buffer : List Nat) (i c : Nat) : Option (List Nat) :=
  if i < buffer.length then some (buffer.set i c) else none

/-- The function `port_usart_store_data`, called by the interrupt handler when a byte has been
received: the byte is read from `USART3->DR` into a `char`. -/
def port_usart_store_data (w : usart_world) (usart_id : Nat) : Option usart_world :=
  let char_read := w.dr_rx % 256
  match usart_arr w usart_id with
  | none => none
  | some u =>
    if char_read ≠ END_CHAR_CONSTANT then
      if u.i_idx ≥ USART_INPUT_BUFFER_LENGTH then
        match array_write u.input_buffer 0 char_read with
        | none => none
        | some buf => some { w with usart0 := { u with input_buffer := buf, i_idx := (0 + 1) % 256 } }
      else
        match array_write u.input_buffer u.i_idx char_read with
        | none => none
        | some buf =>
          some { w with usart0 := { u with input_buffer := buf, i_idx := (u.i_idx + 1) % 256 } }
    else
      some { w with usart0 := { u with read_complete := true, i_idx := 0 } }

def port_usart_disable_rx_interrupt (w : usart_world) (_usart_id : Nat) : usart_world :=
  { w with cr1_rxneie := false }

def port_usart_disable_tx_interrupt (w : usart_world) (_usart_id : Nat) : usart_world :=
  { w with cr1_txeie := false }

def port_usart_enable_rx_interrupt (w : usart_world) (_usart_id : Nat) : usart_world :=
  { w with cr1_rxneie := true }

def port_usart_enable_tx_interrupt (w : usart_world) (_usart_id : Nat) : usart_world :=
  { w with cr1_txeie := true }

/-- The function `port_usart_write_data`, called by `do_set_data_tx` and by the interrupt
handler when the transmit register is empty. -/
def port_usart_write_data (w : usart_world) (usart_id : Nat) : Option usart_world :=
  match usart_arr w usart_id with
  | none => none
  | some u =>
    let o_idx := u.o_idx
    match u.output_buffer[o_idx]? with
    | none => none
    | some char_write =>
      if o_idx = USART_OUTPUT_BUFFER_LENGTH - 1 ∨ char_write = END_CHAR_CONSTANT then
        let w1 := port_usart_disable_tx_interrupt { w with tx_line := w.tx_line ++ [char_write] }
          usart_id
        some { w1 with usart0 := { u with o_idx := 0, write_complete := true } }
      else if char_write ≠ EMPTY_BUFFER_CONSTANT then
        some { w with tx_line := w.tx_line ++ [char_write]
                      usart0 := { u with o_idx := (u.o_idx + 1) % 256 } }
      else some w

def check_data_rx (w : usart_world) : Option Bool :=
  port_usart_rx_done w w.fsm.usart_id

def check_data_tx (w : usart_world) : Option Bool :=
  (w.fsm.out_data[0]?).map (fun c => decide (c ≠ EMPTY_BUFFER_CONSTANT))

def check_tx_end (w : usart_world) : Option Bool :=
  port_usart_tx_done w w.fsm.usart_id

def do_get_data_rx (w : usart_world) : Option usart_world :=
  match port_usart_get_from_input_buffer w w.fsm.usart_id w.fsm.in_data with
  | none => none
  | some in_data =>
    match port_usart_reset_input_buffer { w with fsm := { w.fsm with in_data := in_data } }
        w.fsm.usart_id with
    | none => none
    | some w1 => some { w1 with fsm := { w1.fsm with data_received := true } }

/-- The loop `while(!port_usart_get_txr_status(usart_id)){}` of `do_set_data_tx`, with a bound
on the number of iterations. -/
def wait_txr_status : Nat → usart_world → Option usart_world
  | 0, w =>
    match port_usart_get_txr_status w w.fsm.usart_id with
    | none => none
    | some (true, w1) => some w1
    | some (false, _) => none
  | fuel + 1, w =>
    match port_usart_get_txr_status w w.fsm.usart_id with
    | none => none
    | some (true, w1) => some w1
    | some (false, w1) => wait_txr_status fuel w1

/-- The action `do_set_data_tx`; the wait loop is run with as many iterations as the hardware
needs (`txe_wait`). -/
def do_set_data_tx (w : usart_world) : Option usart_world :=
  match port_usart_reset_output_buffer w w.fsm.usart_id with
  | none => none
  | some w1 =>
    match port_usart_copy_to_output_buffer w1 w1.fsm.usart_id w1.fsm.out_data
        USART_OUTPUT_BUFFER_LENGTH with
    | none => none
    | some w2 =>
      match wait_txr_status w2.txe_wait w2 with
      | none => none
      | some w3 =>
        match port_usart_write_data w3 w3.fsm.usart_id with
        | none => none
        | some w4 => some (port_usart_enable_tx_interrupt w4 w4.fsm.usart_id)

def do_tx_end (w : usart_world) : Option usart_world :=
  match port_usart_reset_output_buffer w w.fsm.usart_id with
  | none => none
  | some w1 =>
    some { w1 with fsm := { w1.fsm with
      out_data := memset w1.fsm.out_data EMPTY_BUFFER_CONSTANT USART_OUTPUT_BUFFER_LENGTH } }

def fsm_trans_usart : List (fsm_trans_t usart_world) :=
  [ ⟨WAIT_DATA, some check_data_tx, SEND_DATA, some do_set_data_tx⟩,
    ⟨WAIT_DATA, some check_data_rx, WAIT_DATA, some do_get_data_rx⟩,
    ⟨SEND_DATA, some check_tx_end, WAIT_DATA, some do_tx_end⟩,
    ⟨-1, none, -1, none⟩ ]

def usart_set_state (st : Int) (w : usart_world) : usart_world :=
  { w with fsm := { w.fsm with f := { current_state := st } } }

/-- One engine step of a USART machine (`fsm_fire` on a machine bound to `fsm_trans_usart`). -/
def fsm_usart_fire (w : usart_world) : Option (usart_world × Option Nat) :=
  fsm_fire (fun w => w.fsm.f.current_state) usart_set_state fsm_trans_usart w

def fsm_usart_check_activity (w : usart_world) : Bool :=
  decide (w.fsm.f.current_state = SEND_DATA) || decide (w.fsm.data_received = true)

def fsm_usart_check_data_received (w : usart_world) : Bool :=
  w.fsm.data_received

def fsm_usart_reset_input_data (w : usart_world) : usart_world :=
  { w with fsm := { w.fsm with
      in_data := memset w.fsm.in_data EMPTY_BUFFER_CONSTANT USART_INPUT_BUFFER_LENGTH
      data_received := false } }

/-- The function `fsm_usart_get_in_data`: the bytes copied into the caller's buffer. -/
def fsm_usart_get_in_data (w : usart_world) : List Nat :=
  w.fsm.in_data.take USART_INPUT_BUFFER_LENGTH

/-- The function `fsm_usart_set_out_data`: it reads 100 bytes at `p_data`; a shorter caller
buffer is read past its end. -/
def fsm_usart_set_out_data (w : usart_world) (p_data : List Nat) : Option usart_world :=
  if USART_OUTPUT_BUFFER_LENGTH ≤ p_data.length then
    some { w with fsm := { w.fsm with
      out_data := memcpy (memset w.fsm.out_data EMPTY_BUFFER_CONSTANT USART_OUTPUT_BUFFER_LENGTH)
        p_data USART_OUTPUT_BUFFER_LENGTH } }
  else none

/-- The function `fsm_usart_init`; of `port_usart_init` the model keeps the reads of
`usart_arr[usart_id]`, the disabling of both interrupts and the reset of both buffers. -/
def fsm_usart_init (w : usart_world) (usart_id : Nat) : Option usart_world :=
  let w1 := fsm_init usart_set_state fsm_trans_usart w
  let w2 := { w1 with fsm := { w1.fsm with
    usart_id := usart_id % 256
    data_received := false
    in_data := memset w1.fsm.in_data EMPTY_BUFFER_CONSTANT USART_INPUT_BUFFER_LENGTH
    out_data := memset w1.fsm.out_data EMPTY_BUFFER_CONSTANT USART_OUTPUT_BUFFER_LENGTH } }
  (usart_arr w2 (usart_id % U32)).map (fun u =>
    { w2 with
      cr1_txeie := false
      cr1_rxneie := false
      usart0 := { u with
        input_buffer := _reset_buffer u.input_buffer USART_INPUT_BUFFER_LENGTH
        output_buffer := _reset_buffer u.output_buffer USART_OUTPUT_BUFFER_LENGTH } })

def fsm_usart_disable_rx_interrupt (w : usart_world) : usart_world :=
  port_usart_disable_rx_interrupt w w.fsm.usart_id

def fsm_usart_disable_tx_interrupt (w : usart_world) : usart_world :=
  port_usart_disable_tx_interrupt w w.fsm.usart_id

def fsm_usart_enable_rx_interrupt (w : usart_world) : usart_world :=
  port_usart_enable_rx_interrupt w w.fsm.usart_id

def fsm_usart_enable_tx_interrupt (w : usart_world) : usart_world :=
  port_usart_enable_tx_interrupt w w.fsm.usart_id

/-- The receive interrupt for one byte `c` arriving on the line: the call
`port_usart_store_data(USART_0_ID)` that the handler `USART3_IRQHandler` makes when RXNE and
RXNEIE are both set, with `c` in the data register. -/
def usart_receive (c : Nat) (w : usart_world) : Option usart_world :=
  port_usart_store_data { w with dr_rx := c } USART_0_ID

/-- The receive interrupts for a sequence of bytes. -/
def usart_receive_all : List Nat → usart_world → Option usart_world
  | [], w => some w
  | c :: rest, w =>
    match usart_receive c w with
    | none => none
    | some w1 => usart_receive_all rest w1

/-- The handler `USART3_IRQHandler`, entered with the flags `rxne` and `txe` of the status
register `USART3->SR`: it calls `port_usart_store_data(USART_0_ID)` when RXNE and RXNEIE are both
set, then `port_usart_write_data(USART_0_ID)` when TXE and TXEIE are both set. In each test the
source takes the bitwise `&` of the two masked registers; the flag and its interrupt enable sit
at the same bit position (5 for RXNE and RXNEIE, 7 for TXE and TXEIE), so the test is non-zero
exactly when both bits are set. The call `port_system_systick_resume` acts on the system timer
only. -/
def USART3_IRQHandler (rxne txe : Bool) (w : usart_world) : Option usart_world :=
  match (if rxne = true ∧ w.cr1_rxneie = true then port_usart_store_data w USART_0_ID
         else some w) with
  | none => none
  | some w1 =>
    if txe = true ∧ w1.cr1_txeie = true then port_usart_write_data w1 USART_0_ID else some w1

/-- The handler `USART3_IRQHandler` entered once for each element of the list, each time with
RXNE clear (no byte has been received) and with the flag TXE given by the element. -/
def usart_irq_run : List Bool → usart_world → Option usart_world
  | [], w => some w
  | txe :: rest, w =>
    match USART3_IRQHandler false txe w with
    | none => none
    | some w1 => usart_irq_run rest w1

/-- The function `port_usart_write_data(USART_0_ID)` called `n` times in a row. This is the call
that `USART3_IRQHandler` makes when TXE and TXEIE are both set; the test of the handler is not
part of this function. -/
def usart_tx_irqs : Nat → usart_world → Option usart_world
  | 0, w => some w
  | n + 1, w =>
    match port_usart_write_data w USART_0_ID with
    | none => none
    | some w1 => usart_tx_irqs n w1

/-- The arrays of a USART world have their declared sizes. -/
def usart_wf (w : usart_world) : Prop :=
  w.fsm.in_data.length = USART_INPUT_BUFFER_LENGTH ∧
  w.fsm.out_data.length = USART_OUTPUT_BUFFER_LENGTH ∧
  w.usart0.input_buffer.length = USART_INPUT_BUFFER_LENGTH ∧
  w.usart0.output_buffer.length = USART_OUTPUT_BUFFER_LENGTH

instance usart_wf_decidable (w : usart_world) : Decidable (usart_wf w) := by
  unfold usart_wf
  infer_instance

/-! ## LED machine (`fsm_led.h`, `fsm_led.c`, `port_led.c`) -/

def IDLE : Int := 0

/-- The struct `fsm_led_t`. The pointer `p_button` is represented by the button machine it points
to (`none` for `NULL`): the LED machine reads and writes that machine through the pointer. -/
structure fsm_led_t where
  fsm : fsm_t
  p_button : Option fsm_button_t
  min_duration : Nat
deriving DecidableEq, Repr

/-- A LED machine with its hardware: the level of the pin LD2 (PA5). The pin is configured as an
output by `port_led_gpio_setup`, so the bit of `IDR` read by `port_led_toggle` is the level that
was last written through `ODR`. -/
structure led_world where
  fsm : fsm_led_t
  ld2 : Bool
deriving DecidableEq, Repr

/-- The function `port_led_toggle`: a high level is driven low, a low level is driven high. -/
def port_led_toggle (w : led_world) : led_world :=
  if w.ld2 = true then { w with ld2 := false } else { w with ld2 := true }

def check_button_duration (w : led_world) : Option Bool :=
  w.fsm.p_button.map (fun b => decide (fsm_button_get_duration b ≥ w.fsm.min_duration))

def do_toggle (w : led_world) : Option led_world :=
  match w.fsm.p_button with
  | none => none
  | some b =>
    some (port_led_toggle
      { w with fsm := { w.fsm with p_button := some (fsm_button_reset_duration b) } })

def fsm_trans_led : List (fsm_trans_t led_world) :=
  [ ⟨IDLE, some check_button_duration, IDLE, some do_toggle⟩,
    ⟨-1, none, -1, none⟩ ]

def led_set_state (st : Int) (w : led_world) : led_world :=
  { w with fsm := { w.fsm with fsm := { current_state := st } } }

/-- One engine step of a LED machine (`fsm_fire` on a machine bound to `fsm_trans_led`). -/
def fsm_led_fire (w : led_world) : Option (led_world × Option Nat) :=
  fsm_fire (fun w => w.fsm.fsm.current_state) led_set_state fsm_trans_led w

/-- The function `fsm_led_init`; `port_led_gpio_setup` configures the mode of the pin and does
not write its level. -/
def fsm_led_init (w : led_world) (p_button : Option fsm_button_t) (min_duration : Nat) :
    led_world :=
  let w1 := fsm_init led_set_state fsm_trans_led w
  { w1 with fsm := { w1.fsm with p_button := p_button, min_duration := min_duration % U32 } }

/-! ## Runs and auxiliary notions used in the statements -/

/-- A melody whose arrays hold at least `melody_length` notes and whose length fits the
`uint32_t` note index. -/
def melody_wf {F : Type} (m : melody_t F) : Prop :=
  m.melody_length ≤ m.p_notes.length ∧ m.melody_length ≤ m.p_durations.length ∧
    m.melody_length < U32

instance melody_wf_decidable {F : Type} (m : melody_t F) : Decidable (melody_wf m) := by
  unfold melody_wf
  infer_instance

/-- The two port calls that program one note: duration first, then frequency. -/
def note_calls {F : Type} (fp : double_ops F) (buzzer_id : Nat) (speed : F) (note : F × Nat) :
    List (buzzer_call F) :=
  [buzzer_call.set_note_duration buzzer_id (note_duration fp note.2 speed),
   buzzer_call.set_note_frequency buzzer_id note.1]

/-- The port calls of an uninterrupted playback of the first `k` notes of a melody: each note
is programmed once, in order, and stopped when its time is out. -/
def melody_calls {F : Type} (fp : double_ops F) (buzzer_id : Nat) (speed : F) (m : melody_t F) :
    Nat → List (buzzer_call F)
  | 0 => []
  | k + 1 =>
    melody_calls fp buzzer_id speed m k ++
      (match read_note m k with
       | some note => note_calls fp buzzer_id speed note ++ [buzzer_call.stop buzzer_id]
       | none => [])

/-- One engine step of the buzzer with the note-timeout flag true whenever the step is taken in
`WAIT_NOTE`: the timer interrupt `TIM2_IRQHandler` has run before such a step. -/
def buzzer_step_timeout {F : Type} (fp : double_ops F) (w : buzzer_world F) :
    Option (buzzer_world F × Option Nat) :=
  fsm_buzzer_fire fp (if w.fsm.f.current_state = WAIT_NOTE then TIM2_IRQHandler w else w)

/-- The world after `n` steps of `buzzer_step_timeout`. -/
def buzzer_steps_timeout {F : Type} (fp : double_ops F) :
    Nat → buzzer_world F → Option (buzzer_world F)
  | 0, w => some w
  | n + 1, w =>
    match buzzer_steps_timeout fp n w with
    | none => none
    | some w1 => (buzzer_step_timeout fp w1).map Prod.fst

/-- Playback at speed `1.0` on buzzer 0, while note `k` sounds: state `WAIT_NOTE`, the note-end
flag cleared, the duration timer running; `base` is the call history before the playback. -/
def buzzer_sounding {F : Type} (fp : double_ops F) (m : melody_t F) (base : List (buzzer_call F))
    (k : Nat) (note : F × Nat) : buzzer_world F :=
  { fsm := { f := { current_state := WAIT_NOTE }, p_melody := some m, note_index := k + 1,
             buzzer_id := BUZZER_0_ID, user_action := PLAY, player_speed := fp.one }
    buzzer0 := { note_end := false }
    tim2_cen := true
    tim3_cen := !(fp.is_zero note.1)
    calls := base ++ melody_calls fp BUZZER_0_ID fp.one m k ++
      note_calls fp BUZZER_0_ID fp.one note }

/-- Playback at speed `1.0` on buzzer 0, after `k` notes have sounded: state `PLAY_NOTE`, both
timers stopped. -/
def buzzer_between_notes {F : Type} (fp : double_ops F) (m : melody_t F)
    (base : List (buzzer_call F)) (k : Nat) : buzzer_world F :=
  { fsm := { f := { current_state := PLAY_NOTE }, p_melody := some m, note_index := k,
             buzzer_id := BUZZER_0_ID, user_action := PLAY, player_speed := fp.one }
    buzzer0 := { note_end := true }
    tim2_cen := false
    tim3_cen := false
    calls := base ++ melody_calls fp BUZZER_0_ID fp.one m k }

/-- Playback at speed `1.0` on buzzer 0, after the last note: state `WAIT_MELODY`. -/
def buzzer_melody_ended {F : Type} (fp : double_ops F) (m : melody_t F)
    (base : List (buzzer_call F)) : buzzer_world F :=
  { fsm := { f := { current_state := WAIT_MELODY }, p_melody := some m, note_index := 0,
             buzzer_id := BUZZER_0_ID, user_action := STOP, player_speed := fp.one }
    buzzer0 := { note_end := true }
    tim2_cen := false
    tim3_cen := false
    calls := base ++ melody_calls fp BUZZER_0_ID fp.one m m.melody_length ++
      [buzzer_call.stop BUZZER_0_ID] }

/-- An operation on a buzzer machine: an engine step, one of the three setters, or the timer
interrupt of the hardware. -/
inductive buzzer_op (F : Type) where
  | fire
  | set_melody (p_melody : Option (melody_t F))
  | set_action (action : Nat)
  | set_speed (speed : F)
  | tim2_irq
deriving DecidableEq, Repr

def buzzer_apply {F : Type} (fp : double_ops F) : buzzer_op F → buzzer_world F →
    Option (buzzer_world F)
  | buzzer_op.fire, w => (fsm_buzzer_fire fp w).map Prod.fst
  | buzzer_op.set_melody p_melody, w => some (fsm_buzzer_set_melody w p_melody)
  | buzzer_op.set_action action, w => some (fsm_buzzer_set_action w action)
  | buzzer_op.set_speed speed, w => some (fsm_buzzer_set_speed w speed)
  | buzzer_op.tim2_irq, w => some (TIM2_IRQHandler w)

def buzzer_run_ops {F : Type} (fp : double_ops F) : List (buzzer_op F) → buzzer_world F →
    Option (buzzer_world F)
  | [], w => some w
  | op :: rest, w =>
    match buzzer_apply fp op w with
    | none => none
    | some w1 => buzzer_run_ops fp rest w1

/-- The restriction on `fsm_buzzer_set_melody` under which `note_index` stays within the melody:
the new melody has at least one note and at least `note_index` notes. -/
def buzzer_op_ok {F : Type} : buzzer_op F → buzzer_world F → Bool
  | buzzer_op.set_melody (some m), w =>
    decide (1 ≤ m.melody_length) && decide (w.fsm.note_index ≤ m.melody_length)
  | _, _ => true

/-- Every operation of the run satisfies `buzzer_op_ok` in the state where it is applied. -/
def buzzer_ops_ok {F : Type} (fp : double_ops F) : List (buzzer_op F) → buzzer_world F → Bool
  | [], _ => true
  | op :: rest, w =>
    buzzer_op_ok op w &&
      (match buzzer_apply fp op w with
       | none => true
       | some w1 => buzzer_ops_ok fp rest w1)

/-- The invariant behind the bound on `note_index`: the index is 0 in the two idle states, and a
melody that is set has at least one note and at least `note_index` notes. -/
def buzzer_inv {F : Type} (w : buzzer_world F) : Prop :=
  ((w.fsm.f.current_state = WAIT_START ∨ w.fsm.f.current_state = WAIT_MELODY) →
    w.fsm.note_index = 0) ∧
  ∀ m, w.fsm.p_melody = some m → w.fsm.note_index ≤ m.melody_length ∧ 1 ≤ m.melody_length

/-- An operation on a USART machine other than `fsm_usart_reset_input_data` and
`fsm_usart_init`: an engine step, the receive interrupt for a byte, the transmit interrupt, or
one of the other public functions that write the machine or its hardware. -/
inductive usart_op where
  | fire
  | rx_irq (c : Nat)
  | tx_irq
  | set_out_data (p_data : List Nat)
  | disable_rx_interrupt
  | disable_tx_interrupt
  | enable_rx_interrupt
  | enable_tx_interrupt
deriving DecidableEq, Repr

def usart_apply : usart_op → usart_world → Option usart_world
  | usart_op.fire, w => (fsm_usart_fire w).map Prod.fst
  | usart_op.rx_irq c, w => usart_receive c w
  | usart_op.tx_irq, w => port_usart_write_data w USART_0_ID
  | usart_op.set_out_data p_data, w => fsm_usart_set_out_data w p_data
  | usart_op.disable_rx_interrupt, w => some (fsm_usart_disable_rx_interrupt w)
  | usart_op.disable_tx_interrupt, w => some (fsm_usart_disable_tx_interrupt w)
  | usart_op.enable_rx_interrupt, w => some (fsm_usart_enable_rx_interrupt w)
  | usart_op.enable_tx_interrupt, w => some (fsm_usart_enable_tx_interrupt w)

def usart_run_ops : List usart_op → usart_world → Option usart_world
  | [], w => some w
  | op :: rest, w =>
    match usart_apply op w with
    | none => none
    | some w1 => usart_run_ops rest w1

/-- The value of the guard of a rule in a state: `none` when the guard is `NULL` or when its
evaluation is undefined. -/
def fsm_guard_value {σ : Type} (t : fsm_trans_t σ) (s : σ) : Option Bool :=
  t.guard.bind (fun g => g s)

/-- The outcome of the action of a rule in a state; a rule without action leaves the state as it
is. -/
def fsm_run_action {σ : Type} (t : fsm_trans_t σ) (s : σ) : Option σ :=
  match t.action with
  | none => some s
  | some a => a s

/-- No rule of the table whose source state is `cur` has a true guard in `s`: the guard of every
such rule evaluates to false. -/
def fsm_no_rule_enabled {σ : Type} (cur : Int) (s : σ) (tt : List (fsm_trans_t σ)) : Prop :=
  ∀ t ∈ tt, 0 ≤ t.source_state → t.source_state = cur → fsm_guard_value t s = some false

instance fsm_no_rule_enabled_decidable {σ : Type} (cur : Int) (s : σ)
    (tt : List (fsm_trans_t σ)) : Decidable (fsm_no_rule_enabled cur s tt) := by
  unfold fsm_no_rule_enabled
  infer_instance

/-- Rule `t` is the rule of index `i` of the table and it is the first rule, in table order,
whose source state is `cur` and whose guard holds in `s`: the earlier rules are not the sentinel
and those whose source state is `cur` have a guard that evaluates to false. -/
def fsm_first_enabled {σ : Type} (cur : Int) (s : σ) (tt : List (fsm_trans_t σ)) (i : Nat)
    (t : fsm_trans_t σ) : Prop :=
  tt[i]? = some t ∧ 0 ≤ t.source_state ∧ t.source_state = cur ∧
    fsm_guard_value t s = some true ∧
    ∀ tj ∈ tt.take i,
      0 ≤ tj.source_state ∧ (tj.source_state = cur → fsm_guard_value tj s = some false)

/-- The observable trace of a run of polls of the button machine: after each poll, the state,
the stored duration and the rule that fired. -/
def button_trace : List (Bool × Nat) → button_world → Option (List (Int × Nat × Option Nat))
  | [], _ => some []
  | inp :: rest, w =>
    match button_poll inp w with
    | none => none
    | some (w1, r) =>
      (button_trace rest w1).map
        (fun tr => (w1.fsm.f.current_state, fsm_button_get_duration w1.fsm, r) :: tr)

/-- A call of one of the port functions that read or write the buffers of the USART: the two
interrupt-side functions `port_usart_store_data` (with the byte found in the data register) and
`port_usart_write_data`, the two resets and the copy to the output buffer. -/
inductive usart_port_op where
  | store_data (c : Nat)
  | write_data
  | reset_input_buffer
  | reset_output_buffer
  | copy_to_output_buffer (p_data : List Nat) (length : Nat)
deriving DecidableEq, Repr

def usart_port_apply : usart_port_op → usart_world → Option usart_world
  | usart_port_op.store_data c, w => port_usart_store_data { w with dr_rx := c } USART_0_ID
  | usart_port_op.write_data, w => port_usart_write_data w USART_0_ID
  | usart_port_op.reset_input_buffer, w => port_usart_reset_input_buffer w USART_0_ID
  | usart_port_op.reset_output_buffer, w => port_usart_reset_output_buffer w USART_0_ID
  | usart_port_op.copy_to_output_buffer p_data length, w =>
    port_usart_copy_to_output_buffer w USART_0_ID p_data length

def usart_port_run : List usart_port_op → usart_world → Option usart_world
  | [], w => some w
  | op :: rest, w =>
    match usart_port_apply op w with
    | none => none
    | some w1 => usart_port_run rest w1

/-- A copy to the output buffer stays inside the output buffer and inside the caller's data. -/
def usart_port_op_ok : usart_port_op → Bool
  | usart_port_op.copy_to_output_buffer p_data length =>
    decide (length ≤ USART_OUTPUT_BUFFER_LENGTH) && decide (length ≤ p_data.length)
  | _ => true

/-! ## Concrete machines used as witnesses -/

/-- A fixed-point stand-in for `double`, in thousandths, used to evaluate the buzzer on concrete
inputs: `1.0` is 1000 and rounding is to the nearest unit, halves upwards. -/
def fixed_point_ops : double_ops Nat :=
  { one := 1000
    of_uint := fun n => n * 1000
    div := fun a b => a * 1000 / b
    round_to_uint32 := fun x => ((x + 500) / 1000) % U32
    is_zero := fun x => x == 0 }

/-- A melody of three notes. -/
def melody_example : melody_t Nat :=
  { p_notes := [440000, 494000, 523000], p_durations := [500, 250, 250], melody_length := 3 }

/-- A buzzer machine in `PLAY_NOTE` after the first note of `melody_example`. -/
def buzzer_example (user_action note_index : Nat) : buzzer_world Nat :=
  { fsm := { f := { current_state := PLAY_NOTE }, p_melody := some melody_example,
             note_index := note_index, buzzer_id := BUZZER_0_ID, user_action := user_action,
             player_speed := 1000 },
    buzzer0 := { note_end := true }, tim2_cen := false, tim3_cen := false, calls := [] }

/-- The machine `buzzer_example PLAY 0` with a player speed of 2.0. -/
def buzzer_double_speed : buzzer_world Nat :=
  { fsm := { f := { current_state := PLAY_NOTE }, p_melody := some melody_example,
             note_index := 0, buzzer_id := BUZZER_0_ID, user_action := PLAY,
             player_speed := 2000 },
    buzzer0 := { note_end := true }, tim2_cen := false, tim3_cen := false, calls := [] }

/-- A machine right after `fsm_button_init` with a debounce time of 5 ms. -/
def button_example : button_world :=
  { fsm := { f := { current_state := BUTTON_RELEASED }, debounce_time := 5, next_timeout := 0,
             tick_pressed := 0, duration := 0, button_id := BUTTON_0_ID },
    button0 := { flag_pressed := false }, millis := 0 }

/-- A melody of one note. -/
def melody_short : melody_t Nat :=
  { p_notes := [440000], p_durations := [500], melody_length := 1 }

/-- The contents of a freshly allocated buzzer machine and of its hardware before
`fsm_buzzer_init`. -/
def buzzer_fresh : buzzer_world Nat :=
  { fsm := { f := { current_state := 7 }, p_melody := none, note_index := 9,
             buzzer_id := 3, user_action := 2, player_speed := 0 },
    buzzer0 := { note_end := true }, tim2_cen := false, tim3_cen := false, calls := [] }

/-- The machine `buzzer_fresh` after `fsm_buzzer_init` for `BUZZER_0_ID`. -/
def buzzer_initial : buzzer_world Nat :=
  { fsm := { f := { current_state := WAIT_START }, p_melody := none, note_index := 0,
             buzzer_id := BUZZER_0_ID, user_action := STOP, player_speed := 1000 },
    buzzer0 := { note_end := true }, tim2_cen := false, tim3_cen := false,
    calls := [buzzer_call.init BUZZER_0_ID] }

/-- A USART machine right after `fsm_usart_init`, waiting for data. -/
def usart_example : usart_world :=
  { fsm := { f := { current_state := WAIT_DATA }, data_received := false,
             in_data := List.replicate 10 0, out_data := List.replicate 100 0,
             usart_id := USART_0_ID },
    usart0 := { input_buffer := List.replicate 10 0, i_idx := 0, read_complete := false,
                output_buffer := List.replicate 100 0, o_idx := 0, write_complete := false },
    dr_rx := 0, tx_line := [], txe_wait := 2, cr1_txeie := false, cr1_rxneie := true }

/-- A caller buffer of 100 bytes holding the message "A", an empty byte, then the end marker. -/
def usart_message_with_empty_byte : List Nat :=
  [65, 0, 10] ++ List.replicate 97 0

/-- The world reached from `usart_example` once the transmission of
`usart_message_with_empty_byte` has been started: "A" is sent and `o_idx` points at the empty
byte. -/
def usart_stalled : usart_world :=
  { fsm := { f := { current_state := SEND_DATA }, data_received := false,
             in_data := List.replicate 10 0, out_data := usart_message_with_empty_byte,
             usart_id := USART_0_ID },
    usart0 := { input_buffer := List.replicate 10 0, i_idx := 0, read_complete := false,
                output_buffer := usart_message_with_empty_byte, o_idx := 1,
                write_complete := false },
    dr_rx := 0, tx_line := [65], txe_wait := 0, cr1_txeie := true, cr1_rxneie := true }

/-- A caller buffer of 100 bytes holding the empty message: the end marker alone. -/
def usart_empty_message : List Nat :=
  [10] ++ List.replicate 99 0

/-- The world reached from `usart_example` once the transmission of `usart_empty_message` has
been started: the end marker is sent, `write_complete` is set, and `do_set_data_tx` has enabled
the transmit interrupt after the write that disabled it. -/
def usart_end_marker_sent : usart_world :=
  { fsm := { f := { current_state := SEND_DATA }, data_received := false,
             in_data := List.replicate 10 0, out_data := usart_empty_message,
             usart_id := USART_0_ID },
    usart0 := { input_buffer := List.replicate 10 0, i_idx := 0, read_complete := false,
                output_buffer := usart_empty_message, o_idx := 0,
                write_complete := true },
    dr_rx := 0, tx_line := [10], txe_wait := 0, cr1_txeie := true, cr1_rxneie := true }

/-! ## Theorems: button machine -/

/-- Closed form of one engine step of the button machine, by current state. -/
theorem fsm_button_fire_eq (w : button_world) :
    fsm_button_fire w =
      if w.fsm.f.current_state = BUTTON_RELEASED then
        (match check_button_pressed w with
         | none => none
         | some true =>
           (do_store_tick_pressed w).map (fun w1 => (button_set_state BUTTON_PRESSED_WAIT w1, some 0))
         | some false => some (w, none))
      else if w.fsm.f.current_state = BUTTON_PRESSED_WAIT then
        (if port_button_get_tick w > w.fsm.next_timeout
         then some (button_set_state BUTTON_PRESSED w, some 1) else some (w, none))
      else if w.fsm.f.current_state = BUTTON_PRESSED then
        (match check_button_released w with
         | none => none
         | some true =>
           (do_set_duration w).map (fun w1 => (button_set_state BUTTON_RELEASED_WAIT w1, some 2))
         | some false => some (w, none))
      else if w.fsm.f.current_state = BUTTON_RELEASED_WAIT then
        (if port_button_get_tick w > w.fsm.next_timeout
         then some (button_set_state BUTTON_RELEASED w, some 3) else some (w, none))
      else some (w, none) := by
  rcases w with ⟨⟨⟨st⟩, d, nt, tp, du, id⟩, hw, ms⟩
  simp only [fsm_button_fire, fsm_fire, fsm_trans_button, fsm_scan, BUTTON_RELEASED,
    BUTTON_RELEASED_WAIT, BUTTON_PRESSED, BUTTON_PRESSED_WAIT, check_timeout]
  by_cases h0 : st = 0
  · subst h0
    simp
    cases hp : check_button_pressed _ with
    | none => simp
    | some b => cases b <;> simp [do_store_tick_pressed]
  · by_cases h3 : st = 3
    · subst h3
      generalize port_button_get_tick _ = now
      by_cases hlt : nt < now <;> simp [hlt]
    · by_cases h2 : st = 2
      · subst h2
        simp
        cases hp : check_button_released _ with
        | none => simp
        | some b => cases b <;> simp [do_set_duration]
      · by_cases h1 : st = 1
        · subst h1
          generalize port_button_get_tick _ = now
          by_cases hlt : nt < now <;> simp [hlt]
        · simp [h0, h1, h2, h3]

theorem fsm_button_fire_released (w : button_world)
    (h : w.fsm.f.current_state = BUTTON_RELEASED) :
    fsm_button_fire w =
      (match check_button_pressed w with
       | none => none
       | some true =>
         (do_store_tick_pressed w).map (fun w1 => (button_set_state BUTTON_PRESSED_WAIT w1, some 0))
       | some false => some (w, none)) := by
  rw [fsm_button_fire_eq, if_pos h]

theorem fsm_button_fire_pressed_wait (w : button_world)
    (h : w.fsm.f.current_state = BUTTON_PRESSED_WAIT) :
    fsm_button_fire w =
      (if port_button_get_tick w > w.fsm.next_timeout
       then some (button_set_state BUTTON_PRESSED w, some 1) else some (w, none)) := by
  rw [fsm_button_fire_eq, if_neg (by rw [h]; decide), if_pos h]

theorem fsm_button_fire_pressed (w : button_world)
    (h : w.fsm.f.current_state = BUTTON_PRESSED) :
    fsm_button_fire w =
      (match check_button_released w with
       | none => none
       | some true =>
         (do_set_duration w).map (fun w1 => (button_set_state BUTTON_RELEASED_WAIT w1, some 2))
       | some false => some (w, none)) := by
  rw [fsm_button_fire_eq, if_neg (by rw [h]; decide), if_neg (by rw [h]; decide), if_pos h]

theorem fsm_button_fire_released_wait (w : button_world)
    (h : w.fsm.f.current_state = BUTTON_RELEASED_WAIT) :
    fsm_button_fire w =
      (if port_button_get_tick w > w.fsm.next_timeout
       then some (button_set_state BUTTON_RELEASED w, some 3) else some (w, none)) := by
  rw [fsm_button_fire_eq, if_neg (by rw [h]; decide), if_neg (by rw [h]; decide),
    if_neg (by rw [h]; decide), if_pos h]

/-- Between the press edge and the release edge the machine stays in `BUTTON_PRESSED_WAIT` or
`BUTTON_PRESSED` and `tick_pressed` is not written. -/
theorem button_poll_pressed_phase (inp : Bool × Nat) (w w1 : button_world) (r : Option Nat)
    (hst : w.fsm.f.current_state = BUTTON_PRESSED_WAIT ∨ w.fsm.f.current_state = BUTTON_PRESSED)
    (hp : button_poll inp w = some (w1, r)) (hr : r ≠ some 2) :
    (w1.fsm.f.current_state = BUTTON_PRESSED_WAIT ∨ w1.fsm.f.current_state = BUTTON_PRESSED) ∧
      w1.fsm.tick_pressed = w.fsm.tick_pressed := by
  unfold button_poll at hp
  rcases hst with h | h
  · rw [fsm_button_fire_pressed_wait _ (by simpa [button_set_inputs] using h)] at hp
    split at hp <;> simp only [Option.some.injEq, Prod.mk.injEq] at hp <;>
      obtain ⟨rfl, rfl⟩ := hp <;> simp [button_set_state, button_set_inputs, h]
  · rw [fsm_button_fire_pressed _ (by simpa [button_set_inputs] using h)] at hp
    split at hp
    · simp at hp
    · simp only [do_set_duration, Option.map_some', Option.some.injEq, Prod.mk.injEq] at hp
      exact absurd hp.2.symm hr
    · simp only [Option.some.injEq, Prod.mk.injEq] at hp
      obtain ⟨rfl, rfl⟩ := hp
      simp [button_set_inputs, h]

/-- The pressed phase is preserved by a whole run in which the release rule does not fire. -/
theorem button_run_pressed_phase (inputs : List (Bool × Nat)) :
    ∀ (w w1 : button_world) (fired : List (Option Nat)),
      (w.fsm.f.current_state = BUTTON_PRESSED_WAIT ∨ w.fsm.f.current_state = BUTTON_PRESSED) →
      button_run inputs w = some (w1, fired) → some 2 ∉ fired →
      (w1.fsm.f.current_state = BUTTON_PRESSED_WAIT ∨ w1.fsm.f.current_state = BUTTON_PRESSED) ∧
        w1.fsm.tick_pressed = w.fsm.tick_pressed := by
  induction inputs with
  | nil =>
    intro w w1 fired hst hrun _
    simp [button_run] at hrun
    obtain ⟨rfl, _⟩ := hrun
    exact ⟨hst, rfl⟩
  | cons inp rest ih =>
    intro w w1 fired hst hrun hnot
    simp only [button_run] at hrun
    cases hp : button_poll inp w with
    | none => simp [hp] at hrun
    | some p =>
      obtain ⟨wa, r⟩ := p
      simp only [hp] at hrun
      cases hq : button_run rest wa with
      | none => simp [hq] at hrun
      | some q =>
        obtain ⟨wb, rs⟩ := q
        simp only [hq, Option.some.injEq, Prod.mk.injEq] at hrun
        obtain ⟨rfl, rfl⟩ := hrun
        have hr : r ≠ some 2 := by
          intro h
          exact hnot (by simp [h])
        have hrs : some 2 ∉ rs := by
          intro h
          exact hnot (by simp [h])
        have h1 := button_poll_pressed_phase inp w wa r hst hp hr
        have h2 := ih wa wb rs h1.1 hq hrs
        exact ⟨h2.1, h2.2.trans h1.2⟩

/-- Rule 0 can only fire as the press edge: it stores the tick and enters `BUTTON_PRESSED_WAIT`. -/
theorem button_poll_rule0 (inp : Bool × Nat) (w w1 : button_world)
    (hp : button_poll inp w = some (w1, some 0)) :
    w1.fsm.f.current_state = BUTTON_PRESSED_WAIT ∧ w1.fsm.tick_pressed = inp.2 % U32 := by
  unfold button_poll at hp
  rw [fsm_button_fire_eq] at hp
  split_ifs at hp with h0 h3 hlt h2 h1 hlt
  · split at hp
    · simp at hp
    · simp only [do_store_tick_pressed, Option.map_some', Option.some.injEq, Prod.mk.injEq,
        and_true] at hp
      subst hp
      simp [button_set_state, button_set_inputs, port_button_get_tick]
    · simp at hp
  all_goals first
    | simp at hp
    | (split at hp <;> simp [do_set_duration] at hp)

/-- Rule 2 stores the 32-bit difference between the tick of the poll and `tick_pressed`. -/
theorem button_poll_rule2 (inp : Bool × Nat) (w w1 : button_world)
    (hp : button_poll inp w = some (w1, some 2)) :
    w1.fsm.duration = (inp.2 % U32 + (U32 - w.fsm.tick_pressed % U32)) % U32 := by
  unfold button_poll at hp
  rw [fsm_button_fire_eq] at hp
  split_ifs at hp with h0 h3 hlt h2 h1 hlt
  · split at hp <;> simp [do_store_tick_pressed] at hp
  · simp at hp
  · simp at hp
  · split at hp
    · simp at hp
    · simp only [do_set_duration, Option.map_some', Option.some.injEq, Prod.mk.injEq,
        and_true] at hp
      subst hp
      simp [button_set_state, button_set_inputs, port_button_get_tick]
    · simp at hp
  all_goals simp at hp

/-- C1: if the RELEASED -> PRESSED_WAIT rule (rule 0) fires at a poll where the tick is `t0`, any
number of polls follow in which the PRESSED -> RELEASED_WAIT rule (rule 2) does not fire, and rule 2
then fires at a poll where the tick is `t1`, then `fsm_button_get_duration` returns
`(t1 - t0) mod 2^32`, also when the tick counter wrapped between the two edges. -/
theorem button_duration_between_edges (w w1 w2 w3 : button_world) (t0 t1 : Nat) (p0 p1 : Bool)
    (inputs : List (Bool × Nat)) (fired : List (Option Nat))
    (ht0 : t0 < U32) (ht1 : t1 < U32)
    (hpress : button_poll (p0, t0) w = some (w1, some 0))
    (hmid : button_run inputs w1 = some (w2, fired)) (hno : some 2 ∉ fired)
    (hrel : button_poll (p1, t1) w2 = some (w3, some 2)) :
    fsm_button_get_duration w3.fsm = (t1 + U32 - t0) % U32 := by
  have h1 := button_poll_rule0 (p0, t0) w w1 hpress
  have h2 := button_run_pressed_phase inputs w1 w2 fired (Or.inl h1.1) hmid hno
  have h3 := button_poll_rule2 (p1, t1) w2 w3 hrel
  simp only [fsm_button_get_duration]
  rw [h3, h2.2, h1.2]
  simp only [Nat.mod_mod, Nat.mod_eq_of_lt ht0, Nat.mod_eq_of_lt ht1]
  congr 1
  omega

/-- Witness of C1 across a wrap of the tick counter: press at 2^32 - 10, release at 20, the
stored duration is 30 ms. -/
theorem button_duration_between_edges_witness :
    fsm_button_get_duration
      ({ fsm := { f := { current_state := BUTTON_RELEASED_WAIT }, debounce_time := 5,
                  next_timeout := 25, tick_pressed := 4294967286, duration := 30,
                  button_id := BUTTON_0_ID },
         button0 := { flag_pressed := false }, millis := 20 } : button_world).fsm
      = (20 + U32 - 4294967286) % U32 :=
  button_duration_between_edges button_example
    { fsm := { f := { current_state := BUTTON_PRESSED_WAIT }, debounce_time := 5,
               next_timeout := 4294967291, tick_pressed := 4294967286, duration := 0,
               button_id := BUTTON_0_ID },
      button0 := { flag_pressed := true }, millis := 4294967286 }
    { fsm := { f := { current_state := BUTTON_PRESSED }, debounce_time := 5,
               next_timeout := 4294967291, tick_pressed := 4294967286, duration := 0,
               button_id := BUTTON_0_ID },
      button0 := { flag_pressed := true }, millis := 4294967295 }
    _ 4294967286 20 true false
    [(true, 4294967288), (true, 4294967295)] [none, some 1]
    (by decide) (by decide) (by decide) (by decide) (by decide) (by decide)

/-- C5: in `BUTTON_PRESSED_WAIT` or `BUTTON_RELEASED_WAIT`, a step taken at a 32-bit tick
`now <= next_timeout` fires no rule and leaves every field unchanged, whatever the pressed flag is;
at a tick `now > next_timeout` the step moves `BUTTON_PRESSED_WAIT` to `BUTTON_PRESSED`
(respectively `BUTTON_RELEASED_WAIT` to `BUTTON_RELEASED`) and changes no field other than
`current_state`. -/
theorem button_wait_state_step (w : button_world) (pressed : Bool) (now : Nat)
    (hnow : now < U32)
    (hst : w.fsm.f.current_state = BUTTON_PRESSED_WAIT ∨
      w.fsm.f.current_state = BUTTON_RELEASED_WAIT) :
    (now ≤ w.fsm.next_timeout →
      button_poll (pressed, now) w = some (button_set_inputs pressed now w, none)) ∧
    (now > w.fsm.next_timeout →
      (w.fsm.f.current_state = BUTTON_PRESSED_WAIT →
        button_poll (pressed, now) w =
          some ({ fsm := { w.fsm with f := { current_state := BUTTON_PRESSED } },
                  button0 := { flag_pressed := pressed }, millis := now }, some 1)) ∧
      (w.fsm.f.current_state = BUTTON_RELEASED_WAIT →
        button_poll (pressed, now) w =
          some ({ fsm := { w.fsm with f := { current_state := BUTTON_RELEASED } },
                  button0 := { flag_pressed := pressed }, millis := now }, some 3))) := by
  have htick : port_button_get_tick (button_set_inputs pressed now w) = now := by
    simp [port_button_get_tick, button_set_inputs, Nat.mod_eq_of_lt hnow]
  refine ⟨fun hle => ?_, fun hgt => ⟨fun h => ?_, fun h => ?_⟩⟩
  · rcases hst with h | h
    · rw [button_poll, fsm_button_fire_pressed_wait _ (by simpa [button_set_inputs] using h),
        htick, if_neg (by simp only [button_set_inputs]; omega)]
    · rw [button_poll, fsm_button_fire_released_wait _ (by simpa [button_set_inputs] using h),
        htick, if_neg (by simp only [button_set_inputs]; omega)]
  · rw [button_poll, fsm_button_fire_pressed_wait _ (by simpa [button_set_inputs] using h),
      htick, if_pos (by simp only [button_set_inputs]; omega)]
    rfl
  · rw [button_poll, fsm_button_fire_released_wait _ (by simpa [button_set_inputs] using h),
      htick, if_pos (by simp only [button_set_inputs]; omega)]
    rfl

/-- Witness of C5 on a machine waiting in `BUTTON_PRESSED_WAIT` with `next_timeout = 105`,
polled at tick 105 with the flag released: nothing changes. -/
theorem button_wait_state_step_witness :
    button_poll (false, 105)
        { fsm := { f := { current_state := BUTTON_PRESSED_WAIT }, debounce_time := 5,
                   next_timeout := 105, tick_pressed := 100, duration := 0,
                   button_id := BUTTON_0_ID },
          button0 := { flag_pressed := true }, millis := 100 } =
      some ({ fsm := { f := { current_state := BUTTON_PRESSED_WAIT }, debounce_time := 5,
                       next_timeout := 105, tick_pressed := 100, duration := 0,
                       button_id := BUTTON_0_ID },
              button0 := { flag_pressed := false }, millis := 105 }, none) :=
  (button_wait_state_step
    { fsm := { f := { current_state := BUTTON_PRESSED_WAIT }, debounce_time := 5,
               next_timeout := 105, tick_pressed := 100, duration := 0,
               button_id := BUTTON_0_ID },
      button0 := { flag_pressed := true }, millis := 100 }
    false 105 (by decide) (Or.inl rfl)).1 (by decide)

/-! ## Theorems: buzzer machine -/

theorem fsm_buzzer_fire_wait_start {F : Type} (fp : double_ops F) (w : buzzer_world F)
    (h : w.fsm.f.current_state = WAIT_START) :
    fsm_buzzer_fire fp w =
      (if w.fsm.p_melody.isSome = true ∧ w.fsm.user_action = PLAY then
        (do_player_start fp w).map (fun w1 => (buzzer_set_state WAIT_NOTE w1, some 0))
       else some (w, none)) := by
  rcases w with ⟨⟨⟨st⟩, m, ni, id, ua, sp⟩, hw, c2, c3, cl⟩
  simp only at h
  subst h
  simp only [fsm_buzzer_fire, fsm_fire, fsm_trans_buzzer, fsm_scan, WAIT_START, PLAY_NOTE,
    PAUSE_NOTE, WAIT_NOTE, WAIT_MELODY, check_player_start, check_melody_start]
  by_cases hc : m.isSome = true ∧ ua = PLAY
  · simp [hc]
    cases do_player_start fp _ <;> simp
  · have : (m.isSome && decide (ua = PLAY)) = false := by
      simpa [Bool.and_eq_true] using hc
    simp [this, hc]

theorem fsm_buzzer_fire_wait_melody {F : Type} (fp : double_ops F) (w : buzzer_world F)
    (h : w.fsm.f.current_state = WAIT_MELODY) :
    fsm_buzzer_fire fp w =
      (if w.fsm.p_melody.isSome = true ∧ w.fsm.user_action = PLAY then
        (do_melody_start fp w).map (fun w1 => (buzzer_set_state WAIT_NOTE w1, some 6))
       else some (w, none)) := by
  rcases w with ⟨⟨⟨st⟩, m, ni, id, ua, sp⟩, hw, c2, c3, cl⟩
  simp only at h
  subst h
  simp only [fsm_buzzer_fire, fsm_fire, fsm_trans_buzzer, fsm_scan, WAIT_START, PLAY_NOTE,
    PAUSE_NOTE, WAIT_NOTE, WAIT_MELODY, check_player_start, check_melody_start]
  by_cases hc : m.isSome = true ∧ ua = PLAY
  · simp [hc]
    cases do_melody_start fp _ <;> simp
  · have : (m.isSome && decide (ua = PLAY)) = false := by
      simpa [Bool.and_eq_true] using hc
    simp [this, hc]

theorem fsm_buzzer_fire_wait_note {F : Type} (fp : double_ops F) (w : buzzer_world F)
    (h : w.fsm.f.current_state = WAIT_NOTE) :
    fsm_buzzer_fire fp w =
      (if port_buzzer_get_note_timeout w w.fsm.buzzer_id = true then
        some (buzzer_set_state PLAY_NOTE (port_buzzer_stop w w.fsm.buzzer_id), some 1)
       else some (w, none)) := by
  rcases w with ⟨⟨⟨st⟩, m, ni, id, ua, sp⟩, hw, c2, c3, cl⟩
  simp only at h
  subst h
  simp only [fsm_buzzer_fire, fsm_fire, fsm_trans_buzzer, fsm_scan, WAIT_START, PLAY_NOTE,
    PAUSE_NOTE, WAIT_NOTE, WAIT_MELODY, check_note_end, do_note_end]
  generalize port_buzzer_get_note_timeout _ _ = b
  cases b <;> simp [do_note_end]

theorem fsm_buzzer_fire_pause_note {F : Type} (fp : double_ops F) (w : buzzer_world F)
    (h : w.fsm.f.current_state = PAUSE_NOTE) :
    fsm_buzzer_fire fp w =
      (if w.fsm.user_action = PLAY then some (buzzer_set_state PLAY_NOTE w, some 7)
       else some (w, none)) := by
  rcases w with ⟨⟨⟨st⟩, m, ni, id, ua, sp⟩, hw, c2, c3, cl⟩
  simp only at h
  subst h
  simp only [fsm_buzzer_fire, fsm_fire, fsm_trans_buzzer, fsm_scan, WAIT_START, PLAY_NOTE,
    PAUSE_NOTE, WAIT_NOTE, WAIT_MELODY, check_resume]
  by_cases hc : ua = PLAY <;> simp [hc]

theorem fsm_buzzer_fire_play_note {F : Type} (fp : double_ops F) (w : buzzer_world F)
    (h : w.fsm.f.current_state = PLAY_NOTE) :
    fsm_buzzer_fire fp w =
      (if w.fsm.user_action = PAUSE then
        (do_pause w).map (fun w1 => (buzzer_set_state PAUSE_NOTE w1, some 2))
       else if w.fsm.user_action = STOP then
        (do_player_stop w).map (fun w1 => (buzzer_set_state WAIT_START w1, some 3))
       else
        match w.fsm.p_melody with
        | none => none
        | some m =>
          if w.fsm.note_index ≥ m.melody_length then
            (do_end_melody w).map (fun w1 => (buzzer_set_state WAIT_MELODY w1, some 4))
          else if w.fsm.note_index ≤ m.melody_length ∧ w.fsm.user_action = PLAY then
            (do_play_note fp w).map (fun w1 => (buzzer_set_state WAIT_NOTE w1, some 5))
          else some (w, none)) := by
  rcases w with ⟨⟨⟨st⟩, m, ni, id, ua, sp⟩, hw, c2, c3, cl⟩
  simp only at h
  subst h
  simp only [fsm_buzzer_fire, fsm_fire, fsm_trans_buzzer, fsm_scan, WAIT_START, PLAY_NOTE,
    PAUSE_NOTE, WAIT_NOTE, WAIT_MELODY, check_pause, check_player_stop, check_end_melody,
    check_play_note]
  by_cases hp : ua = PAUSE
  · simp [hp, do_pause]
  · by_cases hs : ua = STOP
    · subst hs
      simp [do_player_stop, STOP, PAUSE]
    · cases m with
      | none => simp [hp, hs]
      | some m =>
        by_cases he : m.melody_length ≤ ni
        · simp [hp, hs, he, do_end_melody]
        · by_cases hn : ni ≤ m.melody_length ∧ ua = PLAY
          · obtain ⟨hn1, hn2⟩ := hn
            subst hn2
            simp [he, hn1, PLAY, PAUSE, STOP]
            cases do_play_note fp _ <;> simp
          · have : (decide (ni ≤ m.melody_length) && decide (ua = PLAY)) = false := by
              simpa [Bool.and_eq_true] using hn
            simp [hp, hs, he, hn, this]

/-- The port call recorded by `port_buzzer_stop`, and the fields it leaves alone. -/
theorem port_buzzer_stop_calls {F : Type} (w : buzzer_world F) (buzzer_id : Nat) :
    (port_buzzer_stop w buzzer_id).calls = w.calls ++ [buzzer_call.stop buzzer_id] ∧
      (port_buzzer_stop w buzzer_id).fsm = w.fsm ∧
      (port_buzzer_stop w buzzer_id).buzzer0 = w.buzzer0 := by
  unfold port_buzzer_stop
  split <;> simp

/-- The stop rule of `PLAY_NOTE`. -/
theorem fsm_buzzer_fire_player_stop {F : Type} (fp : double_ops F) (w : buzzer_world F)
    (hst : w.fsm.f.current_state = PLAY_NOTE) (hua : w.fsm.user_action = STOP) :
    fsm_buzzer_fire fp w =
      some ({ port_buzzer_stop w w.fsm.buzzer_id with
              fsm := { w.fsm with f := { current_state := WAIT_START }, note_index := 0 } },
            some 3) := by
  rw [fsm_buzzer_fire_play_note fp w hst, if_neg (by rw [hua]; decide), if_pos hua]
  simp [do_player_stop, buzzer_set_state, (port_buzzer_stop_calls w _).2.1]

/-- The end-of-melody rule of `PLAY_NOTE`. -/
theorem fsm_buzzer_fire_end_melody {F : Type} (fp : double_ops F) (w : buzzer_world F)
    (m : melody_t F) (hst : w.fsm.f.current_state = PLAY_NOTE)
    (hm : w.fsm.p_melody = some m) (hua : w.fsm.user_action = PLAY)
    (hge : w.fsm.note_index ≥ m.melody_length) :
    fsm_buzzer_fire fp w =
      some ({ port_buzzer_stop w w.fsm.buzzer_id with
              fsm := { w.fsm with f := { current_state := WAIT_MELODY }, note_index := 0,
                                  user_action := STOP } },
            some 4) := by
  rw [fsm_buzzer_fire_play_note fp w hst, if_neg (by rw [hua]; decide),
    if_neg (by rw [hua]; decide), hm]
  simp only [if_pos hge]
  simp [do_end_melody, buzzer_set_state, (port_buzzer_stop_calls w _).2.1]

/-- C10: in `PLAY_NOTE` with `user_action = STOP`, whatever `note_index` and the melody are, a
step fires the stop rule: it moves to `WAIT_START`, calls `port_buzzer_stop`, sets `note_index` to
0 and leaves `user_action = STOP`; in `PLAY_NOTE` with `user_action = PLAY` and
`note_index >= melody_length`, a step fires the end-of-melody rule: it moves to `WAIT_MELODY`,
calls `port_buzzer_stop`, sets `note_index` to 0 and sets `user_action` to `STOP`. -/
theorem buzzer_play_note_stop_and_end {F : Type} (fp : double_ops F) (w : buzzer_world F)
    (hst : w.fsm.f.current_state = PLAY_NOTE) :
    (w.fsm.user_action = STOP →
      fsm_buzzer_fire fp w =
        some ({ port_buzzer_stop w w.fsm.buzzer_id with
                fsm := { w.fsm with f := { current_state := WAIT_START }, note_index := 0 } },
              some 3) ∧
      (port_buzzer_stop w w.fsm.buzzer_id).calls = w.calls ++ [buzzer_call.stop w.fsm.buzzer_id] ∧
      ({ w.fsm with f := { current_state := WAIT_START }, note_index := 0 } :
        fsm_buzzer_t F).user_action = STOP) ∧
    (∀ m : melody_t F, w.fsm.p_melody = some m → w.fsm.user_action = PLAY →
      w.fsm.note_index ≥ m.melody_length →
      fsm_buzzer_fire fp w =
        some ({ port_buzzer_stop w w.fsm.buzzer_id with
                fsm := { w.fsm with f := { current_state := WAIT_MELODY }, note_index := 0,
                                    user_action := STOP } },
              some 4) ∧
      (port_buzzer_stop w w.fsm.buzzer_id).calls =
        w.calls ++ [buzzer_call.stop w.fsm.buzzer_id]) := by
  exact ⟨fun hua => ⟨fsm_buzzer_fire_player_stop fp w hst hua, (port_buzzer_stop_calls w _).1, hua⟩,
    fun m hm hua hge =>
      ⟨fsm_buzzer_fire_end_melody fp w m hst hm hua hge, (port_buzzer_stop_calls w _).1⟩⟩

/-- Witness of C10: the stop rule on a machine stopped while note 1 of three is pending. -/
theorem buzzer_play_note_stop_and_end_witness :
    fsm_buzzer_fire fixed_point_ops (buzzer_example STOP 1) =
      some ({ fsm := { f := { current_state := WAIT_START }, p_melody := some melody_example,
                       note_index := 0, buzzer_id := BUZZER_0_ID, user_action := STOP,
                       player_speed := 1000 },
              buzzer0 := { note_end := true }, tim2_cen := false, tim3_cen := false,
              calls := [buzzer_call.stop BUZZER_0_ID] }, some 3) :=
  ((buzzer_play_note_stop_and_end fixed_point_ops (buzzer_example STOP 1) rfl).1 rfl).1

/-- C9: in `PLAY_NOTE` with `user_action = PLAY` and `note_index = melody_length`, the
end-of-melody rule (rule 4, next state `WAIT_MELODY`) fires, not the play-next-note rule (rule 5),
because it comes first in the table; and whenever rule 5 fires from `PLAY_NOTE`, so that
`do_play_note` reads `p_notes[note_index]` and `p_durations[note_index]`, that index is below
`melody_length`. -/
theorem buzzer_end_melody_before_play_note {F : Type} (fp : double_ops F) (w : buzzer_world F)
    (m : melody_t F) (hst : w.fsm.f.current_state = PLAY_NOTE)
    (hm : w.fsm.p_melody = some m) :
    (w.fsm.user_action = PLAY → w.fsm.note_index = m.melody_length →
      ∃ w1, fsm_buzzer_fire fp w = some (w1, some 4) ∧
        w1.fsm.f.current_state = WAIT_MELODY) ∧
    (∀ w1, fsm_buzzer_fire fp w = some (w1, some 5) →
      w.fsm.note_index < m.melody_length ∧ w.fsm.user_action = PLAY) := by
  refine ⟨fun hua heq => ?_, fun w1 hf => ?_⟩
  · exact ⟨_, fsm_buzzer_fire_end_melody fp w m hst hm hua (le_of_eq heq.symm), rfl⟩
  · rw [fsm_buzzer_fire_play_note fp w hst] at hf
    split_ifs at hf with h1 h2
    · simp [do_pause] at hf
    · simp [do_player_stop] at hf
    · rw [hm] at hf
      simp only at hf
      split_ifs at hf with h3 h4
      · simp [do_end_melody] at hf
      · exact ⟨by omega, h4.2⟩
      · simp at hf

/-- Witness of C9: at `note_index = melody_length = 3` the end-of-melody rule fires. -/
theorem buzzer_end_melody_before_play_note_witness :
    ∃ w1, fsm_buzzer_fire fixed_point_ops (buzzer_example PLAY 3) = some (w1, some 4) ∧
      w1.fsm.f.current_state = WAIT_MELODY :=
  (buzzer_end_melody_before_play_note fixed_point_ops (buzzer_example PLAY 3) melody_example
    rfl rfl).1 rfl rfl

/-- Every note below `melody_length` of a well-formed melody can be read. -/
theorem read_note_of_wf {F : Type} (m : melody_t F) (hwf : melody_wf m) (i : Nat)
    (hi : i < m.melody_length) :
    ∃ note, read_note m i = some note := by
  obtain ⟨h1, h2, _⟩ := hwf
  have hn : i < m.p_notes.length := by omega
  have hd : i < m.p_durations.length := by omega
  simp [read_note, List.getElem?_eq_getElem hn, List.getElem?_eq_getElem hd]

/-- Effect of `_start_note` on the buzzer of the table: the note-end flag is cleared, the
duration timer runs and the two port calls are recorded. -/
theorem start_note_eq {F : Type} (fp : double_ops F) (w : buzzer_world F) (freq : F)
    (duration : Nat) (hid : w.fsm.buzzer_id = BUZZER_0_ID) :
    _start_note fp w freq duration =
      some { w with
        buzzer0 := { note_end := false }
        tim2_cen := true
        tim3_cen := !(fp.is_zero freq)
        calls := w.calls ++ note_calls fp w.fsm.buzzer_id w.fsm.player_speed (freq, duration) } := by
  simp [_start_note, port_buzzer_set_note_duration, port_buzzer_set_note_frequency, hid,
    note_calls]

/-- Effect of `do_play_note` when the note at `note_index` can be read. -/
theorem do_play_note_eq {F : Type} (fp : double_ops F) (w : buzzer_world F) (m : melody_t F)
    (note : F × Nat) (hm : w.fsm.p_melody = some m)
    (hr : read_note m w.fsm.note_index = some note) (hid : w.fsm.buzzer_id = BUZZER_0_ID) :
    do_play_note fp w =
      some { fsm := { w.fsm with note_index := (w.fsm.note_index + 1) % U32 }
             buzzer0 := { note_end := false }
             tim2_cen := true
             tim3_cen := !(fp.is_zero note.1)
             calls := w.calls ++ note_calls fp w.fsm.buzzer_id w.fsm.player_speed note } := by
  obtain ⟨freq, duration⟩ := note
  simp [do_play_note, hm, hr, start_note_eq fp w freq duration hid]

/-- Effect of `do_melody_start` when note 0 can be read. -/
theorem do_melody_start_eq {F : Type} (fp : double_ops F) (w : buzzer_world F) (m : melody_t F)
    (note : F × Nat) (hm : w.fsm.p_melody = some m)
    (hr : read_note m 0 = some note) (hid : w.fsm.buzzer_id = BUZZER_0_ID) :
    do_melody_start fp w =
      some { fsm := { w.fsm with note_index := (w.fsm.note_index + 1) % U32 }
             buzzer0 := { note_end := false }
             tim2_cen := true
             tim3_cen := !(fp.is_zero note.1)
             calls := w.calls ++ note_calls fp w.fsm.buzzer_id w.fsm.player_speed note } := by
  obtain ⟨freq, duration⟩ := note
  simp [do_melody_start, hm, hr, start_note_eq fp w freq duration hid]

/-- C6: in `PLAY_NOTE` with `user_action = PAUSE` a step moves to `PAUSE_NOTE`, calls
`port_buzzer_stop` and leaves `note_index` unchanged; after `fsm_buzzer_set_action(PLAY)` the next
step moves to `PLAY_NOTE` with no port call and no other field change; and the step after that,
when `note_index < melody_length`, programs exactly the note at the retained `note_index`,
increments `note_index` by one and moves to `WAIT_NOTE`. -/
theorem buzzer_pause_then_resume {F : Type} (fp : double_ops F) (w : buzzer_world F)
    (hst : w.fsm.f.current_state = PLAY_NOTE) (hua : w.fsm.user_action = PAUSE) :
    fsm_buzzer_fire fp w =
      some ({ port_buzzer_stop w w.fsm.buzzer_id with
              fsm := { w.fsm with f := { current_state := PAUSE_NOTE } } }, some 2) ∧
    (port_buzzer_stop w w.fsm.buzzer_id).calls = w.calls ++ [buzzer_call.stop w.fsm.buzzer_id] ∧
    fsm_buzzer_fire fp (fsm_buzzer_set_action
        { port_buzzer_stop w w.fsm.buzzer_id with
          fsm := { w.fsm with f := { current_state := PAUSE_NOTE } } } PLAY) =
      some ({ port_buzzer_stop w w.fsm.buzzer_id with
              fsm := { w.fsm with f := { current_state := PLAY_NOTE }, user_action := PLAY } },
            some 7) ∧
    (∀ m : melody_t F, w.fsm.p_melody = some m → melody_wf m →
      w.fsm.note_index < m.melody_length → w.fsm.buzzer_id = BUZZER_0_ID →
      ∃ note,
        read_note m w.fsm.note_index = some note ∧
        fsm_buzzer_fire fp
            { port_buzzer_stop w w.fsm.buzzer_id with
              fsm := { w.fsm with f := { current_state := PLAY_NOTE }, user_action := PLAY } } =
          some ({ fsm := { w.fsm with f := { current_state := WAIT_NOTE }, user_action := PLAY,
                                      note_index := w.fsm.note_index + 1 }
                  buzzer0 := { note_end := false }
                  tim2_cen := true
                  tim3_cen := !(fp.is_zero note.1)
                  calls := (w.calls ++ [buzzer_call.stop w.fsm.buzzer_id]) ++
                    note_calls fp w.fsm.buzzer_id w.fsm.player_speed note }, some 5)) := by
  have hstop := port_buzzer_stop_calls w w.fsm.buzzer_id
  refine ⟨?_, hstop.1, ?_, ?_⟩
  · rw [fsm_buzzer_fire_play_note fp w hst, if_pos hua]
    simp [do_pause, buzzer_set_state, hstop.2.1]
  · rw [fsm_buzzer_fire_pause_note fp _ (by simp [fsm_buzzer_set_action, PLAY, STOP]),
      if_pos (by simp [fsm_buzzer_set_action, PLAY, STOP])]
    simp [fsm_buzzer_set_action, buzzer_set_state, PLAY, STOP]
  · intro m hm hwf hlt hid
    obtain ⟨note, hnote⟩ := read_note_of_wf m hwf _ hlt
    have hU : w.fsm.note_index + 1 < U32 := by
      have := hwf.2.2
      omega
    refine ⟨note, hnote, ?_⟩
    generalize hw3 : ({ port_buzzer_stop w w.fsm.buzzer_id with
        fsm := { w.fsm with f := { current_state := PLAY_NOTE }, user_action := PLAY } } :
        buzzer_world F) = w3
    have h3f : w3.fsm =
        { w.fsm with f := { current_state := PLAY_NOTE }, user_action := PLAY } := by
      rw [← hw3]
    have h3c : w3.calls = w.calls ++ [buzzer_call.stop w.fsm.buzzer_id] := by
      rw [← hw3]
      exact hstop.1
    have hm3 : w3.fsm.p_melody = some m := by rw [h3f]; exact hm
    have hn3 : w3.fsm.note_index = w.fsm.note_index := by rw [h3f]
    have hu3 : w3.fsm.user_action = PLAY := by rw [h3f]
    have hplay := do_play_note_eq fp w3 m note hm3 (by rw [hn3]; exact hnote)
      (by rw [h3f]; exact hid)
    rw [fsm_buzzer_fire_play_note fp w3 (by rw [h3f]),
      if_neg (by rw [hu3]; decide), if_neg (by rw [hu3]; decide), hm3]
    simp only
    rw [if_neg (by rw [hn3]; omega), if_pos ⟨by rw [hn3]; omega, hu3⟩, hplay]
    simp [buzzer_set_state, h3f, h3c, Nat.mod_eq_of_lt hU]

/-- Witness of C6: pausing before note 1 of `melody_example`, the resumed machine programs
note 1 and moves on to `note_index = 2`. -/
theorem buzzer_pause_then_resume_witness :
    ∃ note,
      read_note melody_example 1 = some note ∧
      fsm_buzzer_fire fixed_point_ops
          { port_buzzer_stop (buzzer_example PAUSE 1) BUZZER_0_ID with
            fsm := { (buzzer_example PAUSE 1).fsm with
                     f := { current_state := PLAY_NOTE }, user_action := PLAY } } =
        some ({ fsm := { (buzzer_example PAUSE 1).fsm with
                         f := { current_state := WAIT_NOTE }, user_action := PLAY,
                         note_index := 1 + 1 }
                buzzer0 := { note_end := false }
                tim2_cen := true
                tim3_cen := !(fixed_point_ops.is_zero note.1)
                calls := ([] ++ [buzzer_call.stop BUZZER_0_ID]) ++
                  note_calls fixed_point_ops BUZZER_0_ID 1000 note }, some 5) :=
  (buzzer_pause_then_resume fixed_point_ops (buzzer_example PAUSE 1) rfl rfl).2.2.2
    melody_example rfl (by decide) (by decide) rfl

/-- The claim C8 as stated fails: after two notes of the three-note `melody_example` the caller
sets the one-note `melody_short`; a melody is set and `note_index = 2` exceeds its
`melody_length = 1`. -/
theorem buzzer_note_index_exceeds_length :
    fsm_buzzer_init fixed_point_ops buzzer_fresh BUZZER_0_ID = some buzzer_initial ∧
    (buzzer_run_ops fixed_point_ops
        [buzzer_op.set_melody (some melody_example), buzzer_op.set_action PLAY,
         buzzer_op.fire, buzzer_op.tim2_irq, buzzer_op.fire, buzzer_op.fire,
         buzzer_op.set_melody (some melody_short)]
        buzzer_initial).map
      (fun w => (w.fsm.p_melody, w.fsm.note_index, decide (w.fsm.note_index ≤ 1))) =
      some (some melody_short, 2, false) := by
  decide

theorem fsm_buzzer_fire_other {F : Type} (fp : double_ops F) (w : buzzer_world F)
    (h0 : w.fsm.f.current_state ≠ WAIT_START) (h1 : w.fsm.f.current_state ≠ PLAY_NOTE)
    (h2 : w.fsm.f.current_state ≠ PAUSE_NOTE) (h3 : w.fsm.f.current_state ≠ WAIT_NOTE)
    (h4 : w.fsm.f.current_state ≠ WAIT_MELODY) :
    fsm_buzzer_fire fp w = some (w, none) := by
  simp only [WAIT_START, PLAY_NOTE, PAUSE_NOTE, WAIT_NOTE, WAIT_MELODY] at h0 h1 h2 h3 h4
  simp [fsm_buzzer_fire, fsm_fire, fsm_trans_buzzer, fsm_scan, WAIT_START, PLAY_NOTE,
    PAUSE_NOTE, WAIT_NOTE, WAIT_MELODY, h0, h1, h2, h3, h4]

/-- The machine fields after `_start_note` are those before it. -/
theorem start_note_fsm {F : Type} (fp : double_ops F) (w w1 : buzzer_world F) (freq : F)
    (duration : Nat) (h : _start_note fp w freq duration = some w1) : w1.fsm = w.fsm := by
  unfold _start_note port_buzzer_set_note_duration at h
  split_ifs at h with hid
  simp only [Option.some.injEq] at h
  subst h
  rfl

theorem do_melody_start_fsm {F : Type} (fp : double_ops F) (w w1 : buzzer_world F)
    (h : do_melody_start fp w = some w1) :
    w1.fsm = { w.fsm with note_index := (w.fsm.note_index + 1) % U32 } := by
  unfold do_melody_start at h
  split at h
  · simp at h
  · split at h
    · simp at h
    · split at h
      · simp at h
      · rename_i hs
        have := start_note_fsm fp _ _ _ _ hs
        simp only [Option.some.injEq] at h
        subst h
        simp [this]

theorem do_play_note_fsm {F : Type} (fp : double_ops F) (w w1 : buzzer_world F)
    (h : do_play_note fp w = some w1) :
    w1.fsm = { w.fsm with note_index := (w.fsm.note_index + 1) % U32 } := by
  unfold do_play_note at h
  split at h
  · simp at h
  · split at h
    · simp at h
    · split at h
      · simp at h
      · rename_i hs
        have := start_note_fsm fp _ _ _ _ hs
        simp only [Option.some.injEq] at h
        subst h
        simp [this]

/-- An engine step preserves `buzzer_inv`. -/
theorem buzzer_inv_fire {F : Type} (fp : double_ops F) (w w1 : buzzer_world F) (r : Option Nat)
    (hinv : buzzer_inv w) (hf : fsm_buzzer_fire fp w = some (w1, r)) : buzzer_inv w1 := by
  obtain ⟨hidle, hmel⟩ := hinv
  by_cases h0 : w.fsm.f.current_state = WAIT_START
  · rw [fsm_buzzer_fire_wait_start fp w h0] at hf
    split_ifs at hf with hc
    · cases hd : do_player_start fp w with
      | none => simp [hd] at hf
      | some wp =>
        simp only [hd, Option.map_some', Option.some.injEq, Prod.mk.injEq] at hf
        have hfsm := do_melody_start_fsm fp w wp hd
        obtain ⟨rfl, -⟩ := hf
        have hi := hidle (Or.inl h0)
        refine ⟨?_, ?_⟩
        · simp [buzzer_set_state, WAIT_NOTE, WAIT_START, WAIT_MELODY]
        · intro m hm
          simp only [buzzer_set_state, hfsm] at hm ⊢
          have := hmel m hm
          simp only [hi, U32]
          omega
    · simp only [Option.some.injEq, Prod.mk.injEq] at hf
      obtain ⟨rfl, -⟩ := hf
      exact ⟨hidle, hmel⟩
  by_cases h4 : w.fsm.f.current_state = WAIT_MELODY
  · rw [fsm_buzzer_fire_wait_melody fp w h4] at hf
    split_ifs at hf with hc
    · cases hd : do_melody_start fp w with
      | none => simp [hd] at hf
      | some wp =>
        simp only [hd, Option.map_some', Option.some.injEq, Prod.mk.injEq] at hf
        have hfsm := do_melody_start_fsm fp w wp hd
        obtain ⟨rfl, -⟩ := hf
        have hi := hidle (Or.inr h4)
        refine ⟨?_, ?_⟩
        · simp [buzzer_set_state, WAIT_NOTE, WAIT_START, WAIT_MELODY]
        · intro m hm
          simp only [buzzer_set_state, hfsm] at hm ⊢
          have := hmel m hm
          simp only [hi, U32]
          omega
    · simp only [Option.some.injEq, Prod.mk.injEq] at hf
      obtain ⟨rfl, -⟩ := hf
      exact ⟨hidle, hmel⟩
  by_cases h3 : w.fsm.f.current_state = WAIT_NOTE
  · rw [fsm_buzzer_fire_wait_note fp w h3] at hf
    have hs := (port_buzzer_stop_calls w w.fsm.buzzer_id).2.1
    split_ifs at hf with hc
    · simp only [Option.some.injEq, Prod.mk.injEq] at hf
      obtain ⟨rfl, -⟩ := hf
      refine ⟨?_, ?_⟩
      · simp [buzzer_set_state, PLAY_NOTE, WAIT_START, WAIT_MELODY]
      · intro m hm
        simp only [buzzer_set_state, hs] at hm ⊢
        exact hmel m hm
    · simp only [Option.some.injEq, Prod.mk.injEq] at hf
      obtain ⟨rfl, -⟩ := hf
      exact ⟨hidle, hmel⟩
  by_cases h2 : w.fsm.f.current_state = PAUSE_NOTE
  · rw [fsm_buzzer_fire_pause_note fp w h2] at hf
    split_ifs at hf with hc
    · simp only [Option.some.injEq, Prod.mk.injEq] at hf
      obtain ⟨rfl, -⟩ := hf
      refine ⟨?_, ?_⟩
      · simp [buzzer_set_state, PLAY_NOTE, WAIT_START, WAIT_MELODY]
      · intro m hm
        simp only [buzzer_set_state] at hm ⊢
        exact hmel m hm
    · simp only [Option.some.injEq, Prod.mk.injEq] at hf
      obtain ⟨rfl, -⟩ := hf
      exact ⟨hidle, hmel⟩
  by_cases h1 : w.fsm.f.current_state = PLAY_NOTE
  · rw [fsm_buzzer_fire_play_note fp w h1] at hf
    have hs := (port_buzzer_stop_calls w w.fsm.buzzer_id).2.1
    split_ifs at hf with hp hst
    · simp only [do_pause, Option.map_some', Option.some.injEq, Prod.mk.injEq] at hf
      obtain ⟨rfl, -⟩ := hf
      refine ⟨?_, ?_⟩
      · simp [buzzer_set_state, PAUSE_NOTE, WAIT_START, WAIT_MELODY]
      · intro m hm
        simp only [buzzer_set_state, hs] at hm ⊢
        exact hmel m hm
    · simp only [do_player_stop, Option.map_some', Option.some.injEq, Prod.mk.injEq] at hf
      obtain ⟨rfl, -⟩ := hf
      refine ⟨?_, ?_⟩
      · simp [buzzer_set_state]
      · intro m hm
        simp only [buzzer_set_state, hs] at hm ⊢
        exact ⟨Nat.zero_le _, (hmel m hm).2⟩
    · cases hpm : w.fsm.p_melody with
      | none => simp [hpm] at hf
      | some m0 =>
        simp only [hpm] at hf
        split_ifs at hf with he hn
        · simp only [do_end_melody, Option.map_some', Option.some.injEq, Prod.mk.injEq] at hf
          obtain ⟨rfl, -⟩ := hf
          refine ⟨?_, ?_⟩
          · simp [buzzer_set_state]
          · intro m hm
            simp only [buzzer_set_state, hs] at hm ⊢
            exact ⟨Nat.zero_le _, (hmel m hm).2⟩
        · cases hd : do_play_note fp w with
          | none => simp [hd] at hf
          | some wp =>
            simp only [hd, Option.map_some', Option.some.injEq, Prod.mk.injEq] at hf
            have hfsm := do_play_note_fsm fp w wp hd
            obtain ⟨rfl, -⟩ := hf
            refine ⟨?_, ?_⟩
            · simp [buzzer_set_state, WAIT_NOTE, WAIT_START, WAIT_MELODY]
            · intro m hm
              simp only [buzzer_set_state, hfsm] at hm ⊢
              rw [hpm] at hm
              simp only [Option.some.injEq] at hm
              subst hm
              have := (hmel m0 hpm).2
              have hle := Nat.mod_le (w.fsm.note_index + 1) U32
              exact ⟨by omega, this⟩
        · simp only [Option.some.injEq, Prod.mk.injEq] at hf
          obtain ⟨rfl, -⟩ := hf
          exact ⟨hidle, hmel⟩
  · rw [fsm_buzzer_fire_other fp w h0 h1 h2 h3 h4] at hf
    simp only [Option.some.injEq, Prod.mk.injEq] at hf
    obtain ⟨rfl, -⟩ := hf
    exact ⟨hidle, hmel⟩

/-- The state left by `fsm_buzzer_init` satisfies `buzzer_inv`. -/
theorem buzzer_inv_init {F : Type} (fp : double_ops F) (wa w0 : buzzer_world F) (buzzer_id : Nat)
    (h : fsm_buzzer_init fp wa buzzer_id = some w0) : buzzer_inv w0 := by
  unfold fsm_buzzer_init port_buzzer_init at h
  simp only at h
  split_ifs at h with hid
  simp only [Option.some.injEq] at h
  subst h
  exact ⟨fun _ => rfl, fun m hm => by simp at hm⟩

/-- Every operation allowed by `buzzer_op_ok` preserves `buzzer_inv`. -/
theorem buzzer_inv_apply {F : Type} (fp : double_ops F) (op : buzzer_op F)
    (w w1 : buzzer_world F) (hinv : buzzer_inv w) (hok : buzzer_op_ok op w = true)
    (h : buzzer_apply fp op w = some w1) : buzzer_inv w1 := by
  cases op with
  | fire =>
    simp only [buzzer_apply] at h
    cases hf : fsm_buzzer_fire fp w with
    | none => simp [hf] at h
    | some p =>
      obtain ⟨wf, r⟩ := p
      simp only [hf, Option.map_some', Option.some.injEq] at h
      subst h
      exact buzzer_inv_fire fp w wf r hinv hf
  | set_melody pm =>
    simp only [buzzer_apply, Option.some.injEq] at h
    subst h
    refine ⟨hinv.1, ?_⟩
    intro m hm
    simp only [fsm_buzzer_set_melody] at hm ⊢
    subst hm
    simpa [buzzer_op_ok, and_comm] using hok
  | set_action a =>
    simp only [buzzer_apply, Option.some.injEq] at h
    subst h
    unfold fsm_buzzer_set_action
    simp only
    split_ifs with hs
    · exact ⟨fun _ => rfl, fun m hm => ⟨Nat.zero_le _, (hinv.2 m hm).2⟩⟩
    · exact ⟨hinv.1, hinv.2⟩
  | set_speed sp =>
    simp only [buzzer_apply, Option.some.injEq] at h
    subst h
    exact ⟨hinv.1, hinv.2⟩
  | tim2_irq =>
    simp only [buzzer_apply, Option.some.injEq] at h
    subst h
    exact ⟨hinv.1, hinv.2⟩

/-- C8 (amended): in every state reached from `fsm_buzzer_init` through engine steps, timer
interrupts, `fsm_buzzer_set_action`, `fsm_buzzer_set_speed` and `fsm_buzzer_set_melody` calls
whose melody (when not `NULL`) has at least one note and at least `note_index` notes at the time
of the call, if a melody is set then `note_index <= melody_length` of that melody. -/
theorem buzzer_note_index_bounded {F : Type} (fp : double_ops F) (ops : List (buzzer_op F)) :
    ∀ (wa w0 w : buzzer_world F) (buzzer_id : Nat) (m : melody_t F),
      fsm_buzzer_init fp wa buzzer_id = some w0 →
      buzzer_ops_ok fp ops w0 = true →
      buzzer_run_ops fp ops w0 = some w →
      w.fsm.p_melody = some m →
      w.fsm.note_index ≤ m.melody_length := by
  intro wa w0 w buzzer_id m hinit hok hrun hm
  have hinv0 := buzzer_inv_init fp wa w0 buzzer_id hinit
  clear hinit
  suffices hinv : buzzer_inv w from (hinv.2 m hm).1
  clear hm
  induction ops generalizing w0 with
  | nil =>
    simp only [buzzer_run_ops, Option.some.injEq] at hrun
    subst hrun
    exact hinv0
  | cons op rest ih =>
    simp only [buzzer_run_ops] at hrun
    simp only [buzzer_ops_ok, Bool.and_eq_true] at hok
    cases ha : buzzer_apply fp op w0 with
    | none => simp [ha] at hrun
    | some w1 =>
      simp only [ha] at hrun hok
      exact ih w1 hok.2 hrun (buzzer_inv_apply fp op w0 w1 hinv0 hok.1 ha)

/-- Witness of C8 (amended): `melody_example` played up to its second note. -/
theorem buzzer_note_index_bounded_witness :
    (2 : Nat) ≤ melody_example.melody_length :=
  buzzer_note_index_bounded fixed_point_ops
    [buzzer_op.set_melody (some melody_example), buzzer_op.set_action PLAY,
     buzzer_op.fire, buzzer_op.tim2_irq, buzzer_op.fire, buzzer_op.fire]
    buzzer_fresh buzzer_initial
    { fsm := { f := { current_state := WAIT_NOTE }, p_melody := some melody_example,
               note_index := 2, buzzer_id := BUZZER_0_ID, user_action := PLAY,
               player_speed := 1000 },
      buzzer0 := { note_end := false }, tim2_cen := true, tim3_cen := true,
      calls := [buzzer_call.init 0, buzzer_call.set_note_duration 0 500,
                buzzer_call.set_note_frequency 0 440000, buzzer_call.stop 0,
                buzzer_call.set_note_duration 0 250, buzzer_call.set_note_frequency 0 494000] }
    BUZZER_0_ID melody_example (by decide) (by decide) (by decide) rfl

/-- The state left by `fsm_buzzer_init` on buzzer 0. -/
theorem fsm_buzzer_init_eq {F : Type} (fp : double_ops F) (wa w0 : buzzer_world F)
    (h : fsm_buzzer_init fp wa BUZZER_0_ID = some w0) :
    w0 = { fsm := { f := { current_state := WAIT_START }, p_melody := none, note_index := 0,
                    buzzer_id := BUZZER_0_ID, user_action := STOP, player_speed := fp.one }
           buzzer0 := wa.buzzer0
           tim2_cen := false
           tim3_cen := false
           calls := wa.calls ++ [buzzer_call.init BUZZER_0_ID] } := by
  simp [fsm_buzzer_init, port_buzzer_init, fsm_init, fsm_trans_buzzer, buzzer_set_state,
    BUZZER_0_ID, U32] at h
  rw [← h]
  rfl

/-- While a note sounds, the step taken after the timer interrupt stops the hardware and moves
to `PLAY_NOTE`. -/
theorem buzzer_step_sounding {F : Type} (fp : double_ops F) (m : melody_t F)
    (base : List (buzzer_call F)) (k : Nat) (note : F × Nat) (hr : read_note m k = some note) :
    buzzer_step_timeout fp (buzzer_sounding fp m base k note) =
      some (buzzer_between_notes fp m base (k + 1), some 1) := by
  unfold buzzer_step_timeout
  rw [if_pos (by rfl : (buzzer_sounding fp m base k note).fsm.f.current_state = WAIT_NOTE),
    fsm_buzzer_fire_wait_note fp _ rfl,
    if_pos (by rfl : port_buzzer_get_note_timeout (TIM2_IRQHandler (buzzer_sounding fp m base k note))
      (TIM2_IRQHandler (buzzer_sounding fp m base k note)).fsm.buzzer_id = true)]
  simp [buzzer_sounding, buzzer_between_notes, TIM2_IRQHandler, port_buzzer_stop,
    buzzer_set_state, melody_calls, hr, BUZZER_0_ID]

/-- Between two notes, with action `PLAY` and notes left, the step programs the next note. -/
theorem buzzer_step_between {F : Type} (fp : double_ops F) (m : melody_t F)
    (base : List (buzzer_call F)) (k : Nat) (note : F × Nat) (hwf : melody_wf m)
    (hk : k < m.melody_length) (hr : read_note m k = some note) :
    buzzer_step_timeout fp (buzzer_between_notes fp m base k) =
      some (buzzer_sounding fp m base k note, some 5) := by
  have hU : k + 1 < U32 := by
    have := hwf.2.2
    omega
  unfold buzzer_step_timeout
  rw [if_neg (by simp [buzzer_between_notes, PLAY_NOTE, WAIT_NOTE]),
    fsm_buzzer_fire_play_note fp _ rfl,
    if_neg (by simp [buzzer_between_notes, PLAY, PAUSE]),
    if_neg (by simp [buzzer_between_notes, PLAY, STOP])]
  have hplay := do_play_note_eq fp (buzzer_between_notes fp m base k) m note rfl hr rfl
  simp only [buzzer_between_notes] at hplay ⊢
  rw [if_neg (by omega)]
  simp [hk.le, hplay, buzzer_sounding, buzzer_set_state, Nat.mod_eq_of_lt hU]

/-- After the last note the step ends the melody. -/
theorem buzzer_step_last {F : Type} (fp : double_ops F) (m : melody_t F)
    (base : List (buzzer_call F)) :
    buzzer_step_timeout fp (buzzer_between_notes fp m base m.melody_length) =
      some (buzzer_melody_ended fp m base, some 4) := by
  unfold buzzer_step_timeout
  rw [if_neg (by simp [buzzer_between_notes, PLAY_NOTE, WAIT_NOTE]),
    fsm_buzzer_fire_play_note fp _ rfl,
    if_neg (by simp [buzzer_between_notes, PLAY, PAUSE]),
    if_neg (by simp [buzzer_between_notes, PLAY, STOP])]
  simp [buzzer_between_notes, buzzer_melody_ended, do_end_melody, port_buzzer_stop,
    buzzer_set_state, BUZZER_0_ID]

/-- The first step of a playback started right after `fsm_buzzer_init` programs note 0. -/
theorem buzzer_step_first {F : Type} (fp : double_ops F) (wa w_init : buzzer_world F)
    (m : melody_t F) (note : F × Nat)
    (hinit : fsm_buzzer_init fp wa BUZZER_0_ID = some w_init)
    (hr : read_note m 0 = some note) :
    buzzer_step_timeout fp
        (fsm_buzzer_set_action (fsm_buzzer_set_melody w_init (some m)) PLAY) =
      some (buzzer_sounding fp m w_init.calls 0 note, some 0) := by
  have h0 := fsm_buzzer_init_eq fp wa w_init hinit
  subst h0
  unfold buzzer_step_timeout
  rw [if_neg (by simp [fsm_buzzer_set_action, fsm_buzzer_set_melody, PLAY, STOP, WAIT_START,
      WAIT_NOTE]),
    fsm_buzzer_fire_wait_start fp _ (by simp [fsm_buzzer_set_action, fsm_buzzer_set_melody,
      PLAY, STOP]),
    if_pos (by simp [fsm_buzzer_set_action, fsm_buzzer_set_melody, PLAY, STOP])]
  have hstart := do_melody_start_eq fp
    (fsm_buzzer_set_action (fsm_buzzer_set_melody
      { fsm := { f := { current_state := WAIT_START }, p_melody := none, note_index := 0,
                 buzzer_id := BUZZER_0_ID, user_action := STOP, player_speed := fp.one }
        buzzer0 := wa.buzzer0
        tim2_cen := false
        tim3_cen := false
        calls := wa.calls ++ [buzzer_call.init BUZZER_0_ID] } (some m)) PLAY) m note
    (by simp [fsm_buzzer_set_action, fsm_buzzer_set_melody, PLAY, STOP]) hr
    (by simp [fsm_buzzer_set_action, fsm_buzzer_set_melody, PLAY, STOP])
  rw [do_player_start, hstart]
  simp [buzzer_sounding, buzzer_set_state, fsm_buzzer_set_action, fsm_buzzer_set_melody, PLAY,
    STOP, melody_calls, U32]

theorem buzzer_steps_timeout_succ {F : Type} (fp : double_ops F) (n : Nat)
    (w w1 : buzzer_world F) (h : buzzer_steps_timeout fp n w = some w1) :
    buzzer_steps_timeout fp (n + 1) w = (buzzer_step_timeout fp w1).map Prod.fst := by
  simp only [buzzer_steps_timeout, h]

/-- C2: for a melody of `N >= 1` notes, starting from `fsm_buzzer_init`, then `set_melody` and
`set_action(PLAY)`, with the note-timeout flag true at every step taken in `WAIT_NOTE`: after
`2k+1` steps (`k < N`) note `k` has just been programmed, the machine is in `WAIT_NOTE` with
`note_index = k+1` and the port has seen notes `0..k` once each and in order; after `2k` steps
(`1 <= k <= N`) it is in `PLAY_NOTE` with `note_index = k`; after exactly `2N+1` steps it is in
`WAIT_MELODY` with `note_index = 0`, `user_action = STOP` and `fsm_buzzer_check_activity` false. -/
theorem buzzer_plays_whole_melody {F : Type} (fp : double_ops F) (wa w_init : buzzer_world F)
    (m : melody_t F) (hN : 1 ≤ m.melody_length) (hwf : melody_wf m)
    (hinit : fsm_buzzer_init fp wa BUZZER_0_ID = some w_init) :
    (∀ k, k < m.melody_length → ∃ note, read_note m k = some note ∧
      buzzer_steps_timeout fp (2 * k + 1)
          (fsm_buzzer_set_action (fsm_buzzer_set_melody w_init (some m)) PLAY) =
        some (buzzer_sounding fp m w_init.calls k note)) ∧
    (∀ k, 1 ≤ k → k ≤ m.melody_length →
      buzzer_steps_timeout fp (2 * k)
          (fsm_buzzer_set_action (fsm_buzzer_set_melody w_init (some m)) PLAY) =
        some (buzzer_between_notes fp m w_init.calls k)) ∧
    buzzer_steps_timeout fp (2 * m.melody_length + 1)
        (fsm_buzzer_set_action (fsm_buzzer_set_melody w_init (some m)) PLAY) =
      some (buzzer_melody_ended fp m w_init.calls) ∧
    fsm_buzzer_check_activity (buzzer_melody_ended fp m w_init.calls) = false := by
  have hsound : ∀ k, k < m.melody_length → ∃ note, read_note m k = some note ∧
      buzzer_steps_timeout fp (2 * k + 1)
          (fsm_buzzer_set_action (fsm_buzzer_set_melody w_init (some m)) PLAY) =
        some (buzzer_sounding fp m w_init.calls k note) := by
    intro k
    induction k with
    | zero =>
      intro hk
      obtain ⟨note, hnote⟩ := read_note_of_wf m hwf 0 hk
      refine ⟨note, hnote, ?_⟩
      rw [buzzer_steps_timeout_succ fp (2 * 0) _ _ rfl,
        buzzer_step_first fp wa w_init m note hinit hnote]
      rfl
    | succ k ih =>
      intro hk
      obtain ⟨prev, hprev, hsteps⟩ := ih (by omega)
      obtain ⟨note, hnote⟩ := read_note_of_wf m hwf (k + 1) hk
      refine ⟨note, hnote, ?_⟩
      have h2 : 2 * (k + 1) + 1 = (2 * k + 1) + 1 + 1 := by omega
      have hmid := buzzer_steps_timeout_succ fp _ _ _ hsteps
      rw [buzzer_step_sounding fp m w_init.calls k prev hprev] at hmid
      rw [h2, buzzer_steps_timeout_succ fp _ _ _ hmid,
        buzzer_step_between fp m w_init.calls (k + 1) note hwf hk hnote]
      rfl
  have hbetween : ∀ k, 1 ≤ k → k ≤ m.melody_length →
      buzzer_steps_timeout fp (2 * k)
          (fsm_buzzer_set_action (fsm_buzzer_set_melody w_init (some m)) PLAY) =
        some (buzzer_between_notes fp m w_init.calls k) := by
    intro k hk1 hk2
    obtain ⟨j, rfl⟩ : ∃ j, k = j + 1 := ⟨k - 1, by omega⟩
    obtain ⟨prev, hprev, hsteps⟩ := hsound j (by omega)
    have h2 : 2 * (j + 1) = (2 * j + 1) + 1 := by omega
    rw [h2, buzzer_steps_timeout_succ fp _ _ _ hsteps,
      buzzer_step_sounding fp m w_init.calls j prev hprev]
    rfl
  refine ⟨hsound, hbetween, ?_, ?_⟩
  · rw [buzzer_steps_timeout_succ fp _ _ _ (hbetween m.melody_length hN (le_refl _)),
      buzzer_step_last fp m w_init.calls]
    rfl
  · simp [fsm_buzzer_check_activity, buzzer_melody_ended, STOP, PLAY]

/-- Witness of C2: the three notes of `melody_example` are played in seven steps. -/
theorem buzzer_plays_whole_melody_witness :
    buzzer_steps_timeout fixed_point_ops (2 * melody_example.melody_length + 1)
        (fsm_buzzer_set_action (fsm_buzzer_set_melody buzzer_initial (some melody_example))
          PLAY) =
      some (buzzer_melody_ended fixed_point_ops melody_example buzzer_initial.calls) :=
  (buzzer_plays_whole_melody fixed_point_ops buzzer_fresh buzzer_initial melody_example
    (by decide) (by decide) (by decide)).2.2.1

/-! ## Theorems: USART machine -/

theorem fsm_usart_fire_wait_data (w : usart_world) (h : w.fsm.f.current_state = WAIT_DATA) :
    fsm_usart_fire w =
      (match check_data_tx w with
       | none => none
       | some true => (do_set_data_tx w).map (fun w1 => (usart_set_state SEND_DATA w1, some 0))
       | some false =>
         match check_data_rx w with
         | none => none
         | some true => (do_get_data_rx w).map (fun w1 => (usart_set_state WAIT_DATA w1, some 1))
         | some false => some (w, none)) := by
  rcases w with ⟨⟨⟨st⟩, dr, ind, outd, id⟩, hw, rx, tx, tw, c1, c2⟩
  simp only at h
  subst h
  simp only [fsm_usart_fire, fsm_fire, fsm_trans_usart, fsm_scan, WAIT_DATA, SEND_DATA]
  cases htx : check_data_tx _ with
  | none => simp
  | some b =>
    cases b with
    | true =>
      simp
      cases do_set_data_tx _ <;> simp
    | false =>
      simp
      cases hrx : check_data_rx _ with
      | none => simp
      | some b2 =>
        cases b2 with
        | true =>
          simp
          cases do_get_data_rx _ <;> simp
        | false => simp

theorem fsm_usart_fire_send_data (w : usart_world) (h : w.fsm.f.current_state = SEND_DATA) :
    fsm_usart_fire w =
      (match check_tx_end w with
       | none => none
       | some true => (do_tx_end w).map (fun w1 => (usart_set_state WAIT_DATA w1, some 2))
       | some false => some (w, none)) := by
  rcases w with ⟨⟨⟨st⟩, dr, ind, outd, id⟩, hw, rx, tx, tw, c1, c2⟩
  simp only at h
  subst h
  simp only [fsm_usart_fire, fsm_fire, fsm_trans_usart, fsm_scan, WAIT_DATA, SEND_DATA]
  cases htx : check_tx_end _ with
  | none => simp
  | some b =>
    cases b with
    | true =>
      simp
      cases do_tx_end _ <;> simp
    | false => simp

/-- Writing the first free slot of a zero-padded buffer. -/
theorem set_append_replicate (pre : List Nat) (n c : Nat) :
    (pre ++ List.replicate (n + 1) 0).set pre.length c = pre ++ c :: List.replicate n 0 := by
  induction pre with
  | nil => simp [List.replicate_succ]
  | cons a pre ih => simp [ih]

/-- Storing one payload byte in a buffer that is not full. -/
theorem usart_receive_byte (w : usart_world) (pre : List Nat) (c n : Nat)
    (hc : c < 256 ∧ c ≠ END_CHAR_CONSTANT)
    (hbuf : w.usart0.input_buffer = pre ++ List.replicate (n + 1) 0)
    (hidx : w.usart0.i_idx = pre.length)
    (hlen : pre.length + (n + 1) = USART_INPUT_BUFFER_LENGTH) :
    usart_receive c w =
      some { w with
        dr_rx := c
        usart0 := { w.usart0 with
          input_buffer := (pre ++ [c]) ++ List.replicate n 0
          i_idx := pre.length + 1 } } := by
  obtain ⟨hc1, hc2⟩ := hc
  have hlt : pre.length < USART_INPUT_BUFFER_LENGTH := by omega
  have hlt10 : pre.length < 10 := by simpa [USART_INPUT_BUFFER_LENGTH] using hlt
  simp only [usart_receive, port_usart_store_data, usart_arr, if_true, Nat.mod_eq_of_lt hc1]
  rw [if_pos hc2, if_neg (by simp only [hidx]; omega)]
  simp only [array_write, hbuf, hidx]
  rw [if_pos (by simp), set_append_replicate]
  have : (pre.length + 1) % 256 = pre.length + 1 := by omega
  simp [this]

/-- Storing a whole payload that fits the free part of the buffer. -/
theorem usart_receive_payload (payload : List Nat) :
    ∀ (w : usart_world) (pre : List Nat),
      (∀ b ∈ payload, b < 256 ∧ b ≠ END_CHAR_CONSTANT) →
      pre.length + payload.length ≤ USART_INPUT_BUFFER_LENGTH →
      w.usart0.input_buffer =
        pre ++ List.replicate (USART_INPUT_BUFFER_LENGTH - pre.length) 0 →
      w.usart0.i_idx = pre.length →
      ∃ w1, usart_receive_all payload w = some w1 ∧
        w1.fsm = w.fsm ∧
        w1.usart0 = { w.usart0 with
          input_buffer := (pre ++ payload) ++
            List.replicate (USART_INPUT_BUFFER_LENGTH - pre.length - payload.length) 0
          i_idx := pre.length + payload.length } := by
  induction payload with
  | nil =>
    intro w pre _ _ hbuf hidx
    refine ⟨w, rfl, rfl, ?_⟩
    rcases w with ⟨fsm, ⟨ib, ii, rc, ob, oi, wc⟩, rx, tx, tw, c1, c2⟩
    simp only at hbuf hidx
    simp [hbuf, hidx]
  | cons c rest ih =>
    intro w pre hbytes hlen hbuf hidx
    simp only [List.length_cons] at hlen
    obtain ⟨n, hn⟩ : ∃ n, USART_INPUT_BUFFER_LENGTH - pre.length = n + 1 :=
      ⟨USART_INPUT_BUFFER_LENGTH - pre.length - 1, by omega⟩
    rw [hn] at hbuf
    have hstep := usart_receive_byte w pre c n (hbytes c (by simp)) hbuf hidx (by omega)
    have hn2 : USART_INPUT_BUFFER_LENGTH - (pre ++ [c]).length = n := by
      simp only [List.length_append, List.length_singleton]
      omega
    obtain ⟨w1, hw1, hfsm, hhw⟩ := ih
      { w with
        dr_rx := c
        usart0 := { w.usart0 with
          input_buffer := (pre ++ [c]) ++ List.replicate n 0
          i_idx := pre.length + 1 } } (pre ++ [c])
      (fun b hb => hbytes b (by simp [hb]))
      (by simp only [List.length_append, List.length_singleton]; omega)
      (by rw [hn2]) (by simp)
    refine ⟨w1, ?_, ?_, ?_⟩
    · simp only [usart_receive_all, hstep, hw1]
    · rw [hfsm]
    · rw [hhw]
      have e1 : USART_INPUT_BUFFER_LENGTH - (pre.length + 1) - rest.length =
          USART_INPUT_BUFFER_LENGTH - pre.length - (rest.length + 1) := by omega
      have e2 : pre.length + 1 + rest.length = pre.length + (rest.length + 1) := by omega
      simp [e1, e2]

theorem usart_receive_all_append (a b : List Nat) :
    ∀ w : usart_world, usart_receive_all (a ++ b) w =
      (match usart_receive_all a w with
       | none => none
       | some w1 => usart_receive_all b w1) := by
  induction a with
  | nil => intro w; rfl
  | cons c rest ih =>
    intro w
    simp only [List.cons_append, usart_receive_all]
    cases usart_receive c w with
    | none => rfl
    | some w1 => exact ih w1

/-- C4: `k <= 10` payload bytes, none equal to the end marker, delivered through
`port_usart_store_data` into a cleared input buffer with `i_idx = 0` and followed by the end
marker `0x0A`: the marker is not stored, `read_complete` becomes true and `i_idx` returns to 0;
the next step of the machine in `WAIT_DATA` with empty `out_data` fires the receive rule, stays
in `WAIT_DATA`, sets `data_received`, and `fsm_usart_get_in_data` returns the payload followed
by `10 - k` zero bytes; the hardware input buffer is cleared and `read_complete` is false
afterwards, so the receive guard is false and a further step is idle. -/
theorem usart_receive_message (w : usart_world) (payload : List Nat)
    (hk : payload.length ≤ USART_INPUT_BUFFER_LENGTH)
    (hbytes : ∀ b ∈ payload, b < 256 ∧ b ≠ END_CHAR_CONSTANT)
    (hst : w.fsm.f.current_state = WAIT_DATA) (hid : w.fsm.usart_id = USART_0_ID)
    (hout : w.fsm.out_data[0]? = some EMPTY_BUFFER_CONSTANT)
    (hin : w.fsm.in_data.length = USART_INPUT_BUFFER_LENGTH)
    (hbuf : w.usart0.input_buffer = List.replicate USART_INPUT_BUFFER_LENGTH 0)
    (hidx : w.usart0.i_idx = 0) :
    ∃ w1 w2,
      usart_receive_all (payload ++ [END_CHAR_CONSTANT]) w = some w1 ∧
      w1.fsm = w.fsm ∧
      w1.usart0.input_buffer =
        payload ++ List.replicate (USART_INPUT_BUFFER_LENGTH - payload.length) 0 ∧
      w1.usart0.read_complete = true ∧
      w1.usart0.i_idx = 0 ∧
      fsm_usart_fire w1 = some (w2, some 1) ∧
      w2.fsm.f.current_state = WAIT_DATA ∧
      w2.fsm.data_received = true ∧
      fsm_usart_get_in_data w2 =
        payload ++ List.replicate (USART_INPUT_BUFFER_LENGTH - payload.length) 0 ∧
      w2.usart0.input_buffer = List.replicate USART_INPUT_BUFFER_LENGTH 0 ∧
      w2.usart0.read_complete = false ∧
      check_data_rx w2 = some false ∧
      fsm_usart_fire w2 = some (w2, none) := by
  obtain ⟨wp, hwp, hfsm, hhw⟩ := usart_receive_payload payload w [] hbytes
    (by simpa using hk) (by simpa using hbuf) (by simpa using hidx)
  simp only [List.nil_append, List.length_nil, Nat.sub_zero, Nat.zero_add] at hhw
  rcases w with ⟨⟨⟨st⟩, dr, ind, outd, id⟩, ⟨ib, ii, rc, ob, oi, wc⟩, rx, tx, tw, c1, c2⟩
  rcases wp with ⟨fsmp, hwp0, rxp, txp, twp, c1p, c2p⟩
  simp only at hst hid hout hin hbuf hidx hfsm hhw
  subst hst hid hfsm hhw
  have hlen : (payload ++ List.replicate (USART_INPUT_BUFFER_LENGTH - payload.length) 0).length =
      USART_INPUT_BUFFER_LENGTH := by
    simp only [List.length_append, List.length_replicate]
    omega
  have hmemcpy : memcpy ind
      (payload ++ List.replicate (USART_INPUT_BUFFER_LENGTH - payload.length) 0)
      USART_INPUT_BUFFER_LENGTH =
      payload ++ List.replicate (USART_INPUT_BUFFER_LENGTH - payload.length) 0 := by
    unfold memcpy
    rw [List.take_of_length_le (le_of_eq hlen), List.drop_of_length_le (le_of_eq hin),
      List.append_nil]
  have hreset : _reset_buffer
      (payload ++ List.replicate (USART_INPUT_BUFFER_LENGTH - payload.length) 0)
      USART_INPUT_BUFFER_LENGTH = List.replicate USART_INPUT_BUFFER_LENGTH 0 := by
    unfold _reset_buffer memset
    rw [List.drop_of_length_le (le_of_eq hlen), List.append_nil]
    rfl
  have htx : check_data_tx
      { fsm := { f := { current_state := WAIT_DATA }, data_received := dr, in_data := ind,
                 out_data := outd, usart_id := USART_0_ID },
        usart0 := { input_buffer := payload ++
                      List.replicate (USART_INPUT_BUFFER_LENGTH - payload.length) 0,
                    i_idx := 0, read_complete := true, output_buffer := ob, o_idx := oi,
                    write_complete := wc },
        dr_rx := END_CHAR_CONSTANT, tx_line := txp, txe_wait := twp, cr1_txeie := c1p,
        cr1_rxneie := c2p } = some false := by
    simp [check_data_tx, hout]
  refine ⟨(
      { fsm := { f := { current_state := WAIT_DATA }, data_received := dr, in_data := ind,
                 out_data := outd, usart_id := USART_0_ID },
        usart0 := { input_buffer := payload ++
                      List.replicate (USART_INPUT_BUFFER_LENGTH - payload.length) 0,
                    i_idx := 0, read_complete := true, output_buffer := ob, o_idx := oi,
                    write_complete := wc },
        dr_rx := END_CHAR_CONSTANT, tx_line := txp, txe_wait := twp, cr1_txeie := c1p,
        cr1_rxneie := c2p } : usart_world), usart_set_state WAIT_DATA
      { fsm := { f := { current_state := WAIT_DATA }, data_received := true,
                 in_data := payload ++
                   List.replicate (USART_INPUT_BUFFER_LENGTH - payload.length) 0,
                 out_data := outd, usart_id := USART_0_ID },
        usart0 := { input_buffer := List.replicate USART_INPUT_BUFFER_LENGTH 0,
                    i_idx := 0, read_complete := false, output_buffer := ob, o_idx := oi,
                    write_complete := wc },
        dr_rx := END_CHAR_CONSTANT, tx_line := txp, txe_wait := twp, cr1_txeie := c1p,
        cr1_rxneie := c2p }, ?_, ?_, ?_, ?_, ?_, ?_, ?_, ?_, ?_, ?_, ?_, ?_, ?_⟩
  · rw [usart_receive_all_append, hwp]
    simp only [usart_receive_all, usart_receive, port_usart_store_data, usart_arr,
      END_CHAR_CONSTANT, USART_0_ID]
    simp only [if_true, Nat.reduceMod, ne_eq, not_true_eq_false, if_false]
  · rfl
  · rfl
  · rfl
  · rfl
  · rw [fsm_usart_fire_wait_data _ rfl, htx]
    simp only [check_data_rx, port_usart_rx_done, usart_arr, if_true, Option.map_some',
      do_get_data_rx, port_usart_get_from_input_buffer, port_usart_reset_input_buffer,
      hmemcpy, hreset]
  · rfl
  · rfl
  · simp only [fsm_usart_get_in_data, usart_set_state]
    rw [List.take_of_length_le (le_of_eq hlen)]
  · rfl
  · rfl
  · simp [check_data_rx, port_usart_rx_done, usart_arr, usart_set_state]
  · rw [fsm_usart_fire_wait_data _ rfl]
    have htx2 : check_data_tx (usart_set_state WAIT_DATA
      { fsm := { f := { current_state := WAIT_DATA }, data_received := true,
                 in_data := payload ++
                   List.replicate (USART_INPUT_BUFFER_LENGTH - payload.length) 0,
                 out_data := outd, usart_id := USART_0_ID },
        usart0 := { input_buffer := List.replicate USART_INPUT_BUFFER_LENGTH 0,
                    i_idx := 0, read_complete := false, output_buffer := ob, o_idx := oi,
                    write_complete := wc },
        dr_rx := END_CHAR_CONSTANT, tx_line := txp, txe_wait := twp, cr1_txeie := c1p,
        cr1_rxneie := c2p }) = some false := by
      simp [check_data_tx, usart_set_state, hout]
    rw [htx2]
    simp [check_data_rx, port_usart_rx_done, usart_arr, usart_set_state]

/-- Witness of C4: the three bytes "abc" and the end marker received by `usart_example`. -/
theorem usart_receive_message_witness :
    ∃ w1 w2,
      usart_receive_all ([97, 98, 99] ++ [END_CHAR_CONSTANT]) usart_example = some w1 ∧
      w1.fsm = usart_example.fsm ∧
      w1.usart0.input_buffer =
        [97, 98, 99] ++ List.replicate (USART_INPUT_BUFFER_LENGTH - [97, 98, 99].length) 0 ∧
      w1.usart0.read_complete = true ∧
      w1.usart0.i_idx = 0 ∧
      fsm_usart_fire w1 = some (w2, some 1) ∧
      w2.fsm.f.current_state = WAIT_DATA ∧
      w2.fsm.data_received = true ∧
      fsm_usart_get_in_data w2 =
        [97, 98, 99] ++ List.replicate (USART_INPUT_BUFFER_LENGTH - [97, 98, 99].length) 0 ∧
      w2.usart0.input_buffer = List.replicate USART_INPUT_BUFFER_LENGTH 0 ∧
      w2.usart0.read_complete = false ∧
      check_data_rx w2 = some false ∧
      fsm_usart_fire w2 = some (w2, none) :=
  usart_receive_message usart_example [97, 98, 99] (by decide) (by decide) rfl rfl rfl rfl rfl rfl

/-- A call of `port_usart_write_data` on a byte that is neither the end marker nor the empty
byte, before the last slot: the byte is sent and `o_idx` advances. -/
theorem port_usart_write_data_mid (v : usart_world) (c : Nat)
    (hc : v.usart0.output_buffer[v.usart0.o_idx]? = some c)
    (h0 : c ≠ EMPTY_BUFFER_CONSTANT) (h10 : c ≠ END_CHAR_CONSTANT)
    (hi : v.usart0.o_idx < USART_OUTPUT_BUFFER_LENGTH - 1) :
    port_usart_write_data v USART_0_ID =
      some { v with tx_line := v.tx_line ++ [c]
                    usart0 := { v.usart0 with o_idx := v.usart0.o_idx + 1 } } := by
  have hlt : v.usart0.o_idx < 99 := by simpa [USART_OUTPUT_BUFFER_LENGTH] using hi
  have hmod : (v.usart0.o_idx + 1) % 256 = v.usart0.o_idx + 1 := by omega
  simp only [port_usart_write_data, usart_arr, if_true, hc]
  rw [if_neg (by
    rintro (h | h)
    · omega
    · exact h10 h), if_pos h0, hmod]

/-- A call of `port_usart_write_data` on the end marker or on the last slot: the byte is sent,
the transmit interrupt is disabled, `o_idx` returns to 0 and `write_complete` is set. -/
theorem port_usart_write_data_end (v : usart_world) (c : Nat)
    (hc : v.usart0.output_buffer[v.usart0.o_idx]? = some c)
    (hend : v.usart0.o_idx = USART_OUTPUT_BUFFER_LENGTH - 1 ∨ c = END_CHAR_CONSTANT) :
    port_usart_write_data v USART_0_ID =
      some { v with tx_line := v.tx_line ++ [c]
                    cr1_txeie := false
                    usart0 := { v.usart0 with o_idx := 0, write_complete := true } } := by
  simp only [port_usart_write_data, usart_arr, if_true, hc]
  rw [if_pos hend]
  rfl

/-- Transmit interrupts over a stretch of the output buffer that holds neither an end marker
nor an empty byte and stops before the last slot: the bytes are sent in order. -/
theorem usart_tx_irqs_progress (B : List Nat) (n : Nat)
    (hn : n ≤ USART_OUTPUT_BUFFER_LENGTH - 1)
    (hmid : ∀ i, i < n → ∃ c, B[i]? = some c ∧ c ≠ EMPTY_BUFFER_CONSTANT ∧
      c ≠ END_CHAR_CONSTANT) (j : Nat) :
    ∀ (v : usart_world) (i : Nat), v.usart0.output_buffer = B → v.usart0.o_idx = i →
      i + j ≤ n →
      usart_tx_irqs j v =
        some { v with tx_line := v.tx_line ++ (B.drop i).take j
                      usart0 := { v.usart0 with o_idx := i + j } } := by
  induction j with
  | zero =>
    intro v i hB hi _
    subst hi
    simp [usart_tx_irqs]
  | succ j ih =>
    intro v i hB hi hij
    obtain ⟨c, hc, h0, h10⟩ := hmid i (by omega)
    have hstep := port_usart_write_data_mid v c (by rw [hB, hi]; exact hc) h0 h10
      (by rw [hi]; omega)
    have hdrop : B.drop i = c :: B.drop (i + 1) := by
      obtain ⟨hlt, hget⟩ := List.getElem?_eq_some.mp hc
      rw [List.drop_eq_getElem_cons hlt, hget]
    simp only [usart_tx_irqs, hstep]
    rw [ih _ (i + 1) (by simpa using hB) (by simp [hi]) (by omega)]
    simp [hdrop, hi, Nat.add_assoc, Nat.add_comm 1 j]

theorem usart_tx_irqs_succ_last (n : Nat) :
    ∀ (v v1 : usart_world), usart_tx_irqs n v = some v1 →
      usart_tx_irqs (n + 1) v = port_usart_write_data v1 USART_0_ID := by
  induction n with
  | zero =>
    intro v v1 h
    simp only [usart_tx_irqs, Option.some.injEq] at h
    subst h
    simp only [usart_tx_irqs]
    cases port_usart_write_data v USART_0_ID <;> rfl
  | succ n ih =>
    intro v v1 h
    rw [usart_tx_irqs] at h
    rw [usart_tx_irqs]
    cases hw : port_usart_write_data v USART_0_ID with
    | none => simp [hw] at h
    | some va =>
      simp only [hw] at h ⊢
      exact ih va v1 h

/-- The wait loop of `do_set_data_tx` ends with the transmit register empty. -/
theorem wait_txr_status_eq (fuel : Nat) :
    ∀ w : usart_world, w.fsm.usart_id = USART_0_ID → w.txe_wait ≤ fuel →
      wait_txr_status fuel w = some { w with txe_wait := 0 } := by
  induction fuel with
  | zero =>
    intro w hid hle
    have h0 : w.txe_wait = 0 := by omega
    simp [wait_txr_status, port_usart_get_txr_status, usart_arr, hid, h0]
  | succ fuel ih =>
    intro w hid hle
    by_cases h0 : w.txe_wait = 0
    · simp [wait_txr_status, port_usart_get_txr_status, usart_arr, hid, h0]
    · simp only [wait_txr_status, port_usart_get_txr_status, usart_arr, hid, if_true,
        Option.map_some', h0, decide_False]
      rw [ih _ (by simpa using hid) (by simp only; omega)]

/-- The action `do_set_data_tx` on an idle transmitter: the output buffer receives the 100
bytes of `out_data`, the first byte is written and the transmit interrupt is enabled. -/
theorem do_set_data_tx_eq (w : usart_world) (hid : w.fsm.usart_id = USART_0_ID)
    (hout : w.fsm.out_data.length = USART_OUTPUT_BUFFER_LENGTH)
    (hob : w.usart0.output_buffer.length = USART_OUTPUT_BUFFER_LENGTH) :
    do_set_data_tx w =
      (port_usart_write_data
        { w with
          usart0 := { w.usart0 with output_buffer := w.fsm.out_data, write_complete := false }
          txe_wait := 0 } USART_0_ID).map
        (fun w4 => port_usart_enable_tx_interrupt w4 w4.fsm.usart_id) := by
  have hreset : _reset_buffer w.usart0.output_buffer USART_OUTPUT_BUFFER_LENGTH =
      List.replicate USART_OUTPUT_BUFFER_LENGTH 0 := by
    unfold _reset_buffer memset
    rw [List.drop_of_length_le (le_of_eq hob), List.append_nil]
    rfl
  have hcopy : memcpy (_reset_buffer (List.replicate USART_OUTPUT_BUFFER_LENGTH 0)
      USART_OUTPUT_BUFFER_LENGTH) w.fsm.out_data USART_OUTPUT_BUFFER_LENGTH = w.fsm.out_data := by
    unfold memcpy _reset_buffer memset
    rw [List.take_of_length_le (le_of_eq hout), List.drop_of_length_le (by simp),
      List.append_nil]
  have hw := wait_txr_status_eq w.txe_wait
    { w with usart0 := { w.usart0 with output_buffer := w.fsm.out_data, write_complete := false } }
    hid (le_refl _)
  simp only [do_set_data_tx, port_usart_reset_output_buffer, port_usart_copy_to_output_buffer,
    usart_arr, hid, if_true, Option.map_some', hreset, hcopy]
  simp only at hw
  rw [hw]
  simp only [hid]
  cases port_usart_write_data _ USART_0_ID <;> rfl

/-- The step that ends a transmission: from `SEND_DATA` with `write_complete` set, the machine
goes back to `WAIT_DATA` with `out_data` cleared. -/
theorem usart_tx_end_step (v : usart_world) (hst : v.fsm.f.current_state = SEND_DATA)
    (hid : v.fsm.usart_id = USART_0_ID) (hwc : v.usart0.write_complete = true)
    (hout : v.fsm.out_data.length = USART_OUTPUT_BUFFER_LENGTH) :
    ∃ v4, fsm_usart_fire v = some (v4, some 2) ∧
      v4.fsm.f.current_state = WAIT_DATA ∧
      v4.fsm.out_data = List.replicate USART_OUTPUT_BUFFER_LENGTH 0 ∧
      fsm_usart_check_activity v4 = v.fsm.data_received ∧
      check_data_tx v4 = some false ∧
      v4.tx_line = v.tx_line ∧
      v4.cr1_txeie = v.cr1_txeie := by
  have hset : memset v.fsm.out_data EMPTY_BUFFER_CONSTANT USART_OUTPUT_BUFFER_LENGTH =
      List.replicate USART_OUTPUT_BUFFER_LENGTH 0 := by
    unfold memset
    rw [List.drop_of_length_le (le_of_eq hout), List.append_nil]
    rfl
  refine ⟨usart_set_state WAIT_DATA
    { v with
      fsm := { v.fsm with out_data := List.replicate USART_OUTPUT_BUFFER_LENGTH 0 }
      usart0 := { v.usart0 with
        output_buffer := _reset_buffer v.usart0.output_buffer USART_OUTPUT_BUFFER_LENGTH
        write_complete := false } }, ?_, ?_, ?_, ?_, ?_, ?_, ?_⟩
  · rw [fsm_usart_fire_send_data v hst]
    simp only [check_tx_end, port_usart_tx_done, usart_arr, hid, if_true, Option.map_some', hwc,
      do_tx_end, port_usart_reset_output_buffer, hset]
  · rfl
  · rfl
  · simp [fsm_usart_check_activity, usart_set_state, WAIT_DATA, SEND_DATA]
  · simp [check_data_tx, usart_set_state, USART_OUTPUT_BUFFER_LENGTH, EMPTY_BUFFER_CONSTANT,
      List.replicate_succ]
  · rfl
  · rfl

/-- The contents of the first 100 bytes of a caller buffer that holds a payload without empty
byte and without end marker, followed by the end marker: up to index `min N 99` (excluded) the
bytes are payload bytes, and at that index stands the end marker or the last slot. -/
theorem usart_message_bytes (payload pad : List Nat)
    (hN : payload.length ≤ USART_OUTPUT_BUFFER_LENGTH)
    (hbytes : ∀ b ∈ payload, b ≠ EMPTY_BUFFER_CONSTANT ∧ b ≠ END_CHAR_CONSTANT) :
    (∀ i, i < min payload.length 99 →
      ∃ c, ((payload ++ [END_CHAR_CONSTANT] ++ pad).take USART_OUTPUT_BUFFER_LENGTH)[i]? = some c ∧
        c ≠ EMPTY_BUFFER_CONSTANT ∧ c ≠ END_CHAR_CONSTANT) ∧
    (∃ c, ((payload ++ [END_CHAR_CONSTANT] ++ pad).take
        USART_OUTPUT_BUFFER_LENGTH)[min payload.length 99]? = some c ∧
      (min payload.length 99 = USART_OUTPUT_BUFFER_LENGTH - 1 ∨ c = END_CHAR_CONSTANT)) ∧
    ((payload ++ [END_CHAR_CONSTANT] ++ pad).take USART_OUTPUT_BUFFER_LENGTH).take
        (min payload.length 99 + 1) =
      (payload ++ [END_CHAR_CONSTANT]).take USART_OUTPUT_BUFFER_LENGTH := by
  simp only [USART_OUTPUT_BUFFER_LENGTH] at hN ⊢
  refine ⟨?_, ?_, ?_⟩
  · intro i hi
    have hiN : i < payload.length := by omega
    refine ⟨payload[i], ?_, hbytes _ (List.getElem_mem hiN)⟩
    rw [List.getElem?_take_of_lt (by omega), List.append_assoc,
      List.getElem?_append_left hiN, List.getElem?_eq_getElem hiN]
  · by_cases hlt : payload.length < 100
    · have hmin : min payload.length 99 = payload.length := by omega
      refine ⟨END_CHAR_CONSTANT, ?_, Or.inr rfl⟩
      rw [hmin, List.getElem?_take_of_lt hlt, List.append_assoc,
        List.getElem?_append_right (le_refl _)]
      simp
    · have hmin : min payload.length 99 = 99 := by omega
      have h99 : 99 < payload.length := by omega
      refine ⟨payload[99], ?_, Or.inl (by omega)⟩
      rw [hmin, List.getElem?_take_of_lt (by omega), List.append_assoc,
        List.getElem?_append_left h99, List.getElem?_eq_getElem h99]
  · have hle : min (min payload.length 99 + 1) 100 ≤ (payload ++ [END_CHAR_CONSTANT]).length := by
      simp only [List.length_append, List.length_singleton]
      omega
    rw [List.take_take, List.take_append_of_le_length hle]
    by_cases hlt : payload.length < 100
    · have hmin : min (min payload.length 99 + 1) 100 = payload.length + 1 := by omega
      rw [hmin, List.take_of_length_le (by simp), List.take_of_length_le (by simp; omega)]
    · have hmin : min (min payload.length 99 + 1) 100 = 100 := by omega
      rw [hmin]

/-- The handler entered with both status flags clear changes nothing. -/
theorem USART3_IRQHandler_flags_clear (w : usart_world) :
    USART3_IRQHandler false false w = some w := by
  simp [USART3_IRQHandler]

/-- The handler entered with TXE set and RXNE clear, while the transmit interrupt is enabled,
calls `port_usart_write_data(USART_0_ID)`. -/
theorem USART3_IRQHandler_txe (w : usart_world) (h : w.cr1_txeie = true) :
    USART3_IRQHandler false true w = port_usart_write_data w USART_0_ID := by
  simp [USART3_IRQHandler, h]

/-- The handler entered with RXNE clear while the transmit interrupt is disabled changes
nothing, whatever TXE is. -/
theorem USART3_IRQHandler_txeie_clear (txe : Bool) (w : usart_world)
    (h : w.cr1_txeie = false) :
    USART3_IRQHandler false txe w = some w := by
  simp [USART3_IRQHandler, h]

/-- While the transmit interrupt is disabled, no sequence of entries of the handler without a
received byte changes anything. -/
theorem usart_irq_run_txeie_clear (es : List Bool) :
    ∀ (w : usart_world), w.cr1_txeie = false → usart_irq_run es w = some w := by
  induction es with
  | nil =>
    intro w _
    rfl
  | cons e rest ih =>
    intro w h
    simp only [usart_irq_run, USART3_IRQHandler_txeie_clear e w h]
    exact ih w h

/-- Entries of the handler over a stretch of the output buffer that holds neither an end marker
nor an empty byte and stops before the last slot, with the transmit interrupt enabled: each
entry that finds TXE set sends the next byte, the other entries change nothing. -/
theorem usart_irq_run_progress (B : List Nat) (n : Nat)
    (hn : n ≤ USART_OUTPUT_BUFFER_LENGTH - 1)
    (hmid : ∀ i, i < n → ∃ c, B[i]? = some c ∧ c ≠ EMPTY_BUFFER_CONSTANT ∧
      c ≠ END_CHAR_CONSTANT) (es : List Bool) :
    ∀ (v : usart_world) (i : Nat), v.usart0.output_buffer = B → v.usart0.o_idx = i →
      v.cr1_txeie = true → i + es.count true ≤ n →
      usart_irq_run es v =
        some { v with tx_line := v.tx_line ++ (B.drop i).take (es.count true)
                      usart0 := { v.usart0 with o_idx := i + es.count true } } := by
  induction es with
  | nil =>
    intro v i hB hi _ _
    subst hi
    simp [usart_irq_run]
  | cons e rest ih =>
    intro v i hB hi hie hij
    cases e with
    | false =>
      have hcount : (false :: rest).count true = rest.count true := by simp
      rw [hcount] at hij ⊢
      simp only [usart_irq_run, USART3_IRQHandler_flags_clear]
      exact ih v i hB hi hie hij
    | true =>
      have hcount : (true :: rest).count true = rest.count true + 1 := by simp
      rw [hcount] at hij ⊢
      generalize rest.count true = k at ih hij ⊢
      obtain ⟨c, hc, h0, h10⟩ := hmid i (by omega)
      have hstep := port_usart_write_data_mid v c (by rw [hB, hi]; exact hc) h0 h10
        (by rw [hi]; omega)
      have hdrop : B.drop i = c :: B.drop (i + 1) := by
        obtain ⟨hlt, hget⟩ := List.getElem?_eq_some.mp hc
        rw [List.drop_eq_getElem_cons hlt, hget]
      simp only [usart_irq_run, USART3_IRQHandler_txe v hie, hstep]
      rw [ih _ (i + 1) (by simpa using hB) (by simp [hi]) (by simpa using hie) (by omega)]
      simp [hdrop, hi, Nat.add_assoc, Nat.add_comm 1 k]

/-- Entries of the handler up to the end of a transmission, with the transmit interrupt
enabled: as soon as enough entries have found TXE set, the bytes up to the end marker (or to the
last slot) are sent, `write_complete` is set and the transmit interrupt is disabled; the entries
that follow change nothing. -/
theorem usart_irq_run_complete (B : List Nat) (n : Nat)
    (hn : n ≤ USART_OUTPUT_BUFFER_LENGTH - 1)
    (hmid : ∀ i, i < n → ∃ c, B[i]? = some c ∧ c ≠ EMPTY_BUFFER_CONSTANT ∧
      c ≠ END_CHAR_CONSTANT)
    (hend : ∃ c, B[n]? = some c ∧ (n = USART_OUTPUT_BUFFER_LENGTH - 1 ∨ c = END_CHAR_CONSTANT))
    (es : List Bool) :
    ∀ (v : usart_world) (i : Nat), v.usart0.output_buffer = B → v.usart0.o_idx = i →
      v.cr1_txeie = true → i ≤ n → n - i + 1 ≤ es.count true →
      usart_irq_run es v =
        some { v with tx_line := v.tx_line ++ (B.drop i).take (n - i + 1)
                      cr1_txeie := false
                      usart0 := { v.usart0 with o_idx := 0, write_complete := true } } := by
  obtain ⟨c, hc, hcend⟩ := hend
  induction es with
  | nil =>
    intro v i _ _ _ _ h
    simp at h
  | cons e rest ih =>
    intro v i hB hi hie hin hcnt
    cases e with
    | false =>
      have hcount : (false :: rest).count true = rest.count true := by simp
      rw [hcount] at hcnt
      simp only [usart_irq_run, USART3_IRQHandler_flags_clear]
      exact ih v i hB hi hie hin hcnt
    | true =>
      have hcount : (true :: rest).count true = rest.count true + 1 := by simp
      rw [hcount] at hcnt
      simp only [usart_irq_run, USART3_IRQHandler_txe v hie]
      by_cases hlt : i < n
      · obtain ⟨c1, hc1, h0, h10⟩ := hmid i hlt
        have hstep := port_usart_write_data_mid v c1 (by rw [hB, hi]; exact hc1) h0 h10
          (by rw [hi]; omega)
        have hdrop : B.drop i = c1 :: B.drop (i + 1) := by
          obtain ⟨hlt1, hget⟩ := List.getElem?_eq_some.mp hc1
          rw [List.drop_eq_getElem_cons hlt1, hget]
        simp only [hstep]
        rw [ih _ (i + 1) (by simpa using hB) (by simp [hi]) (by simpa using hie) (by omega)
          (by omega)]
        have hk : n - i + 1 = (n - (i + 1) + 1) + 1 := by omega
        rw [hk, hdrop]
        simp
      · have hin1 : i = n := by omega
        have hstep := port_usart_write_data_end v c (by rw [hB, hi, hin1]; exact hc)
          (by rw [hi, hin1]; exact hcend)
        have hdrop : B.drop i = c :: B.drop (i + 1) := by
          rw [← hin1] at hc
          obtain ⟨hlt1, hget⟩ := List.getElem?_eq_some.mp hc
          rw [List.drop_eq_getElem_cons hlt1, hget]
        have hk : n - i + 1 = 1 := by omega
        simp only [hstep]
        rw [usart_irq_run_txeie_clear rest _ rfl, hk, hdrop]
        rfl

/-- A whole transmission on an idle transmitter whose output buffer holds `n >= 1` bytes that
are neither empty nor the end marker, followed at index `n` by the end marker or by the last
slot: the write of `do_set_data_tx` sends the first byte and leaves the transmit interrupt
enabled; of the entries of the handler that follow, each one that finds TXE set sends the next
byte; `write_complete` is set by the `n`-th of them and not before, that entry disables the
transmit interrupt, and every longer sequence of entries ends in the same world. -/
theorem usart_transmission (B : List Nat) (n : Nat) (hn1 : 1 ≤ n)
    (hn : n ≤ USART_OUTPUT_BUFFER_LENGTH - 1)
    (hmid : ∀ i, i < n → ∃ c, B[i]? = some c ∧ c ≠ EMPTY_BUFFER_CONSTANT ∧
      c ≠ END_CHAR_CONSTANT)
    (hend : ∃ c, B[n]? = some c ∧ (n = USART_OUTPUT_BUFFER_LENGTH - 1 ∨ c = END_CHAR_CONSTANT))
    (v : usart_world) (hB : v.usart0.output_buffer = B) (hi : v.usart0.o_idx = 0)
    (hwc : v.usart0.write_complete = false) :
    ∃ v2 v3,
      (port_usart_write_data v USART_0_ID).map
          (fun w4 => usart_set_state SEND_DATA
            (port_usart_enable_tx_interrupt w4 w4.fsm.usart_id)) = some v2 ∧
      v2.fsm = { v.fsm with f := { current_state := SEND_DATA } } ∧
      v2.cr1_txeie = true ∧
      (∀ es : List Bool, es.count true < n → ∃ vj, usart_irq_run es v2 = some vj ∧
        vj.usart0.write_complete = false ∧
        vj.tx_line = v.tx_line ++ B.take (es.count true + 1) ∧
        vj.fsm = v2.fsm) ∧
      (∀ es : List Bool, n ≤ es.count true → usart_irq_run es v2 = some v3) ∧
      v3.tx_line = v.tx_line ++ B.take (n + 1) ∧
      v3.usart0.write_complete = true ∧
      v3.cr1_txeie = false ∧
      v3.fsm = v2.fsm := by
  obtain ⟨c0, hc0, h0, h10⟩ := hmid 0 (by omega)
  have hw := port_usart_write_data_mid v c0 (by rw [hB, hi]; exact hc0) h0 h10
    (by rw [hi]; simp [USART_OUTPUT_BUFFER_LENGTH])
  have hB0 : B = c0 :: B.drop 1 := by
    obtain ⟨hlt, hget⟩ := List.getElem?_eq_some.mp hc0
    rw [← hget, ← List.drop_eq_getElem_cons hlt, List.drop_zero]
  have htake : ∀ j, (v.tx_line ++ [c0]) ++ (B.drop 1).take j = v.tx_line ++ B.take (j + 1) := by
    intro j
    conv_rhs => rw [hB0]
    simp
  have hprog : ∀ es : List Bool, 1 + es.count true ≤ n →
      usart_irq_run es
          { fsm := { v.fsm with f := { current_state := SEND_DATA } }
            usart0 := { v.usart0 with o_idx := v.usart0.o_idx + 1 }
            dr_rx := v.dr_rx
            tx_line := v.tx_line ++ [c0]
            txe_wait := v.txe_wait
            cr1_txeie := true
            cr1_rxneie := v.cr1_rxneie } =
        some { fsm := { v.fsm with f := { current_state := SEND_DATA } }
               usart0 := { v.usart0 with o_idx := 1 + es.count true }
               dr_rx := v.dr_rx
               tx_line := (v.tx_line ++ [c0]) ++ (B.drop 1).take (es.count true)
               txe_wait := v.txe_wait
               cr1_txeie := true
               cr1_rxneie := v.cr1_rxneie } := by
    intro es hes
    exact usart_irq_run_progress B n hn hmid es
      { fsm := { v.fsm with f := { current_state := SEND_DATA } }
        usart0 := { v.usart0 with o_idx := v.usart0.o_idx + 1 }
        dr_rx := v.dr_rx
        tx_line := v.tx_line ++ [c0]
        txe_wait := v.txe_wait
        cr1_txeie := true
        cr1_rxneie := v.cr1_rxneie } 1 hB
      (show v.usart0.o_idx + 1 = 1 by rw [hi]) rfl hes
  have hcomp : ∀ es : List Bool, n ≤ es.count true →
      usart_irq_run es
          { fsm := { v.fsm with f := { current_state := SEND_DATA } }
            usart0 := { v.usart0 with o_idx := v.usart0.o_idx + 1 }
            dr_rx := v.dr_rx
            tx_line := v.tx_line ++ [c0]
            txe_wait := v.txe_wait
            cr1_txeie := true
            cr1_rxneie := v.cr1_rxneie } =
        some { fsm := { v.fsm with f := { current_state := SEND_DATA } }
               usart0 := { v.usart0 with o_idx := 0, write_complete := true }
               dr_rx := v.dr_rx
               tx_line := (v.tx_line ++ [c0]) ++ (B.drop 1).take n
               txe_wait := v.txe_wait
               cr1_txeie := false
               cr1_rxneie := v.cr1_rxneie } := by
    intro es hes
    have hk : n - 1 + 1 = n := by omega
    have h := usart_irq_run_complete B n hn hmid hend es
      { fsm := { v.fsm with f := { current_state := SEND_DATA } }
        usart0 := { v.usart0 with o_idx := v.usart0.o_idx + 1 }
        dr_rx := v.dr_rx
        tx_line := v.tx_line ++ [c0]
        txe_wait := v.txe_wait
        cr1_txeie := true
        cr1_rxneie := v.cr1_rxneie } 1 hB
      (show v.usart0.o_idx + 1 = 1 by rw [hi]) rfl hn1 (by omega)
    rw [hk] at h
    exact h
  refine ⟨_, _, by rw [hw]; rfl, rfl, rfl, ?_, hcomp, ?_, rfl, rfl, rfl⟩
  · intro es hes
    exact ⟨_, hprog es (by omega), hwc, htake _, rfl⟩
  · exact htake n

set_option maxRecDepth 100000

/-- The claim C3 as stated fails in two ways. A payload that contains the empty byte `0x00`:
the transmission of "A", `0x00`, end marker is started (state `SEND_DATA`, "A" sent), but every
further call of `port_usart_write_data`, and so every entry of the interrupt handler, leaves
the hardware unchanged, `tx_done` stays false and the machine stays in `SEND_DATA`. The empty
payload (`N = 0`): the starting step sends the end marker, sets `write_complete` and then
enables the transmit interrupt again, so the next entry of the handler that finds TXE set sends
the end marker a second time before the machine goes back to `WAIT_DATA`. -/
theorem usart_empty_byte_stalls_transmission :
    (match fsm_usart_set_out_data usart_example usart_message_with_empty_byte with
     | none => none
     | some w1 => fsm_usart_fire w1) = some (usart_stalled, some 0) ∧
    (∀ n, usart_tx_irqs n usart_stalled = some usart_stalled) ∧
    port_usart_tx_done usart_stalled USART_0_ID = some false ∧
    fsm_usart_fire usart_stalled = some (usart_stalled, none) ∧
    (∀ es : List Bool, usart_irq_run es usart_stalled = some usart_stalled) ∧
    (match fsm_usart_set_out_data usart_example usart_empty_message with
     | none => none
     | some w1 => fsm_usart_fire w1) = some (usart_end_marker_sent, some 0) ∧
    usart_end_marker_sent.tx_line = [END_CHAR_CONSTANT] ∧
    usart_end_marker_sent.cr1_txeie = true ∧
    port_usart_tx_done usart_end_marker_sent USART_0_ID = some true ∧
    USART3_IRQHandler false true usart_end_marker_sent =
      some { usart_end_marker_sent with
             tx_line := [END_CHAR_CONSTANT, END_CHAR_CONSTANT], cr1_txeie := false } ∧
    (fsm_usart_fire { usart_end_marker_sent with
        tx_line := [END_CHAR_CONSTANT, END_CHAR_CONSTANT], cr1_txeie := false }).map
      (fun r => (r.1.fsm.f.current_state, r.1.tx_line, r.2)) =
        some (WAIT_DATA, [END_CHAR_CONSTANT, END_CHAR_CONSTANT], some 2) := by
  have h : port_usart_write_data usart_stalled USART_0_ID = some usart_stalled := by decide
  refine ⟨by decide, ?_, by decide, by decide, ?_, by decide, rfl, rfl, by decide, by decide,
    by decide⟩
  · intro n
    induction n with
    | zero => rfl
    | succ n ih => simp only [usart_tx_irqs, h, ih]
  · intro es
    induction es with
    | nil => rfl
    | cons e rest ih =>
      cases e with
      | false => simp only [usart_irq_run, USART3_IRQHandler_flags_clear, ih]
      | true => simp only [usart_irq_run, USART3_IRQHandler_txe usart_stalled rfl, h, ih]

/-- C3 (amended): for a payload of `1 <= N <= 100` bytes, none equal to `0x00` or `0x0A`,
followed by the end marker in a caller buffer of at least 100 bytes, on a machine in `WAIT_DATA`
whose transmitter is idle (`o_idx = 0`), while no byte is received: after
`fsm_usart_set_out_data` one step moves to `SEND_DATA` (activity true), sends the first byte and
leaves the transmit interrupt enabled. Whatever the entries of `USART3_IRQHandler` that follow,
each one that finds TXE set sends the next byte: before `min N 99` of them have found TXE set,
`tx_done` is false, the bytes sent are a prefix of the message and a step of the machine changes
nothing; once `min N 99` of them have, the world is the same whatever the number of further
entries: `tx_done` is true, the transmit interrupt is disabled and the bytes sent are the first
100 bytes of the message (all of it when `N <= 99`), once. The next step moves back to
`WAIT_DATA` with the 100 bytes of `out_data` equal to `0x00`, so that the activity is
`data_received` and the transmit guard is false, and no further entry of the handler sends
anything. -/
theorem usart_send_message (w : usart_world) (payload pad : List Nat)
    (hN1 : 1 ≤ payload.length)
    (hN : payload.length ≤ USART_OUTPUT_BUFFER_LENGTH)
    (hbytes : ∀ b ∈ payload, b ≠ EMPTY_BUFFER_CONSTANT ∧ b ≠ END_CHAR_CONSTANT)
    (hpad : USART_OUTPUT_BUFFER_LENGTH ≤ (payload ++ [END_CHAR_CONSTANT] ++ pad).length)
    (hst : w.fsm.f.current_state = WAIT_DATA) (hid : w.fsm.usart_id = USART_0_ID)
    (hout : w.fsm.out_data.length = USART_OUTPUT_BUFFER_LENGTH)
    (hob : w.usart0.output_buffer.length = USART_OUTPUT_BUFFER_LENGTH)
    (hoidx : w.usart0.o_idx = 0) :
    ∃ w1 w2 w3 w4,
      fsm_usart_set_out_data w (payload ++ [END_CHAR_CONSTANT] ++ pad) = some w1 ∧
      fsm_usart_fire w1 = some (w2, some 0) ∧
      w2.fsm.f.current_state = SEND_DATA ∧
      fsm_usart_check_activity w2 = true ∧
      w2.cr1_txeie = true ∧
      (∀ es : List Bool, es.count true < min payload.length 99 →
        ∃ wj, usart_irq_run es w2 = some wj ∧
          port_usart_tx_done wj USART_0_ID = some false ∧
          wj.tx_line = w.tx_line ++
            ((payload ++ [END_CHAR_CONSTANT]).take USART_OUTPUT_BUFFER_LENGTH).take
              (es.count true + 1) ∧
          fsm_usart_fire wj = some (wj, none)) ∧
      (∀ es : List Bool, min payload.length 99 ≤ es.count true →
        usart_irq_run es w2 = some w3) ∧
      w3.tx_line = w.tx_line ++ (payload ++ [END_CHAR_CONSTANT]).take USART_OUTPUT_BUFFER_LENGTH ∧
      port_usart_tx_done w3 USART_0_ID = some true ∧
      w3.cr1_txeie = false ∧
      fsm_usart_fire w3 = some (w4, some 2) ∧
      w4.fsm.f.current_state = WAIT_DATA ∧
      w4.fsm.out_data = List.replicate USART_OUTPUT_BUFFER_LENGTH 0 ∧
      fsm_usart_check_activity w4 = w.fsm.data_received ∧
      check_data_tx w4 = some false ∧
      w4.tx_line = w3.tx_line ∧
      (∀ es : List Bool, usart_irq_run es w4 = some w4) := by
  obtain ⟨hmid, hend, hM⟩ := usart_message_bytes payload pad hN hbytes
  have hn : min payload.length 99 ≤ USART_OUTPUT_BUFFER_LENGTH - 1 := by
    simp only [USART_OUTPUT_BUFFER_LENGTH]
    omega
  have hn1 : 1 ≤ min payload.length 99 := by omega
  generalize hBdef : (payload ++ [END_CHAR_CONSTANT] ++ pad).take USART_OUTPUT_BUFFER_LENGTH = B
    at hmid hend hM
  have hBlen : B.length = USART_OUTPUT_BUFFER_LENGTH := by
    rw [← hBdef, List.length_take]
    omega
  have hset : fsm_usart_set_out_data w (payload ++ [END_CHAR_CONSTANT] ++ pad) =
      some { w with fsm := { w.fsm with out_data := B } } := by
    unfold fsm_usart_set_out_data
    rw [if_pos hpad]
    have : memcpy (memset w.fsm.out_data EMPTY_BUFFER_CONSTANT USART_OUTPUT_BUFFER_LENGTH)
        (payload ++ [END_CHAR_CONSTANT] ++ pad) USART_OUTPUT_BUFFER_LENGTH = B := by
      unfold memcpy memset
      rw [hBdef, List.drop_of_length_le (by simp [hout]), List.append_nil]
    rw [this]
  obtain ⟨v2, v3, hfirst, hfsm2, htxe2, hprog, hfull, hline, hdone, htxe3, hfsm3⟩ :=
    usart_transmission B (min payload.length 99) hn1 hn hmid hend
      { fsm := { w.fsm with out_data := B }
        usart0 := { w.usart0 with output_buffer := B, write_complete := false }
        dr_rx := w.dr_rx
        tx_line := w.tx_line
        txe_wait := 0
        cr1_txeie := w.cr1_txeie
        cr1_rxneie := w.cr1_rxneie } rfl hoidx rfl
  obtain ⟨c0, hc0, hc0ne, _⟩ := hmid 0 (by omega)
  have hfire : fsm_usart_fire { w with fsm := { w.fsm with out_data := B } } =
      some (v2, some 0) := by
    rw [fsm_usart_fire_wait_data { w with fsm := { w.fsm with out_data := B } } hst]
    have htx : check_data_tx { w with fsm := { w.fsm with out_data := B } } = some true := by
      simp [check_data_tx, hc0, hc0ne]
    rw [htx]
    simp only
    rw [do_set_data_tx_eq { w with fsm := { w.fsm with out_data := B } } hid hBlen hob]
    cases hwd : port_usart_write_data
        { fsm := { w.fsm with out_data := B }
          usart0 := { w.usart0 with output_buffer := B, write_complete := false }
          dr_rx := w.dr_rx
          tx_line := w.tx_line
          txe_wait := 0
          cr1_txeie := w.cr1_txeie
          cr1_rxneie := w.cr1_rxneie } USART_0_ID with
    | none =>
      rw [hwd] at hfirst
      simp at hfirst
    | some wd =>
      rw [hwd] at hfirst
      simp only [Option.map_some', Option.some.injEq] at hfirst
      simp only at hwd
      simp only [hwd, Option.map_some', hfirst]
  have hst2 : v2.fsm.f.current_state = SEND_DATA := by rw [hfsm2]
  have hid2 : v2.fsm.usart_id = USART_0_ID := by rw [hfsm2]; exact hid
  have hst3 : v3.fsm.f.current_state = SEND_DATA := by rw [hfsm3, hfsm2]
  have hid3 : v3.fsm.usart_id = USART_0_ID := by rw [hfsm3, hfsm2]; exact hid
  have hout3 : v3.fsm.out_data.length = USART_OUTPUT_BUFFER_LENGTH := by
    rw [hfsm3, hfsm2]
    exact hBlen
  have hdr3 : v3.fsm.data_received = w.fsm.data_received := by rw [hfsm3, hfsm2]
  obtain ⟨v4, hfire3, hst4, hout4, hact4, htx4, hline4, htxe4⟩ :=
    usart_tx_end_step v3 hst3 hid3 hdone hout3
  refine ⟨_, v2, v3, v4, hset, hfire, hst2, ?_, htxe2, ?_, hfull, ?_, ?_, htxe3, hfire3, hst4,
    hout4, by rw [hact4, hdr3], htx4, hline4, ?_⟩
  · simp [fsm_usart_check_activity, hfsm2]
  · intro es hes
    obtain ⟨vj, hvj, hwcj, hlinej, hfsmj⟩ := hprog es hes
    refine ⟨vj, hvj, ?_, ?_, ?_⟩
    · simp [port_usart_tx_done, usart_arr, hwcj]
    · rw [hlinej, ← hM, List.take_take]
      congr 2
      omega
    · rw [fsm_usart_fire_send_data vj (by rw [hfsmj]; exact hst2)]
      have hte : check_tx_end vj = some false := by
        simp [check_tx_end, port_usart_tx_done, usart_arr, hfsmj, hid2, hwcj]
      rw [hte]
  · rw [hline, hM]
  · simp [port_usart_tx_done, usart_arr, hdone]
  · intro es
    exact usart_irq_run_txeie_clear es v4 (by rw [htxe4, htxe3])

/-- Witness of C3 (amended): the message "AB" and the end marker sent by `usart_example`. -/
theorem usart_send_message_witness :
    ∃ w1 w2 w3 w4,
      fsm_usart_set_out_data usart_example
        ([65, 66] ++ [END_CHAR_CONSTANT] ++ List.replicate 97 0) = some w1 ∧
      fsm_usart_fire w1 = some (w2, some 0) ∧
      w2.fsm.f.current_state = SEND_DATA ∧
      fsm_usart_check_activity w2 = true ∧
      w2.cr1_txeie = true ∧
      (∀ es : List Bool, es.count true < min [65, 66].length 99 →
        ∃ wj, usart_irq_run es w2 = some wj ∧
          port_usart_tx_done wj USART_0_ID = some false ∧
          wj.tx_line = usart_example.tx_line ++
            (([65, 66] ++ [END_CHAR_CONSTANT]).take USART_OUTPUT_BUFFER_LENGTH).take
              (es.count true + 1) ∧
          fsm_usart_fire wj = some (wj, none)) ∧
      (∀ es : List Bool, min [65, 66].length 99 ≤ es.count true →
        usart_irq_run es w2 = some w3) ∧
      w3.tx_line = usart_example.tx_line ++
        ([65, 66] ++ [END_CHAR_CONSTANT]).take USART_OUTPUT_BUFFER_LENGTH ∧
      port_usart_tx_done w3 USART_0_ID = some true ∧
      w3.cr1_txeie = false ∧
      fsm_usart_fire w3 = some (w4, some 2) ∧
      w4.fsm.f.current_state = WAIT_DATA ∧
      w4.fsm.out_data = List.replicate USART_OUTPUT_BUFFER_LENGTH 0 ∧
      fsm_usart_check_activity w4 = usart_example.fsm.data_received ∧
      check_data_tx w4 = some false ∧
      w4.tx_line = w3.tx_line ∧
      (∀ es : List Bool, usart_irq_run es w4 = some w4) :=
  usart_send_message usart_example [65, 66] (List.replicate 97 0) (by decide) (by decide)
    (by decide) (by decide) rfl rfl (by decide) (by decide) rfl

/-! ## Theorems: buzzer machine, setters and restart -/

/-- C11: `fsm_buzzer_set_action(a)`, for a `uint8_t` value `a`, sets `user_action` to `a`, so
that `fsm_buzzer_get_action` returns `a`; it sets `note_index` to 0 when `a = STOP` and leaves it
unchanged for every other `a`; `current_state`, the melody reference, the speed and the buzzer
id are unchanged and no hardware operation is performed (the hardware part of the world and the
history of port calls are unchanged). -/
theorem buzzer_set_action_effect {F : Type} (w : buzzer_world F) (a : Nat) (ha : a < 256) :
    fsm_buzzer_set_action w a =
      { w with fsm := { w.fsm with
          user_action := a
          note_index := if a = STOP then 0 else w.fsm.note_index } } ∧
    fsm_buzzer_get_action (fsm_buzzer_set_action w a) = a ∧
    (a = STOP → (fsm_buzzer_set_action w a).fsm.note_index = 0) ∧
    (a ≠ STOP → (fsm_buzzer_set_action w a).fsm.note_index = w.fsm.note_index) ∧
    (fsm_buzzer_set_action w a).fsm.f.current_state = w.fsm.f.current_state ∧
    (fsm_buzzer_set_action w a).fsm.p_melody = w.fsm.p_melody ∧
    (fsm_buzzer_set_action w a).fsm.player_speed = w.fsm.player_speed ∧
    (fsm_buzzer_set_action w a).fsm.buzzer_id = w.fsm.buzzer_id ∧
    (fsm_buzzer_set_action w a).buzzer0 = w.buzzer0 ∧
    (fsm_buzzer_set_action w a).tim2_cen = w.tim2_cen ∧
    (fsm_buzzer_set_action w a).tim3_cen = w.tim3_cen ∧
    (fsm_buzzer_set_action w a).calls = w.calls := by
  have hmod : a % 256 = a := Nat.mod_eq_of_lt ha
  unfold fsm_buzzer_set_action fsm_buzzer_get_action
  simp only [hmod]
  by_cases hs : a = STOP
  · simp [hs]
  · simp [hs]

/-- Witness of C11: stopping a machine that plays note 2. -/
theorem buzzer_set_action_effect_witness :
    fsm_buzzer_set_action (buzzer_example PLAY 2) STOP =
      { buzzer_example PLAY 2 with fsm := { (buzzer_example PLAY 2).fsm with
          user_action := STOP
          note_index := if STOP = STOP then 0 else (buzzer_example PLAY 2).fsm.note_index } } :=
  (buzzer_set_action_effect (buzzer_example PLAY 2) STOP (by decide)).1

/-- C12: in `PAUSE_NOTE` with a melody of at least one note and any `note_index`, after
`fsm_buzzer_set_action(STOP)` followed by `fsm_buzzer_set_action(PLAY)` the next two steps go
`PAUSE_NOTE -> PLAY_NOTE -> WAIT_NOTE` (rules 7 and 5), the note programmed on the hardware is
note 0 of the melody and `note_index` becomes 1: the paused machine restarts the melody without
passing through `WAIT_START`. -/
theorem buzzer_paused_reset_restarts {F : Type} (fp : double_ops F) (w : buzzer_world F)
    (m : melody_t F) (hst : w.fsm.f.current_state = PAUSE_NOTE)
    (hm : w.fsm.p_melody = some m) (hwf : melody_wf m) (hlen : 1 ≤ m.melody_length)
    (hid : w.fsm.buzzer_id = BUZZER_0_ID) :
    fsm_buzzer_fire fp (fsm_buzzer_set_action (fsm_buzzer_set_action w STOP) PLAY) =
      some ({ w with fsm := { w.fsm with f := { current_state := PLAY_NOTE }, user_action := PLAY,
                                         note_index := 0 } }, some 7) ∧
    ∃ note,
      read_note m 0 = some note ∧
      fsm_buzzer_fire fp
          { w with fsm := { w.fsm with f := { current_state := PLAY_NOTE }, user_action := PLAY,
                                       note_index := 0 } } =
        some ({ fsm := { w.fsm with f := { current_state := WAIT_NOTE }, user_action := PLAY,
                                    note_index := 1 }
                buzzer0 := { note_end := false }
                tim2_cen := true
                tim3_cen := !(fp.is_zero note.1)
                calls := w.calls ++ note_calls fp w.fsm.buzzer_id w.fsm.player_speed note },
              some 5) := by
  have hset : fsm_buzzer_set_action (fsm_buzzer_set_action w STOP) PLAY =
      { w with fsm := { w.fsm with user_action := PLAY, note_index := 0 } } := by
    simp [fsm_buzzer_set_action, STOP, PLAY]
  obtain ⟨note, hnote⟩ := read_note_of_wf m hwf 0 (by omega)
  refine ⟨?_, note, hnote, ?_⟩
  · rw [hset, fsm_buzzer_fire_pause_note fp
      { w with fsm := { w.fsm with user_action := PLAY, note_index := 0 } } hst, if_pos rfl]
    rfl
  · generalize hw3 : ({ w with
        fsm := { w.fsm with f := { current_state := PLAY_NOTE }, user_action := PLAY,
                            note_index := 0 } } : buzzer_world F) = w3
    have h3f : w3.fsm =
        { w.fsm with f := { current_state := PLAY_NOTE }, user_action := PLAY,
                     note_index := 0 } := by rw [← hw3]
    have h3c : w3.calls = w.calls := by rw [← hw3]
    have hm3 : w3.fsm.p_melody = some m := by rw [h3f]; exact hm
    have hn3 : w3.fsm.note_index = 0 := by rw [h3f]
    have hu3 : w3.fsm.user_action = PLAY := by rw [h3f]
    have hplay := do_play_note_eq fp w3 m note hm3 (by rw [hn3]; exact hnote)
      (by rw [h3f]; exact hid)
    rw [fsm_buzzer_fire_play_note fp w3 (by rw [h3f]),
      if_neg (by rw [hu3]; decide), if_neg (by rw [hu3]; decide), hm3]
    simp only
    rw [if_neg (by rw [hn3]; omega), if_pos ⟨by rw [hn3]; omega, hu3⟩, hplay]
    simp [buzzer_set_state, h3f, h3c, U32]

/-- Witness of C12: `melody_example` paused before its third note restarts at note 0. -/
theorem buzzer_paused_reset_restarts_witness :
    ∃ note,
      read_note melody_example 0 = some note ∧
      fsm_buzzer_fire fixed_point_ops
          { buzzer_set_state PAUSE_NOTE (buzzer_example PAUSE 2) with
            fsm := { (buzzer_set_state PAUSE_NOTE (buzzer_example PAUSE 2)).fsm with
                     f := { current_state := PLAY_NOTE }, user_action := PLAY,
                     note_index := 0 } } =
        some ({ fsm := { (buzzer_set_state PAUSE_NOTE (buzzer_example PAUSE 2)).fsm with
                         f := { current_state := WAIT_NOTE }, user_action := PLAY,
                         note_index := 1 }
                buzzer0 := { note_end := false }
                tim2_cen := true
                tim3_cen := !(fixed_point_ops.is_zero note.1)
                calls := (buzzer_set_state PAUSE_NOTE (buzzer_example PAUSE 2)).calls ++
                  note_calls fixed_point_ops
                    (buzzer_set_state PAUSE_NOTE (buzzer_example PAUSE 2)).fsm.buzzer_id
                    (buzzer_set_state PAUSE_NOTE (buzzer_example PAUSE 2)).fsm.player_speed
                    note },
              some 5) :=
  (buzzer_paused_reset_restarts fixed_point_ops
    (buzzer_set_state PAUSE_NOTE (buzzer_example PAUSE 2)) melody_example rfl rfl (by decide)
    (by decide) rfl).2

/-- The action `do_melody_start` does not read `current_state`: it commutes with the update of
the state made by the engine. -/
theorem do_melody_start_set_state {F : Type} (fp : double_ops F) (w : buzzer_world F)
    (st st1 : Int) :
    (do_melody_start fp (buzzer_set_state st w)).map (buzzer_set_state st1) =
      (do_melody_start fp w).map (buzzer_set_state st1) := by
  rcases w with ⟨⟨⟨s0⟩, pm, ni, id, ua, sp⟩, hw, c2, c3, cl⟩
  unfold do_melody_start
  simp only [buzzer_set_state]
  cases pm with
  | none => rfl
  | some m =>
    simp only
    cases read_note m 0 with
    | none => rfl
    | some note =>
      obtain ⟨freq, duration⟩ := note
      simp only [_start_note, port_buzzer_set_note_duration, port_buzzer_set_note_frequency]
      split_ifs <;> simp [buzzer_set_state]

/-- C13: with a melody set and `user_action = PLAY`, a step from `WAIT_MELODY` (rule 6) has
exactly the same effect as a step from `WAIT_START` (rule 0) on a machine whose other fields are
equal: both run `do_melody_start` and move to `WAIT_NOTE`, so the resulting worlds are equal; when
note 0 can be read (frequency `freq = p_notes[0]`, duration `d = p_durations[0]` as a `uint16_t`)
on buzzer 0, both steps issue the same two port calls, `port_buzzer_set_note_duration` with
`round(d / player_speed)` and then `port_buzzer_set_note_frequency` with `freq`, both increment
`note_index` by one and both end in `WAIT_NOTE`. -/
theorem buzzer_restart_same_as_start {F : Type} (fp : double_ops F) (w : buzzer_world F)
    (hm : w.fsm.p_melody.isSome = true) (hua : w.fsm.user_action = PLAY) :
    fsm_buzzer_fire fp (buzzer_set_state WAIT_START w) =
      (do_melody_start fp w).map (fun w1 => (buzzer_set_state WAIT_NOTE w1, some 0)) ∧
    fsm_buzzer_fire fp (buzzer_set_state WAIT_MELODY w) =
      (do_melody_start fp w).map (fun w1 => (buzzer_set_state WAIT_NOTE w1, some 6)) ∧
    (fsm_buzzer_fire fp (buzzer_set_state WAIT_MELODY w)).map Prod.fst =
      (fsm_buzzer_fire fp (buzzer_set_state WAIT_START w)).map Prod.fst ∧
    (∀ (m : melody_t F) (freq : F) (d : Nat), w.fsm.p_melody = some m →
      m.p_notes[0]? = some freq → m.p_durations[0]? = some d →
      w.fsm.buzzer_id = BUZZER_0_ID →
      fsm_buzzer_fire fp (buzzer_set_state WAIT_MELODY w) =
        some ({ fsm := { w.fsm with f := { current_state := WAIT_NOTE },
                                    note_index := (w.fsm.note_index + 1) % U32 }
                buzzer0 := { note_end := false }
                tim2_cen := true
                tim3_cen := !(fp.is_zero freq)
                calls := w.calls ++
                  [buzzer_call.set_note_duration w.fsm.buzzer_id
                     (fp.round_to_uint32 (fp.div (fp.of_uint (d % 65536)) w.fsm.player_speed)),
                   buzzer_call.set_note_frequency w.fsm.buzzer_id freq] }, some 6) ∧
      fsm_buzzer_fire fp (buzzer_set_state WAIT_START w) =
        some ({ fsm := { w.fsm with f := { current_state := WAIT_NOTE },
                                    note_index := (w.fsm.note_index + 1) % U32 }
                buzzer0 := { note_end := false }
                tim2_cen := true
                tim3_cen := !(fp.is_zero freq)
                calls := w.calls ++
                  [buzzer_call.set_note_duration w.fsm.buzzer_id
                     (fp.round_to_uint32 (fp.div (fp.of_uint (d % 65536)) w.fsm.player_speed)),
                   buzzer_call.set_note_frequency w.fsm.buzzer_id freq] }, some 0)) := by
  have h0 : fsm_buzzer_fire fp (buzzer_set_state WAIT_START w) =
      (do_melody_start fp w).map (fun w1 => (buzzer_set_state WAIT_NOTE w1, some 0)) := by
    rw [fsm_buzzer_fire_wait_start fp _ rfl, if_pos ⟨hm, hua⟩, do_player_start]
    have h := do_melody_start_set_state fp w WAIT_START WAIT_NOTE
    cases h1 : do_melody_start fp (buzzer_set_state WAIT_START w) <;>
      cases h2 : do_melody_start fp w <;> simp_all
  have h6 : fsm_buzzer_fire fp (buzzer_set_state WAIT_MELODY w) =
      (do_melody_start fp w).map (fun w1 => (buzzer_set_state WAIT_NOTE w1, some 6)) := by
    rw [fsm_buzzer_fire_wait_melody fp _ rfl, if_pos ⟨hm, hua⟩]
    have h := do_melody_start_set_state fp w WAIT_MELODY WAIT_NOTE
    cases h1 : do_melody_start fp (buzzer_set_state WAIT_MELODY w) <;>
      cases h2 : do_melody_start fp w <;> simp_all
  refine ⟨h0, h6, ?_, ?_⟩
  · rw [h0, h6]
    cases do_melody_start fp w <;> rfl
  · intro m freq d hpm hf hd hid
    have hr : read_note m 0 = some (freq, d % 65536) := by
      simp only [read_note, hf, hd]
    rw [h6, h0, do_melody_start_eq fp w m (freq, d % 65536) hpm hr hid]
    exact ⟨rfl, rfl⟩

/-- Witness of C13: at a player speed of 2.0, restarting `melody_example` from `WAIT_MELODY`
and starting it from `WAIT_START` both program note 0 with the duration 500 / 2.0 = 250 ms and
the frequency 440 Hz, and both give the same world in `WAIT_NOTE` with `note_index = 1`. -/
theorem buzzer_restart_same_as_start_witness :
    fsm_buzzer_fire fixed_point_ops (buzzer_set_state WAIT_MELODY buzzer_double_speed) =
      some ({ fsm := { f := { current_state := WAIT_NOTE }, p_melody := some melody_example,
                       note_index := 1, buzzer_id := BUZZER_0_ID, user_action := PLAY,
                       player_speed := 2000 }
              buzzer0 := { note_end := false }
              tim2_cen := true
              tim3_cen := true
              calls := [buzzer_call.set_note_duration BUZZER_0_ID 250,
                        buzzer_call.set_note_frequency BUZZER_0_ID 440000] }, some 6) ∧
    fsm_buzzer_fire fixed_point_ops (buzzer_set_state WAIT_START buzzer_double_speed) =
      some ({ fsm := { f := { current_state := WAIT_NOTE }, p_melody := some melody_example,
                       note_index := 1, buzzer_id := BUZZER_0_ID, user_action := PLAY,
                       player_speed := 2000 }
              buzzer0 := { note_end := false }
              tim2_cen := true
              tim3_cen := true
              calls := [buzzer_call.set_note_duration BUZZER_0_ID 250,
                        buzzer_call.set_note_frequency BUZZER_0_ID 440000] }, some 0) :=
  (buzzer_restart_same_as_start fixed_point_ops buzzer_double_speed rfl rfl).2.2.2
    melody_example 440000 500 rfl rfl rfl rfl

/-! ## Theorems: button machine, frame of the duration -/

/-- A step that does not fire the release rule leaves `duration` unchanged. -/
theorem fsm_button_fire_duration (w w1 : button_world) (r : Option Nat)
    (hf : fsm_button_fire w = some (w1, r)) (hr : r ≠ some 2) :
    w1.fsm.duration = w.fsm.duration := by
  rw [fsm_button_fire_eq] at hf
  split_ifs at hf with h0 h3 hlt h2 h1 hlt
  · split at hf
    · simp at hf
    · simp only [do_store_tick_pressed, Option.map_some', Option.some.injEq, Prod.mk.injEq] at hf
      obtain ⟨rfl, -⟩ := hf
      rfl
    · simp only [Option.some.injEq, Prod.mk.injEq] at hf
      obtain ⟨rfl, -⟩ := hf
      rfl
  · simp only [Option.some.injEq, Prod.mk.injEq] at hf
    obtain ⟨rfl, -⟩ := hf
    rfl
  · simp only [Option.some.injEq, Prod.mk.injEq] at hf
    obtain ⟨rfl, -⟩ := hf
    rfl
  · split at hf
    · simp at hf
    · simp only [do_set_duration, Option.map_some', Option.some.injEq, Prod.mk.injEq] at hf
      exact absurd hf.2.symm hr
    · simp only [Option.some.injEq, Prod.mk.injEq] at hf
      obtain ⟨rfl, -⟩ := hf
      rfl
  all_goals
    simp only [Option.some.injEq, Prod.mk.injEq] at hf
    obtain ⟨rfl, -⟩ := hf
    rfl

/-- C20: a step of the button machine changes `duration` only when the PRESSED -> RELEASED_WAIT
rule (rule 2) fires: after a step that fires rule 0, 1 or 3 or no rule, `duration` is unchanged;
hence over any run of polls in which rule 2 does not fire, `fsm_button_get_duration` keeps
returning the same value. -/
theorem button_duration_frame :
    (∀ (w w1 : button_world) (r : Option Nat),
      fsm_button_fire w = some (w1, r) → r ≠ some 2 → w1.fsm.duration = w.fsm.duration) ∧
    (∀ (inputs : List (Bool × Nat)) (w w1 : button_world) (fired : List (Option Nat)),
      button_run inputs w = some (w1, fired) → some 2 ∉ fired →
      fsm_button_get_duration w1.fsm = fsm_button_get_duration w.fsm) := by
  refine ⟨fsm_button_fire_duration, ?_⟩
  intro inputs
  induction inputs with
  | nil =>
    intro w w1 fired hrun _
    simp only [button_run, Option.some.injEq, Prod.mk.injEq] at hrun
    obtain ⟨rfl, -⟩ := hrun
    rfl
  | cons inp rest ih =>
    intro w w1 fired hrun hnot
    simp only [button_run] at hrun
    cases hp : button_poll inp w with
    | none => simp [hp] at hrun
    | some p =>
      obtain ⟨wa, r⟩ := p
      simp only [hp] at hrun
      cases hq : button_run rest wa with
      | none => simp [hq] at hrun
      | some q =>
        obtain ⟨wb, rs⟩ := q
        simp only [hq, Option.some.injEq, Prod.mk.injEq] at hrun
        obtain ⟨rfl, rfl⟩ := hrun
        have hr : r ≠ some 2 := fun h => hnot (by simp [h])
        have hrs : some 2 ∉ rs := fun h => hnot (by simp [h])
        have h1 := fsm_button_fire_duration _ wa r hp hr
        have h2 := ih wa wb rs hq hrs
        simp only [fsm_button_get_duration] at h2 ⊢
        rw [h2, h1]
        rfl

/-- Witness of C20: a machine that holds a duration of 30 ms and is pressed again keeps the
30 ms through the press edge and the debounce wait. -/
theorem button_duration_frame_witness :
    fsm_button_get_duration
        ({ fsm := { f := { current_state := BUTTON_PRESSED }, debounce_time := 5,
                    next_timeout := 105, tick_pressed := 100, duration := 30,
                    button_id := BUTTON_0_ID },
           button0 := { flag_pressed := true }, millis := 106 } : button_world).fsm =
      fsm_button_get_duration
        ({ fsm := { f := { current_state := BUTTON_RELEASED }, debounce_time := 5,
                    next_timeout := 25, tick_pressed := 4294967286, duration := 30,
                    button_id := BUTTON_0_ID },
           button0 := { flag_pressed := false }, millis := 20 } : button_world).fsm :=
  button_duration_frame.2 [(true, 100), (true, 103), (true, 106)]
    { fsm := { f := { current_state := BUTTON_RELEASED }, debounce_time := 5,
               next_timeout := 25, tick_pressed := 4294967286, duration := 30,
               button_id := BUTTON_0_ID },
      button0 := { flag_pressed := false }, millis := 20 }
    _ [some 0, none, some 1] (by decide) (by decide)

/-! ## Theorems: USART machine, port functions and accessors -/

/-- C17: `fsm_usart_reset_input_data` sets the 10 bytes of `in_data` to `0x00` and
`data_received` to false, leaves `out_data`, `current_state`, `usart_id` and the hardware
unchanged, and is idempotent; afterwards `fsm_usart_get_in_data` returns ten `0x00` bytes and
`fsm_usart_check_data_received` returns false. -/
theorem usart_reset_input_data_effect (w : usart_world)
    (hin : w.fsm.in_data.length = USART_INPUT_BUFFER_LENGTH) :
    (fsm_usart_reset_input_data w).fsm.in_data = List.replicate 10 0 ∧
    (fsm_usart_reset_input_data w).fsm.data_received = false ∧
    (fsm_usart_reset_input_data w).fsm.out_data = w.fsm.out_data ∧
    (fsm_usart_reset_input_data w).fsm.f.current_state = w.fsm.f.current_state ∧
    (fsm_usart_reset_input_data w).fsm.usart_id = w.fsm.usart_id ∧
    (fsm_usart_reset_input_data w).usart0 = w.usart0 ∧
    fsm_usart_reset_input_data (fsm_usart_reset_input_data w) = fsm_usart_reset_input_data w ∧
    fsm_usart_get_in_data (fsm_usart_reset_input_data w) = List.replicate 10 0 ∧
    fsm_usart_check_data_received (fsm_usart_reset_input_data w) = false := by
  have hset : memset w.fsm.in_data EMPTY_BUFFER_CONSTANT USART_INPUT_BUFFER_LENGTH =
      List.replicate 10 0 := by
    unfold memset
    rw [List.drop_of_length_le (le_of_eq hin), List.append_nil]
    rfl
  have hset2 : memset (List.replicate 10 0) EMPTY_BUFFER_CONSTANT USART_INPUT_BUFFER_LENGTH =
      List.replicate 10 0 := by
    decide
  refine ⟨hset, rfl, rfl, rfl, rfl, rfl, ?_, ?_, rfl⟩
  · simp only [fsm_usart_reset_input_data, hset, hset2]
  · simp only [fsm_usart_get_in_data, fsm_usart_reset_input_data, hset]
    decide

/-- Witness of C17: resetting a machine that holds the message "abc". -/
theorem usart_reset_input_data_effect_witness :
    fsm_usart_get_in_data (fsm_usart_reset_input_data
      { usart_example with fsm := { usart_example.fsm with
          data_received := true
          in_data := [97, 98, 99, 0, 0, 0, 0, 0, 0, 0] } }) = List.replicate 10 0 :=
  (usart_reset_input_data_effect
    { usart_example with fsm := { usart_example.fsm with
        data_received := true
        in_data := [97, 98, 99, 0, 0, 0, 0, 0, 0, 0] } } (by decide)).2.2.2.2.2.2.2.1

/-- C15: `port_usart_write_data`, reading the byte `c` at `o_idx` of the 100-byte output
buffer, ends the transmission (sends `c`, sets `write_complete`, resets `o_idx` to 0 and disables
the transmit interrupt) when `c` is the end marker or `o_idx` is the last slot 99, and only then:
in every other case `write_complete` and the transmit-interrupt enable are left unchanged and
`o_idx` advances by one (when `c` is not the empty byte, `c` being sent) or stays (when `c` is
the empty byte, nothing being sent). -/
theorem usart_write_data_ends_exactly (v : usart_world) (c : Nat)
    (hlen : v.usart0.output_buffer.length = USART_OUTPUT_BUFFER_LENGTH)
    (hc : v.usart0.output_buffer[v.usart0.o_idx]? = some c) :
    ((v.usart0.o_idx = 99 ∨ c = END_CHAR_CONSTANT) →
      port_usart_write_data v USART_0_ID =
        some { v with tx_line := v.tx_line ++ [c]
                      cr1_txeie := false
                      usart0 := { v.usart0 with o_idx := 0, write_complete := true } }) ∧
    (¬ (v.usart0.o_idx = 99 ∨ c = END_CHAR_CONSTANT) →
      port_usart_write_data v USART_0_ID =
        some (if c ≠ EMPTY_BUFFER_CONSTANT then
                { v with tx_line := v.tx_line ++ [c]
                         usart0 := { v.usart0 with o_idx := v.usart0.o_idx + 1 } }
              else v) ∧
      ∀ v1, port_usart_write_data v USART_0_ID = some v1 →
        v1.usart0.write_complete = v.usart0.write_complete ∧
        v1.cr1_txeie = v.cr1_txeie ∧
        v.usart0.o_idx ≤ v1.usart0.o_idx ∧ v1.usart0.o_idx ≤ v.usart0.o_idx + 1) := by
  have hlt : v.usart0.o_idx < 100 := by
    obtain ⟨h, -⟩ := List.getElem?_eq_some.mp hc
    rw [hlen] at h
    exact h
  refine ⟨fun hend => port_usart_write_data_end v c hc hend, fun hnot => ?_⟩
  have h99 : v.usart0.o_idx ≠ 99 := fun h => hnot (Or.inl h)
  have h10 : c ≠ END_CHAR_CONSTANT := fun h => hnot (Or.inr h)
  have hw : port_usart_write_data v USART_0_ID =
      some (if c ≠ EMPTY_BUFFER_CONSTANT then
              { v with tx_line := v.tx_line ++ [c]
                       usart0 := { v.usart0 with o_idx := v.usart0.o_idx + 1 } }
            else v) := by
    by_cases h0 : c = EMPTY_BUFFER_CONSTANT
    · have hnot1 : ¬ (v.usart0.o_idx = USART_OUTPUT_BUFFER_LENGTH - 1 ∨
          c = END_CHAR_CONSTANT) := hnot
      simp only [port_usart_write_data, usart_arr, if_true, hc]
      rw [if_neg hnot1]
      simp [h0]
    · rw [port_usart_write_data_mid v c hc h0 h10 (by
        simp only [USART_OUTPUT_BUFFER_LENGTH]
        omega), if_pos h0]
  refine ⟨hw, ?_⟩
  intro v1 hv1
  rw [hw] at hv1
  simp only [Option.some.injEq] at hv1
  subst hv1
  split_ifs <;> simp

/-- Witness of C15: on the stalled transmission of `usart_stalled` (empty byte at `o_idx = 1`)
the call changes nothing. -/
theorem usart_write_data_ends_exactly_witness :
    port_usart_write_data usart_stalled USART_0_ID =
      some (if (0 : Nat) ≠ EMPTY_BUFFER_CONSTANT then
              { usart_stalled with tx_line := usart_stalled.tx_line ++ [0]
                                   usart0 := { usart_stalled.usart0 with
                                     o_idx := usart_stalled.usart0.o_idx + 1 } }
            else usart_stalled) :=
  ((usart_write_data_ends_exactly usart_stalled 0 (by decide) (by decide)).2 (by decide)).1

/-! ## Theorems: USART machine, frames of the port functions and of the actions -/

/-- The function `port_usart_write_data` writes neither the machine nor the receive side of
the hardware nor the contents of the output buffer. -/
theorem port_usart_write_data_frame (v v1 : usart_world) (usart_id : Nat)
    (h : port_usart_write_data v usart_id = some v1) :
    v1.fsm = v.fsm ∧ v1.usart0.input_buffer = v.usart0.input_buffer ∧
      v1.usart0.i_idx = v.usart0.i_idx ∧ v1.usart0.read_complete = v.usart0.read_complete ∧
      v1.usart0.output_buffer = v.usart0.output_buffer := by
  unfold port_usart_write_data usart_arr at h
  split_ifs at h with hid
  · simp only at h
    split at h
    · simp at h
    · split_ifs at h
      all_goals
        simp only [Option.some.injEq] at h
        subst h
        simp [port_usart_disable_tx_interrupt]

/-- The function `port_usart_write_data` succeeds when `o_idx` is inside the output buffer. -/
theorem port_usart_write_data_some (v : usart_world)
    (hlt : v.usart0.o_idx < v.usart0.output_buffer.length) :
    ∃ v1, port_usart_write_data v USART_0_ID = some v1 := by
  simp only [port_usart_write_data, usart_arr, if_true, List.getElem?_eq_getElem hlt]
  split_ifs <;> exact ⟨_, rfl⟩

/-- The function `port_usart_store_data` does not write the machine. -/
theorem port_usart_store_data_fsm (v v1 : usart_world) (usart_id : Nat)
    (h : port_usart_store_data v usart_id = some v1) : v1.fsm = v.fsm := by
  unfold port_usart_store_data usart_arr at h
  split_ifs at h with hid
  · simp only at h
    split_ifs at h
    · split at h
      · simp at h
      · simp only [Option.some.injEq] at h
        subst h
        rfl
    · split at h
      · simp at h
      · simp only [Option.some.injEq] at h
        subst h
        rfl
    · simp only [Option.some.injEq] at h
      subst h
      rfl

/-- The wait loop of `do_set_data_tx` only reads the status register. -/
theorem wait_txr_status_frame (fuel : Nat) :
    ∀ w w1 : usart_world, wait_txr_status fuel w = some w1 →
      w1.fsm = w.fsm ∧ w1.usart0 = w.usart0 ∧ w1.tx_line = w.tx_line := by
  induction fuel with
  | zero =>
    intro w w1 h
    simp only [wait_txr_status, port_usart_get_txr_status, usart_arr] at h
    split_ifs at h with hid
    · by_cases h0 : w.txe_wait = 0
      · simp [h0] at h
        subst h
        exact ⟨rfl, rfl, rfl⟩
      · simp [h0] at h
    · simp at h
  | succ fuel ih =>
    intro w w1 h
    simp only [wait_txr_status, port_usart_get_txr_status, usart_arr] at h
    split_ifs at h with hid
    · by_cases h0 : w.txe_wait = 0
      · simp [h0] at h
        subst h
        exact ⟨rfl, rfl, rfl⟩
      · simp only [Option.map_some', h0, decide_False] at h
        exact ih { w with txe_wait := w.txe_wait - 1 } w1 h
    · simp at h

/-- The action `do_set_data_tx` writes neither the machine nor the receive side of the
hardware. -/
theorem do_set_data_tx_frame (w w1 : usart_world) (h : do_set_data_tx w = some w1) :
    w1.fsm = w.fsm ∧ w1.usart0.input_buffer = w.usart0.input_buffer ∧
      w1.usart0.i_idx = w.usart0.i_idx ∧ w1.usart0.read_complete = w.usart0.read_complete := by
  unfold do_set_data_tx at h
  cases h1 : port_usart_reset_output_buffer w w.fsm.usart_id with
  | none => simp [h1] at h
  | some wa =>
    simp only [h1] at h
    cases h2 : port_usart_copy_to_output_buffer wa wa.fsm.usart_id wa.fsm.out_data
        USART_OUTPUT_BUFFER_LENGTH with
    | none => simp [h2] at h
    | some wb =>
      simp only [h2] at h
      cases h3 : wait_txr_status wb.txe_wait wb with
      | none => simp [h3] at h
      | some wc =>
        simp only [h3] at h
        cases h4 : port_usart_write_data wc wc.fsm.usart_id with
        | none => simp [h4] at h
        | some wd =>
          simp only [h4, Option.some.injEq] at h
          subst h
          have f4 := port_usart_write_data_frame wc wd _ h4
          have f3 := wait_txr_status_frame _ wb wc h3
          simp only [port_usart_reset_output_buffer, usart_arr] at h1
          split_ifs at h1 with hid
          · simp only [Option.map_some', Option.some.injEq] at h1
            subst h1
            simp only [port_usart_copy_to_output_buffer, usart_arr, hid, if_true,
              Option.map_some', Option.some.injEq] at h2
            subst h2
            simp only [port_usart_enable_tx_interrupt]
            rw [f4.1, f4.2.1, f4.2.2.1, f4.2.2.2.1, f3.1, f3.2.1]
            exact ⟨rfl, rfl, rfl, rfl⟩
          · simp at h1

theorem fsm_usart_fire_other (w : usart_world) (h0 : w.fsm.f.current_state ≠ WAIT_DATA)
    (h1 : w.fsm.f.current_state ≠ SEND_DATA) : fsm_usart_fire w = some (w, none) := by
  simp only [WAIT_DATA, SEND_DATA] at h0 h1
  simp [fsm_usart_fire, fsm_fire, fsm_trans_usart, fsm_scan, WAIT_DATA, SEND_DATA, h0, h1]

theorem do_get_data_rx_received (w w1 : usart_world) (h : do_get_data_rx w = some w1) :
    w1.fsm.data_received = true := by
  unfold do_get_data_rx at h
  split at h
  · simp at h
  · split at h
    · simp at h
    · simp only [Option.some.injEq] at h
      subst h
      rfl

theorem do_tx_end_received (w w1 : usart_world) (h : do_tx_end w = some w1) :
    w1.fsm.data_received = w.fsm.data_received := by
  unfold do_tx_end at h
  cases h1 : port_usart_reset_output_buffer w w.fsm.usart_id with
  | none => simp [h1] at h
  | some wa =>
    simp only [h1, Option.some.injEq] at h
    subst h
    simp only [port_usart_reset_output_buffer, usart_arr] at h1
    split_ifs at h1 with hid
    · simp only [Option.map_some', Option.some.injEq] at h1
      subst h1
      rfl
    · simp at h1

/-- An engine step never clears `data_received`. -/
theorem fsm_usart_fire_received (w w1 : usart_world) (r : Option Nat)
    (hdr : w.fsm.data_received = true) (hf : fsm_usart_fire w = some (w1, r)) :
    w1.fsm.data_received = true := by
  by_cases h0 : w.fsm.f.current_state = WAIT_DATA
  · rw [fsm_usart_fire_wait_data w h0] at hf
    split at hf
    · simp at hf
    · cases hd : do_set_data_tx w with
      | none => simp [hd] at hf
      | some wa =>
        simp only [hd, Option.map_some', Option.some.injEq, Prod.mk.injEq] at hf
        obtain ⟨rfl, -⟩ := hf
        simp only [usart_set_state, (do_set_data_tx_frame w wa hd).1]
        exact hdr
    · split at hf
      · simp at hf
      · cases hd : do_get_data_rx w with
        | none => simp [hd] at hf
        | some wa =>
          simp only [hd, Option.map_some', Option.some.injEq, Prod.mk.injEq] at hf
          obtain ⟨rfl, -⟩ := hf
          simp only [usart_set_state]
          exact do_get_data_rx_received w wa hd
      · simp only [Option.some.injEq, Prod.mk.injEq] at hf
        obtain ⟨rfl, -⟩ := hf
        exact hdr
  · by_cases h1 : w.fsm.f.current_state = SEND_DATA
    · rw [fsm_usart_fire_send_data w h1] at hf
      split at hf
      · simp at hf
      · cases hd : do_tx_end w with
        | none => simp [hd] at hf
        | some wa =>
          simp only [hd, Option.map_some', Option.some.injEq, Prod.mk.injEq] at hf
          obtain ⟨rfl, -⟩ := hf
          simp only [usart_set_state, do_tx_end_received w wa hd]
          exact hdr
      · simp only [Option.some.injEq, Prod.mk.injEq] at hf
        obtain ⟨rfl, -⟩ := hf
        exact hdr
    · rw [fsm_usart_fire_other w h0 h1] at hf
      simp only [Option.some.injEq, Prod.mk.injEq] at hf
      obtain ⟨rfl, -⟩ := hf
      exact hdr

/-- No operation of `usart_op` clears `data_received`. -/
theorem usart_apply_received (op : usart_op) (w w1 : usart_world)
    (hdr : w.fsm.data_received = true) (h : usart_apply op w = some w1) :
    w1.fsm.data_received = true := by
  cases op with
  | fire =>
    simp only [usart_apply] at h
    cases hf : fsm_usart_fire w with
    | none => simp [hf] at h
    | some p =>
      obtain ⟨wa, r⟩ := p
      simp only [hf, Option.map_some', Option.some.injEq] at h
      subst h
      exact fsm_usart_fire_received w wa r hdr hf
  | rx_irq c =>
    simp only [usart_apply, usart_receive] at h
    rw [port_usart_store_data_fsm _ w1 _ h]
    exact hdr
  | tx_irq =>
    simp only [usart_apply] at h
    rw [(port_usart_write_data_frame w w1 _ h).1]
    exact hdr
  | set_out_data p_data =>
    simp only [usart_apply, fsm_usart_set_out_data] at h
    split_ifs at h
    simp only [Option.some.injEq] at h
    subst h
    exact hdr
  | disable_rx_interrupt =>
    simp only [usart_apply, Option.some.injEq] at h
    subst h
    exact hdr
  | disable_tx_interrupt =>
    simp only [usart_apply, Option.some.injEq] at h
    subst h
    exact hdr
  | enable_rx_interrupt =>
    simp only [usart_apply, Option.some.injEq] at h
    subst h
    exact hdr
  | enable_tx_interrupt =>
    simp only [usart_apply, Option.some.injEq] at h
    subst h
    exact hdr

/-- C16: when `data_received` is true, every engine step (a rule firing or an idle tick)
leaves it true, and so does every run of engine steps, receive and transmit interrupts,
`fsm_usart_set_out_data` and interrupt enable or disable calls: `fsm_usart_check_activity` and
`fsm_usart_check_data_received` keep returning true; `fsm_usart_reset_input_data` and
`fsm_usart_init` set it to false. -/
theorem usart_data_received_sticky :
    (∀ (w w1 : usart_world) (r : Option Nat), w.fsm.data_received = true →
      fsm_usart_fire w = some (w1, r) →
      w1.fsm.data_received = true ∧ fsm_usart_check_activity w1 = true ∧
        fsm_usart_check_data_received w1 = true) ∧
    (∀ (ops : List usart_op) (w w1 : usart_world), w.fsm.data_received = true →
      usart_run_ops ops w = some w1 →
      w1.fsm.data_received = true ∧ fsm_usart_check_activity w1 = true ∧
        fsm_usart_check_data_received w1 = true) ∧
    (∀ w : usart_world, (fsm_usart_reset_input_data w).fsm.data_received = false) ∧
    (∀ (w w0 : usart_world) (usart_id : Nat), fsm_usart_init w usart_id = some w0 →
      w0.fsm.data_received = false) := by
  have hact : ∀ w : usart_world, w.fsm.data_received = true →
      w.fsm.data_received = true ∧ fsm_usart_check_activity w = true ∧
        fsm_usart_check_data_received w = true := by
    intro w h
    simp [fsm_usart_check_activity, fsm_usart_check_data_received, h]
  refine ⟨fun w w1 r hdr hf => hact w1 (fsm_usart_fire_received w w1 r hdr hf), ?_,
    fun _ => rfl, ?_⟩
  · intro ops
    induction ops with
    | nil =>
      intro w w1 hdr hrun
      simp only [usart_run_ops, Option.some.injEq] at hrun
      subst hrun
      exact hact w hdr
    | cons op rest ih =>
      intro w w1 hdr hrun
      simp only [usart_run_ops] at hrun
      cases ha : usart_apply op w with
      | none => simp [ha] at hrun
      | some wa =>
        simp only [ha] at hrun
        exact ih wa w1 (usart_apply_received op w wa hdr ha) hrun
  · intro w w0 usart_id hinit
    simp only [fsm_usart_init, usart_arr] at hinit
    split_ifs at hinit with hid
    · simp only [Option.map_some', Option.some.injEq] at hinit
      subst hinit
      rfl
    · simp at hinit

/-- Witness of C16: a machine that holds a received message keeps `data_received` while it
sends "AB" and a new byte arrives. -/
theorem usart_data_received_sticky_witness :
    ({ usart_example with
       fsm := { usart_example.fsm with data_received := true }
       usart0 := { usart_example.usart0 with
         input_buffer := [99, 0, 0, 0, 0, 0, 0, 0, 0, 0], i_idx := 1 }
       dr_rx := 99
       tx_line := [65, 66, 10]
       txe_wait := 0 } : usart_world).fsm.data_received = true ∧
    fsm_usart_check_activity
      { usart_example with
        fsm := { usart_example.fsm with data_received := true }
        usart0 := { usart_example.usart0 with
          input_buffer := [99, 0, 0, 0, 0, 0, 0, 0, 0, 0], i_idx := 1 }
        dr_rx := 99
        tx_line := [65, 66, 10]
        txe_wait := 0 } = true ∧
    fsm_usart_check_data_received
      { usart_example with
        fsm := { usart_example.fsm with data_received := true }
        usart0 := { usart_example.usart0 with
          input_buffer := [99, 0, 0, 0, 0, 0, 0, 0, 0, 0], i_idx := 1 }
        dr_rx := 99
        tx_line := [65, 66, 10]
        txe_wait := 0 } = true :=
  usart_data_received_sticky.2.1
    [usart_op.set_out_data ([65, 66, 10] ++ List.replicate 97 0), usart_op.fire,
     usart_op.tx_irq, usart_op.rx_irq 99, usart_op.tx_irq, usart_op.fire]
    { usart_example with fsm := { usart_example.fsm with data_received := true } }
    _ rfl (by decide)

/-- The action `do_set_data_tx` succeeds on the USART of the table when the arrays have their
declared sizes and `o_idx` is inside the output buffer. -/
theorem do_set_data_tx_some (w : usart_world) (hid : w.fsm.usart_id = USART_0_ID)
    (hout : w.fsm.out_data.length = USART_OUTPUT_BUFFER_LENGTH)
    (hob : w.usart0.output_buffer.length = USART_OUTPUT_BUFFER_LENGTH)
    (hoidx : w.usart0.o_idx < USART_OUTPUT_BUFFER_LENGTH) :
    ∃ w1, do_set_data_tx w = some w1 := by
  obtain ⟨v1, hv1⟩ := port_usart_write_data_some
    { w with
      usart0 := { w.usart0 with output_buffer := w.fsm.out_data, write_complete := false }
      txe_wait := 0 } (by simp only [hout]; exact hoidx)
  exact ⟨_, by rw [do_set_data_tx_eq w hid hout hob, hv1]; rfl⟩

/-- C18: in `WAIT_DATA` with `out_data[0]` different from `0x00` while the hardware also
reports receive-complete, a step fires only the transmit rule (rule 0, first in table order): the
state becomes `SEND_DATA`, `in_data` and `data_received` are unchanged, and the hardware input
buffer, its index and its `read_complete` flag are left as they were, so the receive guard still
holds after the step. -/
theorem usart_transmit_rule_first (w : usart_world) (c : Nat)
    (hst : w.fsm.f.current_state = WAIT_DATA) (hid : w.fsm.usart_id = USART_0_ID)
    (hc : w.fsm.out_data[0]? = some c) (hc0 : c ≠ EMPTY_BUFFER_CONSTANT)
    (hrx : port_usart_rx_done w w.fsm.usart_id = some true)
    (hout : w.fsm.out_data.length = USART_OUTPUT_BUFFER_LENGTH)
    (hob : w.usart0.output_buffer.length = USART_OUTPUT_BUFFER_LENGTH)
    (hoidx : w.usart0.o_idx < USART_OUTPUT_BUFFER_LENGTH) :
    ∃ w1, fsm_usart_fire w = some (w1, some 0) ∧
      w1.fsm.f.current_state = SEND_DATA ∧
      w1.fsm.in_data = w.fsm.in_data ∧
      w1.fsm.data_received = w.fsm.data_received ∧
      w1.usart0.input_buffer = w.usart0.input_buffer ∧
      w1.usart0.i_idx = w.usart0.i_idx ∧
      w1.usart0.read_complete = true ∧
      check_data_rx w1 = some true := by
  obtain ⟨wa, hwa⟩ := do_set_data_tx_some w hid hout hob hoidx
  obtain ⟨hfsm, hib, hii, hrc⟩ := do_set_data_tx_frame w wa hwa
  have hrc0 : w.usart0.read_complete = true := by
    simpa [port_usart_rx_done, usart_arr, hid] using hrx
  have htx : check_data_tx w = some true := by
    simp [check_data_tx, hc, hc0]
  refine ⟨usart_set_state SEND_DATA wa, ?_, rfl, ?_, ?_, ?_, ?_, ?_, ?_⟩
  · rw [fsm_usart_fire_wait_data w hst, htx]
    simp only [hwa, Option.map_some']
  · simp only [usart_set_state, hfsm]
  · simp only [usart_set_state, hfsm]
  · simp only [usart_set_state, hib]
  · simp only [usart_set_state, hii]
  · simp only [usart_set_state, hrc, hrc0]
  · simp [check_data_rx, port_usart_rx_done, usart_arr, usart_set_state, hfsm, hid, hrc, hrc0]

/-- Witness of C18: a machine with "AB" to send and a complete message "abc" waiting in the
hardware input buffer. -/
theorem usart_transmit_rule_first_witness :
    ∃ w1, fsm_usart_fire
        { usart_example with
          fsm := { usart_example.fsm with out_data := [65, 66, 10] ++ List.replicate 97 0 }
          usart0 := { usart_example.usart0 with
            input_buffer := [97, 98, 99, 0, 0, 0, 0, 0, 0, 0], read_complete := true } } =
        some (w1, some 0) ∧
      w1.fsm.f.current_state = SEND_DATA ∧
      w1.fsm.in_data = usart_example.fsm.in_data ∧
      w1.fsm.data_received = usart_example.fsm.data_received ∧
      w1.usart0.input_buffer = [97, 98, 99, 0, 0, 0, 0, 0, 0, 0] ∧
      w1.usart0.i_idx = usart_example.usart0.i_idx ∧
      w1.usart0.read_complete = true ∧
      check_data_rx w1 = some true :=
  usart_transmit_rule_first
    { usart_example with
      fsm := { usart_example.fsm with out_data := [65, 66, 10] ++ List.replicate 97 0 }
      usart0 := { usart_example.usart0 with
        input_buffer := [97, 98, 99, 0, 0, 0, 0, 0, 0, 0], read_complete := true } }
    65 rfl rfl rfl (by decide) rfl (by decide) (by decide) (by decide)

/-- The action `do_get_data_rx` on the USART of the table: it succeeds, sends nothing and does
not write the engine part of the machine. -/
theorem do_get_data_rx_some (w : usart_world) (hid : w.fsm.usart_id = USART_0_ID) :
    ∃ w1, do_get_data_rx w = some w1 ∧ w1.tx_line = w.tx_line ∧ w1.fsm.f = w.fsm.f := by
  simp only [do_get_data_rx, port_usart_get_from_input_buffer, port_usart_reset_input_buffer,
    usart_arr, hid, if_true, Option.map_some']
  exact ⟨_, rfl, rfl, rfl⟩

/-- C19: after `fsm_usart_set_out_data(p_data)`, a step from `WAIT_DATA` fires the transmit
rule and moves to `SEND_DATA` if and only if the first byte of `p_data` is not the empty byte
`0x00`; when the first byte is `0x00` the machine stays in `WAIT_DATA` and nothing is sent,
whatever the later bytes are. After `fsm_usart_init` the first byte of `in_data` and of
`out_data` is `0x00`, the transmit guard is false and `fsm_usart_check_activity` is false. -/
theorem usart_transmission_starts_iff (w w1 : usart_world) (p_data : List Nat)
    (hst : w.fsm.f.current_state = WAIT_DATA) (hid : w.fsm.usart_id = USART_0_ID)
    (hout : w.fsm.out_data.length = USART_OUTPUT_BUFFER_LENGTH)
    (hob : w.usart0.output_buffer.length = USART_OUTPUT_BUFFER_LENGTH)
    (hoidx : w.usart0.o_idx < USART_OUTPUT_BUFFER_LENGTH)
    (hset : fsm_usart_set_out_data w p_data = some w1) :
    (∃ w2 r, fsm_usart_fire w1 = some (w2, r) ∧
      (w2.fsm.f.current_state = SEND_DATA ↔ p_data[0]? ≠ some EMPTY_BUFFER_CONSTANT) ∧
      (r = some 0 ↔ p_data[0]? ≠ some EMPTY_BUFFER_CONSTANT) ∧
      (p_data[0]? = some EMPTY_BUFFER_CONSTANT →
        w2.tx_line = w.tx_line ∧ w2.fsm.f.current_state = WAIT_DATA)) ∧
    (∀ (wa w0 : usart_world) (usart_id : Nat), fsm_usart_init wa usart_id = some w0 →
      w0.fsm.in_data[0]? = some EMPTY_BUFFER_CONSTANT ∧
      w0.fsm.out_data[0]? = some EMPTY_BUFFER_CONSTANT ∧
      check_data_tx w0 = some false ∧
      fsm_usart_check_activity w0 = false) := by
  refine ⟨?_, ?_⟩
  · unfold fsm_usart_set_out_data at hset
    split_ifs at hset with hlen
    simp only [Option.some.injEq] at hset
    have hL : (100 : Nat) ≤ p_data.length := hlen
    have hmem : memcpy (memset w.fsm.out_data EMPTY_BUFFER_CONSTANT USART_OUTPUT_BUFFER_LENGTH)
        p_data USART_OUTPUT_BUFFER_LENGTH = p_data.take USART_OUTPUT_BUFFER_LENGTH := by
      unfold memcpy memset
      rw [List.drop_of_length_le (by simp [hout]), List.append_nil]
    rw [hmem] at hset
    have hst1 : w1.fsm.f.current_state = WAIT_DATA := by rw [← hset]; exact hst
    have hid1 : w1.fsm.usart_id = USART_0_ID := by rw [← hset]; exact hid
    have hout1 : w1.fsm.out_data = p_data.take USART_OUTPUT_BUFFER_LENGTH := by rw [← hset]
    have hob1 : w1.usart0.output_buffer.length = USART_OUTPUT_BUFFER_LENGTH := by
      rw [← hset]; exact hob
    have hoidx1 : w1.usart0.o_idx < USART_OUTPUT_BUFFER_LENGTH := by rw [← hset]; exact hoidx
    have htl1 : w1.tx_line = w.tx_line := by rw [← hset]
    have hlen1 : w1.fsm.out_data.length = USART_OUTPUT_BUFFER_LENGTH := by
      rw [hout1, List.length_take]
      exact Nat.min_eq_left hlen
    have hfirst : w1.fsm.out_data[0]? = p_data[0]? := by
      rw [hout1, List.getElem?_take_of_lt (by decide)]
    obtain ⟨b, hb⟩ : ∃ b, p_data[0]? = some b :=
      ⟨p_data[0], List.getElem?_eq_getElem (by omega)⟩
    rw [fsm_usart_fire_wait_data w1 hst1]
    by_cases hb0 : b = EMPTY_BUFFER_CONSTANT
    · have htx : check_data_tx w1 = some false := by
        simp [check_data_tx, hfirst, hb, hb0]
      have hp0 : p_data[0]? = some EMPTY_BUFFER_CONSTANT := by rw [hb, hb0]
      rw [htx]
      simp only
      cases hrc : w1.usart0.read_complete with
      | true =>
        have hrx : check_data_rx w1 = some true := by
          simp [check_data_rx, port_usart_rx_done, usart_arr, hid1, hrc]
        obtain ⟨wr, hwr, hwt, hwf⟩ := do_get_data_rx_some w1 hid1
        rw [hrx]
        simp only [hwr, Option.map_some']
        refine ⟨_, _, rfl, ?_, ?_, ?_⟩
        · simp [usart_set_state, hp0, WAIT_DATA, SEND_DATA]
        · simp [hp0]
        · intro _
          exact ⟨by simp only [usart_set_state, hwt, htl1], rfl⟩
      | false =>
        have hrx : check_data_rx w1 = some false := by
          simp [check_data_rx, port_usart_rx_done, usart_arr, hid1, hrc]
        rw [hrx]
        refine ⟨_, _, rfl, ?_, ?_, ?_⟩
        · simp [hst1, hp0, WAIT_DATA, SEND_DATA]
        · simp [hp0]
        · intro _
          exact ⟨htl1, hst1⟩
    · have htx : check_data_tx w1 = some true := by
        simp [check_data_tx, hfirst, hb, hb0]
      have hp0 : p_data[0]? ≠ some EMPTY_BUFFER_CONSTANT := by
        rw [hb]
        intro h
        exact hb0 (Option.some.inj h)
      obtain ⟨wa, hwa⟩ := do_set_data_tx_some w1 hid1 hlen1 hob1 hoidx1
      rw [htx]
      simp only [hwa, Option.map_some']
      refine ⟨_, _, rfl, ?_, ?_, ?_⟩
      · simp [usart_set_state, hp0]
      · simp [hp0]
      · intro h
        exact absurd h hp0
  · intro wa w0 usart_id hinit
    simp only [fsm_usart_init, usart_arr] at hinit
    split_ifs at hinit with hid0
    · simp only [Option.map_some', Option.some.injEq] at hinit
      subst hinit
      refine ⟨?_, ?_, ?_, ?_⟩
      · simp [memset, USART_INPUT_BUFFER_LENGTH, List.replicate_succ]
      · simp [memset, USART_OUTPUT_BUFFER_LENGTH, List.replicate_succ]
      · simp [check_data_tx, memset, USART_OUTPUT_BUFFER_LENGTH, List.replicate_succ]
      · simp [fsm_usart_check_activity, fsm_init, fsm_trans_usart, usart_set_state, WAIT_DATA,
          SEND_DATA]
    · simp at hinit

/-- Witness of C19: a caller buffer whose first byte is `0x00` and whose later bytes are "A" and
the end marker is not transmitted. -/
theorem usart_transmission_starts_iff_witness :
    ∃ w2 r, fsm_usart_fire
        { usart_example with
          fsm := { usart_example.fsm with out_data := [0, 65, 10] ++ List.replicate 97 0 } } =
        some (w2, r) ∧
      (w2.fsm.f.current_state = SEND_DATA ↔
        ([0, 65, 10] ++ List.replicate 97 0)[0]? ≠ some EMPTY_BUFFER_CONSTANT) ∧
      (r = some 0 ↔ ([0, 65, 10] ++ List.replicate 97 0)[0]? ≠ some EMPTY_BUFFER_CONSTANT) ∧
      (([0, 65, 10] ++ List.replicate 97 0)[0]? = some EMPTY_BUFFER_CONSTANT →
        w2.tx_line = usart_example.tx_line ∧ w2.fsm.f.current_state = WAIT_DATA) :=
  (usart_transmission_starts_iff usart_example
    { usart_example with
      fsm := { usart_example.fsm with out_data := [0, 65, 10] ++ List.replicate 97 0 } }
    ([0, 65, 10] ++ List.replicate 97 0) rfl rfl (by decide) (by decide) (by decide)
    (by decide)).1

/-- Storing one payload byte when the input buffer is full: the byte goes to slot 0 and the
index restarts at 1. -/
theorem usart_receive_full (w : usart_world) (c : Nat)
    (hc : c < 256 ∧ c ≠ END_CHAR_CONSTANT)
    (hidx : w.usart0.i_idx = USART_INPUT_BUFFER_LENGTH)
    (hlen : w.usart0.input_buffer.length = USART_INPUT_BUFFER_LENGTH) :
    usart_receive c w =
      some { w with
        dr_rx := c
        usart0 := { w.usart0 with
          input_buffer := w.usart0.input_buffer.set 0 c
          i_idx := 1 } } := by
  obtain ⟨hc1, hc2⟩ := hc
  simp only [usart_receive, port_usart_store_data, usart_arr, if_true, Nat.mod_eq_of_lt hc1]
  rw [if_pos hc2, if_pos (by simp only [hidx]; exact Nat.le_refl _)]
  simp only [array_write, hlen]
  rw [if_pos (by decide)]

/-- Overwriting the slot that follows a prefix. -/
theorem set_append_cons (pre : List Nat) (o c : Nat) (old : List Nat) :
    (pre ++ o :: old).set pre.length c = pre ++ c :: old := by
  induction pre with
  | nil => rfl
  | cons a pre ih => simp [ih]

/-- Payload bytes stored over old contents: the bytes replace as many old bytes, the later
old bytes stay. -/
theorem usart_receive_over (q : List Nat) :
    ∀ (w : usart_world) (pre old : List Nat),
      (∀ b ∈ q, b < 256 ∧ b ≠ END_CHAR_CONSTANT) →
      q.length ≤ old.length →
      pre.length + old.length = USART_INPUT_BUFFER_LENGTH →
      w.usart0.input_buffer = pre ++ old →
      w.usart0.i_idx = pre.length →
      ∃ w1, usart_receive_all q w = some w1 ∧
        w1.fsm = w.fsm ∧
        w1.usart0 = { w.usart0 with
          input_buffer := (pre ++ q) ++ old.drop q.length
          i_idx := pre.length + q.length } := by
  induction q with
  | nil =>
    intro w pre old _ _ _ hbuf hidx
    refine ⟨w, rfl, rfl, ?_⟩
    rcases w with ⟨f, ⟨ib, ii, rc, ob, oi, wc⟩, dr, tl, tw, c1, c2⟩
    simp only at hbuf hidx
    simp [hbuf, hidx]
  | cons c rest ih =>
    intro w pre old hq hle hlen hbuf hidx
    cases old with
    | nil => simp at hle
    | cons o old1 =>
      have hc : c < 256 ∧ c ≠ END_CHAR_CONSTANT := hq c (List.mem_cons_self _ _)
      have hlen1 : pre.length + (old1.length + 1) = 10 := by
        simpa [USART_INPUT_BUFFER_LENGTH] using hlen
      have hstep : usart_receive c w =
          some { w with
            dr_rx := c
            usart0 := { w.usart0 with
              input_buffer := (pre ++ [c]) ++ old1
              i_idx := pre.length + 1 } } := by
        obtain ⟨hc1, hc2⟩ := hc
        simp only [usart_receive, port_usart_store_data, usart_arr, if_true,
          Nat.mod_eq_of_lt hc1]
        rw [if_pos hc2, if_neg (by simp only [hidx, USART_INPUT_BUFFER_LENGTH]; omega)]
        simp only [array_write, hbuf, hidx]
        rw [if_pos (by simp)]
        simp only [set_append_cons]
        rw [Nat.mod_eq_of_lt (by omega)]
        simp
      obtain ⟨w1, h1, h2, h3⟩ := ih
        { w with
          dr_rx := c
          usart0 := { w.usart0 with
            input_buffer := (pre ++ [c]) ++ old1
            i_idx := pre.length + 1 } }
        (pre ++ [c]) old1
        (fun b hb => hq b (List.mem_cons_of_mem _ hb))
        (by simpa using hle)
        (by simp [USART_INPUT_BUFFER_LENGTH]; omega)
        rfl (by simp)
      refine ⟨w1, ?_, h2, ?_⟩
      · simp only [usart_receive_all, hstep]
        exact h1
      · rw [h3]
        simp [Nat.add_assoc, Nat.add_comm 1]

/-- C14: when `i_idx = 10` (input buffer full) and the received byte `c` is not the end marker,
`port_usart_store_data` writes `c` into slot 0, sets `i_idx` to 1 and leaves slots 1..9,
`read_complete` and everything else unchanged, with no error. Consequently `k` payload bytes
with `10 < k <= 20`, received from a cleared buffer with `i_idx = 0`, leave bytes 11..k of the
message in slots 0..k-11 and bytes k-9..10 in the remaining slots, with `i_idx = k - 10`. -/
theorem usart_store_data_wraps :
    (∀ (w : usart_world) (c : Nat),
      w.usart0.i_idx = USART_INPUT_BUFFER_LENGTH →
      w.usart0.input_buffer.length = USART_INPUT_BUFFER_LENGTH →
      c < 256 → c ≠ END_CHAR_CONSTANT →
      port_usart_store_data { w with dr_rx := c } USART_0_ID =
        some { w with
          dr_rx := c
          usart0 := { w.usart0 with
            input_buffer := w.usart0.input_buffer.set 0 c
            i_idx := 1 } } ∧
      (w.usart0.input_buffer.set 0 c)[0]? = some c ∧
      (∀ j, 1 ≤ j → (w.usart0.input_buffer.set 0 c)[j]? = w.usart0.input_buffer[j]?)) ∧
    (∀ (w : usart_world) (payload : List Nat),
      USART_INPUT_BUFFER_LENGTH < payload.length →
      payload.length ≤ 2 * USART_INPUT_BUFFER_LENGTH →
      (∀ b ∈ payload, b < 256 ∧ b ≠ END_CHAR_CONSTANT) →
      w.usart0.input_buffer = List.replicate USART_INPUT_BUFFER_LENGTH 0 →
      w.usart0.i_idx = 0 →
      ∃ w1, usart_receive_all payload w = some w1 ∧
        w1.fsm = w.fsm ∧
        w1.usart0 = { w.usart0 with
          input_buffer := payload.drop USART_INPUT_BUFFER_LENGTH ++
            (payload.take USART_INPUT_BUFFER_LENGTH).drop
              (payload.length - USART_INPUT_BUFFER_LENGTH)
          i_idx := payload.length - USART_INPUT_BUFFER_LENGTH } ∧
        (∀ j, j < payload.length - USART_INPUT_BUFFER_LENGTH →
          w1.usart0.input_buffer[j]? = payload[USART_INPUT_BUFFER_LENGTH + j]?) ∧
        (∀ j, payload.length - USART_INPUT_BUFFER_LENGTH ≤ j → j < USART_INPUT_BUFFER_LENGTH →
          w1.usart0.input_buffer[j]? = payload[j]?)) := by
  refine ⟨?_, ?_⟩
  · intro w c hidx hlen hc1 hc2
    refine ⟨usart_receive_full w c ⟨hc1, hc2⟩ hidx hlen, ?_, ?_⟩
    · have h0 : 0 < w.usart0.input_buffer.length := by rw [hlen]; decide
      simp [List.getElem?_set, h0]
    · intro j hj
      rw [List.getElem?_set_ne (by omega)]
  · intro w payload hk1 hk2 hq hbuf hidx
    have hk1n : 10 < payload.length := hk1
    have hk2n : payload.length ≤ 20 := by simpa [USART_INPUT_BUFFER_LENGTH] using hk2
    have htl : (payload.take 10).length = 10 := by
      rw [List.length_take]; omega
    -- the first ten bytes fill the buffer
    obtain ⟨wa, ha1, ha2, ha3⟩ := usart_receive_payload (payload.take 10) w []
      (fun b hb => hq b (List.mem_of_mem_take hb))
      (by simp [USART_INPUT_BUFFER_LENGTH])
      (by simpa using hbuf) (by simpa using hidx)
    have ha3b : wa.usart0 = { w.usart0 with
        input_buffer := payload.take 10, i_idx := 10 } := by
      rw [ha3]
      simp [htl, USART_INPUT_BUFFER_LENGTH]
    -- the eleventh byte wraps
    obtain ⟨c, rest, hdrop⟩ : ∃ c rest, payload.drop 10 = c :: rest := by
      cases hd : payload.drop 10 with
      | nil =>
        have := congrArg List.length hd
        simp at this
        omega
      | cons c rest => exact ⟨c, rest, rfl⟩
    have hrestlen : rest.length + 11 = payload.length := by
      have := congrArg List.length hdrop
      simp at this
      omega
    have hcmem : c ∈ payload := List.mem_of_mem_drop (by rw [hdrop]; exact List.mem_cons_self _ _)
    have hrestmem : ∀ b ∈ rest, b ∈ payload := fun b hb =>
      List.mem_of_mem_drop (by rw [hdrop]; exact List.mem_cons_of_mem _ hb)
    have hb1 := usart_receive_full wa c (hq c hcmem)
      (by rw [ha3b]; rfl) (by rw [ha3b]; exact htl)
    obtain ⟨t0, told, htake⟩ : ∃ t0 told, payload.take 10 = t0 :: told := by
      cases ht : payload.take 10 with
      | nil => rw [ht] at htl; simp at htl
      | cons t0 told => exact ⟨t0, told, rfl⟩
    have htold : told.length = 9 := by
      have := congrArg List.length htake
      rw [htl] at this
      simpa using this.symm
    -- the remaining bytes overwrite the following slots
    obtain ⟨wc, hc1, hc2, hc3⟩ := usart_receive_over rest
      { wa with
        dr_rx := c
        usart0 := { wa.usart0 with
          input_buffer := wa.usart0.input_buffer.set 0 c
          i_idx := 1 } }
      [c] told
      (fun b hb => hq b (hrestmem b hb))
      (by omega)
      (by simp [USART_INPUT_BUFFER_LENGTH, htold])
      (by simp [ha3b, htake])
      rfl
    have hsplit : payload = payload.take 10 ++ (c :: rest) := by
      rw [← hdrop, List.take_append_drop]
    have hbufc : wc.usart0.input_buffer =
        payload.drop 10 ++ (payload.take 10).drop (payload.length - 10) := by
      rw [hc3, hdrop, htake]
      have hn : payload.length - 10 = rest.length + 1 := by omega
      simp [hn]
    have hrun : usart_receive_all payload w = some wc := by
      conv_lhs => rw [hsplit]
      rw [usart_receive_all_append, ha1]
      simp only [usart_receive_all, hb1]
      exact hc1
    refine ⟨wc, hrun, ?_, ?_, ?_, ?_⟩
    · rw [hc2]; exact ha2
    · have hn : payload.length - 10 = rest.length + 1 := by omega
      rw [hc3]
      simp only [USART_INPUT_BUFFER_LENGTH]
      rw [ha3b, hdrop, htake, hn]
      simp [Nat.add_comm 1]
    · intro j hj
      have hj1 : j < (payload.drop 10).length := by
        rw [List.length_drop]; exact hj
      rw [hbufc, List.getElem?_append_left hj1, List.getElem?_drop]
      rfl
    · intro j hj1 hj2
      have hj1n : payload.length - 10 ≤ j := hj1
      have hj2n : j < 10 := hj2
      have hdl : (payload.drop 10).length = payload.length - 10 := List.length_drop _ _
      rw [hbufc, List.getElem?_append_right (by rw [hdl]; exact hj1n), hdl,
        List.getElem?_drop, List.getElem?_take_of_lt (by omega)]
      congr 1
      omega

/-- Witness of C14: twelve payload bytes "abcdefghijkl" received from a cleared buffer. -/
theorem usart_store_data_wraps_witness :
    ∃ w1, usart_receive_all [97, 98, 99, 100, 101, 102, 103, 104, 105, 106, 107, 108]
        usart_example = some w1 ∧
      w1.fsm = usart_example.fsm ∧
      w1.usart0 = { usart_example.usart0 with
        input_buffer :=
          [97, 98, 99, 100, 101, 102, 103, 104, 105, 106, 107, 108].drop
              USART_INPUT_BUFFER_LENGTH ++
            ([97, 98, 99, 100, 101, 102, 103, 104, 105, 106, 107, 108].take
              USART_INPUT_BUFFER_LENGTH).drop
              ([97, 98, 99, 100, 101, 102, 103, 104, 105, 106, 107, 108].length -
                USART_INPUT_BUFFER_LENGTH)
        i_idx := [97, 98, 99, 100, 101, 102, 103, 104, 105, 106, 107, 108].length -
          USART_INPUT_BUFFER_LENGTH } ∧
      (∀ j, j < [97, 98, 99, 100, 101, 102, 103, 104, 105, 106, 107, 108].length -
          USART_INPUT_BUFFER_LENGTH →
        w1.usart0.input_buffer[j]? =
          [97, 98, 99, 100, 101, 102, 103, 104, 105, 106, 107, 108][
            USART_INPUT_BUFFER_LENGTH + j]?) ∧
      (∀ j, [97, 98, 99, 100, 101, 102, 103, 104, 105, 106, 107, 108].length -
          USART_INPUT_BUFFER_LENGTH ≤ j → j < USART_INPUT_BUFFER_LENGTH →
        w1.usart0.input_buffer[j]? =
          [97, 98, 99, 100, 101, 102, 103, 104, 105, 106, 107, 108][j]?) :=
  usart_store_data_wraps.2 usart_example
    [97, 98, 99, 100, 101, 102, 103, 104, 105, 106, 107, 108]
    (by decide) (by decide) (by decide) rfl rfl

/-! ## Theorems: dispatch engine -/

/-- The scan finds nothing when no rule of the current state has a true guard. -/
theorem fsm_scan_no_rule {σ : Type} (cur : Int) (s : σ) (tt : List (fsm_trans_t σ)) :
    ∀ i, fsm_no_rule_enabled cur s tt → fsm_scan cur s tt i = some none := by
  induction tt with
  | nil => intro i _; rfl
  | cons t rest ih =>
    intro i h
    have hrest : fsm_no_rule_enabled cur s rest :=
      fun tj hj => h tj (List.mem_cons_of_mem _ hj)
    unfold fsm_scan
    by_cases hneg : t.source_state < 0
    · rw [if_pos hneg]
    · rw [if_neg hneg]
      by_cases hcur : cur = t.source_state
      · rw [if_pos hcur]
        have hg := h t (List.mem_cons_self _ _) (by omega) hcur.symm
        unfold fsm_guard_value at hg
        cases hgd : t.guard with
        | none => rw [hgd] at hg; simp at hg
        | some g =>
          rw [hgd] at hg
          simp only [Option.some_bind] at hg
          simp only [hg]
          exact ih (i + 1) hrest
      · rw [if_neg hcur]
        exact ih (i + 1) hrest

/-- An idle tick: when no rule of the current state has a true guard, the step returns the
state as it is and reports that no rule fired. -/
theorem fsm_fire_no_rule {σ : Type} (cur : σ → Int) (setCur : Int → σ → σ)
    (tt : List (fsm_trans_t σ)) (s : σ) (h : fsm_no_rule_enabled (cur s) s tt) :
    fsm_fire cur setCur tt s = some (s, none) := by
  unfold fsm_fire
  rw [fsm_scan_no_rule (cur s) s tt 0 h]

/-- The scan stops at the first rule of the current state whose guard holds. -/
theorem fsm_scan_first {σ : Type} (cur : Int) (s : σ) (t : fsm_trans_t σ)
    (rest : List (fsm_trans_t σ)) (h0 : 0 ≤ t.source_state) (hsrc : t.source_state = cur)
    (hg : fsm_guard_value t s = some true) (pre : List (fsm_trans_t σ)) :
    ∀ i, (∀ tj ∈ pre,
        0 ≤ tj.source_state ∧ (tj.source_state = cur → fsm_guard_value tj s = some false)) →
      fsm_scan cur s (pre ++ t :: rest) i = some (some (i + pre.length, t)) := by
  induction pre with
  | nil =>
    intro i _
    simp only [List.nil_append, List.length_nil, Nat.add_zero]
    unfold fsm_scan
    rw [if_neg (by omega), if_pos hsrc.symm]
    unfold fsm_guard_value at hg
    cases hgd : t.guard with
    | none => rw [hgd] at hg; simp at hg
    | some g =>
      rw [hgd] at hg
      simp only [Option.some_bind] at hg
      simp only [hg]
  | cons tj pre ih =>
    intro i h
    have hj := h tj (List.mem_cons_self _ _)
    have hpre : ∀ tk ∈ pre,
        0 ≤ tk.source_state ∧ (tk.source_state = cur → fsm_guard_value tk s = some false) :=
      fun tk hk => h tk (List.mem_cons_of_mem _ hk)
    simp only [List.cons_append, List.length_cons]
    unfold fsm_scan
    rw [if_neg (by omega)]
    by_cases hcur : cur = tj.source_state
    · rw [if_pos hcur]
      have hgj := hj.2 hcur.symm
      unfold fsm_guard_value at hgj
      cases hgd : tj.guard with
      | none => rw [hgd] at hgj; simp at hgj
      | some g =>
        rw [hgd] at hgj
        simp only [Option.some_bind] at hgj
        simp only [hgj]
        rw [ih (i + 1) hpre]
        congr 3
        omega
    · rw [if_neg hcur, ih (i + 1) hpre]
      congr 3
      omega

/-- One step fires the first enabled rule and only that rule: its action is run on the pre-step
state and the current state becomes its destination. -/
theorem fsm_fire_first {σ : Type} (cur : σ → Int) (setCur : Int → σ → σ)
    (tt : List (fsm_trans_t σ)) (s : σ) (i : Nat) (t : fsm_trans_t σ)
    (h : fsm_first_enabled (cur s) s tt i t) :
    fsm_fire cur setCur tt s =
      (fsm_run_action t s).map (fun s1 => (setCur t.destination_state s1, some i)) := by
  obtain ⟨hi, h0, hsrc, hg, hpre⟩ := h
  have hlt : i < tt.length := (List.getElem?_eq_some.mp hi).1
  have hsplit : tt = tt.take i ++ t :: tt.drop (i + 1) := by
    have hget : tt[i] = t := (List.getElem?_eq_some.mp hi).2
    rw [← hget, List.getElem_cons_drop, List.take_append_drop]
  have hscan : fsm_scan (cur s) s tt 0 = some (some (i, t)) := by
    conv_lhs => rw [hsplit]
    rw [fsm_scan_first (cur s) s t _ h0 hsrc hg (tt.take i) 0 hpre]
    simp [List.length_take, Nat.min_eq_left (Nat.le_of_lt hlt)]
  unfold fsm_fire fsm_run_action
  rw [hscan]
  cases hta : t.action with
  | none => simp only [hta, Option.map_some']
  | some a =>
    simp only [hta]
    cases a s <;> rfl

/-- A rule returned by the scan is the first enabled rule of the current state. -/
theorem fsm_scan_some {σ : Type} (cur : Int) (s : σ) (tt : List (fsm_trans_t σ)) :
    ∀ (k i : Nat) (t : fsm_trans_t σ), fsm_scan cur s tt k = some (some (i, t)) →
      ∃ pre rest, tt = pre ++ t :: rest ∧ i = k + pre.length ∧ 0 ≤ t.source_state ∧
        t.source_state = cur ∧ fsm_guard_value t s = some true ∧
        ∀ tj ∈ pre,
          0 ≤ tj.source_state ∧ (tj.source_state = cur → fsm_guard_value tj s = some false) := by
  induction tt with
  | nil =>
    intro k i t h
    simp [fsm_scan] at h
  | cons t0 rest ih =>
    intro k i t h
    unfold fsm_scan at h
    by_cases hneg : t0.source_state < 0
    · rw [if_pos hneg] at h
      simp at h
    · rw [if_neg hneg] at h
      have hnext : fsm_scan cur s rest (k + 1) = some (some (i, t)) →
          (t0.source_state = cur → fsm_guard_value t0 s = some false) →
          ∃ pre rest1, t0 :: rest = pre ++ t :: rest1 ∧ i = k + pre.length ∧
            0 ≤ t.source_state ∧ t.source_state = cur ∧ fsm_guard_value t s = some true ∧
            ∀ tj ∈ pre,
              0 ≤ tj.source_state ∧
                (tj.source_state = cur → fsm_guard_value tj s = some false) := by
        intro hrec hfalse
        obtain ⟨pre, rest1, h1, h2, h3, h4, h5, h6⟩ := ih (k + 1) i t hrec
        refine ⟨t0 :: pre, rest1, by rw [h1]; rfl, by simp only [List.length_cons]; omega,
          h3, h4, h5, ?_⟩
        intro tj hj
        rcases List.mem_cons.mp hj with rfl | hj
        · exact ⟨by omega, hfalse⟩
        · exact h6 tj hj
      by_cases hcur : cur = t0.source_state
      · rw [if_pos hcur] at h
        cases hgd : t0.guard with
        | none => simp [hgd] at h
        | some g =>
          simp only [hgd] at h
          cases hgs : g s with
          | none => simp [hgs] at h
          | some b =>
            cases b with
            | true =>
              simp only [hgs, Option.some.injEq, Prod.mk.injEq] at h
              obtain ⟨rfl, rfl⟩ := h
              exact ⟨[], rest, rfl, rfl, by omega, hcur.symm,
                by simp [fsm_guard_value, hgd, hgs], by simp⟩
            | false =>
              simp only [hgs] at h
              exact hnext h (fun _ => by simp [fsm_guard_value, hgd, hgs])
      · rw [if_neg hcur] at h
        exact hnext h (fun hc => absurd hc.symm hcur)

/-- A step that reports rule `i` has run the action of the first enabled rule, which is rule
`i`, and of no other rule. -/
theorem fsm_fire_some {σ : Type} (cur : σ → Int) (setCur : Int → σ → σ)
    (tt : List (fsm_trans_t σ)) (s s1 : σ) (i : Nat)
    (h : fsm_fire cur setCur tt s = some (s1, some i)) :
    ∃ t, fsm_first_enabled (cur s) s tt i t ∧
      ∃ s2, fsm_run_action t s = some s2 ∧ s1 = setCur t.destination_state s2 := by
  unfold fsm_fire at h
  cases hscan : fsm_scan (cur s) s tt 0 with
  | none => simp [hscan] at h
  | some found =>
    cases found with
    | none => simp [hscan] at h
    | some it =>
      obtain ⟨i0, t⟩ := it
      simp only [hscan] at h
      obtain ⟨pre, rest, h1, h2, h3, h4, h5, h6⟩ := fsm_scan_some (cur s) s tt 0 i0 t hscan
      have hi0 : i0 = pre.length := by omega
      have hfirst : fsm_first_enabled (cur s) s tt i0 t := by
        refine ⟨?_, h3, h4, h5, ?_⟩
        · rw [h1, hi0, List.getElem?_append_right (Nat.le_refl _), Nat.sub_self]
          simp
        · rw [h1, hi0]
          simpa using h6
      cases hta : t.action with
      | none =>
        simp only [hta, Option.some.injEq, Prod.mk.injEq] at h
        obtain ⟨rfl, hi⟩ := h
        have hi : i0 = i := by simpa using hi
        subst hi
        exact ⟨t, hfirst, s, by simp [fsm_run_action, hta], rfl⟩
      | some a =>
        simp only [hta] at h
        cases has : a s with
        | none => simp [has] at h
        | some s2 =>
          simp only [has, Option.some.injEq, Prod.mk.injEq] at h
          obtain ⟨rfl, hi⟩ := h
          have hi : i0 = i := by simpa using hi
          subst hi
          exact ⟨t, hfirst, s2, by simp [fsm_run_action, hta, has], rfl⟩

/-! ## Theorems: button machine, press cycle -/

/-- The claim C21 as stated fails: a machine in `BUTTON_RELEASED` that holds a duration of 30 ms
from the previous press is pressed at tick 200; the RELEASED -> PRESSED_WAIT rule fires and
`fsm_button_get_duration` still returns 30, not 0. -/
theorem button_press_start_duration_not_cleared :
    button_poll (true, 200)
        { button_example with fsm := { button_example.fsm with duration := 30 } } =
      some ({ fsm := { f := { current_state := BUTTON_PRESSED_WAIT }, debounce_time := 5,
                       next_timeout := 205, tick_pressed := 200, duration := 30,
                       button_id := BUTTON_0_ID },
              button0 := { flag_pressed := true }, millis := 200 }, some 0) ∧
    fsm_button_get_duration
        ({ f := { current_state := BUTTON_PRESSED_WAIT }, debounce_time := 5,
           next_timeout := 205, tick_pressed := 200, duration := 30,
           button_id := BUTTON_0_ID } : fsm_button_t) = 30 ∧
    fsm_button_get_duration
        ({ f := { current_state := BUTTON_PRESSED_WAIT }, debounce_time := 5,
           next_timeout := 205, tick_pressed := 200, duration := 30,
           button_id := BUTTON_0_ID } : fsm_button_t) ≠ 0 := by
  decide

/-- C21 (amended): when a press cycle starts, i.e. in `BUTTON_RELEASED` with the pressed flag
true on button 0, the RELEASED -> PRESSED_WAIT rule fires and writes only `tick_pressed`,
`next_timeout` and `current_state`: `fsm_button_get_duration` returns right after that step the
value it returned before it, for every prior value of `duration`. -/
theorem button_press_start_keeps_duration (w : button_world)
    (hst : w.fsm.f.current_state = BUTTON_RELEASED) (hid : w.fsm.button_id = BUTTON_0_ID)
    (hp : w.button0.flag_pressed = true) :
    fsm_button_fire w =
      some ({ w with fsm := { w.fsm with
                f := { current_state := BUTTON_PRESSED_WAIT }
                tick_pressed := port_button_get_tick w
                next_timeout := (port_button_get_tick w + w.fsm.debounce_time) % U32 } },
            some 0) ∧
    ∀ w1 r, fsm_button_fire w = some (w1, r) →
      r = some 0 ∧ fsm_button_get_duration w1.fsm = fsm_button_get_duration w.fsm := by
  have hfire : fsm_button_fire w =
      some ({ w with fsm := { w.fsm with
                f := { current_state := BUTTON_PRESSED_WAIT }
                tick_pressed := port_button_get_tick w
                next_timeout := (port_button_get_tick w + w.fsm.debounce_time) % U32 } },
            some 0) := by
    have hc : check_button_pressed w = some true := by
      simp [check_button_pressed, port_button_is_pressed, buttons_arr, hid, hp]
    rw [fsm_button_fire_released w hst, hc]
    rfl
  refine ⟨hfire, ?_⟩
  intro w1 r h
  rw [hfire] at h
  simp only [Option.some.injEq, Prod.mk.injEq] at h
  obtain ⟨rfl, rfl⟩ := h
  exact ⟨rfl, rfl⟩

/-- Witness of C21 (amended): a machine holding 30 ms is pressed at tick 200. -/
theorem button_press_start_keeps_duration_witness :
    fsm_button_fire
        { fsm := { button_example.fsm with duration := 30 },
          button0 := { flag_pressed := true }, millis := 200 } =
      some ({ ({ fsm := { button_example.fsm with duration := 30 },
                 button0 := { flag_pressed := true }, millis := 200 } : button_world) with
              fsm := { ({ fsm := { button_example.fsm with duration := 30 },
                          button0 := { flag_pressed := true },
                          millis := 200 } : button_world).fsm with
                f := { current_state := BUTTON_PRESSED_WAIT }
                tick_pressed := port_button_get_tick
                  { fsm := { button_example.fsm with duration := 30 },
                    button0 := { flag_pressed := true }, millis := 200 }
                next_timeout := (port_button_get_tick
                  { fsm := { button_example.fsm with duration := 30 },
                    button0 := { flag_pressed := true }, millis := 200 } +
                  ({ fsm := { button_example.fsm with duration := 30 },
                     button0 := { flag_pressed := true },
                     millis := 200 } : button_world).fsm.debounce_time) % U32 } },
            some 0) :=
  (button_press_start_keeps_duration
    { fsm := { button_example.fsm with duration := 30 },
      button0 := { flag_pressed := true }, millis := 200 } rfl rfl rfl).1

/-- C22: a machine in `BUTTON_PRESSED_WAIT` on button 0 after a press at tick `t0` with debounce
time `d` (so `next_timeout = t0 + d`), whose pressed flag is already false: for all 32-bit ticks
`t1 > t0 + d`, `t2 >= t1` and `t3 > t2 + d`, the three polls at `t1`, `t2`, `t3` fire rules 1, 2
and 3, i.e. PRESSED_WAIT -> PRESSED -> RELEASED_WAIT -> RELEASED; the machine ends in
`BUTTON_RELEASED` with `duration = t2 - t0` and `fsm_button_check_activity` false. -/
theorem button_short_press_completes (w : button_world) (d t0 t1 t2 t3 : Nat)
    (hst : w.fsm.f.current_state = BUTTON_PRESSED_WAIT) (hid : w.fsm.button_id = BUTTON_0_ID)
    (hd : w.fsm.debounce_time = d) (htp : w.fsm.tick_pressed = t0)
    (hnt : w.fsm.next_timeout = t0 + d)
    (h1 : t0 + d < t1) (h2 : t1 ≤ t2) (h3 : t2 + d < t3) (hw : t3 < U32) :
    button_run [(false, t1), (false, t2), (false, t3)] w =
      some ({ fsm := { f := { current_state := BUTTON_RELEASED }, debounce_time := d,
                       next_timeout := t2 + d, tick_pressed := t0, duration := t2 - t0,
                       button_id := BUTTON_0_ID },
              button0 := { flag_pressed := false }, millis := t3 },
            [some 1, some 2, some 3]) ∧
    ∀ w3 fired, button_run [(false, t1), (false, t2), (false, t3)] w = some (w3, fired) →
      w3.fsm.f.current_state = BUTTON_RELEASED ∧ fsm_button_check_activity w3.fsm = false := by
  rcases w with ⟨⟨⟨st⟩, d0, nt, tp, du, id⟩, ⟨fl⟩, ms⟩
  simp only at hst hid hd htp hnt
  subst hst hid hd htp hnt
  have hU : U32 = 4294967296 := rfl
  rw [hU] at hw
  have e1 : t1 % U32 = t1 := Nat.mod_eq_of_lt (by rw [hU]; omega)
  have e2 : t2 % U32 = t2 := Nat.mod_eq_of_lt (by rw [hU]; omega)
  have e3 : t3 % U32 = t3 := Nat.mod_eq_of_lt (by rw [hU]; omega)
  have hp1 : button_poll (false, t1)
      { fsm := { f := { current_state := BUTTON_PRESSED_WAIT }, debounce_time := d0,
                 next_timeout := tp + d0, tick_pressed := tp, duration := du,
                 button_id := BUTTON_0_ID },
        button0 := { flag_pressed := fl }, millis := ms } =
      some ({ fsm := { f := { current_state := BUTTON_PRESSED }, debounce_time := d0,
                       next_timeout := tp + d0, tick_pressed := tp, duration := du,
                       button_id := BUTTON_0_ID },
              button0 := { flag_pressed := false }, millis := t1 }, some 1) := by
    rw [button_poll, fsm_button_fire_pressed_wait _ rfl]
    simp only [port_button_get_tick, button_set_inputs, e1]
    rw [if_pos h1]
    rfl
  have hp2 : button_poll (false, t2)
      { fsm := { f := { current_state := BUTTON_PRESSED }, debounce_time := d0,
                 next_timeout := tp + d0, tick_pressed := tp, duration := du,
                 button_id := BUTTON_0_ID },
        button0 := { flag_pressed := false }, millis := t1 } =
      some ({ fsm := { f := { current_state := BUTTON_RELEASED_WAIT }, debounce_time := d0,
                       next_timeout := t2 + d0, tick_pressed := tp, duration := t2 - tp,
                       button_id := BUTTON_0_ID },
              button0 := { flag_pressed := false }, millis := t2 }, some 2) := by
    rw [button_poll, fsm_button_fire_pressed _ rfl]
    have hc : check_button_released (button_set_inputs (false, t2).1 (false, t2).2
        { fsm := { f := { current_state := BUTTON_PRESSED }, debounce_time := d0,
                   next_timeout := tp + d0, tick_pressed := tp, duration := du,
                   button_id := BUTTON_0_ID },
          button0 := { flag_pressed := false }, millis := t1 }) = some true := by
      simp [check_button_released, port_button_is_pressed, buttons_arr, button_set_inputs]
    rw [hc]
    have hdur : (t2 + (U32 - tp % U32)) % U32 = t2 - tp := by
      rw [Nat.mod_eq_of_lt (show tp < U32 by rw [hU]; omega)]
      have : t2 + (U32 - tp) = (t2 - tp) + U32 := by rw [hU]; omega
      rw [this, Nat.add_mod_right, Nat.mod_eq_of_lt (by rw [hU]; omega)]
    have hnt2 : (t2 + d0) % U32 = t2 + d0 := Nat.mod_eq_of_lt (by rw [hU]; omega)
    simp only [do_set_duration, port_button_get_tick, button_set_inputs, e2, hdur, hnt2,
      Option.map_some', button_set_state]
  have hp3 : button_poll (false, t3)
      { fsm := { f := { current_state := BUTTON_RELEASED_WAIT }, debounce_time := d0,
                 next_timeout := t2 + d0, tick_pressed := tp, duration := t2 - tp,
                 button_id := BUTTON_0_ID },
        button0 := { flag_pressed := false }, millis := t2 } =
      some ({ fsm := { f := { current_state := BUTTON_RELEASED }, debounce_time := d0,
                       next_timeout := t2 + d0, tick_pressed := tp, duration := t2 - tp,
                       button_id := BUTTON_0_ID },
              button0 := { flag_pressed := false }, millis := t3 }, some 3) := by
    rw [button_poll, fsm_button_fire_released_wait _ rfl]
    simp only [port_button_get_tick, button_set_inputs, e3]
    rw [if_pos h3]
    rfl
  have hrun : button_run [(false, t1), (false, t2), (false, t3)]
      { fsm := { f := { current_state := BUTTON_PRESSED_WAIT }, debounce_time := d0,
                 next_timeout := tp + d0, tick_pressed := tp, duration := du,
                 button_id := BUTTON_0_ID },
        button0 := { flag_pressed := fl }, millis := ms } =
      some ({ fsm := { f := { current_state := BUTTON_RELEASED }, debounce_time := d0,
                       next_timeout := t2 + d0, tick_pressed := tp, duration := t2 - tp,
                       button_id := BUTTON_0_ID },
              button0 := { flag_pressed := false }, millis := t3 },
            [some 1, some 2, some 3]) := by
    simp only [button_run, hp1, hp2, hp3]
  refine ⟨hrun, ?_⟩
  intro w3 fired h
  rw [hrun] at h
  simp only [Option.some.injEq, Prod.mk.injEq] at h
  obtain ⟨rfl, -⟩ := h
  exact ⟨rfl, rfl⟩

/-- Witness of C22: debounce time 5 ms, press at tick 100, polls at ticks 106, 106 and 112. -/
theorem button_short_press_completes_witness :
    button_run [(false, 106), (false, 106), (false, 112)]
        { fsm := { f := { current_state := BUTTON_PRESSED_WAIT }, debounce_time := 5,
                   next_timeout := 105, tick_pressed := 100, duration := 0,
                   button_id := BUTTON_0_ID },
          button0 := { flag_pressed := false }, millis := 102 } =
      some ({ fsm := { f := { current_state := BUTTON_RELEASED }, debounce_time := 5,
                       next_timeout := 106 + 5, tick_pressed := 100, duration := 106 - 100,
                       button_id := BUTTON_0_ID },
              button0 := { flag_pressed := false }, millis := 112 },
            [some 1, some 2, some 3]) :=
  (button_short_press_completes
    { fsm := { f := { current_state := BUTTON_PRESSED_WAIT }, debounce_time := 5,
               next_timeout := 105, tick_pressed := 100, duration := 0,
               button_id := BUTTON_0_ID },
      button0 := { flag_pressed := false }, millis := 102 }
    5 100 106 106 112 rfl rfl rfl rfl rfl (by decide) (by decide) (by decide) (by decide)).1

/-- C23: for every state of a button machine on button 0 and every hardware input (pressed
flag, tick), one step returns and either leaves `current_state` unchanged or moves it to its
successor in the cycle RELEASED -> PRESSED_WAIT -> PRESSED -> RELEASED_WAIT -> RELEASED;
`BUTTON_RELEASED` is left exactly when the pressed flag is true, the step then recording
`tick_pressed = now` and `next_timeout = (now + debounce_time) mod 2^32`, and `BUTTON_PRESSED` is
left exactly when the pressed flag is false. -/
theorem button_step_follows_cycle (w : button_world) (hid : w.fsm.button_id = BUTTON_0_ID) :
    ∃ w1 r, fsm_button_fire w = some (w1, r) ∧
      (w1.fsm.f.current_state = w.fsm.f.current_state ∨
        (w.fsm.f.current_state = BUTTON_RELEASED ∧
          w1.fsm.f.current_state = BUTTON_PRESSED_WAIT) ∨
        (w.fsm.f.current_state = BUTTON_PRESSED_WAIT ∧
          w1.fsm.f.current_state = BUTTON_PRESSED) ∨
        (w.fsm.f.current_state = BUTTON_PRESSED ∧
          w1.fsm.f.current_state = BUTTON_RELEASED_WAIT) ∨
        (w.fsm.f.current_state = BUTTON_RELEASED_WAIT ∧
          w1.fsm.f.current_state = BUTTON_RELEASED)) ∧
      (w.fsm.f.current_state = BUTTON_RELEASED →
        (w1.fsm.f.current_state ≠ BUTTON_RELEASED ↔ w.button0.flag_pressed = true) ∧
        (w1.fsm.f.current_state ≠ BUTTON_RELEASED →
          w1.fsm.tick_pressed = port_button_get_tick w ∧
          w1.fsm.next_timeout = (port_button_get_tick w + w.fsm.debounce_time) % U32)) ∧
      (w.fsm.f.current_state = BUTTON_PRESSED →
        (w1.fsm.f.current_state ≠ BUTTON_PRESSED ↔ w.button0.flag_pressed = false)) := by
  have hpr : check_button_pressed w = some w.button0.flag_pressed := by
    simp [check_button_pressed, port_button_is_pressed, buttons_arr, hid]
  have hrl : check_button_released w = some (!w.button0.flag_pressed) := by
    simp [check_button_released, port_button_is_pressed, buttons_arr, hid]
  by_cases h0 : w.fsm.f.current_state = BUTTON_RELEASED
  · rw [fsm_button_fire_released w h0, hpr]
    cases hfl : w.button0.flag_pressed with
    | true =>
      refine ⟨_, _, rfl, ?_, ?_, ?_⟩
      · exact Or.inr (Or.inl ⟨h0, rfl⟩)
      · intro _
        refine ⟨?_, fun _ => ⟨rfl, rfl⟩⟩
        simp [button_set_state, BUTTON_PRESSED_WAIT, BUTTON_RELEASED]
      · intro h2
        rw [h0] at h2
        exact absurd h2 (by decide)
    | false =>
      refine ⟨_, _, rfl, Or.inl rfl, ?_, ?_⟩
      · intro _
        refine ⟨?_, fun h => absurd h0 h⟩
        simp [h0]
      · intro h2
        rw [h0] at h2
        exact absurd h2 (by decide)
  · by_cases h3 : w.fsm.f.current_state = BUTTON_PRESSED_WAIT
    · rw [fsm_button_fire_pressed_wait w h3]
      have hn2 : ¬ w.fsm.f.current_state = BUTTON_PRESSED := by rw [h3]; decide
      split_ifs
      · exact ⟨_, _, rfl, Or.inr (Or.inr (Or.inl ⟨h3, rfl⟩)), fun h => absurd h h0,
          fun h => absurd h hn2⟩
      · exact ⟨_, _, rfl, Or.inl rfl, fun h => absurd h h0, fun h => absurd h hn2⟩
    · by_cases h2 : w.fsm.f.current_state = BUTTON_PRESSED
      · rw [fsm_button_fire_pressed w h2, hrl]
        cases hfl : w.button0.flag_pressed with
        | true =>
          refine ⟨_, _, rfl, Or.inl rfl, fun h => absurd h h0, ?_⟩
          intro _
          simp [h2]
        | false =>
          refine ⟨_, _, rfl, Or.inr (Or.inr (Or.inr (Or.inl ⟨h2, rfl⟩))),
            fun h => absurd h h0, ?_⟩
          intro _
          simp [do_set_duration, button_set_state, BUTTON_RELEASED_WAIT, BUTTON_PRESSED]
      · by_cases h1 : w.fsm.f.current_state = BUTTON_RELEASED_WAIT
        · rw [fsm_button_fire_released_wait w h1]
          split_ifs
          · exact ⟨_, _, rfl, Or.inr (Or.inr (Or.inr (Or.inr ⟨h1, rfl⟩))),
              fun h => absurd h h0, fun h => absurd h h2⟩
          · exact ⟨_, _, rfl, Or.inl rfl, fun h => absurd h h0, fun h => absurd h h2⟩
        · rw [fsm_button_fire_eq, if_neg h0, if_neg h3, if_neg h2, if_neg h1]
          exact ⟨_, _, rfl, Or.inl rfl, fun h => absurd h h0, fun h => absurd h h2⟩

/-- Witness of C23: the machine `button_example` polled with the button pressed at tick 200. -/
theorem button_step_follows_cycle_witness :
    ∃ w1 r, fsm_button_fire (button_set_inputs true 200 button_example) = some (w1, r) ∧
      (w1.fsm.f.current_state = (button_set_inputs true 200 button_example).fsm.f.current_state ∨
        ((button_set_inputs true 200 button_example).fsm.f.current_state = BUTTON_RELEASED ∧
          w1.fsm.f.current_state = BUTTON_PRESSED_WAIT) ∨
        ((button_set_inputs true 200 button_example).fsm.f.current_state = BUTTON_PRESSED_WAIT ∧
          w1.fsm.f.current_state = BUTTON_PRESSED) ∨
        ((button_set_inputs true 200 button_example).fsm.f.current_state = BUTTON_PRESSED ∧
          w1.fsm.f.current_state = BUTTON_RELEASED_WAIT) ∨
        ((button_set_inputs true 200 button_example).fsm.f.current_state =
            BUTTON_RELEASED_WAIT ∧
          w1.fsm.f.current_state = BUTTON_RELEASED)) ∧
      ((button_set_inputs true 200 button_example).fsm.f.current_state = BUTTON_RELEASED →
        (w1.fsm.f.current_state ≠ BUTTON_RELEASED ↔
          (button_set_inputs true 200 button_example).button0.flag_pressed = true) ∧
        (w1.fsm.f.current_state ≠ BUTTON_RELEASED →
          w1.fsm.tick_pressed = port_button_get_tick (button_set_inputs true 200 button_example) ∧
          w1.fsm.next_timeout =
            (port_button_get_tick (button_set_inputs true 200 button_example) +
              (button_set_inputs true 200 button_example).fsm.debounce_time) % U32)) ∧
      ((button_set_inputs true 200 button_example).fsm.f.current_state = BUTTON_PRESSED →
        (w1.fsm.f.current_state ≠ BUTTON_PRESSED ↔
          (button_set_inputs true 200 button_example).button0.flag_pressed = false)) :=
  button_step_follows_cycle (button_set_inputs true 200 button_example) rfl

/-- C24: `fsm_button_reset_duration` is idempotent: applied twice it gives the same machine as
applied once; after it `fsm_button_get_duration` returns 0, and `current_state`,
`debounce_time`, `next_timeout`, `tick_pressed` and `button_id` are unchanged. -/
theorem button_reset_duration_idempotent (m : fsm_button_t) :
    fsm_button_reset_duration (fsm_button_reset_duration m) = fsm_button_reset_duration m ∧
    fsm_button_get_duration (fsm_button_reset_duration m) = 0 ∧
    (fsm_button_reset_duration m).f.current_state = m.f.current_state ∧
    (fsm_button_reset_duration m).debounce_time = m.debounce_time ∧
    (fsm_button_reset_duration m).next_timeout = m.next_timeout ∧
    (fsm_button_reset_duration m).tick_pressed = m.tick_pressed ∧
    (fsm_button_reset_duration m).button_id = m.button_id :=
  ⟨rfl, rfl, rfl, rfl, rfl, rfl, rfl⟩

/-- C25: `fsm_button_check_activity` returns true if and only if `current_state` is not
`BUTTON_RELEASED`, so it is true in `BUTTON_PRESSED_WAIT`, `BUTTON_PRESSED` and
`BUTTON_RELEASED_WAIT`; `fsm_button_init` for button 0 returns, and right after it the activity
is false, `duration` and `tick_pressed` are 0 and `debounce_time` is the given 32-bit value. -/
theorem button_check_activity_iff :
    (∀ m : fsm_button_t,
      fsm_button_check_activity m = true ↔ m.f.current_state ≠ BUTTON_RELEASED) ∧
    (∀ m : fsm_button_t,
      (m.f.current_state = BUTTON_PRESSED_WAIT ∨ m.f.current_state = BUTTON_PRESSED ∨
        m.f.current_state = BUTTON_RELEASED_WAIT) → fsm_button_check_activity m = true) ∧
    (∀ (w : button_world) (debounce_time : Nat), debounce_time < U32 →
      ∃ w0, fsm_button_init w debounce_time BUTTON_0_ID = some w0 ∧
        fsm_button_check_activity w0.fsm = false ∧
        w0.fsm.f.current_state = BUTTON_RELEASED ∧
        w0.fsm.duration = 0 ∧ w0.fsm.tick_pressed = 0 ∧
        w0.fsm.debounce_time = debounce_time ∧
        w0.fsm.button_id = BUTTON_0_ID) ∧
    (∀ (w w0 : button_world) (debounce_time button_id : Nat),
      fsm_button_init w debounce_time button_id = some w0 →
        fsm_button_check_activity w0.fsm = false ∧
        w0.fsm.duration = 0 ∧ w0.fsm.tick_pressed = 0 ∧
        w0.fsm.debounce_time = debounce_time % U32) := by
  have hiff : ∀ m : fsm_button_t,
      fsm_button_check_activity m = true ↔ m.f.current_state ≠ BUTTON_RELEASED := by
    intro m
    simp [fsm_button_check_activity]
  refine ⟨hiff, ?_, ?_, ?_⟩
  · intro m h
    rw [hiff]
    rcases h with h | h | h <;> rw [h] <;> decide
  · intro w d hd
    have hinit : fsm_button_init w d BUTTON_0_ID =
        some { w with fsm := { f := { current_state := BUTTON_RELEASED },
                               debounce_time := d % U32,
                               next_timeout := w.fsm.next_timeout,
                               tick_pressed := 0, duration := 0,
                               button_id := BUTTON_0_ID } } := by
      simp only [fsm_button_init, buttons_arr]
      rw [if_pos (by decide)]
      rfl
    exact ⟨_, hinit, rfl, rfl, rfl, rfl, Nat.mod_eq_of_lt hd, rfl⟩
  · intro w w0 d id h
    simp only [fsm_button_init, buttons_arr] at h
    split_ifs at h with hid0
    · simp only [Option.map_some', Option.some.injEq] at h
      subst h
      exact ⟨rfl, rfl, rfl, rfl⟩
    · simp at h

/-- Witness of C25: a freshly allocated machine with arbitrary contents is initialised with a
debounce time of 150 ms. -/
theorem button_check_activity_iff_witness :
    ∃ w0, fsm_button_init
        { fsm := { f := { current_state := 7 }, debounce_time := 1, next_timeout := 2,
                   tick_pressed := 3, duration := 4, button_id := 5 },
          button0 := { flag_pressed := false }, millis := 0 } 150 BUTTON_0_ID = some w0 ∧
      fsm_button_check_activity w0.fsm = false ∧
      w0.fsm.f.current_state = BUTTON_RELEASED ∧
      w0.fsm.duration = 0 ∧ w0.fsm.tick_pressed = 0 ∧
      w0.fsm.debounce_time = 150 ∧
      w0.fsm.button_id = BUTTON_0_ID :=
  button_check_activity_iff.2.2.1
    { fsm := { f := { current_state := 7 }, debounce_time := 1, next_timeout := 2,
               tick_pressed := 3, duration := 4, button_id := 5 },
      button0 := { flag_pressed := false }, millis := 0 } 150 (by decide)

/-! ## Theorems: activity checks of the buzzer and of the USART -/

/-- C26: `fsm_buzzer_check_activity` returns true if and only if `user_action = PLAY`, whatever
`current_state` and the melody reference are: it is false while the player is paused or stopped,
false after `fsm_buzzer_init` (which returns for buzzer 0), and true in `WAIT_START` with
`user_action = PLAY` even when no melody is set. -/
theorem buzzer_check_activity_iff {F : Type} (fp : double_ops F) (w : buzzer_world F) :
    (fsm_buzzer_check_activity w = true ↔ w.fsm.user_action = PLAY) ∧
    (∀ (st : Int) (p_melody : Option (melody_t F)),
      fsm_buzzer_check_activity (buzzer_set_state st (fsm_buzzer_set_melody w p_melody)) =
        fsm_buzzer_check_activity w) ∧
    (w.fsm.user_action = PAUSE ∨ w.fsm.user_action = STOP →
      fsm_buzzer_check_activity w = false) ∧
    (∃ w0, fsm_buzzer_init fp w BUZZER_0_ID = some w0 ∧
      fsm_buzzer_check_activity w0 = false) ∧
    (∀ (buzzer_id : Nat) (w0 : buzzer_world F), fsm_buzzer_init fp w buzzer_id = some w0 →
      fsm_buzzer_check_activity w0 = false) ∧
    (w.fsm.f.current_state = WAIT_START → w.fsm.p_melody = none → w.fsm.user_action = PLAY →
      fsm_buzzer_check_activity w = true) := by
  have hiff : fsm_buzzer_check_activity w = true ↔ w.fsm.user_action = PLAY := by
    simp [fsm_buzzer_check_activity]
  refine ⟨hiff, fun _ _ => rfl, ?_, ?_, ?_, fun _ _ h => hiff.mpr h⟩
  · intro h
    rcases h with h | h <;> simp [fsm_buzzer_check_activity, h, PLAY, PAUSE, STOP]
  · have hinit : fsm_buzzer_init fp w BUZZER_0_ID =
        some { fsm := { f := { current_state := WAIT_START }, p_melody := none,
                        note_index := 0, buzzer_id := BUZZER_0_ID, user_action := STOP,
                        player_speed := fp.one }
               buzzer0 := w.buzzer0
               tim2_cen := false
               tim3_cen := false
               calls := w.calls ++ [buzzer_call.init BUZZER_0_ID] } := by
      simp only [fsm_buzzer_init, port_buzzer_init]
      rw [if_pos (by decide)]
      rfl
    exact ⟨_, hinit, by simp [fsm_buzzer_check_activity, STOP, PLAY]⟩
  · intro id w0 h
    simp only [fsm_buzzer_init, port_buzzer_init] at h
    split_ifs at h
    simp only [Option.some.injEq] at h
    subst h
    simp [fsm_buzzer_check_activity, STOP, PLAY]

/-- Witness of C26: a paused machine reports no activity. -/
theorem buzzer_check_activity_iff_witness :
    fsm_buzzer_check_activity (buzzer_example PAUSE 2) = false :=
  (buzzer_check_activity_iff fixed_point_ops (buzzer_example PAUSE 2)).2.2.1 (Or.inl rfl)

/-- C27: `fsm_usart_check_activity` returns true if and only if `current_state = SEND_DATA` or
`data_received = true`, for every combination of state and flag. -/
theorem usart_check_activity_iff (w : usart_world) :
    (fsm_usart_check_activity w = true ↔
      (w.fsm.f.current_state = SEND_DATA ∨ w.fsm.data_received = true)) ∧
    (fsm_usart_check_activity w = false ↔
      (w.fsm.f.current_state ≠ SEND_DATA ∧ w.fsm.data_received = false)) := by
  unfold fsm_usart_check_activity
  constructor
  · simp
  · cases w.fsm.data_received <;> simp

/-! ## Theorems: idle ticks and single transition per step -/

/-- In `BUTTON_RELEASED` on button 0 with the flag not pressed, no rule is enabled. -/
theorem button_released_no_rule (w : button_world)
    (hst : w.fsm.f.current_state = BUTTON_RELEASED) (hid : w.fsm.button_id = BUTTON_0_ID)
    (hp : w.button0.flag_pressed = false) :
    fsm_no_rule_enabled w.fsm.f.current_state w fsm_trans_button := by
  intro t ht _ hsrc
  rw [hst] at hsrc
  simp only [fsm_trans_button, List.mem_cons, List.mem_singleton, List.not_mem_nil,
    or_false] at ht
  rcases ht with rfl | rfl | rfl | rfl | rfl
  · simp [fsm_guard_value, check_button_pressed, port_button_is_pressed, buttons_arr, hid, hp]
  all_goals exact absurd hsrc (by decide)

/-- In `WAIT_START` without a melody or with an action other than `PLAY`, no rule is
enabled. -/
theorem buzzer_wait_start_no_rule {F : Type} (fp : double_ops F) (w : buzzer_world F)
    (hst : w.fsm.f.current_state = WAIT_START)
    (h : w.fsm.p_melody = none ∨ w.fsm.user_action ≠ PLAY) :
    fsm_no_rule_enabled w.fsm.f.current_state w (fsm_trans_buzzer fp) := by
  intro t ht _ hsrc
  rw [hst] at hsrc
  simp only [fsm_trans_buzzer, List.mem_cons, List.mem_singleton, List.not_mem_nil,
    or_false] at ht
  rcases ht with rfl | rfl | rfl | rfl | rfl | rfl | rfl | rfl | rfl
  · rcases h with h | h
    · simp [fsm_guard_value, check_player_start, check_melody_start, h]
    · simp [fsm_guard_value, check_player_start, check_melody_start, h]
  all_goals simp [WAIT_START, PLAY_NOTE, PAUSE_NOTE, WAIT_NOTE, WAIT_MELODY] at hsrc

/-- In `PAUSE_NOTE` with an action other than `PLAY`, no rule is enabled. -/
theorem buzzer_pause_note_no_rule {F : Type} (fp : double_ops F) (w : buzzer_world F)
    (hst : w.fsm.f.current_state = PAUSE_NOTE) (h : w.fsm.user_action ≠ PLAY) :
    fsm_no_rule_enabled w.fsm.f.current_state w (fsm_trans_buzzer fp) := by
  intro t ht _ hsrc
  rw [hst] at hsrc
  simp only [fsm_trans_buzzer, List.mem_cons, List.mem_singleton, List.not_mem_nil,
    or_false] at ht
  rcases ht with rfl | rfl | rfl | rfl | rfl | rfl | rfl | rfl | rfl
  all_goals first
    | (simp [WAIT_START, PLAY_NOTE, PAUSE_NOTE, WAIT_NOTE, WAIT_MELODY] at hsrc; done)
    | simp [fsm_guard_value, check_resume, h]

/-- In `WAIT_DATA` on USART 0 with an empty `out_data` and no complete reception, no rule is
enabled. -/
theorem usart_wait_data_no_rule (w : usart_world)
    (hst : w.fsm.f.current_state = WAIT_DATA) (hid : w.fsm.usart_id = USART_0_ID)
    (hout : w.fsm.out_data[0]? = some EMPTY_BUFFER_CONSTANT)
    (hrc : w.usart0.read_complete = false) :
    fsm_no_rule_enabled w.fsm.f.current_state w fsm_trans_usart := by
  intro t ht _ hsrc
  rw [hst] at hsrc
  simp only [fsm_trans_usart, List.mem_cons, List.mem_singleton, List.not_mem_nil,
    or_false] at ht
  rcases ht with rfl | rfl | rfl | rfl
  · simp [fsm_guard_value, check_data_tx, hout]
  · simp [fsm_guard_value, check_data_rx, port_usart_rx_done, usart_arr, hid, hrc]
  all_goals exact absurd hsrc (by decide)

/-- C28: for each of the button, buzzer and USART machines, when no rule whose source state is
`current_state` has a true guard (the guard of every such rule evaluates to false), a step
returns the world unchanged, machine fields, hardware and history of port calls included, and
reports that no rule fired. This is the case of a button in `BUTTON_RELEASED` with the flag not
pressed, of a buzzer in `WAIT_START` with no melody or an action other than `PLAY`, of a buzzer
in `PAUSE_NOTE` with action `STOP` or `PAUSE`, and of a USART in `WAIT_DATA` with an empty
`out_data` and no complete reception. -/
theorem idle_tick_changes_nothing :
    (∀ w : button_world,
      fsm_no_rule_enabled w.fsm.f.current_state w fsm_trans_button →
      fsm_button_fire w = some (w, none)) ∧
    (∀ (F : Type) (fp : double_ops F) (w : buzzer_world F),
      fsm_no_rule_enabled w.fsm.f.current_state w (fsm_trans_buzzer fp) →
      fsm_buzzer_fire fp w = some (w, none)) ∧
    (∀ w : usart_world,
      fsm_no_rule_enabled w.fsm.f.current_state w fsm_trans_usart →
      fsm_usart_fire w = some (w, none)) ∧
    (∀ w : button_world, w.fsm.f.current_state = BUTTON_RELEASED →
      w.fsm.button_id = BUTTON_0_ID → w.button0.flag_pressed = false →
      fsm_button_fire w = some (w, none)) ∧
    (∀ (F : Type) (fp : double_ops F) (w : buzzer_world F),
      w.fsm.f.current_state = WAIT_START →
      (w.fsm.p_melody = none ∨ w.fsm.user_action ≠ PLAY) →
      fsm_buzzer_fire fp w = some (w, none)) ∧
    (∀ (F : Type) (fp : double_ops F) (w : buzzer_world F),
      w.fsm.f.current_state = PAUSE_NOTE →
      (w.fsm.user_action = STOP ∨ w.fsm.user_action = PAUSE) →
      fsm_buzzer_fire fp w = some (w, none)) ∧
    (∀ w : usart_world, w.fsm.f.current_state = WAIT_DATA →
      w.fsm.usart_id = USART_0_ID →
      w.fsm.out_data[0]? = some EMPTY_BUFFER_CONSTANT →
      w.usart0.read_complete = false →
      fsm_usart_fire w = some (w, none)) := by
  refine ⟨fun w h => fsm_fire_no_rule _ _ _ w h, fun F fp w h => fsm_fire_no_rule _ _ _ w h,
    fun w h => fsm_fire_no_rule _ _ _ w h, ?_, ?_, ?_, ?_⟩
  · intro w hst hid hp
    exact fsm_fire_no_rule _ _ _ w (button_released_no_rule w hst hid hp)
  · intro F fp w hst h
    exact fsm_fire_no_rule _ _ _ w (buzzer_wait_start_no_rule fp w hst h)
  · intro F fp w hst h
    refine fsm_fire_no_rule _ _ _ w (buzzer_pause_note_no_rule fp w hst ?_)
    rcases h with h | h <;> rw [h] <;> decide
  · intro w hst hid hout hrc
    exact fsm_fire_no_rule _ _ _ w (usart_wait_data_no_rule w hst hid hout hrc)

/-- Witness of C28: a buzzer paused in `PAUSE_NOTE` with action `PAUSE` is left as it is. -/
theorem idle_tick_changes_nothing_witness :
    fsm_buzzer_fire fixed_point_ops (buzzer_set_state PAUSE_NOTE (buzzer_example PAUSE 2)) =
      some (buzzer_set_state PAUSE_NOTE (buzzer_example PAUSE 2), none) :=
  idle_tick_changes_nothing.2.1 Nat fixed_point_ops
    (buzzer_set_state PAUSE_NOTE (buzzer_example PAUSE 2)) (by decide)

/-- A step that reports no rule has run no action: the state is returned as it was. -/
theorem fsm_fire_none {σ : Type} (cur : σ → Int) (setCur : Int → σ → σ)
    (tt : List (fsm_trans_t σ)) (s s1 : σ)
    (h : fsm_fire cur setCur tt s = some (s1, none)) : s1 = s := by
  unfold fsm_fire at h
  cases hscan : fsm_scan (cur s) s tt 0 with
  | none => simp [hscan] at h
  | some found =>
    cases found with
    | none =>
      simp only [hscan, Option.some.injEq, Prod.mk.injEq, and_true] at h
      exact h.symm
    | some it =>
      obtain ⟨i0, t⟩ := it
      simp only [hscan] at h
      cases hta : t.action with
      | none => simp [hta] at h
      | some a =>
        simp only [hta] at h
        cases has : a s with
        | none => simp [has] at h
        | some s2 => simp [has] at h

/-- C29: for each of the button, buzzer and USART machines and every input: if rule `i` is the
first rule in table order whose source state is the pre-step `current_state` and whose guard
holds in the pre-step state, one step runs the action of that rule on the pre-step state, sets
`current_state` to its destination and reports `i`; conversely a step that reports rule `i` has
run the action of that first enabled rule and of no other, and a step that reports no rule has
run no action. Rules of the destination state are not considered in the same step: from
`PLAY_NOTE` with action `STOP` one step ends in `WAIT_START`, and from `PAUSE_NOTE` with action
`PLAY` one step ends in `PLAY_NOTE` without playing, although the play rule of `PLAY_NOTE` is
enabled in the resulting state. -/
theorem step_fires_first_enabled_rule_only :
    (∀ (w : button_world) (i : Nat) (t : fsm_trans_t button_world),
      fsm_first_enabled w.fsm.f.current_state w fsm_trans_button i t →
      fsm_button_fire w =
        (fsm_run_action t w).map
          (fun w1 => (button_set_state t.destination_state w1, some i))) ∧
    (∀ (w w1 : button_world) (i : Nat), fsm_button_fire w = some (w1, some i) →
      ∃ t, fsm_first_enabled w.fsm.f.current_state w fsm_trans_button i t ∧
        w1.fsm.f.current_state = t.destination_state ∧
        ∃ w2, fsm_run_action t w = some w2 ∧ w1 = button_set_state t.destination_state w2) ∧
    (∀ w w1 : button_world, fsm_button_fire w = some (w1, none) → w1 = w) ∧
    (∀ (F : Type) (fp : double_ops F) (w : buzzer_world F) (i : Nat)
        (t : fsm_trans_t (buzzer_world F)),
      fsm_first_enabled w.fsm.f.current_state w (fsm_trans_buzzer fp) i t →
      fsm_buzzer_fire fp w =
        (fsm_run_action t w).map
          (fun w1 => (buzzer_set_state t.destination_state w1, some i))) ∧
    (∀ (F : Type) (fp : double_ops F) (w w1 : buzzer_world F) (i : Nat),
      fsm_buzzer_fire fp w = some (w1, some i) →
      ∃ t, fsm_first_enabled w.fsm.f.current_state w (fsm_trans_buzzer fp) i t ∧
        w1.fsm.f.current_state = t.destination_state ∧
        ∃ w2, fsm_run_action t w = some w2 ∧ w1 = buzzer_set_state t.destination_state w2) ∧
    (∀ (F : Type) (fp : double_ops F) (w w1 : buzzer_world F),
      fsm_buzzer_fire fp w = some (w1, none) → w1 = w) ∧
    (∀ (w : usart_world) (i : Nat) (t : fsm_trans_t usart_world),
      fsm_first_enabled w.fsm.f.current_state w fsm_trans_usart i t →
      fsm_usart_fire w =
        (fsm_run_action t w).map
          (fun w1 => (usart_set_state t.destination_state w1, some i))) ∧
    (∀ (w w1 : usart_world) (i : Nat), fsm_usart_fire w = some (w1, some i) →
      ∃ t, fsm_first_enabled w.fsm.f.current_state w fsm_trans_usart i t ∧
        w1.fsm.f.current_state = t.destination_state ∧
        ∃ w2, fsm_run_action t w = some w2 ∧ w1 = usart_set_state t.destination_state w2) ∧
    (∀ w w1 : usart_world, fsm_usart_fire w = some (w1, none) → w1 = w) ∧
    (∀ (F : Type) (fp : double_ops F) (w : buzzer_world F),
      w.fsm.f.current_state = PLAY_NOTE → w.fsm.user_action = STOP →
      ∃ w1, fsm_buzzer_fire fp w = some (w1, some 3) ∧
        w1.fsm.f.current_state = WAIT_START) ∧
    (∀ (F : Type) (fp : double_ops F) (w : buzzer_world F) (m : melody_t F),
      w.fsm.f.current_state = PAUSE_NOTE → w.fsm.user_action = PLAY →
      w.fsm.p_melody = some m → w.fsm.note_index < m.melody_length →
      fsm_buzzer_fire fp w = some (buzzer_set_state PLAY_NOTE w, some 7) ∧
        check_play_note (buzzer_set_state PLAY_NOTE w) = some true ∧
        (buzzer_set_state PLAY_NOTE w).calls = w.calls) := by
  refine ⟨?_, ?_, ?_, ?_, ?_, ?_, ?_, ?_, ?_, ?_, ?_⟩
  · intro w i t h
    exact fsm_fire_first _ _ _ w i t h
  · intro w w1 i h
    obtain ⟨t, ht, w2, hw2, rfl⟩ := fsm_fire_some _ _ _ w w1 i h
    exact ⟨t, ht, rfl, w2, hw2, rfl⟩
  · intro w w1 h
    exact fsm_fire_none _ _ _ w w1 h
  · intro F fp w i t h
    exact fsm_fire_first _ _ _ w i t h
  · intro F fp w w1 i h
    obtain ⟨t, ht, w2, hw2, rfl⟩ := fsm_fire_some _ _ _ w w1 i h
    exact ⟨t, ht, rfl, w2, hw2, rfl⟩
  · intro F fp w w1 h
    exact fsm_fire_none _ _ _ w w1 h
  · intro w i t h
    exact fsm_fire_first _ _ _ w i t h
  · intro w w1 i h
    obtain ⟨t, ht, w2, hw2, rfl⟩ := fsm_fire_some _ _ _ w w1 i h
    exact ⟨t, ht, rfl, w2, hw2, rfl⟩
  · intro w w1 h
    exact fsm_fire_none _ _ _ w w1 h
  · intro F fp w hst hua
    exact ⟨_, fsm_buzzer_fire_player_stop fp w hst hua, rfl⟩
  · intro F fp w m hst hua hm hlt
    refine ⟨?_, ?_, rfl⟩
    · rw [fsm_buzzer_fire_pause_note fp w hst, if_pos hua]
    · simp [check_play_note, buzzer_set_state, hm, hua, Nat.le_of_lt hlt]

/-- Witness of C29: in `PLAY_NOTE` with action `STOP` the stop rule (rule 3) is the first
enabled rule; the step runs `do_player_stop` and moves to `WAIT_START`. -/
theorem step_fires_first_enabled_rule_only_witness :
    fsm_buzzer_fire fixed_point_ops (buzzer_example STOP 2) =
      (fsm_run_action
          (⟨PLAY_NOTE, some check_player_stop, WAIT_START, some do_player_stop⟩ :
            fsm_trans_t (buzzer_world Nat))
          (buzzer_example STOP 2)).map
        (fun w1 =>
          (buzzer_set_state
            (⟨PLAY_NOTE, some check_player_stop, WAIT_START, some do_player_stop⟩ :
              fsm_trans_t (buzzer_world Nat)).destination_state w1, some 3)) :=
  step_fires_first_enabled_rule_only.2.2.2.1 Nat fixed_point_ops (buzzer_example STOP 2) 3
    ⟨PLAY_NOTE, some check_player_stop, WAIT_START, some do_player_stop⟩
    ⟨rfl, by decide, rfl, rfl, by decide⟩

/-! ## Theorems: LED machine -/

/-- Closed form of one engine step of the LED machine in `IDLE`. -/
theorem fsm_led_fire_idle (w : led_world) (hst : w.fsm.fsm.current_state = IDLE) :
    fsm_led_fire w =
      (match w.fsm.p_button with
       | none => none
       | some b =>
         if w.fsm.min_duration ≤ fsm_button_get_duration b then
           some ({ fsm := { fsm := { current_state := IDLE },
                            p_button := some (fsm_button_reset_duration b),
                            min_duration := w.fsm.min_duration },
                   ld2 := !w.ld2 }, some 0)
         else some (w, none)) := by
  rcases w with ⟨⟨⟨st⟩, pb, md⟩, l⟩
  simp only at hst
  subst hst
  simp only [fsm_led_fire, fsm_fire, fsm_trans_led, fsm_scan, IDLE, check_button_duration]
  cases pb with
  | none => simp
  | some b =>
    by_cases hge : md ≤ fsm_button_get_duration b
    · cases l <;> simp [hge, do_toggle, port_led_toggle, led_set_state]
    · simp [hge]

/-- A run of polls in which the release rule does not fire leaves `duration` unchanged. -/
theorem button_run_duration (inputs : List (Bool × Nat)) :
    ∀ (w w1 : button_world) (fired : List (Option Nat)),
      button_run inputs w = some (w1, fired) → some 2 ∉ fired →
      w1.fsm.duration = w.fsm.duration := by
  induction inputs with
  | nil =>
    intro w w1 fired hrun _
    simp only [button_run, Option.some.injEq, Prod.mk.injEq] at hrun
    obtain ⟨rfl, -⟩ := hrun
    rfl
  | cons inp rest ih =>
    intro w w1 fired hrun hnot
    simp only [button_run] at hrun
    cases hp : button_poll inp w with
    | none => simp [hp] at hrun
    | some p =>
      obtain ⟨wa, r⟩ := p
      simp only [hp] at hrun
      cases hq : button_run rest wa with
      | none => simp [hq] at hrun
      | some q =>
        obtain ⟨wb, rs⟩ := q
        simp only [hq, Option.some.injEq, Prod.mk.injEq] at hrun
        obtain ⟨rfl, rfl⟩ := hrun
        have hr : r ≠ some 2 := fun h => hnot (by simp [h])
        have hrs : some 2 ∉ rs := fun h => hnot (by simp [h])
        have h1 := fsm_button_fire_duration _ wa r hp hr
        have h2 := ih wa wb rs hq hrs
        rw [h2, h1]
        rfl

/-- C30: for every LED machine in `IDLE` bound to a button machine, with `min_duration > 0`:
a step toggles the LED if and only if the button's stored duration is at least `min_duration`;
the toggle resets the button's duration to 0, so a further LED step does not toggle again as
long as the button machine completes no new press (any run of polls in which the release rule
does not fire, in particular none at all); the state of the LED machine, `IDLE` after
`fsm_led_init`, stays `IDLE`. -/
theorem led_toggles_once_per_press (w : led_world) (b : fsm_button_t)
    (hst : w.fsm.fsm.current_state = IDLE) (hb : w.fsm.p_button = some b)
    (hmin : 0 < w.fsm.min_duration) :
    (w.fsm.min_duration ≤ fsm_button_get_duration b →
      fsm_led_fire w =
        some ({ fsm := { fsm := { current_state := IDLE },
                         p_button := some (fsm_button_reset_duration b),
                         min_duration := w.fsm.min_duration },
                ld2 := !w.ld2 }, some 0)) ∧
    (fsm_button_get_duration b < w.fsm.min_duration → fsm_led_fire w = some (w, none)) ∧
    (∃ w1 r, fsm_led_fire w = some (w1, r) ∧
      w1.fsm.fsm.current_state = IDLE ∧
      ((w1.ld2 = !w.ld2) ↔ w.fsm.min_duration ≤ fsm_button_get_duration b) ∧
      (r = some 0 ↔ w.fsm.min_duration ≤ fsm_button_get_duration b)) ∧
    (∀ (inputs : List (Bool × Nat)) (bw bw1 : button_world) (fired : List (Option Nat)),
      bw.fsm = fsm_button_reset_duration b →
      button_run inputs bw = some (bw1, fired) → some 2 ∉ fired →
      fsm_led_fire
          { fsm := { fsm := { current_state := IDLE }, p_button := some bw1.fsm,
                     min_duration := w.fsm.min_duration },
            ld2 := !w.ld2 } =
        some ({ fsm := { fsm := { current_state := IDLE }, p_button := some bw1.fsm,
                         min_duration := w.fsm.min_duration },
                ld2 := !w.ld2 }, none)) ∧
    (∀ (w0 : led_world) (p_button : Option fsm_button_t) (min_duration : Nat),
      (fsm_led_init w0 p_button min_duration).fsm.fsm.current_state = IDLE) := by
  have hfire := fsm_led_fire_idle w hst
  rw [hb] at hfire
  simp only at hfire
  refine ⟨?_, ?_, ?_, ?_, fun _ _ _ => rfl⟩
  · intro hge
    rw [hfire, if_pos hge]
  · intro hlt
    rw [hfire, if_neg (by omega)]
  · by_cases hge : w.fsm.min_duration ≤ fsm_button_get_duration b
    · rw [hfire, if_pos hge]
      exact ⟨_, _, rfl, rfl, by simp [hge], by simp [hge]⟩
    · rw [hfire, if_neg hge]
      refine ⟨_, _, rfl, hst, ?_, by simp [hge]⟩
      cases w.ld2 <;> simp [hge]
  · intro inputs bw bw1 fired hbw hrun hnot
    have hdur : bw1.fsm.duration = 0 := by
      rw [button_run_duration inputs bw bw1 fired hrun hnot, hbw]
      rfl
    rw [fsm_led_fire_idle _ rfl]
    simp only
    rw [if_neg (by simp only [fsm_button_get_duration, hdur]; omega)]

/-- Witness of C30: a LED machine with a threshold of 1000 ms bound to a button machine that
holds a press of 1500 ms toggles the LED and clears the duration. -/
theorem led_toggles_once_per_press_witness :
    fsm_led_fire
        { fsm := { fsm := { current_state := IDLE },
                   p_button := some { button_example.fsm with duration := 1500 },
                   min_duration := 1000 },
          ld2 := false } =
      some ({ fsm := { fsm := { current_state := IDLE },
                       p_button := some (fsm_button_reset_duration
                         { button_example.fsm with duration := 1500 }),
                       min_duration :=
                         ({ fsm := { fsm := { current_state := IDLE },
                                     p_button := some { button_example.fsm with
                                       duration := 1500 },
                                     min_duration := 1000 },
                            ld2 := false } : led_world).fsm.min_duration },
              ld2 := !({ fsm := { fsm := { current_state := IDLE },
                                  p_button := some { button_example.fsm with
                                    duration := 1500 },
                                  min_duration := 1000 },
                         ld2 := false } : led_world).ld2 }, some 0) :=
  (led_toggles_once_per_press
    { fsm := { fsm := { current_state := IDLE },
               p_button := some { button_example.fsm with duration := 1500 },
               min_duration := 1000 },
      ld2 := false }
    { button_example.fsm with duration := 1500 } rfl rfl (by decide)).1 (by decide)

/-! ## Theorems: button machine, debounce timing -/

/-- What an edge rule (rule 0 or rule 2) leaves behind: the WAIT state entered, the timeout
armed from the tick of the poll, and the inputs of the poll. -/
theorem button_poll_edge (inp : Bool × Nat) (w w1 : button_world) (r : Nat)
    (hr : r = 0 ∨ r = 2) (hp : button_poll inp w = some (w1, some r)) :
    w1.fsm.next_timeout = (inp.2 % U32 + w.fsm.debounce_time) % U32 ∧
      w1.fsm.debounce_time = w.fsm.debounce_time ∧
      w1.fsm.f.current_state =
        (if r = 0 then BUTTON_PRESSED_WAIT else BUTTON_RELEASED_WAIT) ∧
      w1.millis = inp.2 ∧ w1.button0.flag_pressed = inp.1 := by
  unfold button_poll at hp
  rw [fsm_button_fire_eq] at hp
  split_ifs at hp with h0 h3 hlt h2 h1 hlt
  · split at hp
    · simp at hp
    · simp only [do_store_tick_pressed, Option.map_some', Option.some.injEq, Prod.mk.injEq]
        at hp
      obtain ⟨rfl, hr0⟩ := hp
      have hr0 : r = 0 := by simpa using hr0.symm
      subst hr0
      simp [button_set_state, button_set_inputs, port_button_get_tick]
    · simp at hp
  · simp only [Option.some.injEq, Prod.mk.injEq] at hp
    have : r = 1 := by simpa using hp.2.symm
    omega
  · simp at hp
  · split at hp
    · simp at hp
    · simp only [do_set_duration, Option.map_some', Option.some.injEq, Prod.mk.injEq] at hp
      obtain ⟨rfl, hr2⟩ := hp
      have hr2 : r = 2 := by simpa using hr2.symm
      subst hr2
      simp [button_set_state, button_set_inputs, port_button_get_tick]
    · simp at hp
  · simp only [Option.some.injEq, Prod.mk.injEq] at hp
    have : r = 3 := by simpa using hp.2.symm
    omega
  · simp at hp
  · simp at hp

/-- A poll of a machine in one of the two WAIT states at a 32-bit tick. -/
theorem button_poll_wait (w : button_world) (q : Bool) (t : Nat) (ht : t < U32)
    (hst : w.fsm.f.current_state = BUTTON_PRESSED_WAIT ∨
      w.fsm.f.current_state = BUTTON_RELEASED_WAIT) :
    button_poll (q, t) w =
      (if w.fsm.next_timeout < t then
        some ({ fsm := { w.fsm with f := { current_state :=
                  if w.fsm.f.current_state = BUTTON_PRESSED_WAIT then BUTTON_PRESSED
                  else BUTTON_RELEASED } },
                button0 := { flag_pressed := q }, millis := t },
              some (if w.fsm.f.current_state = BUTTON_PRESSED_WAIT then 1 else 3))
       else some (button_set_inputs q t w, none)) := by
  have htick : port_button_get_tick (button_set_inputs q t w) = t := by
    simp [port_button_get_tick, button_set_inputs, Nat.mod_eq_of_lt ht]
  rcases hst with h | h
  · rw [button_poll, fsm_button_fire_pressed_wait _ (by simpa [button_set_inputs] using h),
      htick]
    simp only [button_set_inputs, h, if_true, gt_iff_lt]
    split_ifs <;> rfl
  · have hne : ¬ w.fsm.f.current_state = BUTTON_PRESSED_WAIT := by rw [h]; decide
    rw [button_poll, fsm_button_fire_released_wait _ (by simpa [button_set_inputs] using h),
      htick]
    simp only [button_set_inputs, if_neg hne, gt_iff_lt]
    split_ifs <;> rfl

/-- Polls taken in a WAIT state at ticks that do not exceed `next_timeout` fire no rule and
change no field of the machine. -/
theorem button_run_waiting (inputs : List (Bool × Nat)) :
    ∀ w : button_world,
      (w.fsm.f.current_state = BUTTON_PRESSED_WAIT ∨
        w.fsm.f.current_state = BUTTON_RELEASED_WAIT) →
      (∀ inp ∈ inputs, inp.2 < U32 ∧ inp.2 ≤ w.fsm.next_timeout) →
      button_run inputs w =
        some (inputs.foldl (fun v inp => button_set_inputs inp.1 inp.2 v) w,
          inputs.map (fun _ => none)) ∧
      (inputs.foldl (fun v inp => button_set_inputs inp.1 inp.2 v) w).fsm = w.fsm := by
  induction inputs with
  | nil =>
    intro w _ _
    exact ⟨rfl, rfl⟩
  | cons inp rest ih =>
    intro w hst hle
    obtain ⟨q, t⟩ := inp
    have h1 := hle (q, t) (List.mem_cons_self _ _)
    have hp : button_poll (q, t) w = some (button_set_inputs q t w, none) := by
      rw [button_poll_wait w q t h1.1 hst, if_neg (by omega)]
    obtain ⟨hrun, hfsm⟩ := ih (button_set_inputs q t w) hst
      (fun inp hinp => hle inp (List.mem_cons_of_mem _ hinp))
    refine ⟨?_, ?_⟩
    · simp only [button_run, hp, hrun, List.foldl_cons, List.map_cons]
    · simp only [List.foldl_cons]
      rw [hfsm]
      rfl

/-- C33: for every tick `now` and debounce time `d` with `now + d < 2^32`: after an edge rule
(rule 0, RELEASED -> PRESSED_WAIT, or rule 2, PRESSED -> RELEASED_WAIT) has fired at tick
`now`, `next_timeout = now + d`; every run of polls taken at ticks `t <= now + d` (in particular
`now <= t <= now + d`) fires no rule and leaves the machine in the entered WAIT state, and the
first poll taken at a tick `t` with `now + d < t < 2^32` fires the timeout rule (rule 1 or 3)
and leaves the WAIT state. -/
theorem button_debounce_wait_exact (w w1 : button_world) (p : Bool) (now d r : Nat)
    (hd : w.fsm.debounce_time = d) (hnd : now + d < U32) (hr : r = 0 ∨ r = 2)
    (hedge : button_poll (p, now) w = some (w1, some r)) :
    w1.fsm.next_timeout = now + d ∧
    w1.fsm.f.current_state = (if r = 0 then BUTTON_PRESSED_WAIT else BUTTON_RELEASED_WAIT) ∧
    ∀ inputs : List (Bool × Nat), (∀ inp ∈ inputs, inp.2 ≤ now + d) →
      button_run inputs w1 =
        some (inputs.foldl (fun v inp => button_set_inputs inp.1 inp.2 v) w1,
          inputs.map (fun _ => none)) ∧
      (inputs.foldl (fun v inp => button_set_inputs inp.1 inp.2 v) w1).fsm = w1.fsm ∧
      ∀ (q : Bool) (t : Nat), now + d < t → t < U32 →
        button_poll (q, t) (inputs.foldl (fun v inp => button_set_inputs inp.1 inp.2 v) w1) =
          some ({ fsm := { w1.fsm with f := { current_state :=
                    if r = 0 then BUTTON_PRESSED else BUTTON_RELEASED } },
                  button0 := { flag_pressed := q }, millis := t },
                some (r + 1)) := by
  obtain ⟨hnt, -, hst, -, -⟩ := button_poll_edge (p, now) w w1 r hr hedge
  have hU : U32 = 4294967296 := rfl
  have hnt1 : w1.fsm.next_timeout = now + d := by
    rw [hnt, hd]
    simp only
    rw [Nat.mod_eq_of_lt (show now < U32 by omega), Nat.mod_eq_of_lt hnd]
  have hwait : w1.fsm.f.current_state = BUTTON_PRESSED_WAIT ∨
      w1.fsm.f.current_state = BUTTON_RELEASED_WAIT := by
    rw [hst]
    rcases hr with h | h <;> simp [h]
  refine ⟨hnt1, hst, ?_⟩
  intro inputs hin
  obtain ⟨hrun, hfsm⟩ := button_run_waiting inputs w1 hwait
    (fun inp hinp => ⟨by have := hin inp hinp; omega, by rw [hnt1]; exact hin inp hinp⟩)
  refine ⟨hrun, hfsm, ?_⟩
  intro q t hlt htU
  rw [button_poll_wait _ q t htU (by rw [hfsm]; exact hwait), hfsm,
    if_pos (by rw [hnt1]; exact hlt)]
  rcases hr with h | h
  · subst h
    simp [hst]
  · subst h
    simp [hst, BUTTON_RELEASED_WAIT, BUTTON_PRESSED_WAIT]

/-- Witness of C33: press at tick 200 with a debounce time of 5 ms; polls at 200, 203, 205 leave
the machine in `BUTTON_PRESSED_WAIT`. -/
theorem button_debounce_wait_exact_witness :
    button_run [(true, 200), (true, 203), (false, 205)]
        { fsm := { f := { current_state := BUTTON_PRESSED_WAIT }, debounce_time := 5,
                   next_timeout := 205, tick_pressed := 200, duration := 0,
                   button_id := BUTTON_0_ID },
          button0 := { flag_pressed := true }, millis := 200 } =
      some ([(true, 200), (true, 203), (false, 205)].foldl
              (fun v inp => button_set_inputs inp.1 inp.2 v)
              { fsm := { f := { current_state := BUTTON_PRESSED_WAIT }, debounce_time := 5,
                         next_timeout := 205, tick_pressed := 200, duration := 0,
                         button_id := BUTTON_0_ID },
                button0 := { flag_pressed := true }, millis := 200 },
            [(true, 200), (true, 203), (false, 205)].map (fun _ => none)) :=
  ((button_debounce_wait_exact button_example
    { fsm := { f := { current_state := BUTTON_PRESSED_WAIT }, debounce_time := 5,
               next_timeout := 205, tick_pressed := 200, duration := 0,
               button_id := BUTTON_0_ID },
      button0 := { flag_pressed := true }, millis := 200 }
    true 200 5 0 rfl (by decide) (Or.inl rfl) (by decide)).2.2
    [(true, 200), (true, 203), (false, 205)] (by decide)).1

/-- C34: for every 32-bit tick `now` and debounce time `d` with `now + d >= 2^32`: after an
edge rule (rule 0 or rule 2) has fired at tick `now`, `next_timeout` is `(now + d) - 2^32`, which
is below `now`, so `check_timeout` is already true at tick `now`, and the WAIT state is left by
the very next poll taken at any tick `t` with `now <= t < 2^32`: there is no debounce delay. -/
theorem button_debounce_wrap_no_delay (w w1 : button_world) (p : Bool) (now d r : Nat)
    (hd : w.fsm.debounce_time = d) (hnow : now < U32) (hdlt : d < U32)
    (hwrap : U32 ≤ now + d) (hr : r = 0 ∨ r = 2)
    (hedge : button_poll (p, now) w = some (w1, some r)) :
    w1.fsm.next_timeout = now + d - U32 ∧
    w1.fsm.next_timeout < now ∧
    w1.fsm.f.current_state = (if r = 0 then BUTTON_PRESSED_WAIT else BUTTON_RELEASED_WAIT) ∧
    check_timeout w1 = some true ∧
    ∀ (q : Bool) (t : Nat), now ≤ t → t < U32 →
      button_poll (q, t) w1 =
        some ({ fsm := { w1.fsm with f := { current_state :=
                  if r = 0 then BUTTON_PRESSED else BUTTON_RELEASED } },
                button0 := { flag_pressed := q }, millis := t },
              some (r + 1)) := by
  obtain ⟨hnt, -, hst, hms, -⟩ := button_poll_edge (p, now) w w1 r hr hedge
  have hU : U32 = 4294967296 := rfl
  have hnt1 : w1.fsm.next_timeout = now + d - U32 := by
    rw [hnt, hd]
    simp only
    rw [Nat.mod_eq_of_lt hnow, Nat.mod_eq_sub_mod hwrap, Nat.mod_eq_of_lt (by omega)]
  have hlt : w1.fsm.next_timeout < now := by omega
  have hwait : w1.fsm.f.current_state = BUTTON_PRESSED_WAIT ∨
      w1.fsm.f.current_state = BUTTON_RELEASED_WAIT := by
    rw [hst]
    rcases hr with h | h <;> simp [h]
  refine ⟨hnt1, hlt, hst, ?_, ?_⟩
  · simp only [check_timeout, port_button_get_tick, hms]
    simp only at hms
    rw [Nat.mod_eq_of_lt hnow]
    simp [hlt]
  · intro q t hle htU
    rw [button_poll_wait _ q t htU hwait, if_pos (by omega)]
    rcases hr with h | h
    · subst h
      simp [hst]
    · subst h
      simp [hst, BUTTON_RELEASED_WAIT, BUTTON_PRESSED_WAIT]

/-- Witness of C34: press at tick 2^32 - 3 with a debounce time of 5 ms: the stored timeout is
2 and the next poll, one millisecond later, already moves to `BUTTON_PRESSED`. -/
theorem button_debounce_wrap_no_delay_witness :
    button_poll (true, 4294967294)
        { fsm := { f := { current_state := BUTTON_PRESSED_WAIT }, debounce_time := 5,
                   next_timeout := 2, tick_pressed := 4294967293, duration := 0,
                   button_id := BUTTON_0_ID },
          button0 := { flag_pressed := true }, millis := 4294967293 } =
      some ({ fsm := { ({ fsm := { f := { current_state := BUTTON_PRESSED_WAIT },
                                   debounce_time := 5, next_timeout := 2,
                                   tick_pressed := 4294967293, duration := 0,
                                   button_id := BUTTON_0_ID },
                          button0 := { flag_pressed := true },
                          millis := 4294967293 } : button_world).fsm with
                f := { current_state :=
                  if (0 : Nat) = 0 then BUTTON_PRESSED else BUTTON_RELEASED } },
              button0 := { flag_pressed := true }, millis := 4294967294 },
            some (0 + 1)) :=
  (button_debounce_wrap_no_delay button_example
    { fsm := { f := { current_state := BUTTON_PRESSED_WAIT }, debounce_time := 5,
               next_timeout := 2, tick_pressed := 4294967293, duration := 0,
               button_id := BUTTON_0_ID },
      button0 := { flag_pressed := true }, millis := 4294967293 }
    true 4294967293 5 0 rfl (by decide) (by decide) (by decide) (Or.inl rfl)
    (by decide)).2.2.2.2 true 4294967294 (by decide) (by decide)

/-- One poll at a 32-bit tick `t >= lo` preserves the timing invariant of a press: in
`BUTTON_PRESSED_WAIT` the timeout is `tick_pressed + d` without wraparound, in `BUTTON_PRESSED`
the last tick seen is beyond `tick_pressed + d`; a duration stored by rule 2 exceeds `d`. -/
theorem button_poll_press_timing (d lo : Nat) (inp : Bool × Nat) (w w1 : button_world)
    (r : Option Nat)
    (hd : w.fsm.debounce_time = d)
    (hpw : w.fsm.f.current_state = BUTTON_PRESSED_WAIT →
      w.fsm.next_timeout = w.fsm.tick_pressed + d ∧ w.fsm.tick_pressed + d < U32)
    (hpr : w.fsm.f.current_state = BUTTON_PRESSED → w.fsm.tick_pressed + d < lo)
    (hlo : lo ≤ inp.2) (ht : inp.2 < U32)
    (h0 : r = some 0 → inp.2 + d < U32)
    (hp : button_poll inp w = some (w1, r)) :
    w1.fsm.debounce_time = d ∧
      (w1.fsm.f.current_state = BUTTON_PRESSED_WAIT →
        w1.fsm.next_timeout = w1.fsm.tick_pressed + d ∧ w1.fsm.tick_pressed + d < U32) ∧
      (w1.fsm.f.current_state = BUTTON_PRESSED → w1.fsm.tick_pressed + d < inp.2) ∧
      (r = some 2 →
        w1.fsm.duration = inp.2 - w.fsm.tick_pressed ∧ d < w1.fsm.duration) := by
  obtain ⟨q, t⟩ := inp
  rcases w with ⟨⟨⟨st⟩, d0, nt, tp, du, id⟩, ⟨fl⟩, ms⟩
  simp only at hlo ht h0 hd hpw hpr
  subst hd
  have hU : U32 = 4294967296 := rfl
  have htm : t % U32 = t := Nat.mod_eq_of_lt ht
  unfold button_poll at hp
  rw [fsm_button_fire_eq] at hp
  simp only [button_set_inputs, port_button_get_tick, htm] at hp
  split_ifs at hp with c0 c3 clt c2 c1 clt1
  · split at hp
    · simp at hp
    · simp only [do_store_tick_pressed, Option.map_some', Option.some.injEq, Prod.mk.injEq,
        port_button_get_tick, htm, button_set_state] at hp
      obtain ⟨rfl, rfl⟩ := hp
      have hnw := h0 rfl
      refine ⟨rfl, fun _ => ⟨Nat.mod_eq_of_lt hnw, hnw⟩, fun h => ?_, fun h => ?_⟩
      · simp [BUTTON_PRESSED_WAIT, BUTTON_PRESSED] at h
      · simp at h
    · simp only [Option.some.injEq, Prod.mk.injEq] at hp
      obtain ⟨rfl, rfl⟩ := hp
      subst c0
      refine ⟨rfl, fun h => ?_, fun h => ?_, fun h => ?_⟩
      · simp [BUTTON_PRESSED_WAIT, BUTTON_RELEASED] at h
      · simp [BUTTON_PRESSED, BUTTON_RELEASED] at h
      · simp at h
  · simp only [Option.some.injEq, Prod.mk.injEq, button_set_state] at hp
    obtain ⟨rfl, rfl⟩ := hp
    have hw := hpw c3
    refine ⟨rfl, fun h => ?_, fun _ => ?_, fun h => ?_⟩
    · simp [BUTTON_PRESSED_WAIT, BUTTON_PRESSED] at h
    · show tp + d0 < t
      omega
    · simp at h
  · simp only [Option.some.injEq, Prod.mk.injEq] at hp
    obtain ⟨rfl, rfl⟩ := hp
    subst c3
    refine ⟨rfl, fun _ => hpw rfl, fun h => ?_, fun h => ?_⟩
    · simp [BUTTON_PRESSED_WAIT, BUTTON_PRESSED] at h
    · simp at h
  · split at hp
    · simp at hp
    · simp only [do_set_duration, Option.map_some', Option.some.injEq, Prod.mk.injEq,
        port_button_get_tick, htm, button_set_state] at hp
      obtain ⟨rfl, rfl⟩ := hp
      have hb := hpr c2
      have hdur : (t + (U32 - tp % U32)) % U32 = t - tp := by
        rw [Nat.mod_eq_of_lt (show tp < U32 by omega)]
        have : t + (U32 - tp) = (t - tp) + U32 := by omega
        rw [this, Nat.add_mod_right, Nat.mod_eq_of_lt (by omega)]
      refine ⟨rfl, fun h => ?_, fun h => ?_, fun _ => ?_⟩
      · simp [BUTTON_PRESSED_WAIT, BUTTON_RELEASED_WAIT] at h
      · simp [BUTTON_PRESSED, BUTTON_RELEASED_WAIT] at h
      · show (t + (U32 - tp % U32)) % U32 = t - tp ∧ d0 < (t + (U32 - tp % U32)) % U32
        rw [hdur]
        exact ⟨rfl, by omega⟩
    · simp only [Option.some.injEq, Prod.mk.injEq] at hp
      obtain ⟨rfl, rfl⟩ := hp
      subst c2
      have hb := hpr rfl
      refine ⟨rfl, fun h => ?_, fun _ => ?_, fun h => ?_⟩
      · simp [BUTTON_PRESSED_WAIT, BUTTON_PRESSED] at h
      · show tp + d0 < t
        omega
      · simp at h
  · simp only [Option.some.injEq, Prod.mk.injEq, button_set_state] at hp
    obtain ⟨rfl, rfl⟩ := hp
    refine ⟨rfl, fun h => ?_, fun h => ?_, fun h => ?_⟩
    · simp [BUTTON_PRESSED_WAIT, BUTTON_RELEASED] at h
    · simp [BUTTON_PRESSED, BUTTON_RELEASED] at h
    · simp at h
  · simp only [Option.some.injEq, Prod.mk.injEq] at hp
    obtain ⟨rfl, rfl⟩ := hp
    exact ⟨rfl, fun h => absurd h c3, fun h => absurd h c2, fun h => by simp at h⟩
  · simp only [Option.some.injEq, Prod.mk.injEq] at hp
    obtain ⟨rfl, rfl⟩ := hp
    exact ⟨rfl, fun h => absurd h c3, fun h => absurd h c2, fun h => by simp at h⟩

/-- The timing invariant of a press holds along a run of polls at non-decreasing 32-bit ticks
in which no press wraps: in `BUTTON_PRESSED` after the run, every later tick is beyond
`tick_pressed + d`. -/
theorem button_run_press_timing (d : Nat) (inputs : List (Bool × Nat)) :
    ∀ (lo : Nat) (w w1 : button_world) (fired : List (Option Nat)),
      w.fsm.debounce_time = d →
      (w.fsm.f.current_state = BUTTON_PRESSED_WAIT →
        w.fsm.next_timeout = w.fsm.tick_pressed + d ∧ w.fsm.tick_pressed + d < U32) →
      (w.fsm.f.current_state = BUTTON_PRESSED → w.fsm.tick_pressed + d < lo) →
      (∀ inp ∈ inputs, lo ≤ inp.2 ∧ inp.2 < U32) →
      List.Pairwise (fun a b : Bool × Nat => a.2 ≤ b.2) inputs →
      (∀ x ∈ List.zip inputs fired, x.2 = some 0 → x.1.2 + d < U32) →
      button_run inputs w = some (w1, fired) →
      w1.fsm.debounce_time = d ∧
        (w1.fsm.f.current_state = BUTTON_PRESSED_WAIT →
          w1.fsm.next_timeout = w1.fsm.tick_pressed + d ∧ w1.fsm.tick_pressed + d < U32) ∧
        ∀ t, lo ≤ t → (∀ inp ∈ inputs, inp.2 ≤ t) →
          w1.fsm.f.current_state = BUTTON_PRESSED → w1.fsm.tick_pressed + d < t := by
  induction inputs with
  | nil =>
    intro lo w w1 fired hd hpw hpr _ _ _ hrun
    simp only [button_run, Option.some.injEq, Prod.mk.injEq] at hrun
    obtain ⟨rfl, -⟩ := hrun
    exact ⟨hd, hpw, fun t hlo _ hst => by have := hpr hst; omega⟩
  | cons inp rest ih =>
    intro lo w w1 fired hd hpw hpr hin hsorted hpress hrun
    simp only [button_run] at hrun
    cases hp : button_poll inp w with
    | none => simp [hp] at hrun
    | some pr =>
      obtain ⟨wa, r⟩ := pr
      simp only [hp] at hrun
      cases hq : button_run rest wa with
      | none => simp [hq] at hrun
      | some qr =>
        obtain ⟨wb, rs⟩ := qr
        simp only [hq, Option.some.injEq, Prod.mk.injEq] at hrun
        obtain ⟨rfl, rfl⟩ := hrun
        have hinp := hin inp (List.mem_cons_self _ _)
        obtain ⟨hhead, htail⟩ := List.pairwise_cons.mp hsorted
        obtain ⟨sd, spw, spr, -⟩ := button_poll_press_timing d lo inp w wa r hd hpw hpr
          hinp.1 hinp.2
          (fun h0 => hpress (inp, r) (by simp [List.zip_cons_cons]) h0) hp
        obtain ⟨fd, fpw, fpr⟩ := ih inp.2 wa wb rs sd spw spr
          (fun x hx => ⟨hhead x hx, (hin x (List.mem_cons_of_mem _ hx)).2⟩) htail
          (fun x hx => hpress x (by
            rw [List.zip_cons_cons]
            exact List.mem_cons_of_mem _ hx)) hq
        refine ⟨fd, fpw, ?_⟩
        intro t _ hall hst
        exact fpr t (hall inp (List.mem_cons_self _ _))
          (fun x hx => hall x (List.mem_cons_of_mem _ hx)) hst

/-- C32: for every run of polls of a button machine that starts in `BUTTON_RELEASED` (the state
after `fsm_button_init`), taken at non-decreasing ticks below 2^32 and in which
`tick + debounce_time < 2^32` at every poll where the press rule (rule 0) fires: every duration
stored by the PRESSED -> RELEASED_WAIT rule (rule 2), at whatever poll of the run it fires, is
`t - tick_pressed` and is strictly greater than `debounce_time`. -/
theorem button_duration_exceeds_debounce (inputs : List (Bool × Nat)) (w0 w1 w2 : button_world)
    (fired : List (Option Nat)) (p : Bool) (t d : Nat)
    (hst : w0.fsm.f.current_state = BUTTON_RELEASED) (hd : w0.fsm.debounce_time = d)
    (hsorted : List.Pairwise (fun a b : Bool × Nat => a.2 ≤ b.2) (inputs ++ [(p, t)]))
    (hlt : ∀ inp ∈ inputs ++ [(p, t)], inp.2 < U32)
    (hpress : ∀ x ∈ List.zip inputs fired, x.2 = some 0 → x.1.2 + d < U32)
    (hrun : button_run inputs w0 = some (w1, fired))
    (hrel : button_poll (p, t) w1 = some (w2, some 2)) :
    fsm_button_get_duration w2.fsm = t - w1.fsm.tick_pressed ∧
      d < fsm_button_get_duration w2.fsm := by
  obtain ⟨hs1, -, hcross⟩ := List.pairwise_append.mp hsorted
  obtain ⟨fd, fpw, fpr⟩ := button_run_press_timing d inputs 0 w0 w1 fired hd
    (fun h => by rw [hst] at h; exact absurd h (by decide))
    (fun h => by rw [hst] at h; exact absurd h (by decide))
    (fun inp hinp => ⟨Nat.zero_le _, hlt inp (List.mem_append_left _ hinp)⟩)
    hs1 hpress hrun
  have hall : ∀ inp ∈ inputs, inp.2 ≤ t :=
    fun inp hinp => hcross inp hinp (p, t) (List.mem_singleton_self _)
  obtain ⟨-, -, -, hdur⟩ := button_poll_press_timing d t (p, t) w1 w2 (some 2) fd fpw
    (fun h => fpr t (Nat.zero_le _) hall h) (Nat.le_refl _)
    (hlt (p, t) (List.mem_append_right _ (List.mem_singleton_self _)))
    (fun h => by simp at h) hrel
  exact hdur rfl

/-- Witness of C32: debounce time 5 ms, press at tick 100, flag released again at tick 102;
the release rule fires at tick 106 and stores a duration of 6 ms, above the debounce time. -/
theorem button_duration_exceeds_debounce_witness :
    fsm_button_get_duration
        ({ fsm := { f := { current_state := BUTTON_RELEASED_WAIT }, debounce_time := 5,
                    next_timeout := 111, tick_pressed := 100, duration := 6,
                    button_id := BUTTON_0_ID },
           button0 := { flag_pressed := false }, millis := 106 } : button_world).fsm =
        106 -
          ({ fsm := { f := { current_state := BUTTON_PRESSED }, debounce_time := 5,
                      next_timeout := 105, tick_pressed := 100, duration := 0,
                      button_id := BUTTON_0_ID },
             button0 := { flag_pressed := false }, millis := 106 } : button_world).fsm.tick_pressed ∧
      5 < fsm_button_get_duration
        ({ fsm := { f := { current_state := BUTTON_RELEASED_WAIT }, debounce_time := 5,
                    next_timeout := 111, tick_pressed := 100, duration := 6,
                    button_id := BUTTON_0_ID },
           button0 := { flag_pressed := false }, millis := 106 } : button_world).fsm :=
  button_duration_exceeds_debounce
    [(true, 100), (false, 102), (false, 106)] button_example
    { fsm := { f := { current_state := BUTTON_PRESSED }, debounce_time := 5,
               next_timeout := 105, tick_pressed := 100, duration := 0,
               button_id := BUTTON_0_ID },
      button0 := { flag_pressed := false }, millis := 106 }
    { fsm := { f := { current_state := BUTTON_RELEASED_WAIT }, debounce_time := 5,
               next_timeout := 111, tick_pressed := 100, duration := 6,
               button_id := BUTTON_0_ID },
      button0 := { flag_pressed := false }, millis := 106 }
    [some 0, none, some 1] false 106 5 rfl rfl (by decide) (by decide) (by decide)
    (by decide) (by decide)

/-! ## Theorems: button machine, initial value of the timeout -/

/-- Two machines in `BUTTON_RELEASED` that differ only in `next_timeout` answer a poll in the
same way: both are undefined, or both stay as they are, or both fire the press rule and are
equal afterwards. -/
theorem button_poll_released_timeout (inp : Bool × Nat) (w : button_world) (x : Nat)
    (hst : w.fsm.f.current_state = BUTTON_RELEASED) :
    (button_poll inp w = none ∧
      button_poll inp { w with fsm := { w.fsm with next_timeout := x } } = none) ∨
    (button_poll inp w = some (button_set_inputs inp.1 inp.2 w, none) ∧
      button_poll inp { w with fsm := { w.fsm with next_timeout := x } } =
        some ({ button_set_inputs inp.1 inp.2 w with
                fsm := { w.fsm with next_timeout := x } }, none)) ∨
    (∃ w1, button_poll inp w = some (w1, some 0) ∧
      button_poll inp { w with fsm := { w.fsm with next_timeout := x } } =
        some (w1, some 0)) := by
  rcases w with ⟨⟨⟨st⟩, d0, nt, tp, du, id⟩, ⟨fl⟩, ms⟩
  obtain ⟨q, t⟩ := inp
  simp only at hst
  subst hst
  unfold button_poll
  rw [fsm_button_fire_released _ rfl, fsm_button_fire_released _ rfl]
  simp only [button_set_inputs, check_button_pressed, port_button_is_pressed, buttons_arr]
  by_cases hid : id = BUTTON_0_ID
  · subst hid
    cases q with
    | true =>
      refine Or.inr (Or.inr
        ⟨{ fsm := { f := { current_state := BUTTON_PRESSED_WAIT }, debounce_time := d0,
                    next_timeout := (t % U32 + d0) % U32, tick_pressed := t % U32,
                    duration := du, button_id := BUTTON_0_ID },
           button0 := { flag_pressed := true }, millis := t }, ?_, ?_⟩)
      · simp [do_store_tick_pressed, button_set_state, port_button_get_tick]
      · simp [do_store_tick_pressed, button_set_state, port_button_get_tick]
    | false =>
      refine Or.inr (Or.inl ⟨?_, ?_⟩)
      · simp
      · simp
  · refine Or.inl ⟨?_, ?_⟩
    · simp [hid]
    · simp [hid]

/-- Two machines that are equal, or both in `BUTTON_RELEASED` and equal up to `next_timeout`,
have the same trace on every sequence of inputs. -/
theorem button_trace_timeout (inputs : List (Bool × Nat)) :
    ∀ (w : button_world) (x : Nat), w.fsm.f.current_state = BUTTON_RELEASED →
      button_trace inputs { w with fsm := { w.fsm with next_timeout := x } } =
        button_trace inputs w := by
  induction inputs with
  | nil => intro w x _; rfl
  | cons inp rest ih =>
    intro w x hst
    rcases button_poll_released_timeout inp w x hst with ⟨h1, h2⟩ | ⟨h1, h2⟩ | ⟨w1, h1, h2⟩
    · simp only [button_trace, h1, h2]
    · simp only [button_trace, h1, h2]
      have hst1 : (button_set_inputs inp.1 inp.2 w).fsm.f.current_state = BUTTON_RELEASED :=
        hst
      have := ih (button_set_inputs inp.1 inp.2 w) x hst1
      simp only [button_set_inputs] at this ⊢
      rw [this]
      rfl
    · simp only [button_trace, h1, h2]

/-- On button 0 every poll returns, and the machine stays bound to button 0. -/
theorem button_poll_some (inp : Bool × Nat) (w : button_world)
    (hid : w.fsm.button_id = BUTTON_0_ID) :
    ∃ w1 r, button_poll inp w = some (w1, r) ∧ w1.fsm.button_id = BUTTON_0_ID := by
  rcases w with ⟨⟨⟨st⟩, d0, nt, tp, du, id⟩, ⟨fl⟩, ms⟩
  obtain ⟨q, t⟩ := inp
  simp only at hid
  subst hid
  unfold button_poll
  rw [fsm_button_fire_eq]
  simp only [button_set_inputs, check_button_pressed, check_button_released,
    port_button_is_pressed, buttons_arr, if_true, Option.map_some', do_store_tick_pressed,
    do_set_duration]
  split_ifs
  · cases q <;> exact ⟨_, _, rfl, rfl⟩
  · exact ⟨_, _, rfl, rfl⟩
  · exact ⟨_, _, rfl, rfl⟩
  · cases q <;> exact ⟨_, _, rfl, rfl⟩
  · exact ⟨_, _, rfl, rfl⟩
  · exact ⟨_, _, rfl, rfl⟩
  · exact ⟨_, _, rfl, rfl⟩

/-- On button 0 the trace of every sequence of inputs is defined. -/
theorem button_trace_some (inputs : List (Bool × Nat)) :
    ∀ w : button_world, w.fsm.button_id = BUTTON_0_ID →
      ∃ tr, button_trace inputs w = some tr := by
  induction inputs with
  | nil => intro w _; exact ⟨[], rfl⟩
  | cons inp rest ih =>
    intro w hid
    obtain ⟨w1, r, hp, hid1⟩ := button_poll_some inp w hid
    obtain ⟨tr, htr⟩ := ih w1 hid1
    exact ⟨(w1.fsm.f.current_state, fsm_button_get_duration w1.fsm, r) :: tr,
      by simp only [button_trace, hp, htr, Option.map_some']⟩

/-- C39: `fsm_button_init` does not write `next_timeout`, and the behaviour of the machine does
not depend on the value left there: two machines initialised with the same `debounce_time` and
`button_id` from memories that differ only in `next_timeout` produce, on every sequence of
hardware inputs and polls, the same defined trace of states, durations and fired rules. -/
theorem button_init_timeout_irrelevant (wa w0 w0' : button_world) (nt nt' d button_id : Nat)
    (inputs : List (Bool × Nat))
    (h0 : fsm_button_init { wa with fsm := { wa.fsm with next_timeout := nt } } d button_id =
      some w0)
    (h0' : fsm_button_init { wa with fsm := { wa.fsm with next_timeout := nt' } } d button_id =
      some w0') :
    w0.fsm.next_timeout = nt ∧ w0'.fsm.next_timeout = nt' ∧
    w0' = { w0 with fsm := { w0.fsm with next_timeout := nt' } } ∧
    button_trace inputs w0' = button_trace inputs w0 ∧
    ∃ tr, button_trace inputs w0 = some tr := by
  simp only [fsm_button_init, buttons_arr] at h0 h0'
  by_cases hid : button_id % U32 = BUTTON_0_ID
  · simp only [hid, if_true, Option.map_some', Option.some.injEq] at h0 h0'
    have hst : w0.fsm.f.current_state = BUTTON_RELEASED := by rw [← h0]; rfl
    have hid0 : w0.fsm.button_id = BUTTON_0_ID := by rw [← h0]
    have hnt : w0.fsm.next_timeout = nt := by rw [← h0]; rfl
    have hnt' : w0'.fsm.next_timeout = nt' := by rw [← h0']; rfl
    have hrel : w0' = { w0 with fsm := { w0.fsm with next_timeout := nt' } } := by
      rw [← h0, ← h0']
      rfl
    refine ⟨hnt, hnt', hrel, ?_, button_trace_some inputs w0 hid0⟩
    rw [hrel]
    exact button_trace_timeout inputs w0 nt' hst
  · simp [hid] at h0

/-- Witness of C39: two machines initialised over memories holding the timeouts 0 and 50 have
the same trace on a press at tick 20 and two further polls. -/
theorem button_init_timeout_irrelevant_witness :
    button_trace [(true, 20), (true, 24), (true, 26)]
        { button_example with fsm := { button_example.fsm with next_timeout := 50 } } =
      button_trace [(true, 20), (true, 24), (true, 26)] button_example :=
  (button_init_timeout_irrelevant
    { fsm := { f := { current_state := 7 }, debounce_time := 1, next_timeout := 9,
               tick_pressed := 3, duration := 4, button_id := 5 },
      button0 := { flag_pressed := false }, millis := 0 }
    button_example
    { button_example with fsm := { button_example.fsm with next_timeout := 50 } }
    0 50 5 BUTTON_0_ID [(true, 20), (true, 24), (true, 26)] (by decide) (by decide)).2.2.2.1

/-! ## Theorems: buzzer machine, invariants of the reachable states -/

/-- The note-end flag after `_start_note` is cleared, and the call succeeds only on buzzer 0. -/
theorem start_note_flag {F : Type} (fp : double_ops F) (w w1 : buzzer_world F) (freq : F)
    (duration : Nat) (h : _start_note fp w freq duration = some w1) :
    w1.buzzer0.note_end = false ∧ w.fsm.buzzer_id = BUZZER_0_ID := by
  unfold _start_note port_buzzer_set_note_duration at h
  split_ifs at h with hid
  simp only [Option.some.injEq] at h
  subst h
  exact ⟨rfl, hid⟩

/-- The note-end flag after `do_melody_start` is cleared. -/
theorem do_melody_start_flag {F : Type} (fp : double_ops F) (w w1 : buzzer_world F)
    (h : do_melody_start fp w = some w1) :
    w1.buzzer0.note_end = false ∧ w.fsm.buzzer_id = BUZZER_0_ID := by
  unfold do_melody_start at h
  split at h
  · simp at h
  · split at h
    · simp at h
    · split at h
      · simp at h
      · rename_i hs
        have := start_note_flag fp _ _ _ _ hs
        simp only [Option.some.injEq] at h
        subst h
        exact this

/-- The note-end flag after `do_play_note` is cleared. -/
theorem do_play_note_flag {F : Type} (fp : double_ops F) (w w1 : buzzer_world F)
    (h : do_play_note fp w = some w1) :
    w1.buzzer0.note_end = false ∧ w.fsm.buzzer_id = BUZZER_0_ID := by
  unfold do_play_note at h
  split at h
  · simp at h
  · split at h
    · simp at h
    · split at h
      · simp at h
      · rename_i hs
        have := start_note_flag fp _ _ _ _ hs
        simp only [Option.some.injEq] at h
        subst h
        exact this

/-- The shape of every engine step of the buzzer: the melody reference and the buzzer id are
never written, and the step is an idle tick, a rule that programs a note (rules 0, 5, 6), a rule
that enters `PLAY_NOTE` (rules 1, 7), the pause rule (rule 2), or a rule that ends the playback
with `note_index = 0` (rules 3, 4). -/
theorem buzzer_fire_shape {F : Type} (fp : double_ops F) (w w1 : buzzer_world F)
    (r : Option Nat) (hf : fsm_buzzer_fire fp w = some (w1, r)) :
    w1.fsm.p_melody = w.fsm.p_melody ∧ w1.fsm.buzzer_id = w.fsm.buzzer_id ∧
    ((r = none ∧ w1 = w) ∨
     ((r = some 0 ∧ w.fsm.f.current_state = WAIT_START ∨
        r = some 6 ∧ w.fsm.f.current_state = WAIT_MELODY ∨
        r = some 5 ∧ w.fsm.f.current_state = PLAY_NOTE) ∧
       w.fsm.p_melody.isSome = true ∧ w.fsm.buzzer_id = BUZZER_0_ID ∧
       w1.fsm.f.current_state = WAIT_NOTE ∧ w1.buzzer0.note_end = false ∧
       w1.fsm.note_index = (w.fsm.note_index + 1) % U32) ∨
     ((r = some 1 ∧ w.fsm.f.current_state = WAIT_NOTE ∧
          port_buzzer_get_note_timeout w w.fsm.buzzer_id = true ∨
        r = some 7 ∧ w.fsm.f.current_state = PAUSE_NOTE) ∧
       w1.fsm.f.current_state = PLAY_NOTE ∧ w1.fsm.note_index = w.fsm.note_index) ∨
     (r = some 2 ∧ w.fsm.f.current_state = PLAY_NOTE ∧
       w1.fsm.f.current_state = PAUSE_NOTE ∧ w1.fsm.note_index = w.fsm.note_index) ∨
     ((r = some 3 ∧ w1.fsm.f.current_state = WAIT_START ∨
        r = some 4 ∧ w1.fsm.f.current_state = WAIT_MELODY) ∧
       w.fsm.f.current_state = PLAY_NOTE ∧ w1.fsm.note_index = 0)) := by
  have hs := port_buzzer_stop_calls w w.fsm.buzzer_id
  by_cases h0 : w.fsm.f.current_state = WAIT_START
  · rw [fsm_buzzer_fire_wait_start fp w h0] at hf
    split_ifs at hf with hc
    · cases hd : do_player_start fp w with
      | none => simp [hd] at hf
      | some wp =>
        simp only [hd, Option.map_some', Option.some.injEq, Prod.mk.injEq] at hf
        have hfsm := do_melody_start_fsm fp w wp hd
        have hfl := do_melody_start_flag fp w wp hd
        obtain ⟨rfl, rfl⟩ := hf
        refine ⟨by simp [buzzer_set_state, hfsm], by simp [buzzer_set_state, hfsm], ?_⟩
        exact Or.inr (Or.inl ⟨Or.inl ⟨rfl, h0⟩, hc.1, hfl.2, rfl, hfl.1,
          by simp [buzzer_set_state, hfsm]⟩)
    · simp only [Option.some.injEq, Prod.mk.injEq] at hf
      obtain ⟨rfl, rfl⟩ := hf
      exact ⟨rfl, rfl, Or.inl ⟨rfl, rfl⟩⟩
  by_cases h4 : w.fsm.f.current_state = WAIT_MELODY
  · rw [fsm_buzzer_fire_wait_melody fp w h4] at hf
    split_ifs at hf with hc
    · cases hd : do_melody_start fp w with
      | none => simp [hd] at hf
      | some wp =>
        simp only [hd, Option.map_some', Option.some.injEq, Prod.mk.injEq] at hf
        have hfsm := do_melody_start_fsm fp w wp hd
        have hfl := do_melody_start_flag fp w wp hd
        obtain ⟨rfl, rfl⟩ := hf
        refine ⟨by simp [buzzer_set_state, hfsm], by simp [buzzer_set_state, hfsm], ?_⟩
        exact Or.inr (Or.inl ⟨Or.inr (Or.inl ⟨rfl, h4⟩), hc.1, hfl.2, rfl, hfl.1,
          by simp [buzzer_set_state, hfsm]⟩)
    · simp only [Option.some.injEq, Prod.mk.injEq] at hf
      obtain ⟨rfl, rfl⟩ := hf
      exact ⟨rfl, rfl, Or.inl ⟨rfl, rfl⟩⟩
  by_cases h3 : w.fsm.f.current_state = WAIT_NOTE
  · rw [fsm_buzzer_fire_wait_note fp w h3] at hf
    split_ifs at hf with hc
    · simp only [Option.some.injEq, Prod.mk.injEq] at hf
      obtain ⟨rfl, rfl⟩ := hf
      refine ⟨by simp [buzzer_set_state, hs.2.1], by simp [buzzer_set_state, hs.2.1], ?_⟩
      exact Or.inr (Or.inr (Or.inl ⟨Or.inl ⟨rfl, h3, hc⟩, rfl,
        by simp [buzzer_set_state, hs.2.1]⟩))
    · simp only [Option.some.injEq, Prod.mk.injEq] at hf
      obtain ⟨rfl, rfl⟩ := hf
      exact ⟨rfl, rfl, Or.inl ⟨rfl, rfl⟩⟩
  by_cases h2 : w.fsm.f.current_state = PAUSE_NOTE
  · rw [fsm_buzzer_fire_pause_note fp w h2] at hf
    split_ifs at hf with hc
    · simp only [Option.some.injEq, Prod.mk.injEq] at hf
      obtain ⟨rfl, rfl⟩ := hf
      exact ⟨rfl, rfl, Or.inr (Or.inr (Or.inl ⟨Or.inr ⟨rfl, h2⟩, rfl, rfl⟩))⟩
    · simp only [Option.some.injEq, Prod.mk.injEq] at hf
      obtain ⟨rfl, rfl⟩ := hf
      exact ⟨rfl, rfl, Or.inl ⟨rfl, rfl⟩⟩
  by_cases h1 : w.fsm.f.current_state = PLAY_NOTE
  · rw [fsm_buzzer_fire_play_note fp w h1] at hf
    split_ifs at hf with hp hst
    · simp only [do_pause, Option.map_some', Option.some.injEq, Prod.mk.injEq] at hf
      obtain ⟨rfl, rfl⟩ := hf
      refine ⟨by simp [buzzer_set_state, hs.2.1], by simp [buzzer_set_state, hs.2.1], ?_⟩
      exact Or.inr (Or.inr (Or.inr (Or.inl ⟨rfl, h1, rfl,
        by simp [buzzer_set_state, hs.2.1]⟩)))
    · simp only [do_player_stop, Option.map_some', Option.some.injEq, Prod.mk.injEq] at hf
      obtain ⟨rfl, rfl⟩ := hf
      refine ⟨by simp [buzzer_set_state, hs.2.1], by simp [buzzer_set_state, hs.2.1], ?_⟩
      exact Or.inr (Or.inr (Or.inr (Or.inr ⟨Or.inl ⟨rfl, rfl⟩, h1, rfl⟩)))
    · cases hpm : w.fsm.p_melody with
      | none => simp [hpm] at hf
      | some m0 =>
        simp only [hpm] at hf
        split_ifs at hf with he hn
        · simp only [do_end_melody, Option.map_some', Option.some.injEq, Prod.mk.injEq] at hf
          obtain ⟨rfl, rfl⟩ := hf
          refine ⟨by simp [buzzer_set_state, hs.2.1, hpm],
            by simp [buzzer_set_state, hs.2.1], ?_⟩
          exact Or.inr (Or.inr (Or.inr (Or.inr ⟨Or.inr ⟨rfl, rfl⟩, h1, rfl⟩)))
        · cases hd : do_play_note fp w with
          | none => simp [hd] at hf
          | some wp =>
            simp only [hd, Option.map_some', Option.some.injEq, Prod.mk.injEq] at hf
            have hfsm := do_play_note_fsm fp w wp hd
            have hfl := do_play_note_flag fp w wp hd
            obtain ⟨rfl, rfl⟩ := hf
            refine ⟨by simp [buzzer_set_state, hfsm, hpm], by simp [buzzer_set_state, hfsm],
              ?_⟩
            exact Or.inr (Or.inl ⟨Or.inr (Or.inr ⟨rfl, h1⟩), by simp [hpm], hfl.2, rfl, hfl.1,
              by simp [buzzer_set_state, hfsm]⟩)
        · simp only [Option.some.injEq, Prod.mk.injEq] at hf
          obtain ⟨rfl, rfl⟩ := hf
          exact ⟨hpm, rfl, Or.inl ⟨rfl, rfl⟩⟩
  · rw [fsm_buzzer_fire_other fp w h0 h1 h2 h3 h4] at hf
    simp only [Option.some.injEq, Prod.mk.injEq] at hf
    obtain ⟨rfl, rfl⟩ := hf
    exact ⟨rfl, rfl, Or.inl ⟨rfl, rfl⟩⟩

/-- While the machine waits in `WAIT_NOTE` with the note-end flag cleared, every run of engine
steps and setter calls without a timer interrupt returns and leaves it there, flag cleared. -/
theorem buzzer_wait_note_holds {F : Type} (fp : double_ops F) (ops : List (buzzer_op F)) :
    ∀ w : buzzer_world F, w.fsm.f.current_state = WAIT_NOTE → w.buzzer0.note_end = false →
      buzzer_op.tim2_irq ∉ ops →
      ∃ w2, buzzer_run_ops fp ops w = some w2 ∧ w2.fsm.f.current_state = WAIT_NOTE ∧
        w2.buzzer0.note_end = false := by
  induction ops with
  | nil => intro w hst hfl _; exact ⟨w, rfl, hst, hfl⟩
  | cons op rest ih =>
    intro w hst hfl hno
    have hrest : buzzer_op.tim2_irq ∉ rest := fun h => hno (List.mem_cons_of_mem _ h)
    have hop : op ≠ buzzer_op.tim2_irq := fun h => hno (by rw [h]; exact List.mem_cons_self _ _)
    have hstep : ∃ w1, buzzer_apply fp op w = some w1 ∧ w1.fsm.f.current_state = WAIT_NOTE ∧
        w1.buzzer0.note_end = false := by
      cases op with
      | fire =>
        have hto : ¬ port_buzzer_get_note_timeout w w.fsm.buzzer_id = true := by
          unfold port_buzzer_get_note_timeout
          split_ifs <;> simp [hfl]
        refine ⟨w, ?_, hst, hfl⟩
        simp only [buzzer_apply]
        rw [fsm_buzzer_fire_wait_note fp w hst, if_neg hto]
        rfl
      | set_melody pm => exact ⟨_, rfl, hst, hfl⟩
      | set_action a =>
        refine ⟨_, rfl, ?_, ?_⟩
        · unfold fsm_buzzer_set_action
          simp only
          split_ifs <;> exact hst
        · unfold fsm_buzzer_set_action
          simp only
          split_ifs <;> exact hfl
      | set_speed sp => exact ⟨_, rfl, hst, hfl⟩
      | tim2_irq => exact absurd rfl hop
    obtain ⟨w1, h1, hst1, hfl1⟩ := hstep
    obtain ⟨w2, h2, hst2, hfl2⟩ := ih w1 hst1 hfl1 hrest
    exact ⟨w2, by simp only [buzzer_run_ops, h1, h2], hst2, hfl2⟩

/-- C35: `port_buzzer_set_note_duration` clears the note-end flag and `port_buzzer_stop` leaves
it unchanged. Right after any rule that programs a note (rule 0, WAIT_START -> WAIT_NOTE, rule 5,
PLAY_NOTE -> WAIT_NOTE, rule 6, WAIT_MELODY -> WAIT_NOTE) the machine is in `WAIT_NOTE` and
`port_buzzer_get_note_timeout` is false, whatever the flag was before: the next step fires no
rule, and so does every run of steps and setter calls without a timer interrupt; after
`TIM2_IRQHandler` has set the flag, the step fires the WAIT_NOTE -> PLAY_NOTE rule (rule 1). -/
theorem buzzer_note_end_cleared_by_programming {F : Type} (fp : double_ops F)
    (w w1 : buzzer_world F) (i : Nat) (hi : i = 0 ∨ i = 5 ∨ i = 6)
    (hf : fsm_buzzer_fire fp w = some (w1, some i)) :
    w1.fsm.f.current_state = WAIT_NOTE ∧
    port_buzzer_get_note_timeout w1 w1.fsm.buzzer_id = false ∧
    fsm_buzzer_fire fp w1 = some (w1, none) ∧
    (∀ ops : List (buzzer_op F), buzzer_op.tim2_irq ∉ ops →
      ∃ w2, buzzer_run_ops fp ops w1 = some w2 ∧ w2.fsm.f.current_state = WAIT_NOTE ∧
        port_buzzer_get_note_timeout w2 w2.fsm.buzzer_id = false) ∧
    fsm_buzzer_fire fp (TIM2_IRQHandler w1) =
      some (buzzer_set_state PLAY_NOTE
        (port_buzzer_stop (TIM2_IRQHandler w1) BUZZER_0_ID), some 1) ∧
    (∀ (v v1 : buzzer_world F) (buzzer_id duration_ms : Nat),
      port_buzzer_set_note_duration v buzzer_id duration_ms = some v1 →
      v1.buzzer0.note_end = false ∧ port_buzzer_get_note_timeout v1 buzzer_id = false) ∧
    (∀ (v : buzzer_world F) (buzzer_id : Nat),
      (port_buzzer_stop v buzzer_id).buzzer0 = v.buzzer0 ∧
      port_buzzer_get_note_timeout (port_buzzer_stop v buzzer_id) buzzer_id =
        port_buzzer_get_note_timeout v buzzer_id) := by
  obtain ⟨-, hid, hshape⟩ := buzzer_fire_shape fp w w1 (some i) hf
  have hprog : w.fsm.buzzer_id = BUZZER_0_ID ∧ w1.fsm.f.current_state = WAIT_NOTE ∧
      w1.buzzer0.note_end = false := by
    rcases hshape with ⟨h, -⟩ | ⟨-, -, h1, h2, h3, -⟩ | ⟨h, -⟩ | ⟨h, -⟩ | ⟨h, -⟩
    · simp at h
    · exact ⟨h1, h2, h3⟩
    · rcases h with ⟨h, -⟩ | ⟨h, -⟩ <;> simp only [Option.some.injEq] at h <;> omega
    · simp only [Option.some.injEq] at h; omega
    · rcases h with ⟨h, -⟩ | ⟨h, -⟩ <;> simp only [Option.some.injEq] at h <;> omega
  obtain ⟨hid0, hst, hfl⟩ := hprog
  have hid1 : w1.fsm.buzzer_id = BUZZER_0_ID := by rw [hid, hid0]
  have hto : ∀ v : buzzer_world F, v.buzzer0.note_end = false →
      port_buzzer_get_note_timeout v v.fsm.buzzer_id = false := by
    intro v hv
    unfold port_buzzer_get_note_timeout
    split_ifs <;> simp [hv]
  refine ⟨hst, hto w1 hfl, ?_, ?_, ?_, ?_, ?_⟩
  · rw [fsm_buzzer_fire_wait_note fp w1 hst, if_neg (by rw [hto w1 hfl]; simp)]
  · intro ops hno
    obtain ⟨w2, h2, hst2, hfl2⟩ := buzzer_wait_note_holds fp ops w1 hst hfl hno
    exact ⟨w2, h2, hst2, hto w2 hfl2⟩
  · have hst3 : (TIM2_IRQHandler w1).fsm.f.current_state = WAIT_NOTE := hst
    rw [fsm_buzzer_fire_wait_note fp _ hst3]
    have hid3 : (TIM2_IRQHandler w1).fsm.buzzer_id = BUZZER_0_ID := hid1
    rw [hid3, if_pos (by simp [port_buzzer_get_note_timeout, TIM2_IRQHandler])]
  · intro v v1 id d h
    unfold port_buzzer_set_note_duration at h
    split_ifs at h with hv
    simp only [Option.some.injEq] at h
    subst h
    exact ⟨rfl, by simp [port_buzzer_get_note_timeout]⟩
  · intro v id
    refine ⟨(port_buzzer_stop_calls v id).2.2, ?_⟩
    unfold port_buzzer_get_note_timeout
    rw [(port_buzzer_stop_calls v id).2.2]

/-- Witness of C35: `buzzer_example` has the flag of its first note still set; the step that
programs the second note clears it. -/
theorem buzzer_note_end_cleared_by_programming_witness :
    port_buzzer_get_note_timeout
        ({ fsm := { f := { current_state := WAIT_NOTE }, p_melody := some melody_example,
                    note_index := 2, buzzer_id := BUZZER_0_ID, user_action := PLAY,
                    player_speed := 1000 },
           buzzer0 := { note_end := false }, tim2_cen := true, tim3_cen := true,
           calls := [buzzer_call.set_note_duration 0 250,
                     buzzer_call.set_note_frequency 0 494000] } : buzzer_world Nat)
        ({ fsm := { f := { current_state := WAIT_NOTE }, p_melody := some melody_example,
                    note_index := 2, buzzer_id := BUZZER_0_ID, user_action := PLAY,
                    player_speed := 1000 },
           buzzer0 := { note_end := false }, tim2_cen := true, tim3_cen := true,
           calls := [buzzer_call.set_note_duration 0 250,
                     buzzer_call.set_note_frequency 0 494000] } :
          buzzer_world Nat).fsm.buzzer_id = false :=
  (buzzer_note_end_cleared_by_programming fixed_point_ops (buzzer_example PLAY 1)
    { fsm := { f := { current_state := WAIT_NOTE }, p_melody := some melody_example,
               note_index := 2, buzzer_id := BUZZER_0_ID, user_action := PLAY,
               player_speed := 1000 },
      buzzer0 := { note_end := false }, tim2_cen := true, tim3_cen := true,
      calls := [buzzer_call.set_note_duration 0 250,
                buzzer_call.set_note_frequency 0 494000] }
    5 (Or.inr (Or.inl rfl)) (by decide)).2.1

/-- The invariant "in `WAIT_START` and `WAIT_MELODY` the note index is 0" is preserved by every
operation on the machine. -/
theorem buzzer_idle_zero_apply {F : Type} (fp : double_ops F) (op : buzzer_op F)
    (w w1 : buzzer_world F)
    (hinv : (w.fsm.f.current_state = WAIT_START ∨ w.fsm.f.current_state = WAIT_MELODY) →
      w.fsm.note_index = 0)
    (h : buzzer_apply fp op w = some w1) :
    (w1.fsm.f.current_state = WAIT_START ∨ w1.fsm.f.current_state = WAIT_MELODY) →
      w1.fsm.note_index = 0 := by
  cases op with
  | fire =>
    simp only [buzzer_apply] at h
    cases hf : fsm_buzzer_fire fp w with
    | none => simp [hf] at h
    | some pr =>
      obtain ⟨wf, r⟩ := pr
      simp only [hf, Option.map_some', Option.some.injEq] at h
      subst h
      obtain ⟨-, -, hshape⟩ := buzzer_fire_shape fp w wf r hf
      intro hst
      rcases hshape with ⟨-, rfl⟩ | ⟨-, -, -, h1, -⟩ | ⟨-, h1, -⟩ | ⟨-, -, h1, -⟩ | ⟨-, -, h1⟩
      · exact hinv hst
      · rw [h1] at hst
        simp [WAIT_NOTE, WAIT_START, WAIT_MELODY] at hst
      · rw [h1] at hst
        simp [PLAY_NOTE, WAIT_START, WAIT_MELODY] at hst
      · rw [h1] at hst
        simp [PAUSE_NOTE, WAIT_START, WAIT_MELODY] at hst
      · exact h1
  | set_melody pm =>
    simp only [buzzer_apply, Option.some.injEq] at h
    subst h
    exact hinv
  | set_action a =>
    simp only [buzzer_apply, Option.some.injEq] at h
    subst h
    unfold fsm_buzzer_set_action
    simp only
    split_ifs with hs
    · exact fun _ => rfl
    · exact hinv
  | set_speed sp =>
    simp only [buzzer_apply, Option.some.injEq] at h
    subst h
    exact hinv
  | tim2_irq =>
    simp only [buzzer_apply, Option.some.injEq] at h
    subst h
    exact hinv

/-- The invariant "outside `WAIT_START` a melody is set" is preserved by every operation other
than `fsm_buzzer_set_melody(NULL)`. -/
theorem buzzer_melody_set_apply {F : Type} (fp : double_ops F) (op : buzzer_op F)
    (w w1 : buzzer_world F) (hop : op ≠ buzzer_op.set_melody none)
    (hinv : w.fsm.f.current_state ≠ WAIT_START → w.fsm.p_melody.isSome = true)
    (h : buzzer_apply fp op w = some w1) :
    w1.fsm.f.current_state ≠ WAIT_START → w1.fsm.p_melody.isSome = true := by
  cases op with
  | fire =>
    simp only [buzzer_apply] at h
    cases hf : fsm_buzzer_fire fp w with
    | none => simp [hf] at h
    | some pr =>
      obtain ⟨wf, r⟩ := pr
      simp only [hf, Option.map_some', Option.some.injEq] at h
      subst h
      obtain ⟨hpm, -, hshape⟩ := buzzer_fire_shape fp w wf r hf
      intro hst
      rw [hpm]
      rcases hshape with ⟨-, rfl⟩ | ⟨-, h1, -⟩ | ⟨h1, -⟩ | ⟨-, h1, -⟩ | ⟨-, h1, -⟩
      · exact hinv hst
      · exact h1
      · rcases h1 with ⟨-, h1, -⟩ | ⟨-, h1⟩ <;>
          exact hinv (by rw [h1]; simp [WAIT_NOTE, PAUSE_NOTE, WAIT_START])
      · exact hinv (by rw [h1]; simp [PLAY_NOTE, WAIT_START])
      · exact hinv (by rw [h1]; simp [PLAY_NOTE, WAIT_START])
  | set_melody pm =>
    simp only [buzzer_apply, Option.some.injEq] at h
    subst h
    intro _
    cases pm with
    | none => exact absurd rfl hop
    | some m => rfl
  | set_action a =>
    simp only [buzzer_apply, Option.some.injEq] at h
    subst h
    unfold fsm_buzzer_set_action
    simp only
    split_ifs with hs
    · exact hinv
    · exact hinv
  | set_speed sp =>
    simp only [buzzer_apply, Option.some.injEq] at h
    subst h
    exact hinv
  | tim2_irq =>
    simp only [buzzer_apply, Option.some.injEq] at h
    subst h
    exact hinv

/-- A successful `do_melody_start` has read note 0 of the melody that is set and has recorded
the two port calls for that note. -/
theorem do_melody_start_calls {F : Type} (fp : double_ops F) (w w1 : buzzer_world F)
    (h : do_melody_start fp w = some w1) :
    ∃ m note, w.fsm.p_melody = some m ∧ read_note m 0 = some note ∧
      w1.calls = w.calls ++ note_calls fp w.fsm.buzzer_id w.fsm.player_speed note := by
  have hid := (do_melody_start_flag fp w w1 h).2
  cases hpm : w.fsm.p_melody with
  | none => simp [do_melody_start, hpm] at h
  | some m =>
    cases hr : read_note m 0 with
    | none => simp [do_melody_start, hpm, hr] at h
    | some note =>
      rw [do_melody_start_eq fp w m note hpm hr hid] at h
      simp only [Option.some.injEq] at h
      subst h
      exact ⟨m, note, rfl, hr, rfl⟩

/-- C36: in every state reached from `fsm_buzzer_init` through engine steps, timer interrupts
and calls of `fsm_buzzer_set_melody`, `fsm_buzzer_set_action` and `fsm_buzzer_set_speed` (with
any arguments): if `current_state` is `WAIT_START` or `WAIT_MELODY` then `note_index = 0`; hence a
step that starts (rule 0) or restarts (rule 6) the melody programs note 0 of the melody that is
set and leaves `note_index = 1`. -/
theorem buzzer_idle_states_note_index_zero {F : Type} (fp : double_ops F)
    (ops : List (buzzer_op F)) (wa w0 w : buzzer_world F) (buzzer_id : Nat)
    (hinit : fsm_buzzer_init fp wa buzzer_id = some w0)
    (hrun : buzzer_run_ops fp ops w0 = some w) :
    ((w.fsm.f.current_state = WAIT_START ∨ w.fsm.f.current_state = WAIT_MELODY) →
      w.fsm.note_index = 0) ∧
    (∀ (w1 : buzzer_world F) (i : Nat), (i = 0 ∨ i = 6) →
      fsm_buzzer_fire fp w = some (w1, some i) →
      w1.fsm.note_index = 1 ∧
      ∃ m note, w.fsm.p_melody = some m ∧ read_note m 0 = some note ∧
        w1.calls = w.calls ++ note_calls fp w.fsm.buzzer_id w.fsm.player_speed note) := by
  have hinv0 : (w0.fsm.f.current_state = WAIT_START ∨ w0.fsm.f.current_state = WAIT_MELODY) →
      w0.fsm.note_index = 0 := by
    unfold fsm_buzzer_init port_buzzer_init at hinit
    simp only at hinit
    split_ifs at hinit with hid
    simp only [Option.some.injEq] at hinit
    subst hinit
    exact fun _ => rfl
  clear hinit
  have hinv : (w.fsm.f.current_state = WAIT_START ∨ w.fsm.f.current_state = WAIT_MELODY) →
      w.fsm.note_index = 0 := by
    induction ops generalizing w0 with
    | nil =>
      simp only [buzzer_run_ops, Option.some.injEq] at hrun
      subst hrun
      exact hinv0
    | cons op rest ih =>
      simp only [buzzer_run_ops] at hrun
      cases ha : buzzer_apply fp op w0 with
      | none => simp [ha] at hrun
      | some wn =>
        simp only [ha] at hrun
        exact ih wn hrun (buzzer_idle_zero_apply fp op w0 wn hinv0 ha)
  refine ⟨hinv, ?_⟩
  intro w1 i hi hf
  have hU : (0 + 1) % U32 = 1 := by decide
  rcases hi with rfl | rfl
  · have hst : w.fsm.f.current_state = WAIT_START := by
      obtain ⟨-, -, hshape⟩ := buzzer_fire_shape fp w w1 (some 0) hf
      rcases hshape with ⟨h, -⟩ | ⟨h, -⟩ | ⟨h, -⟩ | ⟨h, -⟩ | ⟨h, -⟩
      · simp at h
      · rcases h with ⟨-, h⟩ | ⟨h, -⟩ | ⟨h, -⟩
        · exact h
        · simp at h
        · simp at h
      · rcases h with ⟨h, -⟩ | ⟨h, -⟩ <;> simp at h
      · simp at h
      · rcases h with ⟨h, -⟩ | ⟨h, -⟩ <;> simp at h
    rw [fsm_buzzer_fire_wait_start fp w hst] at hf
    split_ifs at hf with hc
    · cases hd : do_player_start fp w with
      | none => simp [hd] at hf
      | some wp =>
        simp only [hd, Option.map_some', Option.some.injEq, Prod.mk.injEq, and_true] at hf
        subst hf
        have hfsm := do_melody_start_fsm fp w wp hd
        refine ⟨?_, do_melody_start_calls fp w wp hd⟩
        simp only [buzzer_set_state, hfsm, hinv (Or.inl hst), hU]
    · simp at hf
  · have hst : w.fsm.f.current_state = WAIT_MELODY := by
      obtain ⟨-, -, hshape⟩ := buzzer_fire_shape fp w w1 (some 6) hf
      rcases hshape with ⟨h, -⟩ | ⟨h, -⟩ | ⟨h, -⟩ | ⟨h, -⟩ | ⟨h, -⟩
      · simp at h
      · rcases h with ⟨h, -⟩ | ⟨-, h⟩ | ⟨h, -⟩
        · simp at h
        · exact h
        · simp at h
      · rcases h with ⟨h, -⟩ | ⟨h, -⟩ <;> simp at h
      · simp at h
      · rcases h with ⟨h, -⟩ | ⟨h, -⟩ <;> simp at h
    rw [fsm_buzzer_fire_wait_melody fp w hst] at hf
    split_ifs at hf with hc
    · cases hd : do_melody_start fp w with
      | none => simp [hd] at hf
      | some wp =>
        simp only [hd, Option.map_some', Option.some.injEq, Prod.mk.injEq, and_true] at hf
        subst hf
        have hfsm := do_melody_start_fsm fp w wp hd
        refine ⟨?_, do_melody_start_calls fp w wp hd⟩
        simp only [buzzer_set_state, hfsm, hinv (Or.inr hst), hU]
    · simp at hf

/-- Witness of C36: the one-note `melody_short` played to its end leaves the machine in
`WAIT_MELODY` with `note_index = 0`. -/
theorem buzzer_idle_states_note_index_zero_witness :
    ({ fsm := { f := { current_state := WAIT_MELODY }, p_melody := some melody_short,
                note_index := 0, buzzer_id := BUZZER_0_ID, user_action := STOP,
                player_speed := 1000 },
       buzzer0 := { note_end := true }, tim2_cen := false, tim3_cen := false,
       calls := [buzzer_call.init 0, buzzer_call.set_note_duration 0 500,
                 buzzer_call.set_note_frequency 0 440000, buzzer_call.stop 0,
                 buzzer_call.stop 0] } : buzzer_world Nat).fsm.note_index = 0 :=
  (buzzer_idle_states_note_index_zero fixed_point_ops
    [buzzer_op.set_melody (some melody_short), buzzer_op.set_action PLAY,
     buzzer_op.fire, buzzer_op.tim2_irq, buzzer_op.fire, buzzer_op.fire]
    buzzer_fresh buzzer_initial
    { fsm := { f := { current_state := WAIT_MELODY }, p_melody := some melody_short,
               note_index := 0, buzzer_id := BUZZER_0_ID, user_action := STOP,
               player_speed := 1000 },
      buzzer0 := { note_end := true }, tim2_cen := false, tim3_cen := false,
      calls := [buzzer_call.init 0, buzzer_call.set_note_duration 0 500,
                buzzer_call.set_note_frequency 0 440000, buzzer_call.stop 0,
                buzzer_call.stop 0] }
    BUZZER_0_ID (by decide) (by decide)).1 (Or.inr rfl)

/-- C37: in every state reached from `fsm_buzzer_init` through engine steps, timer interrupts,
`fsm_buzzer_set_action`, `fsm_buzzer_set_speed` and `fsm_buzzer_set_melody` calls with a
non-null melody: a `current_state` other than `WAIT_START` implies that a melody is set; hence in
`PLAY_NOTE`, the only state in which `check_end_melody`, `check_play_note` and `do_play_note` are
evaluated, the two guards are defined and the melody read by `do_play_note` is present. -/
theorem buzzer_melody_set_outside_wait_start {F : Type} (fp : double_ops F)
    (ops : List (buzzer_op F)) (wa w0 w : buzzer_world F) (buzzer_id : Nat)
    (hinit : fsm_buzzer_init fp wa buzzer_id = some w0)
    (hnn : ∀ op ∈ ops, op ≠ buzzer_op.set_melody none)
    (hrun : buzzer_run_ops fp ops w0 = some w) :
    (w.fsm.f.current_state ≠ WAIT_START → w.fsm.p_melody.isSome = true) ∧
    (w.fsm.f.current_state = PLAY_NOTE →
      ∃ m, w.fsm.p_melody = some m ∧
        check_end_melody w = some (decide (w.fsm.note_index ≥ m.melody_length)) ∧
        check_play_note w =
          some (decide (w.fsm.note_index ≤ m.melody_length) &&
            decide (w.fsm.user_action = PLAY))) := by
  have hinv0 : w0.fsm.f.current_state ≠ WAIT_START → w0.fsm.p_melody.isSome = true := by
    unfold fsm_buzzer_init port_buzzer_init at hinit
    simp only at hinit
    split_ifs at hinit with hid
    simp only [Option.some.injEq] at hinit
    subst hinit
    intro h
    exact absurd rfl h
  clear hinit
  have hinv : w.fsm.f.current_state ≠ WAIT_START → w.fsm.p_melody.isSome = true := by
    induction ops generalizing w0 with
    | nil =>
      simp only [buzzer_run_ops, Option.some.injEq] at hrun
      subst hrun
      exact hinv0
    | cons op rest ih =>
      simp only [buzzer_run_ops] at hrun
      cases ha : buzzer_apply fp op w0 with
      | none => simp [ha] at hrun
      | some wn =>
        simp only [ha] at hrun
        exact ih wn (fun o ho => hnn o (List.mem_cons_of_mem _ ho)) hrun
          (buzzer_melody_set_apply fp op w0 wn (hnn op (List.mem_cons_self _ _)) hinv0 ha)
  refine ⟨hinv, ?_⟩
  intro hst
  have hsome := hinv (by rw [hst]; simp [PLAY_NOTE, WAIT_START])
  cases hpm : w.fsm.p_melody with
  | none => rw [hpm] at hsome; simp at hsome
  | some m => exact ⟨m, rfl, by simp [check_end_melody, hpm], by simp [check_play_note, hpm]⟩

/-- Witness of C37: after two notes of `melody_example` the machine waits in `WAIT_NOTE` and
the melody is set. -/
theorem buzzer_melody_set_outside_wait_start_witness :
    ({ fsm := { f := { current_state := WAIT_NOTE }, p_melody := some melody_example,
                note_index := 2, buzzer_id := BUZZER_0_ID, user_action := PLAY,
                player_speed := 1000 },
       buzzer0 := { note_end := false }, tim2_cen := true, tim3_cen := true,
       calls := [buzzer_call.init 0, buzzer_call.set_note_duration 0 500,
                 buzzer_call.set_note_frequency 0 440000, buzzer_call.stop 0,
                 buzzer_call.set_note_duration 0 250,
                 buzzer_call.set_note_frequency 0 494000] } :
      buzzer_world Nat).fsm.p_melody.isSome = true :=
  (buzzer_melody_set_outside_wait_start fixed_point_ops
    [buzzer_op.set_melody (some melody_example), buzzer_op.set_action PLAY,
     buzzer_op.fire, buzzer_op.tim2_irq, buzzer_op.fire, buzzer_op.fire]
    buzzer_fresh buzzer_initial
    { fsm := { f := { current_state := WAIT_NOTE }, p_melody := some melody_example,
               note_index := 2, buzzer_id := BUZZER_0_ID, user_action := PLAY,
               player_speed := 1000 },
      buzzer0 := { note_end := false }, tim2_cen := true, tim3_cen := true,
      calls := [buzzer_call.init 0, buzzer_call.set_note_duration 0 500,
                buzzer_call.set_note_frequency 0 440000, buzzer_call.stop 0,
                buzzer_call.set_note_duration 0 250,
                buzzer_call.set_note_frequency 0 494000] }
    BUZZER_0_ID (by decide) (by decide) (by decide)).1 (by decide)

/-! ## Theorems: USART port, index bounds and stalled transmission -/

/-- Every call of a port function that touches the buffers returns (all its array accesses are
inside the arrays) and preserves the bounds `i_idx <= 10`, `o_idx <= 99` and the sizes of the
two buffers. -/
theorem usart_port_apply_bounds (op : usart_port_op) (w : usart_world)
    (hok : usart_port_op_ok op = true)
    (hi : w.usart0.i_idx ≤ USART_INPUT_BUFFER_LENGTH)
    (ho : w.usart0.o_idx ≤ USART_OUTPUT_BUFFER_LENGTH - 1)
    (hib : w.usart0.input_buffer.length = USART_INPUT_BUFFER_LENGTH)
    (hob : w.usart0.output_buffer.length = USART_OUTPUT_BUFFER_LENGTH) :
    ∃ w1, usart_port_apply op w = some w1 ∧
      w1.usart0.i_idx ≤ USART_INPUT_BUFFER_LENGTH ∧
      w1.usart0.o_idx ≤ USART_OUTPUT_BUFFER_LENGTH - 1 ∧
      w1.usart0.input_buffer.length = USART_INPUT_BUFFER_LENGTH ∧
      w1.usart0.output_buffer.length = USART_OUTPUT_BUFFER_LENGTH := by
  rcases w with ⟨f, ⟨ib, ii, rc, ob, oi, wc⟩, dr, tl, tw, c1, c2⟩
  simp only [USART_INPUT_BUFFER_LENGTH, USART_OUTPUT_BUFFER_LENGTH] at hi ho hib hob
  cases op with
  | store_data c =>
    simp only [usart_port_apply, port_usart_store_data, usart_arr, if_true, array_write,
      USART_INPUT_BUFFER_LENGTH, USART_OUTPUT_BUFFER_LENGTH]
    by_cases hend : c % 256 ≠ END_CHAR_CONSTANT
    · rw [if_pos hend]
      by_cases hfull : ii ≥ 10
      · rw [if_pos hfull, if_pos (by rw [hib]; decide)]
        exact ⟨_, rfl, (show (0 + 1) % 256 ≤ 10 by decide), ho, by simp [hib], hob⟩
      · rw [if_neg hfull, if_pos (by rw [hib]; omega)]
        refine ⟨_, rfl, ?_, ho, by simp [hib], hob⟩
        show (ii + 1) % 256 ≤ 10
        rw [Nat.mod_eq_of_lt (by omega)]
        omega
    · rw [if_neg hend]
      exact ⟨_, rfl, Nat.zero_le _, ho, hib, hob⟩
  | write_data =>
    have hlt : oi < ob.length := by rw [hob]; omega
    simp only [usart_port_apply, port_usart_write_data, usart_arr, if_true,
      List.getElem?_eq_getElem hlt, port_usart_disable_tx_interrupt,
      USART_INPUT_BUFFER_LENGTH, USART_OUTPUT_BUFFER_LENGTH]
    split_ifs with h1 h2
    · exact ⟨_, rfl, hi, Nat.zero_le _, hib, hob⟩
    · refine ⟨_, rfl, hi, ?_, hib, hob⟩
      have hne : oi ≠ 99 := fun h => h1 (Or.inl h)
      show (oi + 1) % 256 ≤ 100 - 1
      rw [Nat.mod_eq_of_lt (by omega)]
      omega
    · exact ⟨_, rfl, hi, ho, hib, hob⟩
  | reset_input_buffer =>
    refine ⟨_, rfl, hi, ho, ?_, hob⟩
    simp [_reset_buffer, memset, USART_INPUT_BUFFER_LENGTH, hib]
  | reset_output_buffer =>
    refine ⟨_, rfl, hi, ho, hib, ?_⟩
    simp [_reset_buffer, memset, USART_OUTPUT_BUFFER_LENGTH, hob]
  | copy_to_output_buffer p_data length =>
    simp only [usart_port_op_ok, Bool.and_eq_true, decide_eq_true_eq,
      USART_OUTPUT_BUFFER_LENGTH] at hok
    refine ⟨_, rfl, hi, ho, hib, ?_⟩
    simp only [_reset_buffer, memset, memcpy, List.length_append, List.length_take,
      List.length_drop, List.length_replicate, hob, USART_OUTPUT_BUFFER_LENGTH]
    omega

/-- C38: starting from `i_idx = 0` and `o_idx = 0` with the two buffers of their declared sizes,
every sequence of `port_usart_store_data` calls (any received byte), `port_usart_write_data`
calls, buffer resets and copies into the output buffer (of at most 100 bytes, within the caller's
data) returns, i.e. every array access made on the way is inside its array, and afterwards
`i_idx <= 10` and `o_idx <= 99`, the slot that the next `port_usart_store_data` writes is inside
the 10-byte input buffer and the slot that the next `port_usart_write_data` reads is inside the
100-byte output buffer. -/
theorem usart_indices_stay_in_bounds (ops : List usart_port_op) (w : usart_world)
    (hi : w.usart0.i_idx = 0) (ho : w.usart0.o_idx = 0)
    (hib : w.usart0.input_buffer.length = USART_INPUT_BUFFER_LENGTH)
    (hob : w.usart0.output_buffer.length = USART_OUTPUT_BUFFER_LENGTH)
    (hok : ∀ op ∈ ops, usart_port_op_ok op = true) :
    ∃ w1, usart_port_run ops w = some w1 ∧
      w1.usart0.i_idx ≤ 10 ∧ w1.usart0.o_idx ≤ 99 ∧
      w1.usart0.input_buffer.length = 10 ∧ w1.usart0.output_buffer.length = 100 ∧
      (if w1.usart0.i_idx ≥ USART_INPUT_BUFFER_LENGTH then 0 else w1.usart0.i_idx) <
        w1.usart0.input_buffer.length ∧
      w1.usart0.o_idx < w1.usart0.output_buffer.length ∧
      (∀ c, ∃ w2, port_usart_store_data { w1 with dr_rx := c } USART_0_ID = some w2) ∧
      (∃ w2, port_usart_write_data w1 USART_0_ID = some w2) := by
  have hgen : ∀ (ops : List usart_port_op) (v : usart_world),
      v.usart0.i_idx ≤ USART_INPUT_BUFFER_LENGTH →
      v.usart0.o_idx ≤ USART_OUTPUT_BUFFER_LENGTH - 1 →
      v.usart0.input_buffer.length = USART_INPUT_BUFFER_LENGTH →
      v.usart0.output_buffer.length = USART_OUTPUT_BUFFER_LENGTH →
      (∀ op ∈ ops, usart_port_op_ok op = true) →
      ∃ w1, usart_port_run ops v = some w1 ∧
        w1.usart0.i_idx ≤ USART_INPUT_BUFFER_LENGTH ∧
        w1.usart0.o_idx ≤ USART_OUTPUT_BUFFER_LENGTH - 1 ∧
        w1.usart0.input_buffer.length = USART_INPUT_BUFFER_LENGTH ∧
        w1.usart0.output_buffer.length = USART_OUTPUT_BUFFER_LENGTH := by
    intro ops
    induction ops with
    | nil => intro v h1 h2 h3 h4 _; exact ⟨v, rfl, h1, h2, h3, h4⟩
    | cons op rest ih =>
      intro v h1 h2 h3 h4 hall
      obtain ⟨va, ha, a1, a2, a3, a4⟩ := usart_port_apply_bounds op v
        (hall op (List.mem_cons_self _ _)) h1 h2 h3 h4
      obtain ⟨vb, hb, b1, b2, b3, b4⟩ := ih va a1 a2 a3 a4
        (fun o ho => hall o (List.mem_cons_of_mem _ ho))
      exact ⟨vb, by simp only [usart_port_run, ha, hb], b1, b2, b3, b4⟩
  obtain ⟨w1, hrun, h1, h2, h3, h4⟩ := hgen ops w (by rw [hi]; exact Nat.zero_le _)
    (by rw [ho]; exact Nat.zero_le _) hib hob hok
  have h1n : w1.usart0.i_idx ≤ 10 := h1
  have h2n : w1.usart0.o_idx ≤ 99 := h2
  have h3n : w1.usart0.input_buffer.length = 10 := h3
  have h4n : w1.usart0.output_buffer.length = 100 := h4
  refine ⟨w1, hrun, h1n, h2n, h3n, h4n, ?_, by omega, ?_, ?_⟩
  · simp only [USART_INPUT_BUFFER_LENGTH, h3n]
    split_ifs <;> omega
  · intro c
    obtain ⟨w2, hw2, -⟩ := usart_port_apply_bounds (usart_port_op.store_data c) w1 rfl h1 h2 h3 h4
    exact ⟨w2, hw2⟩
  · obtain ⟨w2, hw2, -⟩ := usart_port_apply_bounds usart_port_op.write_data w1 rfl h1 h2 h3 h4
    exact ⟨w2, hw2⟩

/-- Witness of C38: eleven received bytes (one more than the input buffer holds), a copy into
the output buffer, three transmit calls and a reset. -/
theorem usart_indices_stay_in_bounds_witness :
    ∃ w1, usart_port_run
        [usart_port_op.store_data 97, usart_port_op.store_data 98, usart_port_op.store_data 99,
         usart_port_op.store_data 100, usart_port_op.store_data 101,
         usart_port_op.store_data 102, usart_port_op.store_data 103,
         usart_port_op.store_data 104, usart_port_op.store_data 105,
         usart_port_op.store_data 106, usart_port_op.store_data 107,
         usart_port_op.copy_to_output_buffer ([65, 66, 10] ++ List.replicate 97 0) 100,
         usart_port_op.write_data, usart_port_op.write_data, usart_port_op.write_data,
         usart_port_op.reset_input_buffer] usart_example = some w1 ∧
      w1.usart0.i_idx ≤ 10 ∧ w1.usart0.o_idx ≤ 99 ∧
      w1.usart0.input_buffer.length = 10 ∧ w1.usart0.output_buffer.length = 100 ∧
      (if w1.usart0.i_idx ≥ USART_INPUT_BUFFER_LENGTH then 0 else w1.usart0.i_idx) <
        w1.usart0.input_buffer.length ∧
      w1.usart0.o_idx < w1.usart0.output_buffer.length ∧
      (∀ c, ∃ w2, port_usart_store_data { w1 with dr_rx := c } USART_0_ID = some w2) ∧
      (∃ w2, port_usart_write_data w1 USART_0_ID = some w2) :=
  usart_indices_stay_in_bounds
    [usart_port_op.store_data 97, usart_port_op.store_data 98, usart_port_op.store_data 99,
     usart_port_op.store_data 100, usart_port_op.store_data 101,
     usart_port_op.store_data 102, usart_port_op.store_data 103,
     usart_port_op.store_data 104, usart_port_op.store_data 105,
     usart_port_op.store_data 106, usart_port_op.store_data 107,
     usart_port_op.copy_to_output_buffer ([65, 66, 10] ++ List.replicate 97 0) 100,
     usart_port_op.write_data, usart_port_op.write_data, usart_port_op.write_data,
     usart_port_op.reset_input_buffer] usart_example rfl rfl (by decide) (by decide)
    (by decide)

/-- A transmit call that finds the empty byte at `o_idx`, not in the last slot, changes
nothing. -/
theorem port_usart_write_data_stalled (v : usart_world)
    (hz : v.usart0.output_buffer[v.usart0.o_idx]? = some EMPTY_BUFFER_CONSTANT)
    (h99 : v.usart0.o_idx ≠ USART_OUTPUT_BUFFER_LENGTH - 1) :
    port_usart_write_data v USART_0_ID = some v := by
  simp only [port_usart_write_data, usart_arr, if_true, hz]
  rw [if_neg (by
    intro h
    rcases h with h | h
    · exact h99 h
    · exact absurd h (by decide))]
  simp

/-- Any number of transmit calls on a stalled transmitter changes nothing. -/
theorem usart_tx_irqs_stalled (v : usart_world)
    (hz : v.usart0.output_buffer[v.usart0.o_idx]? = some EMPTY_BUFFER_CONSTANT)
    (h99 : v.usart0.o_idx ≠ USART_OUTPUT_BUFFER_LENGTH - 1) :
    ∀ n, usart_tx_irqs n v = some v := by
  intro n
  induction n with
  | zero => rfl
  | succ n ih => simp only [usart_tx_irqs, port_usart_write_data_stalled v hz h99, ih]

/-- The function `port_usart_store_data` writes neither the transmit side of the hardware nor
the line. -/
theorem port_usart_store_data_out (v v1 : usart_world) (usart_id : Nat)
    (h : port_usart_store_data v usart_id = some v1) :
    v1.usart0.output_buffer = v.usart0.output_buffer ∧ v1.usart0.o_idx = v.usart0.o_idx ∧
      v1.usart0.write_complete = v.usart0.write_complete ∧ v1.tx_line = v.tx_line := by
  unfold port_usart_store_data usart_arr at h
  split_ifs at h with hid
  · simp only at h
    split_ifs at h
    · split at h
      · simp at h
      · simp only [Option.some.injEq] at h
        subst h
        exact ⟨rfl, rfl, rfl, rfl⟩
    · split at h
      · simp at h
      · simp only [Option.some.injEq] at h
        subst h
        exact ⟨rfl, rfl, rfl, rfl⟩
    · simp only [Option.some.injEq] at h
      subst h
      exact ⟨rfl, rfl, rfl, rfl⟩

/-- A machine in `SEND_DATA` whose transmitter is stalled on an empty byte stays so under every
operation: engine step, receive or transmit interrupt, `fsm_usart_set_out_data`, interrupt
enable or disable. -/
theorem usart_stall_apply (op : usart_op) (w w1 : usart_world)
    (hst : w.fsm.f.current_state = SEND_DATA) (hid : w.fsm.usart_id = USART_0_ID)
    (hz : w.usart0.output_buffer[w.usart0.o_idx]? = some EMPTY_BUFFER_CONSTANT)
    (h99 : w.usart0.o_idx ≠ USART_OUTPUT_BUFFER_LENGTH - 1)
    (hwc : w.usart0.write_complete = false)
    (h : usart_apply op w = some w1) :
    w1.fsm.f.current_state = SEND_DATA ∧ w1.fsm.usart_id = USART_0_ID ∧
      w1.usart0.output_buffer = w.usart0.output_buffer ∧
      w1.usart0.o_idx = w.usart0.o_idx ∧ w1.usart0.write_complete = false ∧
      w1.tx_line = w.tx_line := by
  cases op with
  | fire =>
    have hte : check_tx_end w = some false := by
      simp [check_tx_end, port_usart_tx_done, usart_arr, hid, hwc]
    simp only [usart_apply] at h
    rw [fsm_usart_fire_send_data w hst, hte] at h
    simp only [Option.map_some', Option.some.injEq] at h
    subst h
    exact ⟨hst, hid, rfl, rfl, hwc, rfl⟩
  | rx_irq c =>
    simp only [usart_apply, usart_receive] at h
    have hf := port_usart_store_data_fsm _ _ _ h
    obtain ⟨h1, h2, h3, h4⟩ := port_usart_store_data_out _ _ _ h
    exact ⟨by rw [hf]; exact hst, by rw [hf]; exact hid, h1, h2, by rw [h3]; exact hwc, h4⟩
  | tx_irq =>
    simp only [usart_apply] at h
    rw [port_usart_write_data_stalled w hz h99] at h
    simp only [Option.some.injEq] at h
    subst h
    exact ⟨hst, hid, rfl, rfl, hwc, rfl⟩
  | set_out_data p_data =>
    simp only [usart_apply, fsm_usart_set_out_data] at h
    split_ifs at h
    simp only [Option.some.injEq] at h
    subst h
    exact ⟨hst, hid, rfl, rfl, hwc, rfl⟩
  | disable_rx_interrupt =>
    simp only [usart_apply, Option.some.injEq] at h
    subst h
    exact ⟨hst, hid, rfl, rfl, hwc, rfl⟩
  | disable_tx_interrupt =>
    simp only [usart_apply, Option.some.injEq] at h
    subst h
    exact ⟨hst, hid, rfl, rfl, hwc, rfl⟩
  | enable_rx_interrupt =>
    simp only [usart_apply, Option.some.injEq] at h
    subst h
    exact ⟨hst, hid, rfl, rfl, hwc, rfl⟩
  | enable_tx_interrupt =>
    simp only [usart_apply, Option.some.injEq] at h
    subst h
    exact ⟨hst, hid, rfl, rfl, hwc, rfl⟩

/-- A stalled transmission stays stalled along every run of operations. -/
theorem usart_stall_run (ops : List usart_op) :
    ∀ (w w1 : usart_world), w.fsm.f.current_state = SEND_DATA →
      w.fsm.usart_id = USART_0_ID →
      w.usart0.output_buffer[w.usart0.o_idx]? = some EMPTY_BUFFER_CONSTANT →
      w.usart0.o_idx ≠ USART_OUTPUT_BUFFER_LENGTH - 1 →
      w.usart0.write_complete = false →
      usart_run_ops ops w = some w1 →
      w1.fsm.f.current_state = SEND_DATA ∧ w1.usart0.o_idx = w.usart0.o_idx ∧
        w1.usart0.write_complete = false ∧ w1.tx_line = w.tx_line ∧
        fsm_usart_check_activity w1 = true := by
  induction ops with
  | nil =>
    intro w w1 hst _ _ _ hwc h
    simp only [usart_run_ops, Option.some.injEq] at h
    subst h
    exact ⟨hst, rfl, hwc, rfl, by simp [fsm_usart_check_activity, hst]⟩
  | cons op rest ih =>
    intro w w1 hst hid hz h99 hwc h
    simp only [usart_run_ops] at h
    cases ha : usart_apply op w with
    | none => simp [ha] at h
    | some wa =>
      simp only [ha] at h
      obtain ⟨a1, a2, a3, a4, a5, a6⟩ := usart_stall_apply op w wa hst hid hz h99 hwc ha
      obtain ⟨b1, b2, b3, b4, b5⟩ := ih wa w1 a1 a2 (by rw [a3, a4]; exact hz)
        (by rw [a4]; exact h99) a5 h
      exact ⟨b1, by rw [b2, a4], b3, by rw [b4, a6], b5⟩

/-- The claim C31 as stated fails when an earlier byte is empty too: the output buffer "A"
followed by 99 empty bytes has `0x00` at position `k = 2` and no end marker among bytes 0..1,
but the transmitter stalls at the first empty byte: after the first 2 calls of
`port_usart_write_data`, and after every further call, `o_idx` is 1, not 2. -/
theorem usart_stall_at_first_empty_byte :
    (65 :: List.replicate 99 0)[2]? = some EMPTY_BUFFER_CONSTANT ∧
    (∀ i, i < 2 → (65 :: List.replicate 99 0)[i]? ≠ some END_CHAR_CONSTANT) ∧
    usart_tx_irqs 2
        { usart_example with
          usart0 := { usart_example.usart0 with output_buffer := 65 :: List.replicate 99 0 } } =
      some { usart_example with
             tx_line := [65]
             usart0 := { usart_example.usart0 with
               output_buffer := 65 :: List.replicate 99 0, o_idx := 1 } } ∧
    (∀ n, usart_tx_irqs n
        { usart_example with
          tx_line := [65]
          usart0 := { usart_example.usart0 with
            output_buffer := 65 :: List.replicate 99 0, o_idx := 1 } } =
      some { usart_example with
             tx_line := [65]
             usart0 := { usart_example.usart0 with
               output_buffer := 65 :: List.replicate 99 0, o_idx := 1 } }) ∧
    ({ usart_example with
       tx_line := [65]
       usart0 := { usart_example.usart0 with
         output_buffer := 65 :: List.replicate 99 0, o_idx := 1 } } :
      usart_world).usart0.o_idx ≠ 2 := by
  refine ⟨by decide, by decide, by decide, ?_, by decide⟩
  exact usart_tx_irqs_stalled _ (by decide) (by decide)

/-- C31 (amended): for every output buffer whose first empty byte `0x00` is at a position `k`
with `1 <= k < 99` (bytes 0..k-1 are neither `0x00` nor the end marker `0x0A`): starting from
`o_idx = 0` with `write_complete = false`, the first `k` calls of `port_usart_write_data` send
bytes 0..k-1 and leave `o_idx = k`; every further call sends nothing and leaves `o_idx = k` and
`write_complete = false`, so `port_usart_tx_done` stays false. A USART machine that starts this
transmission from `WAIT_DATA` (the step sends byte 0, `k - 1` transmit interrupts send the bytes
up to `k - 1`) stays in `SEND_DATA` under every run of engine steps, interrupts and calls of the
public functions other than `fsm_usart_init`. -/
theorem usart_empty_byte_stalls (B : List Nat) (k : Nat) (v : usart_world)
    (hk1 : 1 ≤ k) (hk : k < USART_OUTPUT_BUFFER_LENGTH - 1)
    (hzero : B[k]? = some EMPTY_BUFFER_CONSTANT)
    (hmid : ∀ i, i < k → ∃ c, B[i]? = some c ∧ c ≠ EMPTY_BUFFER_CONSTANT ∧
      c ≠ END_CHAR_CONSTANT)
    (hB : v.usart0.output_buffer = B) (ho : v.usart0.o_idx = 0)
    (hwc : v.usart0.write_complete = false) :
    usart_tx_irqs k v =
      some { v with tx_line := v.tx_line ++ B.take k
                    usart0 := { v.usart0 with o_idx := k } } ∧
    (∀ n, usart_tx_irqs n
        { v with tx_line := v.tx_line ++ B.take k
                 usart0 := { v.usart0 with o_idx := k } } =
      some { v with tx_line := v.tx_line ++ B.take k
                    usart0 := { v.usart0 with o_idx := k } }) ∧
    port_usart_tx_done
        { v with tx_line := v.tx_line ++ B.take k
                 usart0 := { v.usart0 with o_idx := k } } USART_0_ID = some false ∧
    (∀ w : usart_world, w.fsm.f.current_state = WAIT_DATA → w.fsm.usart_id = USART_0_ID →
      w.fsm.out_data = B → B.length = USART_OUTPUT_BUFFER_LENGTH →
      w.usart0.output_buffer.length = USART_OUTPUT_BUFFER_LENGTH → w.usart0.o_idx = 0 →
      ∃ v1 vs, fsm_usart_fire w = some (v1, some 0) ∧
        usart_tx_irqs (k - 1) v1 = some vs ∧
        vs.fsm.f.current_state = SEND_DATA ∧ vs.usart0.o_idx = k ∧
        vs.usart0.write_complete = false ∧ vs.tx_line = w.tx_line ++ B.take k ∧
        ∀ (ops : List usart_op) (w1 : usart_world), usart_run_ops ops vs = some w1 →
          w1.fsm.f.current_state = SEND_DATA ∧ w1.usart0.o_idx = k ∧
            w1.usart0.write_complete = false ∧ w1.tx_line = w.tx_line ++ B.take k ∧
            fsm_usart_check_activity w1 = true) := by
  have hk99 : k ≠ USART_OUTPUT_BUFFER_LENGTH - 1 := Nat.ne_of_lt hk
  have hprog := usart_tx_irqs_progress B k (Nat.le_of_lt hk) hmid k v 0 hB ho
    (by rw [Nat.zero_add])
  rw [Nat.zero_add] at hprog
  refine ⟨hprog, ?_, ?_, ?_⟩
  · exact usart_tx_irqs_stalled _ (by simp only [hB]; exact hzero) hk99
  · simp [port_usart_tx_done, usart_arr, hwc]
  · intro w hst hid hout hlen hob ho0
    obtain ⟨c0, hc0, hne0, hne10⟩ := hmid 0 (by omega)
    have htx : check_data_tx w = some true := by
      simp [check_data_tx, hout, hc0, hne0]
    have hlenout : w.fsm.out_data.length = USART_OUTPUT_BUFFER_LENGTH := by rw [hout]; exact hlen
    have hwrite := port_usart_write_data_mid
      { w with
        usart0 := { w.usart0 with output_buffer := w.fsm.out_data, write_complete := false }
        txe_wait := 0 } c0 (by simp only [ho0, hout]; exact hc0) hne0 hne10
      (by simp only [ho0]; decide)
    have hfire : fsm_usart_fire w =
        some ({ fsm := { w.fsm with f := { current_state := SEND_DATA } }
                usart0 := { w.usart0 with output_buffer := B, write_complete := false,
                                          o_idx := 1 }
                dr_rx := w.dr_rx
                tx_line := w.tx_line ++ [c0]
                txe_wait := 0
                cr1_txeie := true
                cr1_rxneie := w.cr1_rxneie }, some 0) := by
      rw [fsm_usart_fire_wait_data w hst, htx]
      simp only
      rw [do_set_data_tx_eq w hid hlenout hob, hwrite]
      simp only [Option.map_some', port_usart_enable_tx_interrupt, usart_set_state, ho0, hout]
    obtain ⟨k1, rfl⟩ : ∃ k1, k = k1 + 1 := ⟨k - 1, by omega⟩
    have hprog1 := usart_tx_irqs_progress B (k1 + 1) (Nat.le_of_lt hk) hmid k1
      { fsm := { w.fsm with f := { current_state := SEND_DATA } }
        usart0 := { w.usart0 with output_buffer := B, write_complete := false, o_idx := 1 }
        dr_rx := w.dr_rx
        tx_line := w.tx_line ++ [c0]
        txe_wait := 0
        cr1_txeie := true
        cr1_rxneie := w.cr1_rxneie } 1 rfl rfl (by omega)
    have htake : [c0] ++ (B.drop 1).take k1 = B.take (k1 + 1) := by
      cases B with
      | nil => simp at hc0
      | cons b0 B1 =>
        simp only [List.getElem?_cons_zero, Option.some.injEq] at hc0
        subst hc0
        simp
    have hline : (w.tx_line ++ [c0]) ++ (B.drop 1).take k1 = w.tx_line ++ B.take (k1 + 1) := by
      rw [List.append_assoc, htake]
    refine ⟨
      { fsm := { w.fsm with f := { current_state := SEND_DATA } }
        usart0 := { w.usart0 with output_buffer := B, write_complete := false, o_idx := 1 }
        dr_rx := w.dr_rx
        tx_line := w.tx_line ++ [c0]
        txe_wait := 0
        cr1_txeie := true
        cr1_rxneie := w.cr1_rxneie },
      { fsm := { w.fsm with f := { current_state := SEND_DATA } }
        usart0 := { w.usart0 with output_buffer := B, write_complete := false,
                                  o_idx := 1 + k1 }
        dr_rx := w.dr_rx
        tx_line := (w.tx_line ++ [c0]) ++ (B.drop 1).take k1
        txe_wait := 0
        cr1_txeie := true
        cr1_rxneie := w.cr1_rxneie },
      hfire, hprog1, rfl, Nat.add_comm 1 k1, rfl, hline, ?_⟩
    intro ops w1 hrun
    obtain ⟨b1, b2, b3, b4, b5⟩ := usart_stall_run ops
      { fsm := { w.fsm with f := { current_state := SEND_DATA } }
        usart0 := { w.usart0 with output_buffer := B, write_complete := false,
                                  o_idx := 1 + k1 }
        dr_rx := w.dr_rx
        tx_line := (w.tx_line ++ [c0]) ++ (B.drop 1).take k1
        txe_wait := 0
        cr1_txeie := true
        cr1_rxneie := w.cr1_rxneie }
      w1 rfl hid
      (by
        show B[1 + k1]? = some EMPTY_BUFFER_CONSTANT
        rw [Nat.add_comm 1 k1]
        exact hzero)
      (by
        show 1 + k1 ≠ USART_OUTPUT_BUFFER_LENGTH - 1
        rw [Nat.add_comm 1 k1]
        exact hk99)
      rfl hrun
    exact ⟨b1, b2.trans (Nat.add_comm 1 k1), b3, b4.trans hline, b5⟩

/-- Witness of C31 (amended): the output buffer "A", `0x00`, ... has its first empty byte at
position 1; one call sends "A" and leaves `o_idx = 1`. -/
theorem usart_empty_byte_stalls_witness :
    usart_tx_irqs 1
        { usart_example with
          usart0 := { usart_example.usart0 with
            output_buffer := usart_message_with_empty_byte } } =
      some { ({ usart_example with
                usart0 := { usart_example.usart0 with
                  output_buffer := usart_message_with_empty_byte } } : usart_world) with
             tx_line :=
               ({ usart_example with
                  usart0 := { usart_example.usart0 with
                    output_buffer := usart_message_with_empty_byte } } : usart_world).tx_line ++
                 usart_message_with_empty_byte.take 1
             usart0 :=
               { ({ usart_example with
                    usart0 := { usart_example.usart0 with
                      output_buffer := usart_message_with_empty_byte } } :
                   usart_world).usart0 with o_idx := 1 } } :=
  (usart_empty_byte_stalls usart_message_with_empty_byte 1
    { usart_example with
      usart0 := { usart_example.usart0 with output_buffer := usart_message_with_empty_byte } }
    (by decide) (by decide) (by decide)
    (fun i hi => ⟨65, by rw [Nat.lt_one_iff.mp hi]; rfl, by decide, by decide⟩)
    rfl rfl rfl).1

end Sivalse
